import Mathlib

/-!
# Raw YCbCr / YCbCrA stream reader and writer (coders/ycbcr.c)

A shallow embedding of `ReadYCBCRImage` and `WriteYCBCRImage`.  The two
functions are translated from `coders/ycbcr.c`.  The MagickCore services
they call (blob I/O, quantum import/export, image list bookkeeping,
progress reporting) live outside the coder sources; they are modelled here
from the behaviour the design document gives them and every such definition
says so in its doc comment.

The reader keeps the flag `image->matte` per image: the coder sets it on the
first image of a YCbCrA list only, and the images that `AcquireNextImage`
appends are read without alpha channel (`imageMatte`).  A second reader, the
uniform reader (`FlatScenes`, `flatDecode`), reads every image the way the
first one is read.  It is not part of the coder; it serves the proofs about
streams of complete frames, and `decode_no_alpha`, `decode_one` and
`decode_outline` say where the two readers agree.

Two smaller models follow the YCbCr coder: the row loops of `ReadPGXImage`
and `WritePGXImage` (`coders/pgx.c`) and the chunk walk of
`IsWEBPImageLossless` (`coders/webp.c`).

Conventions
* a byte stream is a `List Nat`;
* a pixel row is a `List PixelPacket`, an image is a list of rows;
* `size_t` / `ssize_t` quantities are `Nat` / `Int`; none of the arithmetic
  of the YCbCr coder can wrap for streams that fit in memory; where a C
  expression relies on a fixed width (the pad length of the PGX writer, the
  chunk arithmetic of the WebP walk) the wrap is written out with `% 2 ^ w`.
-/

namespace YCbCr

/-! ## Data model -/

/-- The `InterlaceType` values the coder distinguishes. -/
inductive InterlaceType where
  | NoInterlace
  | LineInterlace
  | PlaneInterlace
  | PartitionInterlace
  deriving DecidableEq, Repr

/-- Byte order of 16-bit samples. -/
inductive EndianType where
  | LSBEndian
  | MSBEndian
  deriving DecidableEq, Repr

/-- The `QuantumType` values used by the coder. -/
inductive QuantumType where
  | RedQuantum
  | GreenQuantum
  | BlueQuantum
  | AlphaQuantum
  | OpacityQuantum
  | RGBQuantum
  | RGBAQuantum
  deriving DecidableEq, Repr

/-- One pixel: the three colour samples (Y, Cb, Cr are stored in red, green,
blue) and the opacity sample. -/
structure PixelPacket where
  red : Nat
  green : Nat
  blue : Nat
  opacity : Nat
  deriving DecidableEq, Repr

/-- The `RectangleInfo` of `image->extract_info`. -/
structure RectangleInfo where
  width : Nat
  height : Nat
  x : Int
  y : Int
  deriving DecidableEq, Repr

/-- Exceptions the coder can record. -/
inductive ExceptionType where
  | MustSpecifyImageSize
  | UnexpectedEndOfFile
  | UnableToOpenBlob
  deriving DecidableEq, Repr

/-- The physical streams of one call: the stream named by
`image_info->filename` and the four files `AppendImageFormat` derives from it
in the partition layout. -/
inductive BlobName where
  | main
  | Y
  | Cb
  | Cr
  | A
  deriving DecidableEq, Repr

/-- The format string handed to `AppendImageFormat` for each partition file. -/
def BlobName.suffix : BlobName → String
  | .main => ""
  | .Y => "Y"
  | .Cb => "Cb"
  | .Cr => "Cr"
  | .A => "A"

/-- The fields of `ImageInfo` and of the freshly acquired `Image` that the
coder reads.  `columns`, `rows`, `extract_info` and `offset` are the values
`AcquireImage` leaves in the image; `matte` is
`LocaleCompare(image_info->magick,"YCbCrA") == 0`. -/
structure ImageInfo where
  interlace : InterlaceType
  matte : Bool
  depth : Nat
  endian : EndianType
  scene : Nat
  number_scenes : Nat
  ping : Bool
  adjoin : Bool
  columns : Nat
  rows : Nat
  extract_info : RectangleInfo
  offset : Nat
  progress : Nat → Nat → Bool

/-! ## Quantum transfer (MagickCore, modelled) -/

/-- Modelled from the spec: the sample codec of `quantum-import.c` and
`quantum-export.c` is not part of the coder sources.  A sample occupies one
byte for depths up to 8 and two bytes otherwise (only 8 and 16 bit samples are
in the data model). -/
def sampleBytes (depth : Nat) : Nat :=
  if depth ≤ 8 then 1 else 2

/-- Modelled from the spec: `QuantumRange`, the largest sample value.  Samples
pass through unchanged, so the range is that of the sample width. -/
def QuantumRange (depth : Nat) : Nat :=
  if depth ≤ 8 then 255 else 65535

/-- Modelled from the spec: the bytes one sample is written as
(`PopCharPixel` / `PopShortPixel` are missing from the sources). -/
def exportSample (endian : EndianType) (depth : Nat) (v : Nat) : List Nat :=
  if depth ≤ 8 then [v % 256]
  else
    match endian with
    | .MSBEndian => [v / 256 % 256, v % 256]
    | .LSBEndian => [v % 256, v / 256 % 256]

/-- Modelled from the spec: the sample read from the head of a byte run
(`PushCharPixel` / `PushShortPixel` are missing from the sources). -/
def importSample (endian : EndianType) (depth : Nat) (b : List Nat) : Nat :=
  if depth ≤ 8 then b.getD 0 0
  else
    match endian with
    | .MSBEndian => b.getD 0 0 * 256 + b.getD 1 0
    | .LSBEndian => b.getD 1 0 * 256 + b.getD 0 0

/-- What one sample of a packet means. -/
inductive Component where
  | red
  | green
  | blue
  | alpha
  | opacity
  deriving DecidableEq, Repr

/-- Modelled from the spec: the samples that make up one packet of each
quantum type, in stream order (the tables of `quantum-import.c` are missing
from the sources). -/
def QuantumType.components : QuantumType → List Component
  | .RedQuantum => [.red]
  | .GreenQuantum => [.green]
  | .BlueQuantum => [.blue]
  | .AlphaQuantum => [.alpha]
  | .OpacityQuantum => [.opacity]
  | .RGBQuantum => [.red, .green, .blue]
  | .RGBAQuantum => [.red, .green, .blue, .alpha]

/-- Modelled from the spec: `SetPixelRed` .. `SetPixelOpacity` and
`SetPixelAlpha` of `pixel-accessor.h` (missing from the sources); alpha is the
complement of opacity. -/
def storeComponent (depth : Nat) (c : Component) (v : Nat) (q : PixelPacket) : PixelPacket :=
  match c with
  | .red => { q with red := v }
  | .green => { q with green := v }
  | .blue => { q with blue := v }
  | .alpha => { q with opacity := QuantumRange depth - v }
  | .opacity => { q with opacity := v }

/-- Modelled from the spec: `GetPixelRed` .. `GetPixelOpacity` and
`GetPixelAlpha` of `pixel-accessor.h` (missing from the sources). -/
def loadComponent (depth : Nat) (c : Component) (p : PixelPacket) : Nat :=
  match c with
  | .red => p.red
  | .green => p.green
  | .blue => p.blue
  | .alpha => QuantumRange depth - p.opacity
  | .opacity => p.opacity

/-- Modelled from the spec: `GetQuantumExtent` (missing from the sources):
bytes of one row of `columns` packets. -/
def GetQuantumExtent (info : ImageInfo) (columns : Nat) (qt : QuantumType) : Nat :=
  qt.components.length * columns * sampleBytes info.depth

/-- Import of the samples of one packet into one pixel. -/
def importComponents (info : ImageInfo) : List Component → List Nat → PixelPacket → PixelPacket
  | [], _, q => q
  | c :: cs, b, q =>
    importComponents info cs (b.drop (sampleBytes info.depth))
      (storeComponent info.depth c (importSample info.endian info.depth b) q)

/-- Import of a row of packets into a row of pixels. -/
def importRow (info : ImageInfo) (comps : List Component) : List PixelPacket → List Nat → List PixelPacket
  | [], _ => []
  | q :: qs, b =>
    importComponents info comps b q ::
      importRow info comps qs (b.drop (comps.length * sampleBytes info.depth))

/-- Modelled from the spec: `ImportQuantumPixels` (missing from the sources)
on the one-row canvas: every canvas pixel receives the samples of its packet;
the components the packet does not carry keep their value. -/
def ImportQuantumPixels (info : ImageInfo) (qt : QuantumType) (canvas : List PixelPacket)
    (stream : List Nat) : List PixelPacket :=
  importRow info qt.components canvas stream

/-- The bytes of one packet. -/
def exportPixel (info : ImageInfo) (comps : List Component) (p : PixelPacket) : List Nat :=
  comps.flatMap (fun c => exportSample info.endian info.depth (loadComponent info.depth c p))

/-- Modelled from the spec: `ExportQuantumPixels` (missing from the sources)
on the row most recently fetched with `GetVirtualPixels`. -/
def ExportQuantumPixels (info : ImageInfo) (qt : QuantumType) (row : List PixelPacket) : List Nat :=
  row.flatMap (exportPixel info qt.components)

/-! ## Pixel rows and the virtual canvas -/

/-- Modelled from the spec: the content of a pixel nobody has written yet (a
frame is created lazily and filled row by row; the pixel cache is missing from
the sources). -/
def blankPixel : PixelPacket := ⟨0, 0, 0, 0⟩

/-- Modelled from the spec: the pixel `BlackVirtualPixelMethod` yields outside
the canvas (the pixel cache is missing from the sources). -/
def blackPixel : PixelPacket := ⟨0, 0, 0, 0⟩

/-- A fresh image of the given size. -/
def blankImage (columns rows : Nat) : List (List PixelPacket) :=
  List.replicate rows (List.replicate columns blankPixel)

/-- The canvas pixel at a column of the virtual canvas. -/
def virtualPixel (canvas : List PixelPacket) (j : Int) : PixelPacket :=
  if 0 ≤ j ∧ j < canvas.length then canvas.getD j.toNat blackPixel else blackPixel

/-- Modelled from the spec: `GetVirtualPixels(canvas_image,x,0,columns,1)`
(the pixel cache is missing from the sources): `columns` pixels of the canvas
row starting at column `x`. -/
def GetVirtualPixels (canvas : List PixelPacket) (x : Int) (columns : Nat) : List PixelPacket :=
  (List.range columns).map (fun (i : Nat) => virtualPixel canvas (x + (i : Int)))

/-- The assignments `SetPixelRed(q,GetPixelRed(p))` .. of the copy loops, for
the listed components. -/
def copyComponents (depth : Nat) (chans : List Component) (p q : PixelPacket) : PixelPacket :=
  chans.foldl (fun acc c => storeComponent depth c (loadComponent depth c p) acc) q

/-- The loop `for (x=0; x < image->columns; x++) { ...; p++; q++; }`: `q` runs
over the destination row (`image->columns` pixels), `p` over the
`canvas_image->columns` pixels `GetVirtualPixels` fetched.  When the requested
frame is wider than the canvas the C loop reads past the fetched pixels, which
C leaves undefined; the equation for an exhausted `p` (black) is a
placeholder for that read, and no statement about the reader is made for such
a request unless it holds whatever is read there. -/
def copyPixels (depth : Nat) (chans : List Component) : List PixelPacket → List PixelPacket → List PixelPacket
  | _, [] => []
  | [], q :: qs => copyComponents depth chans blackPixel q :: copyPixels depth chans [] qs
  | p :: ps, q :: qs => copyComponents depth chans p q :: copyPixels depth chans ps qs

/-- Row `r` of the image replaced by `f` of it (`GetAuthenticPixels` /
`QueueAuthenticPixels` followed by `SyncAuthenticPixels`). -/
def modifyRow (f : List PixelPacket → List PixelPacket) : Nat → List (List PixelPacket) → List (List PixelPacket)
  | _, [] => []
  | 0, r :: rs => f r :: rs
  | n + 1, r :: rs => r :: modifyRow f n rs

/-! ## The reader -/

/-- The local variables of `ReadYCBCRImage` together with the state of the
blob, of the one-row canvas and of the image being filled. -/
structure ReadState where
  blob : Option (List Nat)
  blobSize : Nat
  stream : List Nat
  count : Nat
  length : Nat
  status : Bool
  canvas : List PixelPacket
  pixels : List (List PixelPacket)
  exception : List ExceptionType
  opens : List BlobName
  nread : Nat
  deriving DecidableEq, Repr

/-- Modelled from the spec: `ReadBlobStream(image,length,pixels,&count)` (blob.c
is missing from the sources): read exactly `length` bytes, return the actual
count.  A blob that is not open yields nothing. -/
def ReadBlobStream (s : ReadState) : ReadState :=
  match s.blob with
  | none => { s with stream := [], count := 0 }
  | some data =>
    { s with
      stream := data.take s.length
      count := min s.length data.length
      blob := some (data.drop s.length)
      nread := s.nread + min s.length data.length }

/-- The call `(void) ReadBlobStream(...)` of the partition skip loops, which
leaves the variable `stream` alone. -/
def DiscardBlobStream (s : ReadState) : ReadState :=
  { ReadBlobStream s with stream := s.stream }

/-- Modelled from the spec: `OpenBlob` in read mode (blob.c is missing from the
sources); the result is assigned to `status`. -/
def OpenBlob (files : BlobName → Option (List Nat)) (name : BlobName) (s : ReadState) : ReadState :=
  match files name with
  | none =>
    { s with
      status := false
      blob := none
      exception := s.exception ++ [ExceptionType.UnableToOpenBlob]
      opens := s.opens ++ [name] }
  | some data =>
    { s with status := true, blob := some data, blobSize := data.length, opens := s.opens ++ [name] }

/-- Modelled from the spec: `CloseBlob` (blob.c is missing from the sources). -/
def CloseBlob (s : ReadState) : ReadState :=
  { s with blob := none }

/-- Modelled from the spec: `DiscardBlobBytes(image,length)` (blob.c is missing
from the sources): the state after skipping, and whether all bytes were there. -/
def DiscardBlobBytes (n : Nat) (s : ReadState) : ReadState × Bool :=
  match s.blob with
  | none => (s, decide (n = 0))
  | some data =>
    ({ s with blob := some (data.drop n), nread := s.nread + min n data.length },
      decide (n ≤ data.length))

/-- The statement `ThrowFileException(exception,CorruptImageError,
"UnexpectedEndOfFile",image->filename)`. -/
def ThrowEOF (s : ReadState) : ReadState :=
  { s with exception := s.exception ++ [ExceptionType.UnexpectedEndOfFile] }

/-- The value of `quantum_type` after the test of `image_info->magick`. -/
def ImageInfo.quantum_type (info : ImageInfo) : QuantumType :=
  if info.matte then QuantumType.RGBAQuantum else QuantumType.RGBQuantum

/-- The test `((y-image->extract_info.y) >= 0) &&
((y-image->extract_info.y) < (ssize_t) image->rows)`. -/
def inWindow (info : ImageInfo) (y : Nat) : Bool :=
  decide (0 ≤ (y : Int) - info.extract_info.y ∧ (y : Int) - info.extract_info.y < (info.rows : Int))

/-- The body shared by all row loops between the truncation test and the next
read: import the chunk into the canvas (`length` receives the extent) and, if
canvas row `y` is inside the window, copy the components `chans` of the
canvas pixels from column `extract_info.x` on into row `y - extract_info.y`. -/
def ImportRow (info : ImageInfo) (qt : QuantumType) (chans : List Component) (y : Nat)
    (s : ReadState) : ReadState :=
  let canvas := ImportQuantumPixels info qt s.canvas s.stream
  let s1 := { s with canvas := canvas, length := GetQuantumExtent info info.extract_info.width qt }
  if inWindow info y then
    { s1 with
      pixels :=
        modifyRow
          (copyPixels info.depth chans
            (GetVirtualPixels canvas info.extract_info.x info.extract_info.width))
          ((y : Int) - info.extract_info.y).toNat s1.pixels }
  else s1

/-- A row loop `for (y=0; y < extract_info.height; y++)` with `n` rows to go.
`monitor` says whether the loop body reports progress (only the loop of the
non-interlaced layout does, and only for the first image of the list). -/
def ReadRows (info : ImageInfo) (qt : QuantumType) (chans : List Component) (monitor : Bool) :
    Nat → Nat → ReadState → ReadState
  | 0, _, s => s
  | n + 1, y, s =>
    if s.count ≠ s.length then ThrowEOF { s with status := false }
    else
      let s1 := ImportRow info qt chans y s
      if monitor then
        if info.progress y info.rows then
          ReadRows info qt chans monitor n (y + 1) (ReadBlobStream { s1 with status := true })
        else { s1 with status := false }
      else ReadRows info qt chans monitor n (y + 1) (ReadBlobStream s1)

/-- Modelled from the spec: `image->matte` of the image being filled
(`AcquireNextImage` and `AcquireImage` are in image.c, which is missing from
the sources).  `ReadYCBCRImage` sets the flag once, on the first image, when
the format is YCbCrA; the images `AcquireNextImage` appends start without an
alpha channel and the scene loop never sets it on them.  `first` is
`image->previous == NULL`. -/
def imageMatte (info : ImageInfo) (first : Bool) : Bool :=
  info.matte && first

/-- The components the copy loop of the non-interlaced layout assigns when the
flag `image->matte` has the value `matte`. -/
def packetChannels (matte : Bool) : List Component :=
  if matte then [.red, .green, .blue, .opacity] else [.red, .green, .blue]

/-- The components of `packetChannels` for the flag the format asks for. -/
def ImageInfo.packetChannels (info : ImageInfo) : List Component :=
  if info.matte then [.red, .green, .blue, .opacity] else [.red, .green, .blue]

/-- The case `NoInterlace` of the reader.  Every chunk has the length of
`quantum_type`, which is fixed before the scene loop; the copy loop assigns
the opacity only if `image->matte` is set. -/
def ReadNoInterlace (info : ImageInfo) (first : Bool) (scene : Nat) (s : ReadState) : ReadState :=
  let s0 :=
    if scene = 0 then
      ReadBlobStream { s with length := GetQuantumExtent info info.extract_info.width info.quantum_type }
    else s
  if scene = 0 ∧ s0.count ≠ s0.length then s0
  else
    ReadRows info info.quantum_type (packetChannels (imageMatte info first)) first
      info.extract_info.height 0 s0

/-- The table `quantum_types` of the line-interlaced case. -/
def quantum_types : List QuantumType :=
  [.RedQuantum, .GreenQuantum, .BlueQuantum, .OpacityQuantum]

/-- The component the inner `switch (quantum_type)` of the line-interlaced
copy loop assigns. -/
def lineChannel : QuantumType → List Component
  | .RedQuantum => [.red]
  | .GreenQuantum => [.green]
  | .BlueQuantum => [.blue]
  | .OpacityQuantum => [.opacity]
  | _ => []

/-- The inner loop `for (i=0; i < (matte ? 4 : 3); i++)` of the line-interlaced
case over the remaining entries of `quantum_types`. -/
def ReadLineChannels (info : ImageInfo) (y : Nat) : List QuantumType → ReadState → ReadState
  | [], s => s
  | qt :: qts, s =>
    if s.count ≠ s.length then ThrowEOF { s with status := false }
    else ReadLineChannels info y qts (ReadBlobStream (ImportRow info qt (lineChannel qt) y s))

/-- The entries of `quantum_types` the inner loop
`for (i=0; i < (image->matte != MagickFalse ? 4 : 3); i++)` visits when the
flag `image->matte` has the value `matte`. -/
def lineTypes (matte : Bool) : List QuantumType :=
  quantum_types.take (if matte then 4 else 3)

/-- The entries of `lineTypes` for the flag the format asks for. -/
def ImageInfo.lineTypes (info : ImageInfo) : List QuantumType :=
  quantum_types.take (if info.matte then 4 else 3)

/-- The outer row loop of the line-interlaced case. -/
def ReadLineRows (info : ImageInfo) (first : Bool) : Nat → Nat → ReadState → ReadState
  | 0, _, s => s
  | n + 1, y, s =>
    let s1 := ReadLineChannels info y (lineTypes (imageMatte info first)) s
    if first then
      if info.progress y info.rows then ReadLineRows info first n (y + 1) { s1 with status := true }
      else { s1 with status := false }
    else ReadLineRows info first n (y + 1) s1

/-- The case `LineInterlace` of the reader. -/
def ReadLineInterlace (info : ImageInfo) (first : Bool) (scene : Nat) (s : ReadState) : ReadState :=
  let s0 :=
    if scene = 0 then
      ReadBlobStream
        { s with length := GetQuantumExtent info info.extract_info.width QuantumType.RedQuantum }
    else s
  ReadLineRows info first info.extract_info.height 0 s0

/-- The statement `if (image->previous == NULL) { status=SetImageProgress(image,
LoadImageTag,k,5); if (status == MagickFalse) break; }`: the new state and
whether the case was left. -/
def PlaneProgress (info : ImageInfo) (first : Bool) (k : Nat) (s : ReadState) : ReadState × Bool :=
  if first then
    if info.progress k 5 then ({ s with status := true }, false) else ({ s with status := false }, true)
  else (s, false)

/-- The case `PlaneInterlace` of the reader.  The alpha plane is read only if
`image->matte` is set. -/
def ReadPlaneInterlace (info : ImageInfo) (first : Bool) (scene : Nat) (s : ReadState) : ReadState :=
  let h := info.extract_info.height
  let s0 :=
    if scene = 0 then
      ReadBlobStream
        { s with length := GetQuantumExtent info info.extract_info.width QuantumType.RedQuantum }
    else s
  let r1 := PlaneProgress info first 1 (ReadRows info .RedQuantum [.red] false h 0 s0)
  if r1.2 then r1.1
  else
    let r2 := PlaneProgress info first 2 (ReadRows info .GreenQuantum [.green] false h 0 r1.1)
    if r2.2 then r2.1
    else
      let r3 := PlaneProgress info first 3 (ReadRows info .BlueQuantum [.blue] false h 0 r2.1)
      if r3.2 then r3.1
      else
        let r4 :=
          if imageMatte info first then
            PlaneProgress info first 4 (ReadRows info .AlphaQuantum [.opacity] false h 0 r3.1)
          else (r3.1, false)
        if r4.2 then r4.1 else (PlaneProgress info first 5 r4.1).1

/-- The inner loop of a partition skip: read and drop up to `n` rows. -/
def SkipRows (read : ReadState → ReadState) : Nat → ReadState → ReadState
  | 0, s => s
  | n + 1, s =>
    let s1 := read s
    if s1.count ≠ s1.length then s1 else SkipRows read n s1

/-- The loop `for (i=0; i < scene; i++)` of the partition case, which drops the
rows of the scenes before the current one from a channel file. -/
def SkipScenes (height : Nat) : Nat → ReadState → ReadState
  | 0, s => s
  | i + 1, s =>
    let s1 := SkipRows DiscardBlobStream height s
    if s1.count ≠ s1.length then s1 else SkipScenes height i s1

/-- One channel file of the partition case, from `AppendImageFormat` to the
progress report: open the file (only the Y file is preceded by
`DiscardBlobBytes`), drop the earlier scenes, read the plane importing it as
`qt` and copying the components `chans`. -/
def ReadPartitionFile (info : ImageInfo) (files : BlobName → Option (List Nat)) (first : Bool)
    (scene : Nat) (name : BlobName) (discard : Bool) (qt extentType : QuantumType)
    (chans : List Component) (k : Nat) (s : ReadState) : ReadState × Bool :=
  let s1 := OpenBlob files name s
  if s1.status = false then (s1, true)
  else
    let d := if discard then DiscardBlobBytes info.offset s1 else (s1, true)
    if d.2 = false then (ThrowEOF { d.1 with status := false }, true)
    else
      let s2 := { d.1 with length := GetQuantumExtent info info.extract_info.width extentType }
      let s3 := ReadBlobStream (SkipScenes info.extract_info.height scene s2)
      PlaneProgress info first k (ReadRows info qt chans false info.extract_info.height 0 s3)

/-- The case `PartitionInterlace` of the reader.  The alpha file is opened
only if `image->matte` is set; it is imported as `BlueQuantum` and its copy
loop assigns the opacity. -/
def ReadPartitionInterlace (info : ImageInfo) (files : BlobName → Option (List Nat)) (first : Bool)
    (scene : Nat) (s : ReadState) : ReadState :=
  let r1 := ReadPartitionFile info files first scene .Y true .RedQuantum .RedQuantum [.red] 1 s
  if r1.2 then r1.1
  else
    let r2 :=
      ReadPartitionFile info files first scene .Cb false .GreenQuantum .GreenQuantum [.green] 2
        (CloseBlob r1.1)
    if r2.2 then r2.1
    else
      let r3 :=
        ReadPartitionFile info files first scene .Cr false .BlueQuantum .BlueQuantum [.blue] 3
          (CloseBlob r2.1)
      if r3.2 then r3.1
      else
        let r4 :=
          if imageMatte info first then
            ReadPartitionFile info files first scene .A false .BlueQuantum .AlphaQuantum
              [.opacity] 4 (CloseBlob r3.1)
          else (r3.1, false)
        if r4.2 then r4.1 else (PlaneProgress info first 5 r4.1).1

/-- The `switch (image_info->interlace)` of the reader. -/
def ReadFrame (info : ImageInfo) (files : BlobName → Option (List Nat)) (first : Bool)
    (scene : Nat) (s : ReadState) : ReadState :=
  match info.interlace with
  | .NoInterlace => ReadNoInterlace info first scene s
  | .LineInterlace => ReadLineInterlace info first scene s
  | .PlaneInterlace => ReadPlaneInterlace info first scene s
  | .PartitionInterlace => ReadPartitionInterlace info files first scene s

/-- What `ReadYCBCRImage` hands back: the image list (empty for `NULL`), the
exceptions recorded, the `OpenBlob` calls made and the number of bytes taken
from the byte sources. -/
structure ReadResult where
  images : List (List (List PixelPacket))
  exception : List ExceptionType
  opens : List BlobName
  nread : Nat
  deriving DecidableEq, Repr

/-- The statements after the scene loop: `DestroyImageList` when `status` is
false, `GetFirstImageInList` otherwise.  `previous` holds the images before
the current one. -/
def finishRead (previous : List (List (List PixelPacket))) (s : ReadState) : ReadResult :=
  { images := if s.status then previous ++ [s.pixels] else []
    exception := s.exception
    opens := s.opens
    nread := s.nread }

/-- The test `image->scene >= (image_info->scene+image_info->number_scenes-1)`
under `image_info->number_scenes != 0`. -/
def lastScene (info : ImageInfo) (image_scene : Nat) : Bool :=
  decide (info.number_scenes ≠ 0 ∧ image_scene ≥ info.scene + info.number_scenes - 1)

/-- Modelled from the spec: `TellBlob` (blob.c is missing from the sources). -/
def TellBlob (s : ReadState) : Nat :=
  match s.blob with
  | none => 0
  | some data => s.blobSize - data.length

/-- The scene loop `do { ... } while (count == (ssize_t) length)`.  `previous`
are the images already completed, `image_scene` is `image->scene`, `scene` the
local counter.  The image being filled is the first of the list exactly when
`previous` is empty, which decides both the progress reports and
`image->matte`.  The loop has no bound of its own, so the model counts its
iterations down from `fuel` and answers `none` when they run out. -/
def ReadScenes (info : ImageInfo) (files : BlobName → Option (List Nat)) :
    Nat → List (List (List PixelPacket)) → Nat → Nat → ReadState → Option ReadResult
  | 0, _, _, _, _ => none
  | fuel + 1, previous, image_scene, scene, s =>
    if info.ping ∧ lastScene info image_scene then some (finishRead previous s)
    else
      let s1 := ReadFrame info files previous.isEmpty scene s
      if s1.status = false then some (finishRead previous s1)
      else if lastScene info image_scene then some (finishRead previous s1)
      else if s1.count = s1.length then
        let s2 :=
          { s1 with
            pixels := blankImage info.columns info.rows
            status := info.progress (TellBlob s1) s1.blobSize }
        if s2.status = false then some (finishRead (previous ++ [s1.pixels]) s2)
        else ReadScenes info files fuel (previous ++ [s1.pixels]) (image_scene + 1) (scene + 1) s2
      else some (finishRead previous s1)

/-- The loop `while (image->scene < image_info->scene)` that skips to the first
requested scene, with `k` scenes to go: per scene, `image->rows` reads of one
interleaved row each. -/
def SkipToScene (info : ImageInfo) : Nat → ReadState → ReadState
  | 0, s => s
  | k + 1, s =>
    SkipToScene info k
      (SkipRows ReadBlobStream info.rows
        { s with length := GetQuantumExtent info info.extract_info.width info.quantum_type })

/-- Size of a stream of the store (0 when it does not exist). -/
def blobLength (files : BlobName → Option (List Nat)) (name : BlobName) : Nat :=
  match files name with
  | none => 0
  | some data => data.length

/-- Iterations granted to the scene loop: one more than the number of bytes in
all streams (every further scene needs at least one more byte whenever a row
chunk is not empty). -/
def sceneFuel (files : BlobName → Option (List Nat)) : Nat :=
  blobLength files .main + blobLength files .Y + blobLength files .Cb + blobLength files .Cr +
    blobLength files .A + 1

/-- The part of `ReadYCBCRImage` from the creation of the virtual canvas on. -/
def ReadFromCanvas (info : ImageInfo) (files : BlobName → Option (List Nat)) (s : ReadState) :
    Option ReadResult :=
  let s1 := if info.number_scenes ≠ 0 then SkipToScene info info.scene s else s
  let image_scene := if info.number_scenes ≠ 0 then info.scene else 0
  ReadScenes info files (sceneFuel files) [] image_scene 0
    { s1 with count := 0, length := 0, status := true, stream := [] }

/-- The state before the blob is opened: a fresh image of the requested size
and a one-row canvas of the stored width. -/
def initialState (info : ImageInfo) : ReadState :=
  { blob := none
    blobSize := 0
    stream := []
    count := 0
    length := 0
    status := true
    canvas := List.replicate info.extract_info.width blankPixel
    pixels := blankImage info.columns info.rows
    exception := []
    opens := []
    nread := 0 }

/-- The function `ReadYCBCRImage`. -/
def ReadYCBCRImage (info : ImageInfo) (files : BlobName → Option (List Nat)) : Option ReadResult :=
  if info.columns = 0 ∨ info.rows = 0 then
    some { images := [], exception := [ExceptionType.MustSpecifyImageSize], opens := [], nread := 0 }
  else if info.interlace ≠ InterlaceType.PartitionInterlace then
    let s1 := OpenBlob files .main (initialState info)
    if s1.status = false then
      some { images := [], exception := s1.exception, opens := s1.opens, nread := s1.nread }
    else
      let d := DiscardBlobBytes info.offset s1
      ReadFromCanvas info files (if d.2 then d.1 else ThrowEOF d.1)
  else ReadFromCanvas info files (initialState info)

/-! ## The writer -/

/-- Modelled from the spec: the byte sink (blob.c is missing from the sources):
the content of every stream before the call, whether a stream can be opened
for writing, and how many more bytes the sink accepts (`none`: any number). -/
structure Sink where
  files : BlobName → List Nat
  writable : BlobName → Bool
  room : Option Nat

/-- The local variables of `WriteYCBCRImage` together with the state of the
sink.  `opens` lists the `OpenBlob` calls with their mode (`true` for
`AppendBinaryBlobMode`). -/
structure WriteState where
  files : BlobName → List Nat
  writable : BlobName → Bool
  room : Option Nat
  blob : Option BlobName
  count : Nat
  length : Nat
  status : Bool
  opens : List (BlobName × Bool)
  writes : Nat

/-- Modelled from the spec: `OpenBlob` in `WriteBinaryBlobMode` (which
truncates) or `AppendBinaryBlobMode` (blob.c is missing from the sources); the
result is assigned to `status`. -/
def OpenBlobWrite (name : BlobName) (append : Bool) (s : WriteState) : WriteState :=
  if s.writable name then
    { s with
      status := true
      blob := some name
      files := if append then s.files else Function.update s.files name []
      opens := s.opens ++ [(name, append)] }
  else { s with status := false, blob := none, opens := s.opens ++ [(name, append)] }

/-- Modelled from the spec: `CloseBlob` on the sink (blob.c is missing from the
sources). -/
def CloseBlobWrite (s : WriteState) : WriteState :=
  { s with blob := none }

/-- The pair `length=ExportQuantumPixels(...); count=WriteBlob(image,length,
pixels);`.  Modelled from the spec: `WriteBlob` (blob.c is missing from the
sources) appends what the sink accepts and returns that number. -/
def WriteBlob (data : List Nat) (s : WriteState) : WriteState :=
  match s.blob with
  | none => { s with length := data.length, count := 0, writes := s.writes + 1 }
  | some name =>
    match s.room with
    | none =>
      { s with
        files := Function.update s.files name (s.files name ++ data)
        length := data.length
        count := data.length
        writes := s.writes + 1 }
    | some r =>
      { s with
        files := Function.update s.files name (s.files name ++ data.take r)
        room := some (r - data.length)
        length := data.length
        count := min r data.length
        writes := s.writes + 1 }

/-- A row loop of the writer that exports one quantum type per row, over the
rows still to be written; `y` is the index of the first of them.  `monitor`
says whether the body reports progress (non-interlaced layout, first image). -/
def WriteRows (info : ImageInfo) (qt : QuantumType) (monitor : Bool) (rows : Nat) :
    List (List PixelPacket) → Nat → WriteState → WriteState
  | [], _, s => s
  | p :: ps, y, s =>
    let s1 := WriteBlob (ExportQuantumPixels info qt p) s
    if s1.count ≠ s1.length then s1
    else if monitor then
      if info.progress y rows then WriteRows info qt monitor rows ps (y + 1) { s1 with status := true }
      else { s1 with status := false }
    else WriteRows info qt monitor rows ps (y + 1) s1

/-- The writes of one row in the line-interlaced case, one per entry of the
list; the flag tells whether a short write left the row loop. -/
def WriteLineChannels (info : ImageInfo) (p : List PixelPacket) :
    List QuantumType → WriteState → WriteState × Bool
  | [], s => (s, false)
  | qt :: qts, s =>
    let s1 := WriteBlob (ExportQuantumPixels info qt p) s
    if s1.count ≠ s1.length then (s1, true) else WriteLineChannels info p qts s1

/-- The quantum types the line-interlaced writer exports per row. -/
def lineExports (info : ImageInfo) : List QuantumType :=
  if info.quantum_type = QuantumType.RGBAQuantum then
    [.RedQuantum, .GreenQuantum, .BlueQuantum, .AlphaQuantum]
  else [.RedQuantum, .GreenQuantum, .BlueQuantum]

/-- The row loop of the line-interlaced writer. -/
def WriteLineRows (info : ImageInfo) (first : Bool) (rows : Nat) :
    List (List PixelPacket) → Nat → WriteState → WriteState
  | [], _, s => s
  | p :: ps, y, s =>
    let r := WriteLineChannels info p (lineExports info) s
    if r.2 then r.1
    else if first then
      if info.progress y rows then WriteLineRows info first rows ps (y + 1) { r.1 with status := true }
      else { r.1 with status := false }
    else WriteLineRows info first rows ps (y + 1) r.1

/-- The statement `if (image->previous == NULL) { status=SetImageProgress(image,
SaveImageTag,k,5); if (status == MagickFalse) break; }` of the writer. -/
def WriteProgress (info : ImageInfo) (first : Bool) (k : Nat) (s : WriteState) : WriteState × Bool :=
  if first then
    if info.progress k 5 then ({ s with status := true }, false) else ({ s with status := false }, true)
  else (s, false)

/-- The case `PlaneInterlace` of the writer. -/
def WritePlaneInterlace (info : ImageInfo) (first : Bool) (image : List (List PixelPacket))
    (s : WriteState) : WriteState :=
  let r1 := WriteProgress info first 1 (WriteRows info .RedQuantum false image.length image 0 s)
  if r1.2 then r1.1
  else
    let r2 := WriteProgress info first 2 (WriteRows info .GreenQuantum false image.length image 0 r1.1)
    if r2.2 then r2.1
    else
      let r3 := WriteProgress info first 3 (WriteRows info .BlueQuantum false image.length image 0 r2.1)
      if r3.2 then r3.1
      else
        let s4 :=
          if info.quantum_type = QuantumType.RGBAQuantum then
            WriteRows info .AlphaQuantum false image.length image 0 r3.1
          else r3.1
        (WriteProgress info first 5 s4).1

/-- One channel file of the partition writer: open it (truncating for the first
scene, appending afterwards) and write the plane.  The flag tells whether
`OpenBlob` failed, in which case the writer returns at once. -/
def WritePartitionFile (info : ImageInfo) (scene : Nat) (name : BlobName) (qt : QuantumType)
    (image : List (List PixelPacket)) (s : WriteState) : WriteState × Bool :=
  let s1 := OpenBlobWrite name (decide (scene ≠ 0)) s
  if s1.status = false then (s1, true)
  else (WriteRows info qt false image.length image 0 s1, false)

/-- The case `PartitionInterlace` of the writer; the flag tells whether the
function returned from inside the case because a file could not be opened. -/
def WritePartitionInterlace (info : ImageInfo) (first : Bool) (scene : Nat)
    (image : List (List PixelPacket)) (s : WriteState) : WriteState × Bool :=
  let f1 := WritePartitionFile info scene .Y .RedQuantum image s
  if f1.2 then f1
  else
    let r1 := WriteProgress info first 1 f1.1
    if r1.2 then (r1.1, false)
    else
      let f2 := WritePartitionFile info scene .Cb .GreenQuantum image (CloseBlobWrite r1.1)
      if f2.2 then f2
      else
        let r2 := WriteProgress info first 2 f2.1
        if r2.2 then (r2.1, false)
        else
          let f3 := WritePartitionFile info scene .Cr .BlueQuantum image (CloseBlobWrite r2.1)
          if f3.2 then f3
          else
            let r3 := WriteProgress info first 3 f3.1
            if r3.2 then (r3.1, false)
            else if info.quantum_type = QuantumType.RGBAQuantum then
              let f4 := WritePartitionFile info scene .A .AlphaQuantum image (CloseBlobWrite r3.1)
              if f4.2 then f4
              else
                let r4 := WriteProgress info first 4 f4.1
                if r4.2 then (r4.1, false)
                else ((WriteProgress info first 5 (CloseBlobWrite r4.1)).1, false)
            else ((WriteProgress info first 5 (CloseBlobWrite r3.1)).1, false)

/-- The `switch (image_info->interlace)` of the writer. -/
def WriteFrame (info : ImageInfo) (first : Bool) (scene : Nat) (image : List (List PixelPacket))
    (s : WriteState) : WriteState × Bool :=
  match info.interlace with
  | .NoInterlace => (WriteRows info info.quantum_type first image.length image 0 s, false)
  | .LineInterlace => (WriteLineRows info first image.length image 0 s, false)
  | .PlaneInterlace => (WritePlaneInterlace info first image s, false)
  | .PartitionInterlace => WritePartitionInterlace info first scene image s

/-- What `WriteYCBCRImage` leaves behind: the streams, the returned status,
the `OpenBlob` calls and the number of `WriteBlob` calls. -/
structure WriteResult where
  files : BlobName → List Nat
  status : Bool
  opens : List (BlobName × Bool)
  writes : Nat

/-- The scene loop `do { ... } while (image_info->adjoin != MagickFalse)` of the
writer over the image list; `total` is `imageListLength`.  The function
returns `MagickTrue` unless `OpenBlob` failed. -/
def WriteScenes (info : ImageInfo) (total : Nat) :
    List (List (List PixelPacket)) → Bool → Nat → WriteState → WriteResult
  | [], _, _, s => { files := s.files, status := true, opens := s.opens, writes := s.writes }
  | image :: rest, first, scene, s =>
    let r := WriteFrame info first scene image s
    if r.2 then { files := r.1.files, status := false, opens := r.1.opens, writes := r.1.writes }
    else
      match rest with
      | [] => { files := r.1.files, status := true, opens := r.1.opens, writes := r.1.writes }
      | _ :: _ =>
        if info.progress scene total = false then
          { files := r.1.files, status := true, opens := r.1.opens, writes := r.1.writes }
        else if info.adjoin then WriteScenes info total rest false (scene + 1) { r.1 with status := true }
        else { files := r.1.files, status := true, opens := r.1.opens, writes := r.1.writes }

/-- The function `WriteYCBCRImage` on the image list `images` (frames already
in the YCbCr colour space, carrying an alpha channel when the format is
YCbCrA). -/
def WriteYCBCRImage (info : ImageInfo) (images : List (List (List PixelPacket))) (sink : Sink) :
    WriteResult :=
  let s0 : WriteState :=
    { files := sink.files
      writable := sink.writable
      room := sink.room
      blob := none
      count := 0
      length := 0
      status := true
      opens := []
      writes := 0 }
  if info.interlace ≠ InterlaceType.PartitionInterlace then
    let s1 := OpenBlobWrite .main false s0
    if s1.status = false then { files := s1.files, status := false, opens := s1.opens, writes := 0 }
    else WriteScenes info images.length images true 0 s1
  else WriteScenes info images.length images true 0 s0

/-! ## The interface of the design document -/

/-- The four layouts of the design document. -/
inductive Layout where
  | Interleaved
  | LineInterlaced
  | PlaneInterlaced
  | Partitioned
  deriving DecidableEq, Repr

/-- The interlace value of a layout. -/
def Layout.interlace : Layout → InterlaceType
  | .Interleaved => .NoInterlace
  | .LineInterlaced => .LineInterlace
  | .PlaneInterlaced => .PlaneInterlace
  | .Partitioned => .PartitionInterlace

/-- The requested sub-rectangle of the canvas. -/
structure CropRect where
  x0 : Int
  y0 : Int
  width : Nat
  height : Nat
  deriving DecidableEq, Repr

/-- The `StreamConfig` of the design document.  `sceneCount = none` is the
unbounded default; `endian` is the configured byte order of 16-bit samples and
`ping` the probe-only mode. -/
structure StreamConfig where
  width : Nat
  height : Nat
  channelCount : Nat
  sampleBits : Nat
  layout : Layout
  cropRect : CropRect
  sceneOffset : Nat
  sceneCount : Option Nat
  endian : EndianType
  ping : Bool
  deriving DecidableEq, Repr

/-- The crop rectangle that covers the canvas. -/
def fullCanvas (width height : Nat) : CropRect :=
  { x0 := 0, y0 := 0, width := width, height := height }

/-- The invariant `cropRect ⊆ [0,width)×[0,height)` of the data model. -/
def StreamConfig.cropInCanvas (cfg : StreamConfig) : Prop :=
  0 ≤ cfg.cropRect.x0 ∧ cfg.cropRect.x0 + cfg.cropRect.width ≤ cfg.width ∧
    0 ≤ cfg.cropRect.y0 ∧ cfg.cropRect.y0 + cfg.cropRect.height ≤ cfg.height

/-- Modelled from the spec: `AcquireImage` (image.c is missing from the
sources) and the option parsing in front of it.  The frame has the size of the
crop rectangle, the canvas (`extract_info`) the stored size; there is no
header to skip, no progress monitor is installed (`SetImageProgress` answers
`MagickTrue`), and image lists are adjoined. -/
def AcquireImage (cfg : StreamConfig) : ImageInfo :=
  { interlace := cfg.layout.interlace
    matte := decide (cfg.channelCount = 4)
    depth := cfg.sampleBits
    endian := cfg.endian
    scene := cfg.sceneOffset
    number_scenes := cfg.sceneCount.getD 0
    ping := cfg.ping
    adjoin := true
    columns := cfg.cropRect.width
    rows := cfg.cropRect.height
    extract_info :=
      { width := cfg.width, height := cfg.height, x := cfg.cropRect.x0, y := cfg.cropRect.y0 }
    offset := 0
    progress := fun _ _ => true }

/-- The entry point `decode(config, source)`. -/
def decode (cfg : StreamConfig) (source : BlobName → Option (List Nat)) : Option ReadResult :=
  ReadYCBCRImage (AcquireImage cfg) source

/-- A sink that starts empty, can open every stream and accepts every byte. -/
def emptySink : Sink :=
  { files := fun _ => [], writable := fun _ => true, room := none }

/-- The entry point `encode(frames, config, sink)` on an empty, unlimited
sink. -/
def encode (cfg : StreamConfig) (frames : List (List (List PixelPacket))) : WriteResult :=
  WriteYCBCRImage (AcquireImage cfg) frames emptySink

/-- The streams an encoder left behind, offered as a byte source. -/
def asSource (files : BlobName → List Nat) : BlobName → Option (List Nat) :=
  fun name => some (files name)

/-! ## The uniform reader

A second reader, used by the proofs only: it differs from `ReadYCBCRImage` in
one point, the flag `image->matte`, for which it takes the flag of the format
on every image of the list.  The two readers agree on a format without alpha
channel and on the first image of a list (`ReadFrame_flat`,
`ReadScenes_no_matte`, `ReadScenes_one`). -/

/-- The case `NoInterlace` with the flag of the format in place of
`image->matte`. -/
def FlatNoInterlace (info : ImageInfo) (first : Bool) (scene : Nat) (s : ReadState) : ReadState :=
  let s0 :=
    if scene = 0 then
      ReadBlobStream { s with length := GetQuantumExtent info info.extract_info.width info.quantum_type }
    else s
  if scene = 0 ∧ s0.count ≠ s0.length then s0
  else ReadRows info info.quantum_type info.packetChannels first info.extract_info.height 0 s0

/-- The outer row loop of the line-interlaced case with the flag of the format
in place of `image->matte`. -/
def FlatLineRows (info : ImageInfo) (first : Bool) : Nat → Nat → ReadState → ReadState
  | 0, _, s => s
  | n + 1, y, s =>
    let s1 := ReadLineChannels info y info.lineTypes s
    if first then
      if info.progress y info.rows then FlatLineRows info first n (y + 1) { s1 with status := true }
      else { s1 with status := false }
    else FlatLineRows info first n (y + 1) s1

/-- The case `LineInterlace` with the flag of the format in place of
`image->matte`. -/
def FlatLineInterlace (info : ImageInfo) (first : Bool) (scene : Nat) (s : ReadState) : ReadState :=
  let s0 :=
    if scene = 0 then
      ReadBlobStream
        { s with length := GetQuantumExtent info info.extract_info.width QuantumType.RedQuantum }
    else s
  FlatLineRows info first info.extract_info.height 0 s0

/-- The case `PlaneInterlace` with the flag of the format in place of
`image->matte`. -/
def FlatPlaneInterlace (info : ImageInfo) (first : Bool) (scene : Nat) (s : ReadState) : ReadState :=
  let h := info.extract_info.height
  let s0 :=
    if scene = 0 then
      ReadBlobStream
        { s with length := GetQuantumExtent info info.extract_info.width QuantumType.RedQuantum }
    else s
  let r1 := PlaneProgress info first 1 (ReadRows info .RedQuantum [.red] false h 0 s0)
  if r1.2 then r1.1
  else
    let r2 := PlaneProgress info first 2 (ReadRows info .GreenQuantum [.green] false h 0 r1.1)
    if r2.2 then r2.1
    else
      let r3 := PlaneProgress info first 3 (ReadRows info .BlueQuantum [.blue] false h 0 r2.1)
      if r3.2 then r3.1
      else
        let r4 :=
          if info.matte then
            PlaneProgress info first 4 (ReadRows info .AlphaQuantum [.opacity] false h 0 r3.1)
          else (r3.1, false)
        if r4.2 then r4.1 else (PlaneProgress info first 5 r4.1).1

/-- The case `PartitionInterlace` with the flag of the format in place of
`image->matte`. -/
def FlatPartitionInterlace (info : ImageInfo) (files : BlobName → Option (List Nat)) (first : Bool)
    (scene : Nat) (s : ReadState) : ReadState :=
  let r1 := ReadPartitionFile info files first scene .Y true .RedQuantum .RedQuantum [.red] 1 s
  if r1.2 then r1.1
  else
    let r2 :=
      ReadPartitionFile info files first scene .Cb false .GreenQuantum .GreenQuantum [.green] 2
        (CloseBlob r1.1)
    if r2.2 then r2.1
    else
      let r3 :=
        ReadPartitionFile info files first scene .Cr false .BlueQuantum .BlueQuantum [.blue] 3
          (CloseBlob r2.1)
      if r3.2 then r3.1
      else
        let r4 :=
          if info.matte then
            ReadPartitionFile info files first scene .A false .BlueQuantum .AlphaQuantum
              [.opacity] 4 (CloseBlob r3.1)
          else (r3.1, false)
        if r4.2 then r4.1 else (PlaneProgress info first 5 r4.1).1

/-- The `switch (image_info->interlace)` over the uniform cases. -/
def FlatFrame (info : ImageInfo) (files : BlobName → Option (List Nat)) (first : Bool)
    (scene : Nat) (s : ReadState) : ReadState :=
  match info.interlace with
  | .NoInterlace => FlatNoInterlace info first scene s
  | .LineInterlace => FlatLineInterlace info first scene s
  | .PlaneInterlace => FlatPlaneInterlace info first scene s
  | .PartitionInterlace => FlatPartitionInterlace info files first scene s

/-- The scene loop over `FlatFrame`: every image of the list is read the way
`ReadScenes` reads the first one. -/
def FlatScenes (info : ImageInfo) (files : BlobName → Option (List Nat)) :
    Nat → List (List (List PixelPacket)) → Nat → Nat → ReadState → Option ReadResult
  | 0, _, _, _, _ => none
  | fuel + 1, previous, image_scene, scene, s =>
    if info.ping ∧ lastScene info image_scene then some (finishRead previous s)
    else
      let s1 := FlatFrame info files previous.isEmpty scene s
      if s1.status = false then some (finishRead previous s1)
      else if lastScene info image_scene then some (finishRead previous s1)
      else if s1.count = s1.length then
        let s2 :=
          { s1 with
            pixels := blankImage info.columns info.rows
            status := info.progress (TellBlob s1) s1.blobSize }
        if s2.status = false then some (finishRead (previous ++ [s1.pixels]) s2)
        else FlatScenes info files fuel (previous ++ [s1.pixels]) (image_scene + 1) (scene + 1) s2
      else some (finishRead previous s1)

/-- The part of the reader from the creation of the virtual canvas on, over
`FlatScenes`. -/
def FlatFromCanvas (info : ImageInfo) (files : BlobName → Option (List Nat)) (s : ReadState) :
    Option ReadResult :=
  let s1 := if info.number_scenes ≠ 0 then SkipToScene info info.scene s else s
  let image_scene := if info.number_scenes ≠ 0 then info.scene else 0
  FlatScenes info files (sceneFuel files) [] image_scene 0
    { s1 with count := 0, length := 0, status := true, stream := [] }

/-- The reader over `FlatScenes`. -/
def FlatYCBCRImage (info : ImageInfo) (files : BlobName → Option (List Nat)) : Option ReadResult :=
  if info.columns = 0 ∨ info.rows = 0 then
    some { images := [], exception := [ExceptionType.MustSpecifyImageSize], opens := [], nread := 0 }
  else if info.interlace ≠ InterlaceType.PartitionInterlace then
    let s1 := OpenBlob files .main (initialState info)
    if s1.status = false then
      some { images := [], exception := s1.exception, opens := s1.opens, nread := s1.nread }
    else
      let d := DiscardBlobBytes info.offset s1
      FlatFromCanvas info files (if d.2 then d.1 else ThrowEOF d.1)
  else FlatFromCanvas info files (initialState info)

/-- The uniform reader at a configuration of the design document. -/
def flatDecode (cfg : StreamConfig) (source : BlobName → Option (List Nat)) : Option ReadResult :=
  FlatYCBCRImage (AcquireImage cfg) source

/-! ## Derived notions used by the proofs -/

/-- A sample fits the sample width. -/
def validSample (depth v : Nat) : Prop := v ≤ QuantumRange depth

instance (depth v : Nat) : Decidable (validSample depth v) := by
  unfold validSample; infer_instance

/-- The reader state at the head of a row loop when the unread input, the
chunk already fetched included, is `D`: `stream` holds the first `L` bytes of
`D`, the blob the rest, and `base` bytes had been read before. -/
def primed (s0 : ReadState) (D : List Nat) (L base : Nat) : ReadState :=
  { s0 with
    stream := D.take L
    blob := some (D.drop L)
    count := min L D.length
    length := L
    nread := base + min L D.length }

/-- The effect of `n` iterations of a row loop on the canvas and the image when
no chunk is short: the chunks are cut from `D`, `L` bytes each. -/
def rowsState (info : ImageInfo) (qt : QuantumType) (chans : List Component) (L : Nat) :
    Nat → Nat → List Nat → ReadState → ReadState
  | 0, _, _, s0 => s0
  | n + 1, y, D, s0 =>
    rowsState info qt chans L n (y + 1) (D.drop L)
      (ImportRow info qt chans y { s0 with stream := D.take L })

/-- The effect of the inner loop of the line-interlaced case on the canvas and
the image when no chunk is short. -/
def lineChannelsState (info : ImageInfo) (L y : Nat) : List QuantumType → List Nat → ReadState → ReadState
  | [], _, s0 => s0
  | qt :: qts, D, s0 =>
    lineChannelsState info L y qts (D.drop L)
      (ImportRow info qt (lineChannel qt) y { s0 with stream := D.take L })

/-- The effect of `n` rows of the line-interlaced case when no chunk is short. -/
def lineRowsState (info : ImageInfo) (L : Nat) (qts : List QuantumType) :
    Nat → Nat → List Nat → ReadState → ReadState
  | 0, _, _, s0 => s0
  | n + 1, y, D, s0 =>
    lineRowsState info L qts n (y + 1) (D.drop (qts.length * L)) (lineChannelsState info L y qts D s0)

/-- Length of the chunk one read of the layout asks for. -/
def chunkLength (info : ImageInfo) : Nat :=
  match info.interlace with
  | .NoInterlace => GetQuantumExtent info info.extract_info.width info.quantum_type
  | _ => GetQuantumExtent info info.extract_info.width QuantumType.RedQuantum

/-- Number of channels of the stream. -/
def ImageInfo.channels (info : ImageInfo) : Nat :=
  if info.matte then 4 else 3

/-- Bytes of one stored scene: every row of the canvas, every channel. -/
def frameLength (info : ImageInfo) : Nat :=
  info.extract_info.height *
    (info.channels * (info.extract_info.width * sampleBytes info.depth))

/-- The effect of the planes of one scene in the plane-interlaced case on the
canvas and the image when no chunk is short. -/
def planesState (info : ImageInfo) (D : List Nat) (s0 : ReadState) : ReadState :=
  let L := GetQuantumExtent info info.extract_info.width QuantumType.RedQuantum
  let h := info.extract_info.height
  let s1 := rowsState info .RedQuantum [.red] L h 0 D s0
  let s2 := rowsState info .GreenQuantum [.green] L h 0 (D.drop (h * L)) s1
  let s3 := rowsState info .BlueQuantum [.blue] L h 0 (D.drop (h * L + h * L)) s2
  if info.matte then
    rowsState info .AlphaQuantum [.opacity] L h 0 (D.drop (h * L + h * L + h * L)) s3
  else s3

/-- The effect of one scene of a single-stream layout on the canvas and the
image when no chunk is short. -/
def frameState (info : ImageInfo) (D : List Nat) (s0 : ReadState) : ReadState :=
  match info.interlace with
  | .NoInterlace =>
    rowsState info info.quantum_type info.packetChannels (chunkLength info)
      info.extract_info.height 0 D s0
  | .LineInterlace =>
    lineRowsState info (chunkLength info) info.lineTypes info.extract_info.height 0 D s0
  | _ => planesState info D s0

/-- The images the scene loop decodes from `n` complete scenes stored back to
back in `D`. -/
def scenesImages (info : ImageInfo) : Nat → List Nat → ReadState → List (List (List PixelPacket))
  | 0, _, _ => []
  | n + 1, D, s0 =>
    (frameState info D s0).pixels ::
      scenesImages info n (D.drop (frameLength info))
        { frameState info D s0 with pixels := blankImage info.columns info.rows }

/-- The writer state after `bytes` were appended to stream `name`. -/
def appendTo (s : WriteState) (name : BlobName) (bytes : List Nat) (l c w : Nat) : WriteState :=
  { s with
    files := Function.update s.files name (s.files name ++ bytes)
    length := l
    count := c
    writes := w }

/-- The bytes the writer emits for one image in a single-stream layout. -/
def encodeFrame (info : ImageInfo) (f : List (List PixelPacket)) : List Nat :=
  match info.interlace with
  | .NoInterlace => f.flatMap (ExportQuantumPixels info info.quantum_type)
  | .LineInterlace =>
    f.flatMap (fun p => (lineExports info).flatMap (fun qt => ExportQuantumPixels info qt p))
  | _ =>
    f.flatMap (ExportQuantumPixels info .RedQuantum) ++
      (f.flatMap (ExportQuantumPixels info .GreenQuantum) ++
        (f.flatMap (ExportQuantumPixels info .BlueQuantum) ++
          (if info.quantum_type = QuantumType.RGBAQuantum then
            f.flatMap (ExportQuantumPixels info .AlphaQuantum)
          else [])))

/-- Copying the components `chans` makes no difference between the pixel `p`
and a canvas pixel that received the packet `comps` exported from `p`. -/
def Covers (depth : Nat) (comps chans : List Component) (p : PixelPacket) : Prop :=
  ∀ c q, copyComponents depth chans (copyComponents depth comps p c) q =
    copyComponents depth chans p q

/-- The three colour samples of a pixel. -/
def rgb (p : PixelPacket) : Nat × Nat × Nat := (p.red, p.green, p.blue)

/-- The colour samples of an image, row by row. -/
def rgbOf (image : List (List PixelPacket)) : List (List (Nat × Nat × Nat)) :=
  image.map (fun row => row.map rgb)

/-- The pixel with the colour samples of `p` and the opacity of an unwritten
pixel. -/
def opaquePixel (p : PixelPacket) : PixelPacket :=
  ⟨p.red, p.green, p.blue, blankPixel.opacity⟩

/-- A frame as the reader delivers it when the stream has no alpha channel. -/
def opaqueFrame (f : List (List PixelPacket)) : List (List PixelPacket) :=
  f.map (fun row => row.map opaquePixel)

/-- A 3-channel frame of `width x height` pixels whose colour samples fit the
sample depth. -/
def validFrame3 (depth width height : Nat) (f : List (List PixelPacket)) : Prop :=
  f.length = height ∧
    ∀ row ∈ f, row.length = width ∧
      ∀ p ∈ row, p.red ≤ QuantumRange depth ∧ p.green ≤ QuantumRange depth ∧
        p.blue ≤ QuantumRange depth

/-- The geometry of a decode of the whole canvas. -/
def FullCanvas (info : ImageInfo) (W H : Nat) : Prop :=
  info.extract_info.width = W ∧ info.extract_info.height = H ∧ info.extract_info.x = 0 ∧
    info.extract_info.y = 0 ∧ info.columns = W ∧ info.rows = H

/-- The bytes the partition writer adds to each stream for one image. -/
def planeOf (info : ImageInfo) (name : BlobName) (f : List (List PixelPacket)) : List Nat :=
  match name with
  | .main => []
  | .Y => f.flatMap (ExportQuantumPixels info .RedQuantum)
  | .Cb => f.flatMap (ExportQuantumPixels info .GreenQuantum)
  | .Cr => f.flatMap (ExportQuantumPixels info .BlueQuantum)
  | .A =>
    if info.quantum_type = QuantumType.RGBAQuantum then
      f.flatMap (ExportQuantumPixels info .AlphaQuantum)
    else []

/-- The writer state after a channel file was opened and `bytes` written. -/
def wroteFile (s : WriteState) (name : BlobName) (append : Bool) (bytes : List Nat)
    (l c w : Nat) : WriteState :=
  { s with
    files := Function.update s.files name ((if append then s.files name else []) ++ bytes)
    blob := some name
    status := true
    opens := s.opens ++ [(name, append)]
    length := l
    count := c
    writes := w }

/-- Content of the streams before the first scene is empty in every channel
file the writer opens, or the writer appends. -/
def startsEmpty (scene : Nat) (s : WriteState) : Prop :=
  scene = 0 → ∀ n, s.files n = []

/-- The reader state right after a channel file was opened. -/
def openedState (s : ReadState) (name : BlobName) (data : List Nat) : ReadState :=
  { s with status := true, blob := some data, blobSize := data.length, opens := s.opens ++ [name] }

/-- The sub-rectangle of a frame: `ch` rows from row `y0` on, and of each of
them `cw` pixels from column `x0` on. -/
def cropImage (x0 y0 cw ch : Nat) (P : List (List PixelPacket)) : List (List PixelPacket) :=
  ((P.drop y0).take ch).map (fun row => (row.drop x0).take cw)

/-- A reader state whose image is replaced by its sub-rectangle. -/
def cropState (x0 y0 cw ch : Nat) (s : ReadState) : ReadState :=
  { s with pixels := cropImage x0 y0 cw ch s.pixels }

/-- The image parameters of a request for a sub-rectangle of the canvas. -/
def cropInfo (info : ImageInfo) (x0 y0 cw ch : Nat) : ImageInfo :=
  { info with
    columns := cw
    rows := ch
    extract_info := { info.extract_info with x := (x0 : Int), y := (y0 : Int) } }

/-- A result whose frames are replaced by their sub-rectangles. -/
def cropResult (x0 y0 cw ch : Nat) (r : ReadResult) : ReadResult :=
  { r with images := r.images.map (cropImage x0 y0 cw ch) }

/-- The relation between the request for the whole canvas and the request for
a sub-rectangle of it. -/
structure CropOf (info : ImageInfo) (x0 y0 cw ch : Nat) : Prop where
  hx : info.extract_info.x = 0
  hy : info.extract_info.y = 0
  hcols : info.columns = info.extract_info.width
  hrows : info.rows = info.extract_info.height
  hw : x0 + cw ≤ info.extract_info.width
  hh : y0 + ch ≤ info.extract_info.height
  hmon : ∀ o e, info.progress o e = true

/-- The row lengths of a frame. -/
def shape (P : List (List PixelPacket)) : List Nat :=
  P.map List.length

/-- Two requests that agree on everything the transfer of pixels depends on:
they may differ in the scene selection, the probe flag, the header offset and
the progress monitor. -/
structure SameCodec (a b : ImageInfo) : Prop where
  interlace : a.interlace = b.interlace
  matte : a.matte = b.matte
  depth : a.depth = b.depth
  endian : a.endian = b.endian
  columns : a.columns = b.columns
  rows : a.rows = b.rows
  extract_info : a.extract_info = b.extract_info

/-- The scene `image->scene` starts from. -/
def firstScene (info : ImageInfo) : Nat :=
  if info.number_scenes ≠ 0 then info.scene else 0

/-- Bytes the skip loop in front of the scene loop consumes when the stream
holds them. -/
def skipLength (info : ImageInfo) : Nat :=
  firstScene info *
    (info.rows * GetQuantumExtent info info.extract_info.width info.quantum_type)

/-- The channel files the partition case opens. -/
def partitionNames (info : ImageInfo) : List BlobName :=
  if info.matte then [.Y, .Cb, .Cr, .A] else [.Y, .Cb, .Cr]

/-- Every channel file of the partition case holds exactly one scene. -/
def oneSceneFiles (info : ImageInfo) (files : BlobName → Option (List Nat)) : Prop :=
  ∀ name ∈ partitionNames info, ∃ data, files name = some data ∧
    data.length = info.extract_info.height *
      GetQuantumExtent info info.extract_info.width QuantumType.RedQuantum

/-- The configuration of a decode or encode of whole frames: the crop
rectangle is the canvas, no scene is skipped, the scene count is unbounded. -/
def fullConfig (W H channels bits : Nat) (lay : Layout) (e : EndianType) : StreamConfig :=
  { width := W
    height := H
    channelCount := channels
    sampleBits := bits
    layout := lay
    cropRect := fullCanvas W H
    sceneOffset := 0
    sceneCount := none
    endian := e
    ping := false }

/-- The pixel at row `r`, column `c` of an image. -/
def pixelAt (image : List (List PixelPacket)) (r c : Nat) : PixelPacket :=
  (image.getD r []).getD c blankPixel

/-- The component a channel index of the stream stands for: Y, Cb, Cr, alpha. -/
def channelComponent (k : Nat) : Component :=
  [Component.red, Component.green, Component.blue, Component.alpha].getD k Component.red

/-- Sample `k` of a pixel as the stream carries it. -/
def channelSample (depth k : Nat) (p : PixelPacket) : Nat :=
  loadComponent depth (channelComponent k) p

/-- The frame a buffer of interleaved 8-bit triples describes: pixel (r, c)
holds the bytes at (r*W + c)*3, (r*W + c)*3 + 1 and (r*W + c)*3 + 2. -/
def frameOfBytes (W H : Nat) (b : List Nat) : List (List PixelPacket) :=
  (List.range H).map (fun r => (List.range W).map (fun c =>
    ⟨b.getD ((r * W + c) * 3) 0, b.getD ((r * W + c) * 3 + 1) 0, b.getD ((r * W + c) * 3 + 2) 0,
      blankPixel.opacity⟩))

instance (cfg : StreamConfig) : Decidable cfg.cropInCanvas := by
  unfold StreamConfig.cropInCanvas; infer_instance

/-- The configuration that requests the whole canvas of `cfg`. -/
def StreamConfig.uncropped (cfg : StreamConfig) : StreamConfig :=
  { cfg with cropRect := fullCanvas cfg.width cfg.height }

/-- The byte source holds exactly one stored frame of the canvas of `cfg`: in
the single stream for the single-stream layouts, in every channel file for the
partitioned layout. -/
def oneFrameSource (cfg : StreamConfig) (source : BlobName → Option (List Nat)) : Prop :=
  if cfg.layout = .Partitioned then oneSceneFiles (AcquireImage cfg.uncropped) source
  else ∃ D, source .main = some D ∧ D.length = frameLength (AcquireImage cfg.uncropped)

/-- A byte source that holds the single stream `D` and nothing else. -/
def mainOnly (D : List Nat) : BlobName → Option (List Nat)
  | .main => some D
  | _ => none

/-- The last read came back short and emptied the stream; `T` bytes have been
read in all. -/
def Starved (T : Nat) (s : ReadState) : Prop :=
  s.count ≠ s.length ∧ s.blob = some [] ∧ s.nread = T

/-- A starved state on which the truncation has been reported. -/
def Dead (T : Nat) (s : ReadState) : Prop :=
  Starved T s ∧ s.status = false ∧ ExceptionType.UnexpectedEndOfFile ∈ s.exception

/-- The chunk in hand is the last but `m` at most: either the last read was
short already, or it was complete and the stream holds fewer than `m` more
chunks of `L` bytes. -/
def Short (T L m : Nat) (s : ReadState) : Prop :=
  Starved T s ∨
    (s.count = s.length ∧ ∃ B, s.blob = some B ∧ s.nread + B.length = T ∧ B.length < m * L)

/-- The reader state after `n` complete scenes, with the fresh image of the
next one. -/
def scenesState (info : ImageInfo) : Nat → List Nat → ReadState → ReadState
  | 0, _, s0 => s0
  | n + 1, D, s0 =>
    scenesState info n (D.drop (frameLength info))
      { frameState info D s0 with pixels := blankImage info.columns info.rows }

/-- The quantum type the planar writers export for channel `k`: Y, Cb, Cr,
alpha. -/
def channelQuantum (k : Nat) : QuantumType :=
  [QuantumType.RedQuantum, QuantumType.GreenQuantum, QuantumType.BlueQuantum,
    QuantumType.AlphaQuantum].getD k QuantumType.RedQuantum

/-- Two canvas pixels that a copy of the components `chans` cannot tell
apart. -/
def SameOn (depth : Nat) (chans : List Component) (p p' : PixelPacket) : Prop :=
  ∀ q, copyComponents depth chans p q = copyComponents depth chans p' q

/-- The import of a packet `comps` decides every component in `chans`, whatever
the canvas pixel held before. -/
def Overwrites (info : ImageInfo) (comps chans : List Component) : Prop :=
  ∀ b q1 q2, SameOn info.depth chans (importComponents info comps b q1)
    (importComponents info comps b q2)

/-- The configuration `cfg` with the default scene selection. -/
def StreamConfig.allScenes (cfg : StreamConfig) : StreamConfig :=
  { cfg with sceneOffset := 0, sceneCount := none }

/-- The skip loop in front of the scene loop together with its guard
`if (image_info->number_scenes != 0)`: the state in which the scene loop
starts (before it resets `count`, `length`, `status` and `stream`). -/
def skipPhase (info : ImageInfo) (s : ReadState) : ReadState :=
  if info.number_scenes ≠ 0 then SkipToScene info info.scene s else s

/-- The streams a decode opens when every one of them is there. -/
def streamNames (cfg : StreamConfig) : List BlobName :=
  if cfg.layout = .Partitioned then partitionNames (AcquireImage cfg) else [BlobName.main]

/-- The `OpenBlob` calls of the partition writer for `n` scenes, the first of
which has the number `scene`. -/
def partitionOpens (info : ImageInfo) (scene n : Nat) : List (BlobName × Bool) :=
  (List.range n).flatMap (fun i =>
    (partitionNames info).map (fun name => (name, decide (scene + i ≠ 0))))

/-- The entry point `encode(frames, config, sink)` on a given sink. -/
def encodeTo (cfg : StreamConfig) (frames : List (List (List PixelPacket))) (sink : Sink) :
    WriteResult :=
  WriteYCBCRImage (AcquireImage cfg) frames sink

/-- The writer state after the bytes `d` were offered to stream `name` of a
sink that had room for `r` more bytes. -/
def offered (s : WriteState) (name : BlobName) (d : List Nat) (r l c w : Nat) : WriteState :=
  { s with
    files := Function.update s.files name (s.files name ++ d.take r)
    room := some (r - d.length)
    length := l
    count := c
    writes := w }

/-- The pixel whose opacity is the complement of the opacity of `p`: what the
alpha sample of `p` is when it is read as an opacity sample. -/
def complementAlpha (depth : Nat) (p : PixelPacket) : PixelPacket :=
  ⟨p.red, p.green, p.blue, QuantumRange depth - p.opacity⟩

/-- A 4-channel frame of `width x height` pixels whose samples fit the sample
depth. -/
def validFrame4 (depth width height : Nat) (f : List (List PixelPacket)) : Prop :=
  f.length = height ∧
    ∀ row ∈ f, row.length = width ∧
      ∀ p ∈ row, p.red ≤ QuantumRange depth ∧ p.green ≤ QuantumRange depth ∧
        p.blue ≤ QuantumRange depth ∧ p.opacity ≤ QuantumRange depth

/-- The fields of the image the PGX coder reads or sets (`image->depth`,
`image->endian`, `image->columns`, `image->rows`), the probe flag of the
request and the progress monitor. -/
structure PGXInfo where
  depth : Nat
  endian : EndianType
  columns : Nat
  rows : Nat
  ping : Bool
  progress : Nat → Nat → Bool

/-- Exceptions the PGX coder can record. -/
inductive PGXException where
  | ImproperImageHeader
  | UnexpectedEndOfFile
  | UnableToWriteImageData
  deriving DecidableEq, Repr

/-- Modelled from the spec: `ExportQuantumPixels` with `GrayQuantum`
(quantum-export.c is missing from the sources) on a row of gray pixels, each
given by its sample. -/
def ExportGrayPixels (info : PGXInfo) (row : List Nat) : List Nat :=
  row.flatMap (exportSample info.endian info.depth)

/-- Modelled from the spec: `GetQuantumExtent(image,quantum_info,GrayQuantum)`
(missing from the sources): bytes of one row. -/
def GrayExtent (info : PGXInfo) : Nat :=
  info.columns * sampleBytes info.depth

/-- Modelled from the spec: `ImportQuantumPixels` with `GrayQuantum`
(quantum-import.c is missing from the sources): the samples of `n` pixels
taken from the bytes. -/
def ImportGrayPixels (info : PGXInfo) : Nat → List Nat → List Nat
  | 0, _ => []
  | n + 1, b =>
    importSample info.endian info.depth b ::
      ImportGrayPixels info n (b.drop (sampleBytes info.depth))

/-- The blob and the local variables of `ReadPGXImage` in its row loop, with
the rows of the image. -/
structure PGXReadState where
  blob : List Nat
  eof : Bool
  count : Nat
  stream : List Nat
  pixels : List (List Nat)
  deriving DecidableEq, Repr

/-- Modelled from the spec: `ReadBlobStream(image,length,pixels,&count)` and
the end-of-file mark `EOFBlob` tests (blob.c is missing from the sources): a
read that comes short sets the mark. -/
def ReadPGXBlob (length : Nat) (s : PGXReadState) : PGXReadState :=
  { s with
    stream := s.blob.take length
    count := min length s.blob.length
    blob := s.blob.drop length
    eof := s.eof || decide (s.blob.length < length) }

/-- The row loop `for (y=0; y < (ssize_t) image->rows; y++)` of `ReadPGXImage`
with `n` rows to go. -/
def ReadPGXRows (info : PGXInfo) (length : Nat) : Nat → Nat → PGXReadState → PGXReadState
  | 0, _, s => s
  | n + 1, y, s =>
    let s1 := ReadPGXBlob length s
    if s1.count ≠ length then s1
    else
      let s2 := { s1 with pixels := s1.pixels.set y (ImportGrayPixels info info.columns s1.stream) }
      if info.progress y info.rows = false then s2 else ReadPGXRows info length n (y + 1) s2

/-- What `ReadPGXImage` hands back: the image (`none` for `NULL`) and the
exceptions recorded. -/
structure PGXReadResult where
  image : Option (List (List Nat))
  exception : List PGXException
  deriving DecidableEq, Repr

/-- The function `ReadPGXImage` from the point where the header line has been
taken from the blob and scanned: `info` holds the values `sscanf` delivered,
`data` the bytes behind the header line.  Pixels no row was read for keep the
blank content of a fresh image. -/
def ReadPGXImage (info : PGXInfo) (data : List Nat) : PGXReadResult :=
  if info.columns = 0 ∨ info.rows = 0 then
    { image := none, exception := [PGXException.ImproperImageHeader] }
  else if info.ping then
    { image := some (List.replicate info.rows (List.replicate info.columns 0)), exception := [] }
  else
    let s :=
      ReadPGXRows info (GrayExtent info) info.rows 0
        { blob := data
          eof := false
          count := 0
          stream := []
          pixels := List.replicate info.rows (List.replicate info.columns 0) }
    { image := some s.pixels
      exception := if s.eof then [PGXException.UnexpectedEndOfFile] else [] }

/-- The length `(size_t) (-(ssize_t) length) & 0x01` of the pad written behind
a row, with 64-bit `size_t`. -/
def padLength (length : Nat) : Nat :=
  ((2 ^ 64 - length % 2 ^ 64) % 2 ^ 64) &&& 1

/-- The row loop of `WritePGXImage` over the rows still to be written; the
flag tells whether the loop was left by `break`, that is with
`y < image->rows`.  The pad bytes are taken from the head of the buffer
`pixels`, which holds the row just exported. -/
def WritePGXRows (info : PGXInfo) : List (List Nat) → Nat → WriteState → WriteState × Bool
  | [], _, s => (s, false)
  | p :: ps, y, s =>
    let pixels := ExportGrayPixels info p
    let s1 := WriteBlob pixels s
    if s1.count ≠ s1.length then (s1, true)
    else
      let s2 := { WriteBlob (pixels.take (padLength s1.length)) s1 with length := s1.length }
      let s3 := { s2 with status := info.progress y info.rows }
      if s3.status = false then (s3, true) else WritePGXRows info ps (y + 1) s3

/-- What `WritePGXImage` leaves behind: the streams of the sink, the value
returned and the exceptions recorded. -/
structure PGXWriteResult where
  files : BlobName → List Nat
  status : Bool
  exception : List PGXException

/-- The function `WritePGXImage` on an image given by its rows of gray
samples; `header` holds the bytes `FormatLocaleString` left in `buffer`. -/
def WritePGXImage (info : PGXInfo) (header : List Nat) (image : List (List Nat)) (sink : Sink) :
    PGXWriteResult :=
  let s0 : WriteState :=
    { files := sink.files
      writable := sink.writable
      room := sink.room
      blob := none
      count := 0
      length := 0
      status := true
      opens := []
      writes := 0 }
  let s1 := OpenBlobWrite .main false s0
  if s1.status = false then { files := s1.files, status := false, exception := [] }
  else
    let r := WritePGXRows info image 0 (WriteBlob header s1)
    if r.2 then
      { files := r.1.files, status := false, exception := [PGXException.UnableToWriteImageData] }
    else { files := r.1.files, status := r.1.status, exception := [] }

/-- An image of the size `info` names whose samples fit the sample depth. -/
def ValidGray (info : PGXInfo) (image : List (List Nat)) : Prop :=
  image.length = info.rows ∧
    ∀ row ∈ image, row.length = info.columns ∧ ∀ v ∈ row, v ≤ QuantumRange info.depth

/-- The bytes `WritePGXImage` emits behind the header: every row followed by
its pad. -/
def pgxPayload (info : PGXInfo) (image : List (List Nat)) : List Nat :=
  image.flatMap (fun row =>
    ExportGrayPixels info row ++
      (ExportGrayPixels info row).take (padLength (ExportGrayPixels info row).length))

/-- The rows `n` consecutive reads of `L` bytes deliver. -/
def readRowsOf (info : PGXInfo) (L : Nat) : Nat → List Nat → List (List Nat)
  | 0, _ => []
  | n + 1, D => ImportGrayPixels info info.columns (D.take L) :: readRowsOf info L n (D.drop L)

/-- Rows stored into an image from row `y` on. -/
def storeRows : List (List Nat) → Nat → List (List Nat) → List (List Nat)
  | [], _, px => px
  | r :: rs, y, px => storeRows rs (y + 1) (px.set y r)

/-- The request for an 8-bit image of `c` columns and `r` rows that is read in
full with a monitor that never cancels. -/
def pgx8 (c r : Nat) : PGXInfo :=
  { depth := 8, endian := .MSBEndian, columns := c, rows := r, ping := false
    progress := fun _ _ => true }

/-! ## The WebP coder (webp.c): `IsWEBPImageLossless` -/

/-- The value a `ssize_t` holds after the 64-bit two's complement wrap of `x`. -/
def toSSize (x : Int) : Int :=
  (x + 2 ^ 63) % 2 ^ 64 - 2 ^ 63

/-- The byte `stream[i]`.  An index outside the array has no defined value in
C; the model reads 0 there (the walk records every index it reads). -/
def byteAt (stream : List Nat) (i : Int) : Nat :=
  if 0 ≤ i then stream.getD i.toNat 0 % 256 else 0

/-- The function `ReadWebPLSBWord` on `stream+p`, in `uint32_t` arithmetic. -/
def ReadWebPLSBWord (stream : List Nat) (p : Int) : Nat :=
  (byteAt stream p ||| byteAt stream (p + 1) <<< 8 ||| byteAt stream (p + 2) <<< 16 |||
    byteAt stream (p + 3) <<< 24) % 2 ^ 32

/-- The expression `(CHUNK_HEADER_SIZE+chunk_size+1) & ~1` in `uint32_t`
arithmetic. -/
def chunkSizePad (chunk_size : Nat) : Nat :=
  ((8 + chunk_size + 1) % 2 ^ 32) &&& (2 ^ 32 - 2)

/-- The constant `MAX_CHUNK_PAYLOAD`, `~0U-CHUNK_HEADER_SIZE-1`. -/
def MAX_CHUNK_PAYLOAD : Nat :=
  2 ^ 32 - 1 - 8 - 1

/-- The loop `while (offset+TAG_SIZE <= (ssize_t) (length-TAG_SIZE))` of
`IsWEBPImageLossless`.  `reads` lists the indices of `stream` read so far
(`memcmp` is taken to read all three bytes).  The loop has no bound of its
own, so the model counts its iterations down from `fuel` and answers `none`
when they run out. -/
def chunkWalk (stream : List Nat) (length : Nat) : Nat → Int → List Int → Option (Bool × List Int)
  | 0, _, _ => none
  | fuel + 1, offset, reads =>
    if toSSize (offset + 4) ≤ toSSize (((length : Int) - 4) % 2 ^ 64) then
      let chunk_size := ReadWebPLSBWord stream (offset + 4)
      let reads1 := reads ++ [offset + 4, offset + 5, offset + 6, offset + 7]
      if chunk_size > MAX_CHUNK_PAYLOAD then some (false, reads1)
      else
        let chunk_size_pad := chunkSizePad chunk_size
        let reads2 := reads1 ++ [offset, offset + 1, offset + 2]
        if byteAt stream offset = 86 ∧ byteAt stream (offset + 1) = 80 ∧
            byteAt stream (offset + 2) = 56 then
          some (decide (byteAt stream (offset + 3) = 76), reads2 ++ [offset + 3])
        else chunkWalk stream length fuel (toSSize (offset + (chunk_size_pad : Int))) reads2
    else some (false, reads)

/-- The function `IsWEBPImageLossless`: its answer and the indices of `stream`
it read.  The chunk walk is granted `length` iterations. -/
def IsWEBPImageLossless (stream : List Nat) (length : Nat) : Option (Bool × List Int) :=
  if length ≤ 15 then some (false, [])
  else if byteAt stream 15 ≠ 88 then some (decide (byteAt stream 15 = 76), [15])
  else chunkWalk stream length length 30 [15]

/-- A RIFF/WEBP container header whose byte 15 is `c15`, followed by `rest`. -/
def riff (c15 : Nat) (rest : List Nat) : List Nat :=
  [82, 73, 70, 70, 0, 0, 0, 0, 87, 69, 66, 80, 86, 80, 56, c15] ++ rest

/-! ## Further derived notions of the YCbCr coder -/

/-- Two canvas pixels that differ at most in the blue (Cr) sample. -/
def BlueApart (p q : PixelPacket) : Prop :=
  p.red = q.red ∧ p.green = q.green ∧ p.opacity = q.opacity

/-- Two reader states that differ at most in the content (not the length) of
the open blob, in the chunk last read and in the blue samples of the canvas. -/
structure Blind (s t : ReadState) : Prop where
  blob : s.blob.map List.length = t.blob.map List.length
  blobSize : s.blobSize = t.blobSize
  count : s.count = t.count
  length : s.length = t.length
  status : s.status = t.status
  canvas : List.Forall₂ BlueApart s.canvas t.canvas
  pixels : s.pixels = t.pixels
  exception : s.exception = t.exception
  opens : s.opens = t.opens
  nread : s.nread = t.nread

def Alike (info : ImageInfo) (qt : QuantumType) (chans : List Component) (s t : ReadState) : Prop :=
  (s.blob = t.blob ∧ s.stream = t.stream ∧ Overwrites info qt.components chans) ∨
    (qt = QuantumType.BlueQuantum ∧ chans = [Component.opacity])

/-- A byte source that holds the four channel files of the partition layout
and no main stream. -/
def channelFiles (y cb cr a : List Nat) : BlobName → Option (List Nat)
  | .main => none
  | .Y => some y
  | .Cb => some cb
  | .Cr => some cr
  | .A => some a

/-- A starved state on which the truncation has been reported, whatever
`status` says now. -/
def Spent (T : Nat) (s : ReadState) : Prop :=
  Starved T s ∧ ExceptionType.UnexpectedEndOfFile ∈ s.exception

/-- The state after one plane of the first frame when the monitor answers
`continue`: the row loop, then the status the progress report returns. -/
def planeFirst (info : ImageInfo) (qt : QuantumType) (chans : List Component) (t : ReadState) :
    ReadState :=
  { ReadRows info qt chans false info.extract_info.height 0 t with status := true }

/-- Every channel file of the partition case is there and holds at most one
scene, and one of them holds less. -/
def endsInFirstScene (info : ImageInfo) (files : BlobName → Option (List Nat)) : Prop :=
  (∀ name ∈ partitionNames info, ∃ data, files name = some data ∧
    data.length ≤ info.extract_info.height *
      GetQuantumExtent info info.extract_info.width QuantumType.RedQuantum) ∧
    ∃ name ∈ partitionNames info, ∃ data, files name = some data ∧
      data.length < info.extract_info.height *
        GetQuantumExtent info info.extract_info.width QuantumType.RedQuantum

/-! ## Notions for the comparison of the two readers -/

/-- Two states of the reader that differ at most in the pixels of the image
being filled. -/
structure SamePace (s t : ReadState) : Prop where
  blob : s.blob = t.blob
  blobSize : s.blobSize = t.blobSize
  stream : s.stream = t.stream
  count : s.count = t.count
  length : s.length = t.length
  status : s.status = t.status
  canvas : s.canvas = t.canvas
  exception : s.exception = t.exception
  opens : s.opens = t.opens
  nread : s.nread = t.nread

/-- What a result shows apart from the pixel values: the number of images, the
exceptions, the streams opened and the number of bytes read. -/
def outline (r : ReadResult) : Nat × List ExceptionType × List BlobName × Nat :=
  (r.images.length, r.exception, r.opens, r.nread)

end YCbCr

namespace YCbCr

/-! ## Lemmas

The lemmas on streams of complete and of truncated frames are stated for the
uniform reader; the section on the reader and the uniform reader carries them
over to `ReadYCBCRImage`. -/

theorem sampleBytes_pos (depth : Nat) : 1 ≤ sampleBytes depth := by
  unfold sampleBytes; split <;> omega

theorem exportSample_length (e : EndianType) (depth v : Nat) :
    (exportSample e depth v).length = sampleBytes depth := by
  unfold exportSample sampleBytes
  split
  · rfl
  · cases e <;> rfl

theorem importSample_exportSample (e : EndianType) (depth v : Nat) (rest : List Nat)
    (hv : v ≤ QuantumRange depth) :
    importSample e depth (exportSample e depth v ++ rest) = v := by
  unfold QuantumRange at hv
  unfold importSample exportSample
  split
  · rename_i h
    simp only [h, if_true] at hv
    simp
    omega
  · rename_i h
    simp only [h, if_false] at hv
    cases e <;> simp <;> omega

theorem drop_exportSample (e : EndianType) (depth v : Nat) (rest : List Nat) :
    (exportSample e depth v ++ rest).drop (sampleBytes depth) = rest := by
  rw [← exportSample_length e depth v]
  exact List.drop_left _ _

theorem primed_congr {s s' : ReadState} {D D' : List Nat} {L b b' : Nat} (hs : s = s')
    (hD : D = D') (hb : b = b') : primed s D L b = primed s' D' L b' := by
  subst hs hD hb; rfl

theorem ImportRow_status (info : ImageInfo) (qt : QuantumType) (chans : List Component) (y : Nat)
    (s : ReadState) : (ImportRow info qt chans y s).status = s.status := by
  unfold ImportRow
  simp only
  split <;> rfl

theorem rowsState_status (info : ImageInfo) (qt : QuantumType) (chans : List Component) (L : Nat)
    (n y : Nat) (D : List Nat) (s0 : ReadState) :
    (rowsState info qt chans L n y D s0).status = s0.status := by
  induction n generalizing y D s0 with
  | zero => rfl
  | succ n ih =>
    simp only [rowsState]
    rw [ih, ImportRow_status]

theorem ReadBlobStream_ImportRow_primed (info : ImageInfo) (qt : QuantumType)
    (chans : List Component) (y : Nat) (s0 : ReadState) (D : List Nat) (L base : Nat)
    (hL : L = GetQuantumExtent info info.extract_info.width qt) (hD : L ≤ D.length) (st : Bool)
    (hst : s0.status = st) :
    ReadBlobStream { ImportRow info qt chans y (primed s0 D L base) with status := st } =
      primed (ImportRow info qt chans y { s0 with stream := D.take L }) (D.drop L) L (base + L) := by
  subst hst
  unfold ImportRow
  simp only [primed, ← hL]
  split <;> simp [ReadBlobStream, Nat.min_eq_left hD, Nat.add_assoc]

theorem ReadRows_primed (info : ImageInfo) (qt : QuantumType) (chans : List Component)
    (mon : Bool) (L : Nat) (hL : L = GetQuantumExtent info info.extract_info.width qt)
    (hmon : ∀ o e, info.progress o e = true) :
    ∀ (n y : Nat) (D : List Nat) (s0 : ReadState) (base : Nat),
      s0.status = true → n * L ≤ D.length →
      ReadRows info qt chans mon n y (primed s0 D L base) =
        primed (rowsState info qt chans L n y D s0) (D.drop (n * L)) L (base + n * L) := by
  intro n
  induction n with
  | zero => intro y D s0 base _ _; simp [ReadRows, rowsState]
  | succ n ih =>
    intro y D s0 base hst hD
    have hLD : L ≤ D.length := by
      have : L ≤ (n + 1) * L := Nat.le_mul_of_pos_left L (Nat.succ_pos n)
      omega
    have hcount : (primed s0 D L base).count = (primed s0 D L base).length := by
      simp [primed, Nat.min_eq_left hLD]
    have hstep := ReadBlobStream_ImportRow_primed info qt chans y s0 D L base hL hLD true hst
    have hstep2 : ReadBlobStream (ImportRow info qt chans y (primed s0 D L base)) =
        primed (ImportRow info qt chans y { s0 with stream := D.take L }) (D.drop L) L (base + L) := by
      rw [← hstep]
      congr 1
      have : (ImportRow info qt chans y (primed s0 D L base)).status = true := by
        rw [ImportRow_status]; exact hst
      cases h : ImportRow info qt chans y (primed s0 D L base)
      rw [h] at this
      simp at this
      simp [this]
    have hD' : n * L ≤ (D.drop L).length := by
      rw [List.length_drop]
      have : (n + 1) * L = n * L + L := Nat.succ_mul n L
      omega
    have hst' : (ImportRow info qt chans y { s0 with stream := D.take L }).status = true := by
      rw [ImportRow_status]; exact hst
    have key := ih (y + 1) (D.drop L) _ (base + L) hst' hD'
    rw [ReadRows]
    simp only [hcount, ne_eq, not_true_eq_false, if_false]
    cases mon
    · simp only [Bool.false_eq_true, if_false]
      rw [hstep2, key]
      exact primed_congr rfl (by rw [List.drop_drop, Nat.succ_mul, Nat.add_comm])
        (by rw [Nat.succ_mul]; omega)
    · simp only [if_true, hmon]
      rw [hstep, key]
      exact primed_congr rfl (by rw [List.drop_drop, Nat.succ_mul, Nat.add_comm])
        (by rw [Nat.succ_mul]; omega)

theorem exportPixel_length (info : ImageInfo) (comps : List Component) (p : PixelPacket) :
    (exportPixel info comps p).length = comps.length * sampleBytes info.depth := by
  unfold exportPixel
  induction comps with
  | nil => simp
  | cons c cs ih =>
    simp only [List.flatMap_cons, List.length_append, exportSample_length, ih, List.length_cons]
    rw [Nat.succ_mul]; omega

theorem exportRow_length (info : ImageInfo) (comps : List Component) (row : List PixelPacket) :
    (row.flatMap (exportPixel info comps)).length =
      comps.length * row.length * sampleBytes info.depth := by
  induction row with
  | nil => simp
  | cons p ps ih =>
    simp only [List.flatMap_cons, List.length_append, exportPixel_length, ih, List.length_cons]
    rw [Nat.mul_succ, Nat.add_mul]; omega

theorem ExportQuantumPixels_length (info : ImageInfo) (qt : QuantumType) (row : List PixelPacket) :
    (ExportQuantumPixels info qt row).length = GetQuantumExtent info row.length qt := by
  unfold ExportQuantumPixels GetQuantumExtent
  exact exportRow_length info _ row

theorem importComponents_exportPixel (info : ImageInfo) (p : PixelPacket) (rest : List Nat) :
    ∀ (comps : List Component) (q : PixelPacket),
      (∀ c ∈ comps, loadComponent info.depth c p ≤ QuantumRange info.depth) →
      importComponents info comps (exportPixel info comps p ++ rest) q =
        copyComponents info.depth comps p q := by
  intro comps
  induction comps with
  | nil => intro q _; simp [importComponents, copyComponents]
  | cons c cs ih =>
    intro q hv
    have hc := hv c (List.mem_cons_self _ _)
    have hcs : ∀ c ∈ cs, loadComponent info.depth c p ≤ QuantumRange info.depth :=
      fun c' h' => hv c' (List.mem_cons_of_mem _ h')
    have e : exportPixel info (c :: cs) p ++ rest =
        exportSample info.endian info.depth (loadComponent info.depth c p) ++
          (exportPixel info cs p ++ rest) := by
      simp [exportPixel, List.append_assoc]
    rw [e, importComponents, importSample_exportSample _ _ _ _ hc, drop_exportSample, ih _ hcs]
    simp [copyComponents]

theorem importRow_export (info : ImageInfo) (comps : List Component) :
    ∀ (row canvas : List PixelPacket) (rest : List Nat),
      row.length = canvas.length →
      (∀ p ∈ row, ∀ c ∈ comps, loadComponent info.depth c p ≤ QuantumRange info.depth) →
      importRow info comps canvas (row.flatMap (exportPixel info comps) ++ rest) =
        List.zipWith (copyComponents info.depth comps) row canvas := by
  intro row
  induction row with
  | nil =>
    intro canvas rest hlen _
    cases canvas with
    | nil => simp [importRow]
    | cons _ _ => simp at hlen
  | cons p ps ih =>
    intro canvas rest hlen hv
    cases canvas with
    | nil => simp at hlen
    | cons q qs =>
      have hp := hv p (List.mem_cons_self _ _)
      have hps : ∀ p' ∈ ps, ∀ c ∈ comps, loadComponent info.depth c p' ≤ QuantumRange info.depth :=
        fun p' h' => hv p' (List.mem_cons_of_mem _ h')
      have hl : ps.length = qs.length := by simpa using hlen
      simp only [List.flatMap_cons, List.append_assoc, importRow, List.zipWith_cons_cons]
      rw [importComponents_exportPixel info p _ comps q hp]
      have hd : (exportPixel info comps p ++ (ps.flatMap (exportPixel info comps) ++ rest)).drop
          (comps.length * sampleBytes info.depth) = ps.flatMap (exportPixel info comps) ++ rest := by
        rw [← exportPixel_length info comps p]
        exact List.drop_left _ _
      rw [hd, ih qs rest hl hps]

theorem virtualPixel_zero_cons (q : PixelPacket) (qs : List PixelPacket) (i : Nat) :
    virtualPixel (q :: qs) ((i : Int) + 1) = virtualPixel qs (i : Int) := by
  unfold virtualPixel
  have h1 : (0 : Int) ≤ (i : Int) + 1 := by omega
  have h2 : (0 : Int) ≤ (i : Int) := by omega
  have e : ((i : Int) + 1).toNat = i + 1 := by omega
  by_cases h : i < qs.length
  · have h3 : ((i : Int) + 1 < ((q :: qs).length : Int)) := by simp; omega
    have h4 : ((i : Int) < (qs.length : Int)) := by omega
    simp [h1, h2, h3, h4, e]
  · have h3 : ¬ ((i : Int) + 1 < ((q :: qs).length : Int)) := by simp; omega
    have h4 : ¬ ((i : Int) < (qs.length : Int)) := by omega
    simp [h1, h2, h3, h4]

theorem GetVirtualPixels_full (canvas : List PixelPacket) :
    GetVirtualPixels canvas 0 canvas.length = canvas := by
  unfold GetVirtualPixels
  induction canvas with
  | nil => simp
  | cons q qs ih =>
    rw [List.length_cons, List.range_succ_eq_map, List.map_cons, List.map_map]
    have h0 : virtualPixel (q :: qs) (0 + ((0 : Nat) : Int)) = q := by
      simp [virtualPixel]
    rw [h0]
    congr 1
    refine Eq.trans ?_ ih
    apply List.map_congr_left
    intro i _
    simp only [Function.comp, Nat.succ_eq_add_one]
    have := virtualPixel_zero_cons q qs i
    simpa using this

theorem copyPixels_eq_zipWith (depth : Nat) (chans : List Component) :
    ∀ (p q : List PixelPacket), q.length ≤ p.length →
      copyPixels depth chans p q = List.zipWith (copyComponents depth chans) p q := by
  intro p
  induction p with
  | nil =>
    intro q h
    cases q with
    | nil => simp [copyPixels]
    | cons _ _ => simp at h
  | cons a as ih =>
    intro q h
    cases q with
    | nil => simp [copyPixels]
    | cons b bs =>
      simp only [copyPixels, List.zipWith_cons_cons]
      rw [ih bs (by simpa using h)]

theorem lineChannelsState_status (info : ImageInfo) (L y : Nat) (qts : List QuantumType)
    (D : List Nat) (s0 : ReadState) : (lineChannelsState info L y qts D s0).status = s0.status := by
  induction qts generalizing D s0 with
  | nil => rfl
  | cons qt qts ih => simp only [lineChannelsState]; rw [ih, ImportRow_status]

theorem lineRowsState_status (info : ImageInfo) (L : Nat) (qts : List QuantumType) (n y : Nat)
    (D : List Nat) (s0 : ReadState) : (lineRowsState info L qts n y D s0).status = s0.status := by
  induction n generalizing y D s0 with
  | zero => rfl
  | succ n ih => simp only [lineRowsState]; rw [ih, lineChannelsState_status]

theorem ReadBlobStream_ImportRow_primed_plain (info : ImageInfo) (qt : QuantumType)
    (chans : List Component) (y : Nat) (s0 : ReadState) (D : List Nat) (L base : Nat)
    (hL : L = GetQuantumExtent info info.extract_info.width qt) (hD : L ≤ D.length) :
    ReadBlobStream (ImportRow info qt chans y (primed s0 D L base)) =
      primed (ImportRow info qt chans y { s0 with stream := D.take L }) (D.drop L) L (base + L) := by
  unfold ImportRow
  simp only [primed, ← hL]
  split <;> simp [ReadBlobStream, Nat.min_eq_left hD, Nat.add_assoc]

theorem ReadLineChannels_primed (info : ImageInfo) (y L : Nat) :
    ∀ (qts : List QuantumType) (D : List Nat) (s0 : ReadState) (base : Nat),
      (∀ qt ∈ qts, L = GetQuantumExtent info info.extract_info.width qt) →
      qts.length * L ≤ D.length →
      ReadLineChannels info y qts (primed s0 D L base) =
        primed (lineChannelsState info L y qts D s0) (D.drop (qts.length * L)) L
          (base + qts.length * L) := by
  intro qts
  induction qts with
  | nil => intro D s0 base _ _; simp [ReadLineChannels, lineChannelsState]
  | cons qt qts ih =>
    intro D s0 base hL hD
    have hLD : L ≤ D.length := by
      have : L ≤ (qts.length + 1) * L := Nat.le_mul_of_pos_left L (Nat.succ_pos _)
      simp only [List.length_cons] at hD
      omega
    have hcount : (primed s0 D L base).count = (primed s0 D L base).length := by
      simp [primed, Nat.min_eq_left hLD]
    have hD' : qts.length * L ≤ (D.drop L).length := by
      rw [List.length_drop]
      simp only [List.length_cons, Nat.succ_mul] at hD
      omega
    rw [ReadLineChannels]
    simp only [hcount, ne_eq, not_true_eq_false, if_false]
    rw [ReadBlobStream_ImportRow_primed_plain info qt _ y s0 D L base
      (hL qt (List.mem_cons_self _ _)) hLD]
    rw [ih _ _ _ (fun q hq => hL q (List.mem_cons_of_mem _ hq)) hD']
    exact primed_congr rfl (by rw [List.drop_drop, List.length_cons, Nat.succ_mul, Nat.add_comm])
      (by rw [List.length_cons, Nat.succ_mul]; omega)

theorem primed_status (s0 : ReadState) (D : List Nat) (L base : Nat) (st : Bool) :
    { primed s0 D L base with status := st } = primed { s0 with status := st } D L base := rfl

theorem FlatLineRows_primed (info : ImageInfo) (first : Bool) (L : Nat)
    (hmon : ∀ o e, info.progress o e = true)
    (hL : ∀ qt ∈ info.lineTypes, L = GetQuantumExtent info info.extract_info.width qt) :
    ∀ (n y : Nat) (D : List Nat) (s0 : ReadState) (base : Nat),
      s0.status = true →
      n * (info.lineTypes.length * L) ≤ D.length →
      FlatLineRows info first n y (primed s0 D L base) =
        primed (lineRowsState info L info.lineTypes n y D s0)
          (D.drop (n * (info.lineTypes.length * L))) L
          (base + n * (info.lineTypes.length * L)) := by
  intro n
  induction n with
  | zero => intro y D s0 base _ _; simp [FlatLineRows, lineRowsState]
  | succ n ih =>
    intro y D s0 base hst hD
    have hrow : info.lineTypes.length * L ≤ D.length := by
      rw [Nat.succ_mul] at hD; omega
    have hD' : n * (info.lineTypes.length * L) ≤ (D.drop (info.lineTypes.length * L)).length := by
      rw [List.length_drop]; rw [Nat.succ_mul] at hD; omega
    have hst' : (lineChannelsState info L y info.lineTypes D s0).status = true := by
      rw [lineChannelsState_status]; exact hst
    have hsame : { lineChannelsState info L y info.lineTypes D s0 with status := true } =
        lineChannelsState info L y info.lineTypes D s0 := by
      cases h : lineChannelsState info L y info.lineTypes D s0
      rw [h] at hst'
      simp at hst'
      simp [hst']
    rw [FlatLineRows]
    simp only [hmon, if_true]
    rw [ReadLineChannels_primed info y L _ D s0 base hL hrow, primed_status, hsame]
    rw [ih _ _ _ _ hst' hD']
    simp only [ite_self]
    exact primed_congr rfl (by rw [List.drop_drop, Nat.succ_mul, Nat.add_comm])
      (by rw [Nat.succ_mul]; omega)

theorem status_true_eq (s : ReadState) (h : s.status = true) : { s with status := true } = s := by
  cases s
  simp at h
  simp [h]

theorem primed_status_eq (s0 : ReadState) (D : List Nat) (L base : Nat) :
    (primed s0 D L base).status = s0.status := rfl

theorem ReadBlobStream_length (s : ReadState) (D : List Nat) (L : Nat) (h : s.blob = some D) :
    ReadBlobStream { s with length := L } = primed s D L s.nread := by
  simp [ReadBlobStream, primed, h]

theorem extent_single (info : ImageInfo) (W : Nat) (qt : QuantumType)
    (h : qt.components.length = 1) :
    GetQuantumExtent info W qt = W * sampleBytes info.depth := by
  simp [GetQuantumExtent, h]

theorem lineTypes_length (info : ImageInfo) : info.lineTypes.length = info.channels := by
  unfold ImageInfo.lineTypes ImageInfo.channels quantum_types
  cases info.matte <;> rfl

theorem lineTypes_extent (info : ImageInfo) :
    ∀ qt ∈ info.lineTypes,
      GetQuantumExtent info info.extract_info.width QuantumType.RedQuantum =
        GetQuantumExtent info info.extract_info.width qt := by
  intro qt hq
  unfold ImageInfo.lineTypes quantum_types at hq
  cases hm : info.matte
  · simp [hm] at hq
    rcases hq with h | h | h <;> subst h <;> rfl
  · simp [hm] at hq
    rcases hq with h | h | h | h <;> subst h <;> rfl

theorem quantum_type_length (info : ImageInfo) :
    info.quantum_type.components.length = info.channels := by
  unfold ImageInfo.quantum_type ImageInfo.channels
  cases info.matte <;> rfl

theorem frameLength_no (info : ImageInfo) :
    frameLength info =
      info.extract_info.height * GetQuantumExtent info info.extract_info.width info.quantum_type := by
  simp [frameLength, GetQuantumExtent, quantum_type_length, Nat.mul_assoc]

theorem frameLength_line (info : ImageInfo) :
    frameLength info =
      info.extract_info.height *
        (info.lineTypes.length *
          GetQuantumExtent info info.extract_info.width QuantumType.RedQuantum) := by
  simp [frameLength, lineTypes_length, extent_single, QuantumType.components]

theorem FlatNoInterlace_primed (info : ImageInfo) (first : Bool)
    (hmon : ∀ o e, info.progress o e = true) (hi : info.interlace = .NoInterlace)
    (scene : Nat) (D : List Nat) (s0 : ReadState) (base : Nat) (hst : s0.status = true)
    (hD : frameLength info ≤ D.length) (hF : chunkLength info ≤ frameLength info) :
    FlatNoInterlace info first scene
        (if scene = 0 then { s0 with blob := some D, nread := base }
         else primed s0 D (chunkLength info) base) =
      primed (frameState info D s0) (D.drop (frameLength info)) (chunkLength info)
        (base + frameLength info) := by
  have hL : chunkLength info = GetQuantumExtent info info.extract_info.width info.quantum_type := by
    simp [chunkLength, hi]
  have hrows := ReadRows_primed info info.quantum_type info.packetChannels first (chunkLength info)
    hL hmon info.extract_info.height 0 D s0 base hst (by rw [hL, ← frameLength_no]; exact hD)
  have hcount : (primed s0 D (chunkLength info) base).count =
      (primed s0 D (chunkLength info) base).length := by
    simp only [primed]; exact Nat.min_eq_left (by omega)
  unfold FlatNoInterlace
  by_cases hs : scene = 0
  · simp only [hs, if_true, ← hL]
    rw [show ({ ({ s0 with blob := some D, nread := base } : ReadState) with
          length := chunkLength info } : ReadState) =
        { ({ s0 with blob := some D, nread := base } : ReadState) with length := chunkLength info }
        from rfl]
    rw [ReadBlobStream_length _ D _ rfl]
    have e : primed ({ s0 with blob := some D, nread := base } : ReadState) D (chunkLength info)
        ({ s0 with blob := some D, nread := base } : ReadState).nread =
        primed s0 D (chunkLength info) base := rfl
    rw [e]
    simp only [hcount, ne_eq, not_true_eq_false, and_false, if_false]
    rw [hrows]
    simp only [frameState, hi]
    exact primed_congr rfl (by rw [frameLength_no, hL]) (by rw [frameLength_no, hL])
  · simp only [hs, if_false, false_and]
    rw [hrows]
    simp only [frameState, hi]
    exact primed_congr rfl (by rw [frameLength_no, hL]) (by rw [frameLength_no, hL])

theorem entry_read (_info : ImageInfo) (scene : Nat) (D : List Nat) (s0 : ReadState) (base L : Nat) :
    (if scene = 0 then
        ReadBlobStream { (if scene = 0 then ({ s0 with blob := some D, nread := base } : ReadState)
          else primed s0 D L base) with length := L }
      else (if scene = 0 then ({ s0 with blob := some D, nread := base } : ReadState)
          else primed s0 D L base)) = primed s0 D L base := by
  by_cases hs : scene = 0
  · simp [hs, ReadBlobStream, primed]
  · simp only [hs, if_false]

theorem drop_drop_add (D : List Nat) (a b : Nat) : (D.drop a).drop b = D.drop (a + b) := by
  rw [List.drop_drop, Nat.add_comm]

theorem FlatLineInterlace_primed (info : ImageInfo) (first : Bool)
    (hmon : ∀ o e, info.progress o e = true) (hi : info.interlace = .LineInterlace)
    (scene : Nat) (D : List Nat) (s0 : ReadState) (base : Nat) (hst : s0.status = true)
    (hD : frameLength info ≤ D.length) :
    FlatLineInterlace info first scene
        (if scene = 0 then { s0 with blob := some D, nread := base }
         else primed s0 D (chunkLength info) base) =
      primed (frameState info D s0) (D.drop (frameLength info)) (chunkLength info)
        (base + frameLength info) := by
  have hL : chunkLength info =
      GetQuantumExtent info info.extract_info.width QuantumType.RedQuantum := by
    simp [chunkLength, hi]
  have hrows := FlatLineRows_primed info first (chunkLength info) hmon
    (by intro qt hq; rw [hL]; exact lineTypes_extent info qt hq)
    info.extract_info.height 0 D s0 base hst (by rw [hL, ← frameLength_line]; exact hD)
  unfold FlatLineInterlace
  simp only [← hL]
  rw [entry_read info scene D s0 base (chunkLength info), hrows]
  simp only [frameState, hi]
  exact primed_congr rfl (by rw [frameLength_line, hL]) (by rw [frameLength_line, hL])

theorem PlaneProgress_true (info : ImageInfo) (first : Bool) (k : Nat) (s : ReadState)
    (hmon : ∀ o e, info.progress o e = true) (hst : s.status = true) :
    PlaneProgress info first k s = (s, false) := by
  unfold PlaneProgress
  cases first
  · simp
  · simp [hmon, status_true_eq s hst]

theorem frameLength_plane (info : ImageInfo) :
    frameLength info =
      info.channels * (info.extract_info.height *
        GetQuantumExtent info info.extract_info.width QuantumType.RedQuantum) := by
  simp only [frameLength, extent_single, QuantumType.components, List.length_singleton]
  rw [Nat.mul_left_comm]

theorem FlatPlaneInterlace_primed (info : ImageInfo) (first : Bool)
    (hmon : ∀ o e, info.progress o e = true) (hi : info.interlace = .PlaneInterlace)
    (scene : Nat) (D : List Nat) (s0 : ReadState) (base : Nat) (hst : s0.status = true)
    (hD : frameLength info ≤ D.length) :
    FlatPlaneInterlace info first scene
        (if scene = 0 then { s0 with blob := some D, nread := base }
         else primed s0 D (chunkLength info) base) =
      primed (frameState info D s0) (D.drop (frameLength info)) (chunkLength info)
        (base + frameLength info) := by
  have hL : chunkLength info =
      GetQuantumExtent info info.extract_info.width QuantumType.RedQuantum := by
    simp [chunkLength, hi]
  have hLg : chunkLength info =
      GetQuantumExtent info info.extract_info.width QuantumType.GreenQuantum := hL
  have hLb : chunkLength info =
      GetQuantumExtent info info.extract_info.width QuantumType.BlueQuantum := hL
  have hLa : chunkLength info =
      GetQuantumExtent info info.extract_info.width QuantumType.AlphaQuantum := hL
  have hF := frameLength_plane info
  rw [← hL] at hF
  generalize hLdef : chunkLength info = L at hL hLg hLb hLa hF ⊢
  generalize hh : info.extract_info.height * L = P at hF
  have hch : 3 ≤ info.channels := by unfold ImageInfo.channels; split <;> omega
  have h3 : P + P + P ≤ D.length := by
    have : 3 * P ≤ info.channels * P := Nat.mul_le_mul_right _ hch
    omega
  have r1 := ReadRows_primed info .RedQuantum [.red] false L hL hmon info.extract_info.height 0 D s0
    base hst (by omega)
  have st1 : (rowsState info .RedQuantum [.red] L info.extract_info.height 0 D s0).status = true := by
    rw [rowsState_status]; exact hst
  have r2 := ReadRows_primed info .GreenQuantum [.green] false L hLg hmon info.extract_info.height 0
    (D.drop P) _ (base + P) st1 (by rw [List.length_drop]; omega)
  have st2 : (rowsState info .GreenQuantum [.green] L info.extract_info.height 0 (D.drop P)
      (rowsState info .RedQuantum [.red] L info.extract_info.height 0 D s0)).status = true := by
    rw [rowsState_status]; exact st1
  have r3 := ReadRows_primed info .BlueQuantum [.blue] false L hLb hmon info.extract_info.height 0
    (D.drop (P + P)) _ (base + P + P) st2 (by rw [List.length_drop]; omega)
  have st3 : (rowsState info .BlueQuantum [.blue] L info.extract_info.height 0 (D.drop (P + P))
      (rowsState info .GreenQuantum [.green] L info.extract_info.height 0 (D.drop P)
        (rowsState info .RedQuantum [.red] L info.extract_info.height 0 D s0))).status = true := by
    rw [rowsState_status]; exact st2
  rw [hh] at r1 r2 r3
  rw [drop_drop_add] at r2 r3
  unfold FlatPlaneInterlace
  simp only [← hL]
  rw [entry_read info scene D s0 base L, r1]
  rw [PlaneProgress_true info first 1 _ hmon (by rw [primed_status_eq]; exact st1)]
  simp only [Bool.false_eq_true, if_false]
  rw [r2, PlaneProgress_true info first 2 _ hmon (by rw [primed_status_eq]; exact st2)]
  simp only [Bool.false_eq_true, if_false]
  rw [r3, PlaneProgress_true info first 3 _ hmon (by rw [primed_status_eq]; exact st3)]
  simp only [Bool.false_eq_true, if_false]
  cases hm : info.matte
  · simp only [Bool.false_eq_true, if_false]
    rw [PlaneProgress_true info first 5 _ hmon (by rw [primed_status_eq]; exact st3)]
    have hc : info.channels = 3 := by simp [ImageInfo.channels, hm]
    have e3 : P + P + P = frameLength info := by rw [hF, hc]; omega
    simp only [frameState, hi, planesState, hm, Bool.false_eq_true, if_false, ← hL, hLdef, hh]
    exact primed_congr rfl (by rw [e3]) (by rw [← e3]; omega)
  · have hc : info.channels = 4 := by simp [ImageInfo.channels, hm]
    have e4 : P + P + P + P = frameLength info := by rw [hF, hc]; omega
    have r4 := ReadRows_primed info .AlphaQuantum [.opacity] false L hLa hmon
      info.extract_info.height 0 (D.drop (P + P + P)) _ (base + P + P + P) st3
      (by rw [List.length_drop]; omega)
    have st4 : (rowsState info .AlphaQuantum [.opacity] L info.extract_info.height 0
        (D.drop (P + P + P))
        (rowsState info .BlueQuantum [.blue] L info.extract_info.height 0 (D.drop (P + P))
          (rowsState info .GreenQuantum [.green] L info.extract_info.height 0 (D.drop P)
            (rowsState info .RedQuantum [.red] L info.extract_info.height 0 D s0)))).status =
        true := by
      rw [rowsState_status]; exact st3
    rw [hh, drop_drop_add] at r4
    simp only [if_true]
    rw [r4, PlaneProgress_true info first 4 _ hmon (by rw [primed_status_eq]; exact st4)]
    simp only [Bool.false_eq_true, if_false]
    rw [PlaneProgress_true info first 5 _ hmon (by rw [primed_status_eq]; exact st4)]
    simp only [frameState, hi, planesState, hm, if_true, ← hL, hLdef, hh]
    exact primed_congr rfl (by rw [e4]) (by rw [← e4]; omega)

theorem ImportRow_exception (info : ImageInfo) (qt : QuantumType) (chans : List Component) (y : Nat)
    (s : ReadState) : (ImportRow info qt chans y s).exception = s.exception := by
  unfold ImportRow; simp only; split <;> rfl

theorem ImportRow_opens (info : ImageInfo) (qt : QuantumType) (chans : List Component) (y : Nat)
    (s : ReadState) : (ImportRow info qt chans y s).opens = s.opens := by
  unfold ImportRow; simp only; split <;> rfl

theorem rowsState_exception (info : ImageInfo) (qt : QuantumType) (chans : List Component) (L : Nat)
    (n y : Nat) (D : List Nat) (s0 : ReadState) :
    (rowsState info qt chans L n y D s0).exception = s0.exception := by
  induction n generalizing y D s0 with
  | zero => rfl
  | succ n ih => simp only [rowsState]; rw [ih, ImportRow_exception]

theorem rowsState_opens (info : ImageInfo) (qt : QuantumType) (chans : List Component) (L : Nat)
    (n y : Nat) (D : List Nat) (s0 : ReadState) :
    (rowsState info qt chans L n y D s0).opens = s0.opens := by
  induction n generalizing y D s0 with
  | zero => rfl
  | succ n ih => simp only [rowsState]; rw [ih, ImportRow_opens]

theorem lineChannelsState_exception (info : ImageInfo) (L y : Nat) (qts : List QuantumType)
    (D : List Nat) (s0 : ReadState) :
    (lineChannelsState info L y qts D s0).exception = s0.exception := by
  induction qts generalizing D s0 with
  | nil => rfl
  | cons qt qts ih => simp only [lineChannelsState]; rw [ih, ImportRow_exception]

theorem lineChannelsState_opens (info : ImageInfo) (L y : Nat) (qts : List QuantumType)
    (D : List Nat) (s0 : ReadState) : (lineChannelsState info L y qts D s0).opens = s0.opens := by
  induction qts generalizing D s0 with
  | nil => rfl
  | cons qt qts ih => simp only [lineChannelsState]; rw [ih, ImportRow_opens]

theorem lineRowsState_exception (info : ImageInfo) (L : Nat) (qts : List QuantumType) (n y : Nat)
    (D : List Nat) (s0 : ReadState) :
    (lineRowsState info L qts n y D s0).exception = s0.exception := by
  induction n generalizing y D s0 with
  | zero => rfl
  | succ n ih => simp only [lineRowsState]; rw [ih, lineChannelsState_exception]

theorem lineRowsState_opens (info : ImageInfo) (L : Nat) (qts : List QuantumType) (n y : Nat)
    (D : List Nat) (s0 : ReadState) : (lineRowsState info L qts n y D s0).opens = s0.opens := by
  induction n generalizing y D s0 with
  | zero => rfl
  | succ n ih => simp only [lineRowsState]; rw [ih, lineChannelsState_opens]

theorem frameState_status (info : ImageInfo) (D : List Nat) (s0 : ReadState) :
    (frameState info D s0).status = s0.status := by
  unfold frameState planesState
  cases info.interlace <;> simp only [rowsState_status, lineRowsState_status] <;>
    split <;> simp only [rowsState_status]

theorem frameState_exception (info : ImageInfo) (D : List Nat) (s0 : ReadState) :
    (frameState info D s0).exception = s0.exception := by
  unfold frameState planesState
  cases info.interlace <;> simp only [rowsState_exception, lineRowsState_exception] <;>
    split <;> simp only [rowsState_exception]

theorem frameState_opens (info : ImageInfo) (D : List Nat) (s0 : ReadState) :
    (frameState info D s0).opens = s0.opens := by
  unfold frameState planesState
  cases info.interlace <;> simp only [rowsState_opens, lineRowsState_opens] <;>
    split <;> simp only [rowsState_opens]

theorem FlatFrame_primed (info : ImageInfo) (files : BlobName → Option (List Nat)) (first : Bool)
    (hmon : ∀ o e, info.progress o e = true)
    (hi : info.interlace ≠ .PartitionInterlace)
    (scene : Nat) (D : List Nat) (s0 : ReadState) (base : Nat) (hst : s0.status = true)
    (hD : frameLength info ≤ D.length) (hF : chunkLength info ≤ frameLength info) :
    FlatFrame info files first scene
        (if scene = 0 then { s0 with blob := some D, nread := base }
         else primed s0 D (chunkLength info) base) =
      primed (frameState info D s0) (D.drop (frameLength info)) (chunkLength info)
        (base + frameLength info) := by
  unfold FlatFrame
  cases h : info.interlace with
  | NoInterlace => exact FlatNoInterlace_primed info first hmon h scene D s0 base hst hD hF
  | LineInterlace => exact FlatLineInterlace_primed info first hmon h scene D s0 base hst hD
  | PlaneInterlace => exact FlatPlaneInterlace_primed info first hmon h scene D s0 base hst hD
  | PartitionInterlace => exact absurd h hi

theorem FlatScenes_step (info : ImageInfo) (files : BlobName → Option (List Nat))
    (hmon : ∀ o e, info.progress o e = true) (hping : info.ping = false)
    (fuel : Nat) (previous : List (List (List PixelPacket))) (image_scene scene : Nat)
    (s s1 : ReadState) (h1 : FlatFrame info files previous.isEmpty scene s = s1)
    (hst : s1.status = true) (hlast : lastScene info image_scene = false)
    (hcount : s1.count = s1.length) :
    FlatScenes info files (fuel + 1) previous image_scene scene s =
      FlatScenes info files fuel (previous ++ [s1.pixels]) (image_scene + 1) (scene + 1)
        { s1 with pixels := blankImage info.columns info.rows, status := true } := by
  rw [FlatScenes]
  simp only [hping, Bool.false_eq_true, false_and, if_false, h1, hst, Bool.true_eq_false, hlast,
    hcount, if_true, hmon]

theorem FlatScenes_stop (info : ImageInfo) (files : BlobName → Option (List Nat))
    (hping : info.ping = false)
    (fuel : Nat) (previous : List (List (List PixelPacket))) (image_scene scene : Nat)
    (s s1 : ReadState) (h1 : FlatFrame info files previous.isEmpty scene s = s1)
    (hstop : s1.status = false ∨ lastScene info image_scene = true ∨ s1.count ≠ s1.length) :
    FlatScenes info files (fuel + 1) previous image_scene scene s =
      some (finishRead previous s1) := by
  rw [FlatScenes]
  simp only [hping, Bool.false_eq_true, false_and, if_false, h1]
  rcases hstop with h | h | h
  · simp only [h, if_true]
  · simp only [h, if_true, ite_self]
  · simp only [h, if_false, ite_self]

theorem FlatScenes_frames (info : ImageInfo) (files : BlobName → Option (List Nat))
    (hmon : ∀ o e, info.progress o e = true)
    (hi : info.interlace ≠ .PartitionInterlace) (hping : info.ping = false)
    (hL : 1 ≤ chunkLength info) (hF : chunkLength info ≤ frameLength info) :
    ∀ (n fuel : Nat) (previous : List (List (List PixelPacket))) (image_scene scene : Nat)
      (D : List Nat) (s0 : ReadState) (base : Nat),
      s0.status = true → (n + 1) * frameLength info ≤ D.length → n + 1 ≤ fuel →
      (∀ j < n, lastScene info (image_scene + j) = false) →
      (lastScene info (image_scene + n) = true ∨
        D.length - (n + 1) * frameLength info < chunkLength info) →
      FlatScenes info files fuel previous image_scene scene
          (if scene = 0 then { s0 with blob := some D, nread := base }
           else primed s0 D (chunkLength info) base) =
        some
          { images := previous ++ scenesImages info (n + 1) D s0
            exception := s0.exception
            opens := s0.opens
            nread := base + (n + 1) * frameLength info +
              min (chunkLength info) (D.length - (n + 1) * frameLength info) } := by
  intro n
  induction n with
  | zero =>
    intro fuel previous image_scene scene D s0 base hst hD hfuel _ hstop
    obtain ⟨fuel, rfl⟩ : ∃ f, fuel = f + 1 := ⟨fuel - 1, by omega⟩
    simp only [Nat.zero_add, Nat.one_mul] at hD hstop ⊢
    have hfr := FlatFrame_primed info files previous.isEmpty hmon hi scene D s0 base hst hD hF
    have hst1 : (primed (frameState info D s0) (D.drop (frameLength info)) (chunkLength info)
        (base + frameLength info)).status = true := by
      rw [primed_status_eq, frameState_status]; exact hst
    rw [FlatScenes_stop info files hping fuel previous image_scene scene _ _ hfr]
    · simp only [finishRead, hst1, if_true, scenesImages]
      simp [primed, frameState_exception, frameState_opens]
    · rcases hstop with hlast | hshort
      · right; left; simpa using hlast
      · right; right
        simp only [primed, List.length_drop]
        omega
  | succ n ih =>
    intro fuel previous image_scene scene D s0 base hst hD hfuel hnot hstop
    obtain ⟨fuel, rfl⟩ : ∃ f, fuel = f + 1 := ⟨fuel - 1, by omega⟩
    have hsucc : (n + 1 + 1) * frameLength info = (n + 1) * frameLength info + frameLength info :=
      Nat.succ_mul _ _
    have hFD : frameLength info ≤ D.length := by omega
    have hD' : (n + 1) * frameLength info ≤ (D.drop (frameLength info)).length := by
      rw [List.length_drop]; omega
    have hfr := FlatFrame_primed info files previous.isEmpty hmon hi scene D s0 base hst hFD hF
    have hst0 : (frameState info D s0).status = true := by
      rw [frameState_status]; exact hst
    have hst1 : (primed (frameState info D s0) (D.drop (frameLength info)) (chunkLength info)
        (base + frameLength info)).status = true := by
      rw [primed_status_eq]; exact hst0
    have hlast : lastScene info image_scene = false := by
      have := hnot 0 (Nat.succ_pos n)
      simpa using this
    have hcount : (primed (frameState info D s0) (D.drop (frameLength info)) (chunkLength info)
        (base + frameLength info)).count =
        (primed (frameState info D s0) (D.drop (frameLength info)) (chunkLength info)
        (base + frameLength info)).length := by
      simp only [primed]
      apply Nat.min_eq_left
      have : frameLength info ≤ (n + 1) * frameLength info :=
        Nat.le_mul_of_pos_left _ (Nat.succ_pos _)
      omega
    rw [FlatScenes_step info files hmon hping fuel previous image_scene scene _ _ hfr hst1 hlast
      hcount]
    have hs2 : ({ primed (frameState info D s0) (D.drop (frameLength info)) (chunkLength info)
          (base + frameLength info) with
          pixels := blankImage info.columns info.rows, status := true } : ReadState) =
        (if scene + 1 = 0 then
          { ({ frameState info D s0 with pixels := blankImage info.columns info.rows } : ReadState)
            with blob := some (D.drop (frameLength info)), nread := base + frameLength info }
         else primed { frameState info D s0 with pixels := blankImage info.columns info.rows }
            (D.drop (frameLength info)) (chunkLength info) (base + frameLength info)) := by
      simp only [Nat.succ_ne_zero, if_false]
      simp [primed, hst0]
    rw [hs2]
    rw [ih fuel _ (image_scene + 1) (scene + 1) (D.drop (frameLength info))
      ({ frameState info D s0 with pixels := blankImage info.columns info.rows } : ReadState)
      (base + frameLength info) hst0 hD' (by omega)
      (by intro j hj; have := hnot (j + 1) (by omega); rwa [Nat.add_assoc, Nat.add_comm 1 j])
      (by
        rcases hstop with h | h
        · left; rwa [Nat.add_assoc, Nat.add_comm 1 n]
        · right; rw [List.length_drop]; omega)]
    simp only [scenesImages, List.append_assoc, List.singleton_append, frameState_exception,
      frameState_opens, List.length_drop]
    congr 2
    omega

theorem appendTo_appendTo (s : WriteState) (name : BlobName) (a b : List Nat)
    (l c w l' c' w' : Nat) :
    appendTo (appendTo s name a l c w) name b l' c' w' = appendTo s name (a ++ b) l' c' w' := by
  simp [appendTo, List.append_assoc]

theorem appendTo_nil (s : WriteState) (name : BlobName) :
    appendTo s name [] s.length s.count s.writes = s := by
  simp [appendTo]

theorem WriteBlob_ok (data : List Nat) (s : WriteState) (name : BlobName)
    (hb : s.blob = some name) (hr : s.room = none) :
    WriteBlob data s = appendTo s name data data.length data.length (s.writes + 1) := by
  simp [WriteBlob, hb, hr, appendTo]

theorem wstatus_true_eq (s : WriteState) (h : s.status = true) : { s with status := true } = s := by
  cases s
  simp at h
  simp [h]

theorem WriteRows_cons (info : ImageInfo) (qt : QuantumType) (mon : Bool) (rows : Nat)
    (hmon : ∀ o e, info.progress o e = true) (p : List PixelPacket) (ps : List (List PixelPacket))
    (y : Nat) (s s1 : WriteState) (h1 : WriteBlob (ExportQuantumPixels info qt p) s = s1)
    (hc : s1.count = s1.length) (hst : s1.status = true) :
    WriteRows info qt mon rows (p :: ps) y s = WriteRows info qt mon rows ps (y + 1) s1 := by
  rw [WriteRows]
  simp only [h1]
  rw [if_neg (fun h => h hc)]
  simp only [hmon, if_true, wstatus_true_eq s1 hst, ite_self]

theorem WriteRows_ok (info : ImageInfo) (qt : QuantumType) (mon : Bool) (rows : Nat)
    (name : BlobName) (hmon : ∀ o e, info.progress o e = true) :
    ∀ (ps : List (List PixelPacket)) (y : Nat) (s : WriteState),
      s.blob = some name → s.room = none → s.status = true →
      ∃ l c, WriteRows info qt mon rows ps y s =
        appendTo s name (ps.flatMap (ExportQuantumPixels info qt)) l c (s.writes + ps.length) := by
  intro ps
  induction ps with
  | nil =>
    intro y s _ _ _
    exact ⟨s.length, s.count, by simp [WriteRows, appendTo]⟩
  | cons p ps ih =>
    intro y s hb hr hst
    have hw := WriteBlob_ok (ExportQuantumPixels info qt p) s name hb hr
    obtain ⟨l, c, h⟩ := ih (y + 1) (appendTo s name (ExportQuantumPixels info qt p)
      (ExportQuantumPixels info qt p).length (ExportQuantumPixels info qt p).length (s.writes + 1))
      hb hr hst
    refine ⟨l, c, ?_⟩
    rw [WriteRows_cons info qt mon rows hmon p ps y s _ hw rfl hst, h, appendTo_appendTo]
    simp [appendTo, Nat.add_assoc, Nat.add_comm 1]

theorem WriteLineChannels_ok (info : ImageInfo) (p : List PixelPacket) (name : BlobName) :
    ∀ (qts : List QuantumType) (s : WriteState),
      s.blob = some name → s.room = none →
      ∃ l c, WriteLineChannels info p qts s =
        (appendTo s name (qts.flatMap (fun qt => ExportQuantumPixels info qt p)) l c
          (s.writes + qts.length), false) := by
  intro qts
  induction qts with
  | nil => intro s _ _; exact ⟨s.length, s.count, by simp [WriteLineChannels, appendTo]⟩
  | cons qt qts ih =>
    intro s hb hr
    have hw := WriteBlob_ok (ExportQuantumPixels info qt p) s name hb hr
    obtain ⟨l, c, h⟩ := ih (appendTo s name (ExportQuantumPixels info qt p)
      (ExportQuantumPixels info qt p).length (ExportQuantumPixels info qt p).length (s.writes + 1))
      hb hr
    refine ⟨l, c, ?_⟩
    have hcl : (appendTo s name (ExportQuantumPixels info qt p)
      (ExportQuantumPixels info qt p).length (ExportQuantumPixels info qt p).length
      (s.writes + 1)).count = (appendTo s name (ExportQuantumPixels info qt p)
      (ExportQuantumPixels info qt p).length (ExportQuantumPixels info qt p).length
      (s.writes + 1)).length := rfl
    rw [WriteLineChannels]
    simp only [hw, hcl, ne_eq, not_true_eq_false, if_false]
    rw [h, appendTo_appendTo]
    simp [appendTo, Nat.add_assoc, Nat.add_comm 1]

theorem WriteLineRows_cons (info : ImageInfo) (first : Bool) (rows : Nat)
    (hmon : ∀ o e, info.progress o e = true) (p : List PixelPacket) (ps : List (List PixelPacket))
    (y : Nat) (s s1 : WriteState) (h1 : WriteLineChannels info p (lineExports info) s = (s1, false))
    (hst : s1.status = true) :
    WriteLineRows info first rows (p :: ps) y s = WriteLineRows info first rows ps (y + 1) s1 := by
  rw [WriteLineRows]
  simp only [h1, Bool.false_eq_true, if_false, hmon, if_true, wstatus_true_eq s1 hst, ite_self]

theorem WriteLineRows_ok (info : ImageInfo) (first : Bool) (rows : Nat)
    (name : BlobName) (hmon : ∀ o e, info.progress o e = true) :
    ∀ (ps : List (List PixelPacket)) (y : Nat) (s : WriteState),
      s.blob = some name → s.room = none → s.status = true →
      ∃ l c, WriteLineRows info first rows ps y s =
        appendTo s name
          (ps.flatMap (fun p => (lineExports info).flatMap (fun qt => ExportQuantumPixels info qt p)))
          l c (s.writes + ps.length * (lineExports info).length) := by
  intro ps
  induction ps with
  | nil =>
    intro y s _ _ _
    exact ⟨s.length, s.count, by simp [WriteLineRows, appendTo]⟩
  | cons p ps ih =>
    intro y s hb hr hst
    obtain ⟨l1, c1, h1⟩ := WriteLineChannels_ok info p name (lineExports info) s hb hr
    obtain ⟨l, c, h⟩ := ih (y + 1) (appendTo s name
      ((lineExports info).flatMap (fun qt => ExportQuantumPixels info qt p)) l1 c1
      (s.writes + (lineExports info).length)) hb hr hst
    refine ⟨l, c, ?_⟩
    rw [WriteLineRows_cons info first rows hmon p ps y s _ h1 hst, h, appendTo_appendTo]
    simp [appendTo, Nat.add_assoc, Nat.succ_mul, Nat.add_comm (lineExports info).length]

theorem WriteProgress_true (info : ImageInfo) (first : Bool) (k : Nat) (s : WriteState)
    (hmon : ∀ o e, info.progress o e = true) (hst : s.status = true) :
    WriteProgress info first k s = (s, false) := by
  unfold WriteProgress
  cases first
  · simp
  · simp [hmon, wstatus_true_eq s hst]

theorem WriteProgress_appendTo (info : ImageInfo) (first : Bool) (k : Nat) (s : WriteState)
    (name : BlobName) (bytes : List Nat) (l c w : Nat)
    (hmon : ∀ o e, info.progress o e = true) (hst : s.status = true) :
    WriteProgress info first k (appendTo s name bytes l c w) =
      (appendTo s name bytes l c w, false) :=
  WriteProgress_true info first k _ hmon hst

theorem WriteRows_appendTo (info : ImageInfo) (qt : QuantumType) (mon : Bool) (rows : Nat)
    (name : BlobName) (hmon : ∀ o e, info.progress o e = true)
    (ps : List (List PixelPacket)) (y : Nat) (s : WriteState) (bytes : List Nat) (l c w : Nat)
    (hb : s.blob = some name) (hr : s.room = none) (hst : s.status = true) :
    ∃ l' c' w', WriteRows info qt mon rows ps y (appendTo s name bytes l c w) =
      appendTo s name (bytes ++ ps.flatMap (ExportQuantumPixels info qt)) l' c' w' := by
  obtain ⟨l', c', h⟩ := WriteRows_ok info qt mon rows name hmon ps y (appendTo s name bytes l c w)
    hb hr hst
  exact ⟨l', c', _, by rw [h, appendTo_appendTo]⟩

theorem WritePlaneInterlace_ok (info : ImageInfo) (first : Bool) (name : BlobName)
    (hmon : ∀ o e, info.progress o e = true) (f : List (List PixelPacket)) (s : WriteState)
    (hb : s.blob = some name) (hr : s.room = none) (hst : s.status = true) :
    ∃ l c w, WritePlaneInterlace info first f s =
      appendTo s name
        (f.flatMap (ExportQuantumPixels info .RedQuantum) ++
          (f.flatMap (ExportQuantumPixels info .GreenQuantum) ++
            (f.flatMap (ExportQuantumPixels info .BlueQuantum) ++
              (if info.quantum_type = QuantumType.RGBAQuantum then
                f.flatMap (ExportQuantumPixels info .AlphaQuantum)
              else [])))) l c w := by
  obtain ⟨l1, c1, h1⟩ := WriteRows_ok info .RedQuantum false f.length name hmon f 0 s hb hr hst
  obtain ⟨l2, c2, w2, h2⟩ := WriteRows_appendTo info .GreenQuantum false f.length name hmon f 0 s
    (f.flatMap (ExportQuantumPixels info .RedQuantum)) l1 c1 (s.writes + f.length) hb hr hst
  obtain ⟨l3, c3, w3, h3⟩ := WriteRows_appendTo info .BlueQuantum false f.length name hmon f 0 s
    (f.flatMap (ExportQuantumPixels info .RedQuantum) ++
      f.flatMap (ExportQuantumPixels info .GreenQuantum)) l2 c2 w2 hb hr hst
  obtain ⟨l4, c4, w4, h4⟩ := WriteRows_appendTo info .AlphaQuantum false f.length name hmon f 0 s
    ((f.flatMap (ExportQuantumPixels info .RedQuantum) ++
      f.flatMap (ExportQuantumPixels info .GreenQuantum)) ++
      f.flatMap (ExportQuantumPixels info .BlueQuantum)) l3 c3 w3 hb hr hst
  unfold WritePlaneInterlace
  simp only [h1]
  rw [WriteProgress_appendTo info first 1 s _ _ _ _ _ hmon hst]
  simp only [Bool.false_eq_true, if_false, h2]
  rw [WriteProgress_appendTo info first 2 s _ _ _ _ _ hmon hst]
  simp only [Bool.false_eq_true, if_false, h3]
  rw [WriteProgress_appendTo info first 3 s _ _ _ _ _ hmon hst]
  simp only [Bool.false_eq_true, if_false]
  by_cases hq : info.quantum_type = QuantumType.RGBAQuantum
  · simp only [hq, if_true, h4]
    rw [WriteProgress_appendTo info first 5 s _ _ _ _ _ hmon hst]
    exact ⟨l4, c4, w4, by simp [List.append_assoc]⟩
  · simp only [hq, if_false]
    rw [WriteProgress_appendTo info first 5 s _ _ _ _ _ hmon hst]
    exact ⟨l3, c3, w3, by simp [List.append_assoc]⟩

theorem WriteFrame_ok (info : ImageInfo) (first : Bool) (scene : Nat) (name : BlobName)
    (hmon : ∀ o e, info.progress o e = true) (hi : info.interlace ≠ .PartitionInterlace)
    (f : List (List PixelPacket)) (s : WriteState)
    (hb : s.blob = some name) (hr : s.room = none) (hst : s.status = true) :
    ∃ l c w, WriteFrame info first scene f s = (appendTo s name (encodeFrame info f) l c w, false) := by
  unfold WriteFrame encodeFrame
  cases h : info.interlace with
  | NoInterlace =>
    obtain ⟨l, c, e⟩ := WriteRows_ok info info.quantum_type first f.length name hmon f 0 s hb hr hst
    exact ⟨l, c, _, by rw [e]⟩
  | LineInterlace =>
    obtain ⟨l, c, e⟩ := WriteLineRows_ok info first f.length name hmon f 0 s hb hr hst
    exact ⟨l, c, _, by rw [e]⟩
  | PlaneInterlace =>
    obtain ⟨l, c, w, e⟩ := WritePlaneInterlace_ok info first name hmon f s hb hr hst
    exact ⟨l, c, w, by simp only [e]⟩
  | PartitionInterlace => exact absurd h hi

theorem WriteScenes_ok (info : ImageInfo) (total : Nat) (name : BlobName)
    (hmon : ∀ o e, info.progress o e = true) (hi : info.interlace ≠ .PartitionInterlace)
    (hadj : info.adjoin = true) :
    ∀ (images : List (List (List PixelPacket))) (first : Bool) (scene : Nat) (s : WriteState),
      s.blob = some name → s.room = none → s.status = true →
      (WriteScenes info total images first scene s).files =
          Function.update s.files name (s.files name ++ images.flatMap (encodeFrame info)) ∧
        (WriteScenes info total images first scene s).status = true ∧
        (WriteScenes info total images first scene s).opens = s.opens := by
  intro images
  induction images with
  | nil => intro first scene s _ _ _; simp [WriteScenes]
  | cons f rest ih =>
    intro first scene s hb hr hst
    obtain ⟨l, c, w, e⟩ := WriteFrame_ok info first scene name hmon hi f s hb hr hst
    rw [WriteScenes.eq_def]
    simp only [e, Bool.false_eq_true, if_false]
    cases rest with
    | nil => simp [appendTo]
    | cons g rest =>
      simp only [hmon, Bool.true_eq_false, if_false, hadj, if_true]
      have := ih false (scene + 1) (appendTo s name (encodeFrame info f) l c w) hb hr hst
      rw [wstatus_true_eq _ (show (appendTo s name (encodeFrame info f) l c w).status = true from hst)]
      obtain ⟨h1, h2, h3⟩ := this
      refine ⟨?_, h2, ?_⟩
      · rw [h1]; simp [appendTo, List.append_assoc]
      · rw [h3]; rfl

theorem encode_files_main (cfg : StreamConfig) (hl : cfg.layout ≠ .Partitioned)
    (frames : List (List (List PixelPacket))) :
    (encode cfg frames).files .main = frames.flatMap (encodeFrame (AcquireImage cfg)) := by
  have hi : (AcquireImage cfg).interlace ≠ .PartitionInterlace := by
    simp only [AcquireImage]
    cases h : cfg.layout <;> simp [Layout.interlace]
    exact absurd h hl
  unfold encode WriteYCBCRImage
  simp only [hi, ne_eq, not_false_eq_true, if_true]
  have hw : emptySink.writable BlobName.main = true := rfl
  simp only [OpenBlobWrite, hw, if_true, Bool.false_eq_true, if_false, Bool.true_eq_false]
  have := (WriteScenes_ok (AcquireImage cfg) frames.length .main (fun _ _ => rfl) hi rfl frames true 0
    { files := Function.update emptySink.files BlobName.main [], writable := emptySink.writable,
      room := emptySink.room, blob := some BlobName.main, count := 0, length := 0, status := true,
      opens := [] ++ [(BlobName.main, false)], writes := 0 } rfl rfl rfl).1
  rw [this]
  simp

theorem modifyRow_append (f : List PixelPacket → List PixelPacket) :
    ∀ (done : List (List PixelPacket)) (q : List PixelPacket) (todo : List (List PixelPacket)),
      modifyRow f done.length (done ++ q :: todo) = done ++ f q :: todo := by
  intro done
  induction done with
  | nil => intro q todo; rfl
  | cons d ds ih => intro q todo; simp [modifyRow, ih]

theorem zipWith_covers (depth : Nat) (comps chans : List Component) :
    ∀ (row canvas q : List PixelPacket), row.length = canvas.length →
      (∀ p ∈ row, Covers depth comps chans p) →
      List.zipWith (copyComponents depth chans)
          (List.zipWith (copyComponents depth comps) row canvas) q =
        List.zipWith (copyComponents depth chans) row q := by
  intro row
  induction row with
  | nil => intro canvas q _ _; simp
  | cons p ps ih =>
    intro canvas q hlen hc
    cases canvas with
    | nil => simp at hlen
    | cons c cs =>
      cases q with
      | nil => simp
      | cons b bs =>
        simp only [List.zipWith_cons_cons]
        rw [hc p (List.mem_cons_self _ _) c b,
          ih cs bs (by simpa using hlen) (fun p' h' => hc p' (List.mem_cons_of_mem _ h'))]

theorem inWindow_full (info : ImageInfo) (y : Nat) (hy : info.extract_info.y = 0)
    (h : y < info.rows) : inWindow info y = true := by
  simp [inWindow, hy, h]

theorem ImportRow_content (info : ImageInfo) (qt : QuantumType) (chans : List Component)
    (W y : Nat) (s : ReadState) (row q : List PixelPacket) (done todo : List (List PixelPacket))
    (hW : info.extract_info.width = W) (hx : info.extract_info.x = 0)
    (hy : info.extract_info.y = 0) (hyr : y < info.rows)
    (hcanvas : s.canvas.length = W) (hrow : row.length = W)
    (hv : ∀ p ∈ row, ∀ c ∈ qt.components, loadComponent info.depth c p ≤ QuantumRange info.depth)
    (hcov : ∀ p ∈ row, Covers info.depth qt.components chans p)
    (hstream : s.stream = ExportQuantumPixels info qt row)
    (hpix : s.pixels = done ++ q :: todo) (hdone : done.length = y) (hq : q.length ≤ W) :
    (ImportRow info qt chans y s).pixels =
        done ++ List.zipWith (copyComponents info.depth chans) row q :: todo ∧
      (ImportRow info qt chans y s).canvas.length = W := by
  have himp : ImportQuantumPixels info qt s.canvas s.stream =
      List.zipWith (copyComponents info.depth qt.components) row s.canvas := by
    rw [hstream]
    unfold ImportQuantumPixels ExportQuantumPixels
    have := importRow_export info qt.components row s.canvas [] (by rw [hrow, hcanvas]) hv
    rwa [List.append_nil] at this
  have hlen : (List.zipWith (copyComponents info.depth qt.components) row s.canvas).length = W := by
    rw [List.length_zipWith, hrow, hcanvas, Nat.min_self]
  unfold ImportRow
  simp only [inWindow_full info y hy hyr, if_true, himp, hx, hy, hW]
  refine ⟨?_, hlen⟩
  have hgv : GetVirtualPixels (List.zipWith (copyComponents info.depth qt.components) row s.canvas)
      0 W = List.zipWith (copyComponents info.depth qt.components) row s.canvas := by
    have := GetVirtualPixels_full (List.zipWith (copyComponents info.depth qt.components) row s.canvas)
    rwa [hlen] at this
  rw [hgv, hpix]
  have hyn : ((y : Int) - 0).toNat = done.length := by rw [hdone]; omega
  rw [hyn, modifyRow_append, copyPixels_eq_zipWith _ _ _ _ (by rw [hlen]; exact hq),
    zipWith_covers _ _ _ _ _ _ (by rw [hrow, hcanvas]) hcov]

theorem take_export (info : ImageInfo) (qt : QuantumType) (row : List PixelPacket) (W : Nat)
    (rest : List Nat) (hrow : row.length = W) :
    (ExportQuantumPixels info qt row ++ rest).take (GetQuantumExtent info W qt) =
      ExportQuantumPixels info qt row := by
  rw [← hrow, ← ExportQuantumPixels_length]
  exact List.take_left _ _

theorem drop_export (info : ImageInfo) (qt : QuantumType) (row : List PixelPacket) (W : Nat)
    (rest : List Nat) (hrow : row.length = W) :
    (ExportQuantumPixels info qt row ++ rest).drop (GetQuantumExtent info W qt) = rest := by
  rw [← hrow, ← ExportQuantumPixels_length]
  exact List.drop_left _ _

theorem rowsState_content (info : ImageInfo) (qt : QuantumType) (chans : List Component)
    (W : Nat) (hW : info.extract_info.width = W) (hx : info.extract_info.x = 0)
    (hy : info.extract_info.y = 0) :
    ∀ (rows : List (List PixelPacket)) (y : Nat) (tail : List Nat) (s0 : ReadState)
      (done todo after : List (List PixelPacket)),
      (∀ row ∈ rows, row.length = W ∧
        (∀ p ∈ row, ∀ c ∈ qt.components, loadComponent info.depth c p ≤ QuantumRange info.depth) ∧
        (∀ p ∈ row, Covers info.depth qt.components chans p)) →
      s0.canvas.length = W → s0.pixels = done ++ todo ++ after → done.length = y →
      todo.length = rows.length → (∀ q ∈ todo, q.length ≤ W) → y + rows.length ≤ info.rows →
      (rowsState info qt chans (GetQuantumExtent info W qt) rows.length y
          (rows.flatMap (ExportQuantumPixels info qt) ++ tail) s0).pixels =
          done ++ List.zipWith (List.zipWith (copyComponents info.depth chans)) rows todo ++ after ∧
        (rowsState info qt chans (GetQuantumExtent info W qt) rows.length y
          (rows.flatMap (ExportQuantumPixels info qt) ++ tail) s0).canvas.length = W := by
  intro rows
  induction rows with
  | nil =>
    intro y tail s0 done todo after _ hc hp _ ht _ _
    have : todo = [] := List.eq_nil_of_length_eq_zero (by simpa using ht)
    subst this
    simp [rowsState, hp, hc]
  | cons row rows ih =>
    intro y tail s0 done todo after hrows hc hp hd ht hq hyr
    cases todo with
    | nil => simp at ht
    | cons q todo =>
      obtain ⟨hrl, hrv, hrc⟩ := hrows row (List.mem_cons_self _ _)
      simp only [List.length_cons, rowsState, List.flatMap_cons, List.append_assoc]
      rw [take_export info qt row W _ hrl, drop_export info qt row W _ hrl]
      have hstep := ImportRow_content info qt chans W y
        { s0 with stream := ExportQuantumPixels info qt row } row q done (todo ++ after)
        hW hx hy (by simp only [List.length_cons] at hyr; omega) hc hrl hrv hrc rfl
        (by simp [hp]) hd (hq q (List.mem_cons_self _ _))
      have := ih (y + 1) tail
        (ImportRow info qt chans y { s0 with stream := ExportQuantumPixels info qt row })
        (done ++ [List.zipWith (copyComponents info.depth chans) row q]) todo after
        (fun r hr => hrows r (List.mem_cons_of_mem _ hr)) hstep.2
        (by rw [hstep.1]; simp) (by simp [hd]) (by simpa using ht)
        (fun q' hq' => hq q' (List.mem_cons_of_mem _ hq'))
        (by simp only [List.length_cons] at hyr; omega)
      refine ⟨?_, this.2⟩
      rw [this.1]
      simp

theorem lineChannelsState_content (info : ImageInfo) (W y L : Nat) (row : List PixelPacket)
    (hW : info.extract_info.width = W) (hx : info.extract_info.x = 0)
    (hy : info.extract_info.y = 0) (hyr : y < info.rows) (hrow : row.length = W) :
    ∀ (qts : List QuantumType) (tail : List Nat) (s0 : ReadState) (q : List PixelPacket)
      (done todo : List (List PixelPacket)),
      (∀ qt ∈ qts, L = GetQuantumExtent info W qt ∧
        (∀ p ∈ row, ∀ c ∈ qt.components, loadComponent info.depth c p ≤ QuantumRange info.depth) ∧
        (∀ p ∈ row, Covers info.depth qt.components (lineChannel qt) p)) →
      s0.canvas.length = W → s0.pixels = done ++ q :: todo → done.length = y → q.length ≤ W →
      (lineChannelsState info L y qts
          (qts.flatMap (fun qt => ExportQuantumPixels info qt row) ++ tail) s0).pixels =
          done ++ qts.foldl
            (fun acc qt => List.zipWith (copyComponents info.depth (lineChannel qt)) row acc) q ::
            todo ∧
        (lineChannelsState info L y qts
          (qts.flatMap (fun qt => ExportQuantumPixels info qt row) ++ tail) s0).canvas.length = W := by
  intro qts
  induction qts with
  | nil => intro tail s0 q done todo _ hc hp _ _; simp [lineChannelsState, hp, hc]
  | cons qt qts ih =>
    intro tail s0 q done todo hq hc hp hd hql
    obtain ⟨hL, hv, hcov⟩ := hq qt (List.mem_cons_self _ _)
    simp only [lineChannelsState, List.flatMap_cons, List.append_assoc, List.foldl_cons]
    rw [hL, take_export info qt row W _ hrow, drop_export info qt row W _ hrow, ← hL]
    have hstep := ImportRow_content info qt (lineChannel qt) W y
      { s0 with stream := ExportQuantumPixels info qt row } row q done todo
      hW hx hy hyr hc hrow hv hcov rfl hp hd hql
    exact ih tail _ _ done todo (fun qt' h' => hq qt' (List.mem_cons_of_mem _ h')) hstep.2 hstep.1 hd
      (by rw [List.length_zipWith]; omega)

theorem lineChunk_length (info : ImageInfo) (W L : Nat) (row : List PixelPacket)
    (hrl : row.length = W) :
    ∀ (qts : List QuantumType), (∀ qt ∈ qts, L = GetQuantumExtent info W qt) →
      (qts.flatMap (fun qt => ExportQuantumPixels info qt row)).length = qts.length * L := by
  intro qts
  induction qts with
  | nil => intro _; simp
  | cons qt qts ih =>
    intro hL
    simp only [List.flatMap_cons, List.length_append, List.length_cons, Nat.succ_mul]
    rw [ih (fun q' h' => hL q' (List.mem_cons_of_mem _ h')), ExportQuantumPixels_length,
      hrl, ← hL qt (List.mem_cons_self _ _)]
    omega

theorem lineRowsState_content (info : ImageInfo) (W L : Nat) (qts : List QuantumType)
    (hW : info.extract_info.width = W) (hx : info.extract_info.x = 0)
    (hy : info.extract_info.y = 0)
    (hL : ∀ qt ∈ qts, L = GetQuantumExtent info W qt) :
    ∀ (rows : List (List PixelPacket)) (y : Nat) (tail : List Nat) (s0 : ReadState)
      (done todo : List (List PixelPacket)),
      (∀ row ∈ rows, row.length = W ∧ ∀ qt ∈ qts,
        (∀ p ∈ row, ∀ c ∈ qt.components, loadComponent info.depth c p ≤ QuantumRange info.depth) ∧
        (∀ p ∈ row, Covers info.depth qt.components (lineChannel qt) p)) →
      s0.canvas.length = W → s0.pixels = done ++ todo → done.length = y →
      todo.length = rows.length → (∀ q ∈ todo, q.length ≤ W) → y + rows.length ≤ info.rows →
      (lineRowsState info L qts rows.length y
          (rows.flatMap (fun p => qts.flatMap (fun qt => ExportQuantumPixels info qt p)) ++ tail)
          s0).pixels =
          done ++ List.zipWith (fun row q => qts.foldl
            (fun acc qt => List.zipWith (copyComponents info.depth (lineChannel qt)) row acc) q)
            rows todo ∧
        (lineRowsState info L qts rows.length y
          (rows.flatMap (fun p => qts.flatMap (fun qt => ExportQuantumPixels info qt p)) ++ tail)
          s0).canvas.length = W := by
  intro rows
  induction rows with
  | nil =>
    intro y tail s0 done todo _ hc hp _ ht _ _
    have : todo = [] := List.eq_nil_of_length_eq_zero (by simpa using ht)
    subst this
    simp [lineRowsState, hp, hc]
  | cons row rows ih =>
    intro y tail s0 done todo hrows hc hp hd ht hq hyr
    cases todo with
    | nil => simp at ht
    | cons q todo =>
      obtain ⟨hrl, hrq⟩ := hrows row (List.mem_cons_self _ _)
      have hchunk := lineChunk_length info W L row hrl qts hL
      simp only [List.length_cons, lineRowsState, List.flatMap_cons, List.append_assoc]
      have hdrop : (qts.flatMap (fun qt => ExportQuantumPixels info qt row) ++
          (rows.flatMap (fun p => qts.flatMap (fun qt => ExportQuantumPixels info qt p)) ++ tail)).drop
          (qts.length * L) =
          rows.flatMap (fun p => qts.flatMap (fun qt => ExportQuantumPixels info qt p)) ++ tail := by
        rw [← hchunk]; exact List.drop_left _ _
      rw [hdrop]
      have hstep := lineChannelsState_content info W y L row hW hx hy
        (by simp only [List.length_cons] at hyr; omega) hrl qts
        (rows.flatMap (fun p => qts.flatMap (fun qt => ExportQuantumPixels info qt p)) ++ tail)
        s0 q done todo (fun qt hqt => ⟨hL qt hqt, hrq qt hqt⟩) hc hp hd
        (hq q (List.mem_cons_self _ _))
      have := ih (y + 1) tail _
        (done ++ [qts.foldl
          (fun acc qt => List.zipWith (copyComponents info.depth (lineChannel qt)) row acc) q]) todo
        (fun r hr => hrows r (List.mem_cons_of_mem _ hr)) hstep.2
        (by rw [hstep.1]; simp) (by simp [hd]) (by simpa using ht)
        (fun q' hq' => hq q' (List.mem_cons_of_mem _ hq'))
        (by simp only [List.length_cons] at hyr; omega)
      refine ⟨?_, this.2⟩
      rw [this.1]
      simp

theorem zipWith_replicate_right {α β γ : Type} (g : α → β → γ) (b : β) :
    ∀ (l : List α) (n : Nat), l.length ≤ n →
      List.zipWith g l (List.replicate n b) = l.map (fun a => g a b) := by
  intro l
  induction l with
  | nil => intro n _; simp
  | cons a as ih =>
    intro n h
    cases n with
    | zero => simp at h
    | succ n =>
      simp only [List.replicate_succ, List.zipWith_cons_cons, List.map_cons]
      rw [ih n (by simpa using h)]

theorem zipWith_map_right {α β γ : Type} (g : α → β → γ) (h : α → β) :
    ∀ (l : List α), List.zipWith g l (l.map h) = l.map (fun a => g a (h a)) := by
  intro l
  induction l with
  | nil => simp
  | cons a as ih => simp [ih]

theorem flatMap_length_const {α β : Type} (g : α → List β) (k : Nat) :
    ∀ (l : List α), (∀ x ∈ l, (g x).length = k) → (l.flatMap g).length = l.length * k := by
  intro l
  induction l with
  | nil => intro _; simp
  | cons a as ih =>
    intro h
    simp only [List.flatMap_cons, List.length_append, List.length_cons, Nat.succ_mul]
    rw [ih (fun x hx => h x (List.mem_cons_of_mem _ hx)), h a (List.mem_cons_self _ _)]
    omega

theorem covers_rgb (depth : Nat) (p : PixelPacket) :
    Covers depth [.red, .green, .blue] [.red, .green, .blue] p := by
  intro c q; simp [copyComponents, storeComponent, loadComponent]

theorem covers_red (depth : Nat) (p : PixelPacket) : Covers depth [.red] [.red] p := by
  intro c q; simp [copyComponents, storeComponent, loadComponent]

theorem covers_green (depth : Nat) (p : PixelPacket) : Covers depth [.green] [.green] p := by
  intro c q; simp [copyComponents, storeComponent, loadComponent]

theorem covers_blue (depth : Nat) (p : PixelPacket) : Covers depth [.blue] [.blue] p := by
  intro c q; simp [copyComponents, storeComponent, loadComponent]

theorem copy_rgb_blank (depth : Nat) (p : PixelPacket) :
    copyComponents depth [.red, .green, .blue] p blankPixel = opaquePixel p := by
  simp [copyComponents, storeComponent, loadComponent, opaquePixel, blankPixel]

theorem copy_planes_blank (depth : Nat) (p : PixelPacket) :
    copyComponents depth [.blue] p
        (copyComponents depth [.green] p (copyComponents depth [.red] p blankPixel)) =
      opaquePixel p := by
  simp [copyComponents, storeComponent, loadComponent, opaquePixel, blankPixel]

theorem valid3_components (depth : Nat) (p : PixelPacket)
    (h : p.red ≤ QuantumRange depth ∧ p.green ≤ QuantumRange depth ∧ p.blue ≤ QuantumRange depth) :
    ∀ c ∈ [Component.red, Component.green, Component.blue],
      loadComponent depth c p ≤ QuantumRange depth := by
  intro c hc
  simp at hc
  rcases hc with rfl | rfl | rfl
  · exact h.1
  · exact h.2.1
  · exact h.2.2

theorem zipRows_blank (g : PixelPacket → PixelPacket → PixelPacket) (W H : Nat)
    (f : List (List PixelPacket)) (hH : f.length = H) (hW : ∀ row ∈ f, row.length = W) :
    List.zipWith (List.zipWith g) f (blankImage W H) =
      f.map (fun row => row.map (fun p => g p blankPixel)) := by
  unfold blankImage
  rw [zipWith_replicate_right _ _ f H (by omega)]
  apply List.map_congr_left
  intro row hr
  exact zipWith_replicate_right g blankPixel row W (by rw [hW row hr])

theorem frameState_content_no (info : ImageInfo) (W H : Nat) (hg : FullCanvas info W H)
    (hi : info.interlace = .NoInterlace) (hm : info.matte = false)
    (f : List (List PixelPacket)) (hf : validFrame3 info.depth W H f) (tail : List Nat)
    (s0 : ReadState) (hc : s0.canvas.length = W) (hp : s0.pixels = blankImage W H) :
    (frameState info (encodeFrame info f ++ tail) s0).pixels = opaqueFrame f ∧
      (frameState info (encodeFrame info f ++ tail) s0).canvas.length = W := by
  obtain ⟨hW, hH, hx, hy, hcol, hrows⟩ := hg
  have hqt : info.quantum_type = .RGBQuantum := by simp [ImageInfo.quantum_type, hm]
  have hpc : info.packetChannels = [.red, .green, .blue] := by simp [ImageInfo.packetChannels, hm]
  have := rowsState_content info .RGBQuantum [.red, .green, .blue] W hW hx hy f 0 tail s0 []
    (blankImage W H) []
    (fun row hr => ⟨(hf.2 row hr).1,
      fun p hp' => valid3_components info.depth p ((hf.2 row hr).2 p hp'),
      fun p _ => covers_rgb info.depth p⟩)
    hc (by simp [hp]) rfl (by simp [blankImage, hf.1])
    (by intro q hq; simp [blankImage] at hq; rw [hq.2]; simp)
    (by rw [hrows, hf.1]; omega)
  simp only [frameState, encodeFrame, hi, hqt, hpc, chunkLength, hW, hH]
  rw [← hf.1]
  refine ⟨?_, this.2⟩
  rw [this.1, zipRows_blank _ W H f hf.1 (fun row hr => (hf.2 row hr).1)]
  simp only [List.nil_append, List.append_nil, opaqueFrame]
  apply List.map_congr_left
  intro row _
  apply List.map_congr_left
  intro p _
  exact copy_rgb_blank info.depth p

theorem lineTypes_rgb (info : ImageInfo) (hm : info.matte = false) :
    info.lineTypes = [.RedQuantum, .GreenQuantum, .BlueQuantum] := by
  simp [ImageInfo.lineTypes, quantum_types, hm]

theorem lineExports_rgb (info : ImageInfo) (hm : info.matte = false) :
    lineExports info = [.RedQuantum, .GreenQuantum, .BlueQuantum] := by
  simp [lineExports, ImageInfo.quantum_type, hm]

theorem frameState_content_line (info : ImageInfo) (W H : Nat) (hg : FullCanvas info W H)
    (hi : info.interlace = .LineInterlace) (hm : info.matte = false)
    (f : List (List PixelPacket)) (hf : validFrame3 info.depth W H f) (tail : List Nat)
    (s0 : ReadState) (hc : s0.canvas.length = W) (hp : s0.pixels = blankImage W H) :
    (frameState info (encodeFrame info f ++ tail) s0).pixels = opaqueFrame f ∧
      (frameState info (encodeFrame info f ++ tail) s0).canvas.length = W := by
  obtain ⟨hW, hH, hx, hy, hcol, hrows⟩ := hg
  have := lineRowsState_content info W (GetQuantumExtent info W .RedQuantum)
    [.RedQuantum, .GreenQuantum, .BlueQuantum] hW hx hy
    (by intro qt hq; simp at hq; rcases hq with rfl | rfl | rfl <;> rfl)
    f 0 tail s0 [] (blankImage W H)
    (fun row hr => ⟨(hf.2 row hr).1, by
      intro qt hq
      simp at hq
      rcases hq with rfl | rfl | rfl
      · exact ⟨fun p hp' c hc' => by
          simp [QuantumType.components] at hc'; subst hc'
          exact ((hf.2 row hr).2 p hp').1, fun p _ => covers_red info.depth p⟩
      · exact ⟨fun p hp' c hc' => by
          simp [QuantumType.components] at hc'; subst hc'
          exact ((hf.2 row hr).2 p hp').2.1, fun p _ => covers_green info.depth p⟩
      · exact ⟨fun p hp' c hc' => by
          simp [QuantumType.components] at hc'; subst hc'
          exact ((hf.2 row hr).2 p hp').2.2, fun p _ => covers_blue info.depth p⟩⟩)
    hc (by simp [hp]) rfl (by simp [blankImage, hf.1])
    (by intro q hq; simp [blankImage] at hq; rw [hq.2]; simp)
    (by rw [hrows, hf.1]; omega)
  simp only [frameState, encodeFrame, hi, chunkLength, hW, hH, lineTypes_rgb info hm,
    lineExports_rgb info hm]
  rw [← hf.1]
  refine ⟨?_, this.2⟩
  rw [this.1]
  simp only [List.nil_append, List.foldl_cons, List.foldl_nil, lineChannel, opaqueFrame, blankImage]
  rw [zipWith_replicate_right _ _ f H (by rw [hf.1])]
  apply List.map_congr_left
  intro row hr
  rw [zipWith_replicate_right _ blankPixel row W (by rw [(hf.2 row hr).1]), zipWith_map_right,
    zipWith_map_right]
  apply List.map_congr_left
  intro p _
  exact copy_planes_blank info.depth p

theorem planeBytes_length (info : ImageInfo) (qt : QuantumType) (W H : Nat)
    (f : List (List PixelPacket)) (hH : f.length = H) (hW : ∀ row ∈ f, row.length = W) :
    (f.flatMap (ExportQuantumPixels info qt)).length = H * GetQuantumExtent info W qt := by
  rw [flatMap_length_const _ (GetQuantumExtent info W qt) f
    (fun row hr => by rw [ExportQuantumPixels_length, hW row hr]), hH]

theorem frameState_content_plane (info : ImageInfo) (W H : Nat) (hg : FullCanvas info W H)
    (hi : info.interlace = .PlaneInterlace) (hm : info.matte = false)
    (f : List (List PixelPacket)) (hf : validFrame3 info.depth W H f) (tail : List Nat)
    (s0 : ReadState) (hc : s0.canvas.length = W) (hp : s0.pixels = blankImage W H) :
    (frameState info (encodeFrame info f ++ tail) s0).pixels = opaqueFrame f ∧
      (frameState info (encodeFrame info f ++ tail) s0).canvas.length = W := by
  obtain ⟨hW, hH, hx, hy, hcol, hrows⟩ := hg
  have hfW : ∀ row ∈ f, row.length = W := fun row hr => (hf.2 row hr).1
  have hq : ¬ info.quantum_type = .RGBAQuantum := by simp [ImageInfo.quantum_type, hm]
  have hLg : GetQuantumExtent info W .GreenQuantum = GetQuantumExtent info W .RedQuantum := rfl
  have hLb : GetQuantumExtent info W .BlueQuantum = GetQuantumExtent info W .RedQuantum := rfl
  have hlenR := planeBytes_length info .RedQuantum W H f hf.1 hfW
  have hlenG := planeBytes_length info .GreenQuantum W H f hf.1 hfW
  rw [hLg] at hlenG
  -- red plane
  have r1 := rowsState_content info .RedQuantum [.red] W hW hx hy f 0
    (f.flatMap (ExportQuantumPixels info .GreenQuantum) ++
      (f.flatMap (ExportQuantumPixels info .BlueQuantum) ++ tail)) s0 [] (blankImage W H) []
    (fun row hr => ⟨hfW row hr, fun p hp' c hc' => by
        simp [QuantumType.components] at hc'; subst hc'
        exact ((hf.2 row hr).2 p hp').1, fun p _ => covers_red info.depth p⟩)
    hc (by simp [hp]) rfl (by simp [blankImage, hf.1])
    (by intro q hq'; simp [blankImage] at hq'; rw [hq'.2]; simp)
    (by rw [hrows, hf.1]; omega)
  rw [zipRows_blank _ W H f hf.1 hfW] at r1
  simp only [List.nil_append, List.append_nil] at r1
  -- green plane
  have r2 := rowsState_content info .GreenQuantum [.green] W hW hx hy f 0
    (f.flatMap (ExportQuantumPixels info .BlueQuantum) ++ tail) _ []
    (f.map (fun row => row.map (fun p => copyComponents info.depth [.red] p blankPixel))) []
    (fun row hr => ⟨hfW row hr, fun p hp' c hc' => by
        simp [QuantumType.components] at hc'; subst hc'
        exact ((hf.2 row hr).2 p hp').2.1, fun p _ => covers_green info.depth p⟩)
    r1.2 (by rw [r1.1]; simp) rfl (by simp)
    (by intro q hq'; simp at hq'; obtain ⟨row, hr, rfl⟩ := hq'; simp [hfW row hr])
    (by rw [hrows, hf.1]; omega)
  rw [zipWith_map_right] at r2
  simp only [List.nil_append, List.append_nil] at r2
  -- blue plane
  have r3 := rowsState_content info .BlueQuantum [.blue] W hW hx hy f 0 tail _ []
    (f.map (fun a => List.zipWith (copyComponents info.depth [.green]) a
      (a.map (fun p => copyComponents info.depth [.red] p blankPixel)))) []
    (fun row hr => ⟨hfW row hr, fun p hp' c hc' => by
        simp [QuantumType.components] at hc'; subst hc'
        exact ((hf.2 row hr).2 p hp').2.2, fun p _ => covers_blue info.depth p⟩)
    r2.2 (by rw [r2.1]; simp) rfl (by simp)
    (by
      intro q hq'; simp at hq'; obtain ⟨row, hr, rfl⟩ := hq'
      simp [hfW row hr])
    (by rw [hrows, hf.1]; omega)
  rw [zipWith_map_right] at r3
  simp only [List.nil_append, List.append_nil] at r3
  simp only [frameState, encodeFrame, hi, planesState, hm, hq, if_false, Bool.false_eq_true, hW, hH,
    List.append_nil, List.append_assoc]
  have d1 : (f.flatMap (ExportQuantumPixels info .RedQuantum) ++
      (f.flatMap (ExportQuantumPixels info .GreenQuantum) ++
        (f.flatMap (ExportQuantumPixels info .BlueQuantum) ++ tail))).drop
      (H * GetQuantumExtent info W .RedQuantum) =
      f.flatMap (ExportQuantumPixels info .GreenQuantum) ++
        (f.flatMap (ExportQuantumPixels info .BlueQuantum) ++ tail) := by
    rw [← hlenR]; exact List.drop_left _ _
  have d2 : (f.flatMap (ExportQuantumPixels info .RedQuantum) ++
      (f.flatMap (ExportQuantumPixels info .GreenQuantum) ++
        (f.flatMap (ExportQuantumPixels info .BlueQuantum) ++ tail))).drop
      (H * GetQuantumExtent info W .RedQuantum + H * GetQuantumExtent info W .RedQuantum) =
      f.flatMap (ExportQuantumPixels info .BlueQuantum) ++ tail := by
    rw [← drop_drop_add, d1, ← hlenG]; exact List.drop_left _ _
  rw [d1, d2]
  rw [hf.1] at r3
  refine ⟨Eq.trans r3.1 ?_, r3.2⟩
  simp only [opaqueFrame]
  apply List.map_congr_left
  intro row _
  rw [zipWith_map_right, zipWith_map_right]
  apply List.map_congr_left
  intro p _
  exact copy_planes_blank info.depth p

theorem frameState_content3 (info : ImageInfo) (W H : Nat) (hg : FullCanvas info W H)
    (hi : info.interlace ≠ .PartitionInterlace) (hm : info.matte = false)
    (f : List (List PixelPacket)) (hf : validFrame3 info.depth W H f) (tail : List Nat)
    (s0 : ReadState) (hc : s0.canvas.length = W) (hp : s0.pixels = blankImage W H) :
    (frameState info (encodeFrame info f ++ tail) s0).pixels = opaqueFrame f ∧
      (frameState info (encodeFrame info f ++ tail) s0).canvas.length = W := by
  cases h : info.interlace with
  | NoInterlace => exact frameState_content_no info W H hg h hm f hf tail s0 hc hp
  | LineInterlace => exact frameState_content_line info W H hg h hm f hf tail s0 hc hp
  | PlaneInterlace => exact frameState_content_plane info W H hg h hm f hf tail s0 hc hp
  | PartitionInterlace => exact absurd h hi

theorem encodeFrame_length3 (info : ImageInfo) (W H : Nat) (hg : FullCanvas info W H)
    (hm : info.matte = false) (f : List (List PixelPacket)) (hH : f.length = H)
    (hfW : ∀ row ∈ f, row.length = W) :
    (encodeFrame info f).length = frameLength info := by
  obtain ⟨hW, hHH, -, -, -, -⟩ := hg
  have hq : ¬ info.quantum_type = .RGBAQuantum := by simp [ImageInfo.quantum_type, hm]
  have hqt : info.quantum_type = .RGBQuantum := by simp [ImageInfo.quantum_type, hm]
  have hch : info.channels = 3 := by simp [ImageInfo.channels, hm]
  have e1 : ∀ qt : QuantumType, qt.components.length = 1 →
      GetQuantumExtent info W qt = W * sampleBytes info.depth := fun qt h => by
    simp [GetQuantumExtent, h]
  unfold encodeFrame frameLength
  rw [hW, hHH, hch]
  cases info.interlace with
  | NoInterlace =>
    simp only [hqt]
    rw [planeBytes_length info .RGBQuantum W H f hH hfW]
    simp [GetQuantumExtent, QuantumType.components, Nat.mul_assoc]
  | LineInterlace =>
    simp only [lineExports_rgb info hm]
    rw [flatMap_length_const _ (3 * (W * sampleBytes info.depth)) f, hH]
    intro row hr
    simp only [List.flatMap_cons, List.flatMap_nil, List.append_nil, List.length_append,
      ExportQuantumPixels_length, hfW row hr]
    rw [e1 .RedQuantum rfl, e1 .GreenQuantum rfl, e1 .BlueQuantum rfl]
    omega
  | PlaneInterlace =>
    simp only [hq, if_false, List.append_nil, List.length_append]
    rw [planeBytes_length info _ W H f hH hfW, planeBytes_length info _ W H f hH hfW,
      planeBytes_length info _ W H f hH hfW, e1 .RedQuantum rfl, e1 .GreenQuantum rfl,
      e1 .BlueQuantum rfl]
    have : H * (3 * (W * sampleBytes info.depth)) = 3 * (H * (W * sampleBytes info.depth)) :=
      Nat.mul_left_comm _ _ _
    omega
  | PartitionInterlace =>
    simp only [hq, if_false, List.append_nil, List.length_append]
    rw [planeBytes_length info _ W H f hH hfW, planeBytes_length info _ W H f hH hfW,
      planeBytes_length info _ W H f hH hfW, e1 .RedQuantum rfl, e1 .GreenQuantum rfl,
      e1 .BlueQuantum rfl]
    have : H * (3 * (W * sampleBytes info.depth)) = 3 * (H * (W * sampleBytes info.depth)) :=
      Nat.mul_left_comm _ _ _
    omega

theorem scenesImages_content3 (info : ImageInfo) (W H : Nat) (hg : FullCanvas info W H)
    (hi : info.interlace ≠ .PartitionInterlace) (hm : info.matte = false) :
    ∀ (fs : List (List (List PixelPacket))) (tail : List Nat) (s0 : ReadState),
      (∀ f ∈ fs, validFrame3 info.depth W H f) → s0.canvas.length = W →
      s0.pixels = blankImage W H →
      scenesImages info fs.length (fs.flatMap (encodeFrame info) ++ tail) s0 =
        fs.map opaqueFrame := by
  intro fs
  induction fs with
  | nil => intro tail s0 _ _ _; rfl
  | cons f fs ih =>
    intro tail s0 hfs hc hp
    have hf := hfs f (List.mem_cons_self _ _)
    have hlen := encodeFrame_length3 info W H hg hm f hf.1 (fun row hr => (hf.2 row hr).1)
    simp only [List.length_cons, scenesImages, List.flatMap_cons, List.append_assoc, List.map_cons]
    have hcont := frameState_content3 info W H hg hi hm f hf
      (fs.flatMap (encodeFrame info) ++ tail) s0 hc hp
    rw [hcont.1]
    congr 1
    have hd : (encodeFrame info f ++ (fs.flatMap (encodeFrame info) ++ tail)).drop
        (frameLength info) = fs.flatMap (encodeFrame info) ++ tail := by
      rw [← hlen]; exact List.drop_left _ _
    rw [hd]
    exact ih tail _ (fun g hg' => hfs g (List.mem_cons_of_mem _ hg')) hcont.2
      (by simp only []; rw [hg.2.2.2.2.1, hg.2.2.2.2.2])

theorem FlatYCBCRImage_open (info : ImageInfo) (files : BlobName → Option (List Nat))
    (data : List Nat) (hc : info.columns ≠ 0) (hr : info.rows ≠ 0)
    (hi : info.interlace ≠ .PartitionInterlace) (ho : info.offset = 0)
    (hfile : files .main = some data) :
    FlatYCBCRImage info files =
      FlatFromCanvas info files
        { initialState info with
          blob := some data, blobSize := data.length, opens := [BlobName.main] } := by
  unfold FlatYCBCRImage
  simp only [hc, hr, or_self, if_false, hi, ne_eq, not_false_eq_true, if_true]
  simp [OpenBlob, hfile, DiscardBlobBytes, ho, initialState]

theorem chunkLength_pos (info : ImageInfo) (h : 1 ≤ info.extract_info.width) :
    1 ≤ chunkLength info := by
  have hb := sampleBytes_pos info.depth
  have hc : 1 ≤ info.quantum_type.components.length := by
    unfold ImageInfo.quantum_type; split <;> simp [QuantumType.components]
  unfold chunkLength GetQuantumExtent
  cases info.interlace <;> simp only [QuantumType.components, List.length_singleton, Nat.one_mul] <;>
    first
    | exact Nat.mul_pos (Nat.mul_pos hc h) hb
    | exact Nat.mul_pos h hb

theorem chunkLength_le_frameLength (info : ImageInfo) (h : 1 ≤ info.extract_info.height) :
    chunkLength info ≤ frameLength info := by
  have hch : 1 ≤ info.channels := by unfold ImageInfo.channels; split <;> omega
  have e : ∀ a b : Nat, 1 ≤ a → b ≤ a * b := fun a b ha => Nat.le_mul_of_pos_left b ha
  unfold chunkLength frameLength GetQuantumExtent
  cases info.interlace
  · simp only [quantum_type_length, Nat.mul_assoc]
    exact e _ _ h
  all_goals
    simp only [QuantumType.components, List.length_singleton, Nat.one_mul]
    exact Nat.le_trans (e _ _ hch) (e _ _ h)

theorem lastScene_unbounded (info : ImageInfo) (h : info.number_scenes = 0) (k : Nat) :
    lastScene info k = false := by
  simp [lastScene, h]

theorem frameLength_pos (info : ImageInfo) (hW : 1 ≤ info.extract_info.width)
    (hH : 1 ≤ info.extract_info.height) : 1 ≤ frameLength info :=
  Nat.le_trans (chunkLength_pos info hW) (chunkLength_le_frameLength info hH)

theorem FlatYCBCRImage_frames3 (info : ImageInfo) (W H : Nat) (hg : FullCanvas info W H)
    (hW : 1 ≤ W) (hH : 1 ≤ H) (hi : info.interlace ≠ .PartitionInterlace)
    (hm : info.matte = false) (hmon : ∀ o e, info.progress o e = true)
    (hping : info.ping = false) (ho : info.offset = 0) (hns : info.number_scenes = 0)
    (fs : List (List (List PixelPacket))) (hne : fs ≠ [])
    (hfs : ∀ f ∈ fs, validFrame3 info.depth W H f)
    (files : BlobName → Option (List Nat))
    (hfile : files .main = some (fs.flatMap (encodeFrame info))) :
    FlatYCBCRImage info files =
      some
        { images := fs.map opaqueFrame
          exception := []
          opens := [BlobName.main]
          nread := fs.length * frameLength info } := by
  obtain ⟨n, hn⟩ : ∃ n, fs.length = n + 1 := by
    cases fs with
    | nil => exact absurd rfl hne
    | cons f fs => exact ⟨fs.length, rfl⟩
  have hgW : 1 ≤ info.extract_info.width := by rw [hg.1]; exact hW
  have hgH : 1 ≤ info.extract_info.height := by rw [hg.2.1]; exact hH
  have hL := chunkLength_pos info hgW
  have hF := chunkLength_le_frameLength info hgH
  have hlen : (fs.flatMap (encodeFrame info)).length = (n + 1) * frameLength info := by
    rw [flatMap_length_const _ (frameLength info) fs
      (fun f hf => encodeFrame_length3 info W H hg hm f (hfs f hf).1
        (fun row hr => ((hfs f hf).2 row hr).1)), hn]
  rw [FlatYCBCRImage_open info files _ (by rw [hg.2.2.2.2.1]; omega) (by rw [hg.2.2.2.2.2]; omega)
    hi ho hfile]
  unfold FlatFromCanvas
  simp only [hns, ne_eq, not_true_eq_false, if_false]
  have hfuel : n + 1 ≤ sceneFuel files := by
    have h1 : blobLength files .main = (n + 1) * frameLength info := by
      simp [blobLength, hfile, hlen]
    have h2 : n + 1 ≤ (n + 1) * frameLength info := Nat.le_mul_of_pos_right _ (by omega)
    unfold sceneFuel
    omega
  have key := FlatScenes_frames info files hmon hi hping hL hF n (sceneFuel files) [] 0 0
    (fs.flatMap (encodeFrame info))
    ({ initialState info with
        blob := some (fs.flatMap (encodeFrame info))
        blobSize := (fs.flatMap (encodeFrame info)).length
        opens := [BlobName.main], count := 0, length := 0, status := true, stream := [] })
    0 rfl (by rw [hlen]) hfuel (fun j _ => lastScene_unbounded info hns _)
    (Or.inr (by rw [hlen]; omega))
  simp only [if_true] at key
  have hsc := scenesImages_content3 info W H hg hi hm fs []
    ({ initialState info with
        blob := some (fs.flatMap (encodeFrame info))
        blobSize := (fs.flatMap (encodeFrame info)).length
        opens := [BlobName.main], count := 0, length := 0, status := true, stream := [] })
    hfs (by simp [initialState, hg.1]) (by simp [initialState, hg.2.2.2.2.1, hg.2.2.2.2.2])
  rw [List.append_nil, hn] at hsc
  rw [hsc, hlen] at key
  simp only [List.nil_append, Nat.sub_self, Nat.min_zero, Nat.add_zero, Nat.zero_add] at key
  rw [hn, hlen]
  exact key

theorem WritePartitionFile_ok (info : ImageInfo) (scene : Nat) (name : BlobName)
    (qt : QuantumType) (hmon : ∀ o e, info.progress o e = true) (f : List (List PixelPacket))
    (s : WriteState) (hw : s.writable name = true) (hr : s.room = none) :
    ∃ l c w, WritePartitionFile info scene name qt f s =
      (wroteFile s name (decide (scene ≠ 0)) (f.flatMap (ExportQuantumPixels info qt)) l c w,
        false) := by
  unfold WritePartitionFile
  have hopen : OpenBlobWrite name (decide (scene ≠ 0)) s =
      { s with
        status := true
        blob := some name
        files := if decide (scene ≠ 0) = true then s.files else Function.update s.files name []
        opens := s.opens ++ [(name, decide (scene ≠ 0))] } := by
    simp [OpenBlobWrite, hw]
  rw [hopen]
  simp only [Bool.true_eq_false, if_false]
  obtain ⟨l, c, h⟩ := WriteRows_ok info qt false f.length name hmon f 0
    { s with
      status := true
      blob := some name
      files := if decide (scene ≠ 0) = true then s.files else Function.update s.files name []
      opens := s.opens ++ [(name, decide (scene ≠ 0))] } rfl hr rfl
  refine ⟨l, c, s.writes + f.length, ?_⟩
  rw [h]
  by_cases hs : scene = 0
  · simp [hs, appendTo, wroteFile]
  · simp [hs, appendTo, wroteFile]

theorem wroteFile_files (s : WriteState) (name : BlobName) (scene : Nat) (bytes : List Nat)
    (l c w : Nat) (base : BlobName → List Nat) (extra : BlobName → List Nat)
    (hs : ∀ n, s.files n = base n ++ extra n) (h0 : scene = 0 → ∀ n, base n = [])
    (hex : extra name = []) :
    ∀ n, (wroteFile s name (decide (scene ≠ 0)) bytes l c w).files n =
      base n ++ Function.update extra name bytes n := by
  intro n
  by_cases hn : n = name
  · subst hn
    by_cases h : scene = 0
    · simp [wroteFile, h, h0 h n]
    · simp [wroteFile, h, hs n, hex]
  · simp [wroteFile, hn, hs n]

theorem WritePartitionInterlace_ok (info : ImageInfo) (first : Bool) (scene : Nat)
    (hmon : ∀ o e, info.progress o e = true) (f : List (List PixelPacket)) (s : WriteState)
    (hw : ∀ n, s.writable n = true) (hr : s.room = none)
    (h0 : scene = 0 → ∀ n, s.files n = []) :
    ∃ s', WritePartitionInterlace info first scene f s = (s', false) ∧
      (∀ n, s'.files n = s.files n ++ planeOf info n f) ∧
      s'.writable = s.writable ∧ s'.room = none ∧ s'.status = true := by
  obtain ⟨l1, c1, w1, e1⟩ := WritePartitionFile_ok info scene .Y .RedQuantum hmon f s (hw _) hr
  have f1 := wroteFile_files s .Y scene (f.flatMap (ExportQuantumPixels info .RedQuantum)) l1 c1 w1
    s.files (fun _ => []) (fun n => by simp) h0 rfl
  generalize hs1 : wroteFile s .Y (decide (scene ≠ 0))
    (f.flatMap (ExportQuantumPixels info .RedQuantum)) l1 c1 w1 = s1 at e1 f1
  have w1' : s1.writable = s.writable := by rw [← hs1]; rfl
  have r1' : s1.room = none := by rw [← hs1]; exact hr
  have st1 : s1.status = true := by rw [← hs1]; rfl
  obtain ⟨l2, c2, w2, e2⟩ := WritePartitionFile_ok info scene .Cb .GreenQuantum hmon f
    (CloseBlobWrite s1) (by show s1.writable _ = true; rw [w1']; exact hw _) r1'
  have f2 := wroteFile_files (CloseBlobWrite s1) .Cb scene
    (f.flatMap (ExportQuantumPixels info .GreenQuantum)) l2 c2 w2
    s.files _ f1 h0 (by simp)
  generalize hs2 : wroteFile (CloseBlobWrite s1) .Cb (decide (scene ≠ 0))
    (f.flatMap (ExportQuantumPixels info .GreenQuantum)) l2 c2 w2 = s2 at e2 f2
  have w2' : s2.writable = s.writable := by rw [← hs2]; exact w1'
  have r2' : s2.room = none := by rw [← hs2]; exact r1'
  have st2 : s2.status = true := by rw [← hs2]; rfl
  obtain ⟨l3, c3, w3, e3⟩ := WritePartitionFile_ok info scene .Cr .BlueQuantum hmon f
    (CloseBlobWrite s2) (by show s2.writable _ = true; rw [w2']; exact hw _) r2'
  have f3 := wroteFile_files (CloseBlobWrite s2) .Cr scene
    (f.flatMap (ExportQuantumPixels info .BlueQuantum)) l3 c3 w3
    s.files _ f2 h0 (by simp)
  generalize hs3 : wroteFile (CloseBlobWrite s2) .Cr (decide (scene ≠ 0))
    (f.flatMap (ExportQuantumPixels info .BlueQuantum)) l3 c3 w3 = s3 at e3 f3
  have w3' : s3.writable = s.writable := by rw [← hs3]; exact w2'
  have r3' : s3.room = none := by rw [← hs3]; exact r2'
  have st3 : s3.status = true := by rw [← hs3]; rfl
  unfold WritePartitionInterlace
  simp only [e1, Bool.false_eq_true, if_false, WriteProgress_true info first _ s1 hmon st1, e2,
    WriteProgress_true info first _ s2 hmon st2, e3, WriteProgress_true info first _ s3 hmon st3]
  by_cases hq : info.quantum_type = QuantumType.RGBAQuantum
  · obtain ⟨l4, c4, w4, e4⟩ := WritePartitionFile_ok info scene .A .AlphaQuantum hmon f
      (CloseBlobWrite s3) (by show s3.writable _ = true; rw [w3']; exact hw _) r3'
    have f4 := wroteFile_files (CloseBlobWrite s3) .A scene
      (f.flatMap (ExportQuantumPixels info .AlphaQuantum)) l4 c4 w4
      s.files _ f3 h0 (by simp)
    generalize hs4 : wroteFile (CloseBlobWrite s3) .A (decide (scene ≠ 0))
      (f.flatMap (ExportQuantumPixels info .AlphaQuantum)) l4 c4 w4 = s4 at e4 f4
    have w4' : s4.writable = s.writable := by rw [← hs4]; exact w3'
    have r4' : s4.room = none := by rw [← hs4]; exact r3'
    have st4 : s4.status = true := by rw [← hs4]; rfl
    simp only [hq, if_true, e4, Bool.false_eq_true, if_false,
      WriteProgress_true info first _ s4 hmon st4,
      WriteProgress_true info first _ (CloseBlobWrite s4) hmon st4]
    refine ⟨_, rfl, ?_, w4', r4', st4⟩
    intro n
    show s4.files n = _
    rw [f4 n]
    cases n <;> simp [planeOf, hq, Function.update]
  · simp only [hq, if_false, WriteProgress_true info first _ (CloseBlobWrite s3) hmon st3]
    refine ⟨_, rfl, ?_, w3', r3', st3⟩
    intro n
    show s3.files n = _
    rw [f3 n]
    cases n <;> simp [planeOf, hq, Function.update]

theorem WriteScenes_partition (info : ImageInfo) (total : Nat)
    (hmon : ∀ o e, info.progress o e = true) (hi : info.interlace = .PartitionInterlace)
    (hadj : info.adjoin = true) :
    ∀ (images : List (List (List PixelPacket))) (first : Bool) (scene : Nat) (s : WriteState),
      (∀ n, s.writable n = true) → s.room = none → (scene = 0 → ∀ n, s.files n = []) →
      (∀ n, (WriteScenes info total images first scene s).files n =
          s.files n ++ images.flatMap (planeOf info n)) ∧
        (WriteScenes info total images first scene s).status = true := by
  intro images
  induction images with
  | nil => intro first scene s _ _ _; simp [WriteScenes]
  | cons f rest ih =>
    intro first scene s hw hr h0
    obtain ⟨s', e, hf, hw', hr', hst'⟩ := WritePartitionInterlace_ok info first scene hmon f s hw hr h0
    rw [WriteScenes.eq_def]
    simp only [WriteFrame, hi, e, Bool.false_eq_true, if_false]
    cases rest with
    | nil => exact ⟨fun n => by simp [hf n], rfl⟩
    | cons g rest =>
      simp only [hmon, Bool.true_eq_false, if_false, hadj, if_true]
      rw [wstatus_true_eq s' hst']
      have := ih false (scene + 1) s' (by rw [hw']; exact hw) hr' (fun h => absurd h (Nat.succ_ne_zero _))
      refine ⟨fun n => ?_, this.2⟩
      rw [this.1 n, hf n]
      simp [List.append_assoc]

theorem encode_files_partition (cfg : StreamConfig) (hl : cfg.layout = .Partitioned)
    (frames : List (List (List PixelPacket))) (n : BlobName) :
    (encode cfg frames).files n = frames.flatMap (planeOf (AcquireImage cfg) n) := by
  have hi : (AcquireImage cfg).interlace = .PartitionInterlace := by
    simp [AcquireImage, hl, Layout.interlace]
  unfold encode WriteYCBCRImage
  simp only [hi, ne_eq, not_true_eq_false, if_false]
  have := (WriteScenes_partition (AcquireImage cfg) frames.length (fun _ _ => rfl) hi rfl frames
    true 0
    { files := emptySink.files, writable := emptySink.writable,
      room := emptySink.room, blob := none, count := 0, length := 0, status := true,
      opens := [], writes := 0 } (fun _ => rfl) rfl (fun _ _ => rfl)).1 n
  rw [this]
  simp [emptySink]

theorem SkipRows_discard (L : Nat) :
    ∀ (n : Nat) (s : ReadState) (D : List Nat), s.blob = some D → s.length = L →
      n * L ≤ D.length →
      SkipRows DiscardBlobStream n s =
        { s with blob := some (D.drop (n * L)), nread := s.nread + n * L,
                 count := if n = 0 then s.count else L } := by
  intro n
  induction n with
  | zero =>
    intro s D hb _ _
    cases s
    simp at hb
    simp [SkipRows, hb]
  | succ n ih =>
    intro s D hb hl hD
    have hLD : L ≤ D.length := by
      have : L ≤ (n + 1) * L := Nat.le_mul_of_pos_left L (Nat.succ_pos n)
      omega
    have hstep : DiscardBlobStream s =
        { s with blob := some (D.drop L), nread := s.nread + L, count := L } := by
      simp [DiscardBlobStream, ReadBlobStream, hb, hl, Nat.min_eq_left hLD]
    have hc := ih { s with blob := some (D.drop L), nread := s.nread + L, count := L }
      (D.drop L) rfl hl (by rw [List.length_drop]; rw [Nat.succ_mul] at hD; omega)
    rw [SkipRows, hstep]
    rw [if_neg (by simp [hl])]
    rw [hc]
    simp [List.drop_drop, Nat.succ_mul, Nat.add_comm, Nat.add_assoc, Nat.add_left_comm]

theorem SkipScenes_discard (H L : Nat) (hH : 1 ≤ H) :
    ∀ (i : Nat) (s : ReadState) (D : List Nat), s.blob = some D → s.length = L →
      i * (H * L) ≤ D.length →
      ∃ c, SkipScenes H i s =
        { s with blob := some (D.drop (i * (H * L))), nread := s.nread + i * (H * L), count := c } := by
  intro i
  induction i with
  | zero =>
    intro s D hb _ _
    refine ⟨s.count, ?_⟩
    cases s
    simp at hb
    simp [SkipScenes, hb]
  | succ i ih =>
    intro s D hb hl hD
    have hsm : (i + 1) * (H * L) = i * (H * L) + H * L := Nat.succ_mul _ _
    have hc := SkipRows_discard L H s D hb hl (by omega)
    have hH0 : ¬ H = 0 := by omega
    simp only [hH0, if_false] at hc
    obtain ⟨c2, hc2⟩ := ih
      { s with blob := some (D.drop (H * L)), nread := s.nread + H * L, count := L }
      (D.drop (H * L)) rfl hl
      (by rw [List.length_drop]; omega)
    refine ⟨c2, ?_⟩
    rw [SkipScenes, hc]
    rw [if_neg (by simp [hl])]
    rw [hc2]
    simp [List.drop_drop, hsm, Nat.add_comm, Nat.add_assoc]

theorem ReadPartitionFile_ok (info : ImageInfo) (files : BlobName → Option (List Nat))
    (first : Bool) (scene : Nat) (name : BlobName) (discard : Bool)
    (qt extentType : QuantumType) (chans : List Component) (k : Nat) (data : List Nat)
    (hmon : ∀ o e, info.progress o e = true) (ho : info.offset = 0)
    (hH : 1 ≤ info.extract_info.height)
    (hq : GetQuantumExtent info info.extract_info.width extentType =
      GetQuantumExtent info info.extract_info.width qt)
    (hfile : files name = some data)
    (hD : (scene + 1) * (info.extract_info.height *
      GetQuantumExtent info info.extract_info.width qt) ≤ data.length) (s : ReadState) :
    ReadPartitionFile info files first scene name discard qt extentType chans k s =
      (primed
        (rowsState info qt chans (GetQuantumExtent info info.extract_info.width qt)
          info.extract_info.height 0
          (data.drop (scene * (info.extract_info.height *
            GetQuantumExtent info info.extract_info.width qt)))
          (openedState s name data))
        (data.drop ((scene + 1) * (info.extract_info.height *
          GetQuantumExtent info info.extract_info.width qt)))
        (GetQuantumExtent info info.extract_info.width qt)
        (s.nread + (scene + 1) * (info.extract_info.height *
          GetQuantumExtent info info.extract_info.width qt)), false) := by
  generalize hLdef : GetQuantumExtent info info.extract_info.width qt = L at hq hD ⊢
  generalize hHdef : info.extract_info.height = H at hH hD ⊢
  have hsm : (scene + 1) * (H * L) = scene * (H * L) + H * L := Nat.succ_mul _ _
  unfold ReadPartitionFile
  have hopen : OpenBlob files name s = openedState s name data := by
    simp [OpenBlob, hfile, openedState]
  have hdisc : (if discard = true then DiscardBlobBytes info.offset (openedState s name data)
      else (openedState s name data, true)) = (openedState s name data, true) := by
    cases discard <;> simp [DiscardBlobBytes, ho, openedState]
  rw [hopen]
  have hst : ((openedState s name data).status = false) = False := by simp [openedState]
  simp only [hst, Bool.true_eq_false, if_false, hdisc, hq, hHdef]
  obtain ⟨c, hc⟩ := SkipScenes_discard H L hH scene
    { openedState s name data with length := L } data rfl rfl (by omega)
  have hread : ReadBlobStream (SkipScenes H scene { openedState s name data with length := L }) =
      primed (openedState s name data) (data.drop (scene * (H * L))) L
        (s.nread + scene * (H * L)) := by
    rw [hc]
    simp [ReadBlobStream, primed, openedState]
  dsimp only at hread
  rw [hread]
  rw [ReadRows_primed info qt chans false L hLdef.symm hmon H 0 _ _ _ rfl
    (by rw [List.length_drop]; omega)]
  rw [PlaneProgress_true info first k _ hmon (by rw [primed_status_eq, rowsState_status]; rfl)]
  congr 1
  exact primed_congr rfl (by rw [drop_drop_add, hsm]) (by rw [hsm]; omega)

theorem plane_step (info : ImageInfo) (W H : Nat) (hg : FullCanvas info W H) (qt : QuantumType)
    (ch : Component) (hcomp : qt.components = [ch])
    (hcov : ∀ p, Covers info.depth [ch] [ch] p)
    (f : List (List PixelPacket)) (hH : f.length = H) (hfW : ∀ row ∈ f, row.length = W)
    (hv : ∀ row ∈ f, ∀ p ∈ row, loadComponent info.depth ch p ≤ QuantumRange info.depth)
    (g : PixelPacket → PixelPacket) (tail : List Nat) (s : ReadState)
    (hc : s.canvas.length = W) (hp : s.pixels = f.map (fun row => row.map g)) :
    (rowsState info qt [ch] (GetQuantumExtent info W qt) H 0
        (f.flatMap (ExportQuantumPixels info qt) ++ tail) s).pixels =
        f.map (fun row => row.map (fun p => copyComponents info.depth [ch] p (g p))) ∧
      (rowsState info qt [ch] (GetQuantumExtent info W qt) H 0
        (f.flatMap (ExportQuantumPixels info qt) ++ tail) s).canvas.length = W := by
  obtain ⟨hW, hHH, hx, hy, hcol, hrows⟩ := hg
  have r := rowsState_content info qt [ch] W hW hx hy f 0 tail s []
    (f.map (fun row => row.map g)) []
    (fun row hr => ⟨hfW row hr, fun p hp' c hc' => by
        rw [hcomp] at hc'; simp at hc'; subst hc'
        exact hv row hr p hp', fun p _ => by rw [hcomp]; exact hcov p⟩)
    hc (by simp [hp]) rfl (by simp)
    (by intro q hq'; simp at hq'; obtain ⟨row, hr, rfl⟩ := hq'; simp [hfW row hr])
    (by rw [hrows, hH]; omega)
  rw [hH] at r
  refine ⟨?_, r.2⟩
  rw [r.1, zipWith_map_right]
  simp only [List.nil_append, List.append_nil]
  apply List.map_congr_left
  intro row _
  rw [zipWith_map_right]

theorem blankImage_eq_map (W H : Nat) (f : List (List PixelPacket)) (hH : f.length = H)
    (hfW : ∀ row ∈ f, row.length = W) :
    blankImage W H = f.map (fun row => row.map (fun _ => blankPixel)) := by
  unfold blankImage
  rw [← hH]
  clear hH
  induction f with
  | nil => rfl
  | cons row f ih =>
    simp only [List.length_cons, List.replicate_succ, List.map_cons]
    rw [ih (fun r hr => hfW r (List.mem_cons_of_mem _ hr))]
    congr 1
    rw [← hfW row (List.mem_cons_self _ _)]
    clear ih hfW
    induction row with
    | nil => rfl
    | cons p ps ih2 =>
      simp only [List.length_cons, List.replicate_succ, List.map_cons]
      rw [ih2]

theorem rowsState_pixels_congr (info : ImageInfo) (qt : QuantumType) (chans : List Component)
    (L : Nat) :
    ∀ (n y : Nat) (D : List Nat) (s t : ReadState), s.canvas = t.canvas → s.pixels = t.pixels →
      (rowsState info qt chans L n y D s).pixels = (rowsState info qt chans L n y D t).pixels ∧
      (rowsState info qt chans L n y D s).canvas = (rowsState info qt chans L n y D t).canvas := by
  intro n
  induction n with
  | zero => intro y D s t hc hp; exact ⟨hp, hc⟩
  | succ n ih =>
    intro y D s t hc hp
    simp only [rowsState]
    apply ih
    · unfold ImportRow; simp only [hc]; split <;> rfl
    · unfold ImportRow; simp only [hc, hp]; split <;> rfl

theorem FlatPartitionInterlace_frame3 (info : ImageInfo) (W H : Nat) (hg : FullCanvas info W H)
    (hH : 1 ≤ H) (hm : info.matte = false) (hmon : ∀ o e, info.progress o e = true)
    (ho : info.offset = 0) (files : BlobName → Option (List Nat)) (first : Bool) (scene : Nat)
    (f : List (List PixelPacket)) (hf : validFrame3 info.depth W H f)
    (dY dCb dCr tY tCb tCr : List Nat)
    (hfY : files .Y = some dY) (hfCb : files .Cb = some dCb) (hfCr : files .Cr = some dCr)
    (hY : dY.drop (scene * (H * GetQuantumExtent info W .RedQuantum)) =
      f.flatMap (ExportQuantumPixels info .RedQuantum) ++ tY)
    (hCb : dCb.drop (scene * (H * GetQuantumExtent info W .RedQuantum)) =
      f.flatMap (ExportQuantumPixels info .GreenQuantum) ++ tCb)
    (hCr : dCr.drop (scene * (H * GetQuantumExtent info W .RedQuantum)) =
      f.flatMap (ExportQuantumPixels info .BlueQuantum) ++ tCr)
    (hlY : (scene + 1) * (H * GetQuantumExtent info W .RedQuantum) ≤ dY.length)
    (hlCb : (scene + 1) * (H * GetQuantumExtent info W .RedQuantum) ≤ dCb.length)
    (hlCr : (scene + 1) * (H * GetQuantumExtent info W .RedQuantum) ≤ dCr.length)
    (s : ReadState) (hc : s.canvas.length = W) (hp : s.pixels = blankImage W H) :
    ∃ S b, FlatPartitionInterlace info files first scene s =
        primed S (dCr.drop ((scene + 1) * (H * GetQuantumExtent info W .RedQuantum)))
          (GetQuantumExtent info W .RedQuantum) b ∧
      S.status = true ∧ S.pixels = opaqueFrame f ∧ S.canvas.length = W ∧
      S.exception = s.exception ∧ S.opens = s.opens ++ [BlobName.Y, BlobName.Cb, BlobName.Cr] := by
  have hfW : ∀ row ∈ f, row.length = W := fun row hr => (hf.2 row hr).1
  obtain ⟨hW, hHH, hx, hy, hcol, hrows⟩ := id hg
  have hH' : 1 ≤ info.extract_info.height := by rw [hHH]; exact hH
  -- the Y file
  have e1 := ReadPartitionFile_ok info files first scene .Y true .RedQuantum .RedQuantum [.red] 1
    dY hmon ho hH' rfl hfY (by rw [hW, hHH]; exact hlY) s
  rw [hW, hHH, hY] at e1
  have c1 := plane_step info W H hg .RedQuantum .red rfl (covers_red info.depth) f hf.1 hfW
    (fun row hr p hp' => ((hf.2 row hr).2 p hp').1) (fun _ => blankPixel) tY
    (openedState s .Y dY) hc (by
      show s.pixels = _
      rw [hp]; exact blankImage_eq_map W H f hf.1 hfW)
  have st1 : (rowsState info .RedQuantum [.red] (GetQuantumExtent info W .RedQuantum) H 0
      (f.flatMap (ExportQuantumPixels info .RedQuantum) ++ tY) (openedState s .Y dY)).status = true ∧
      (rowsState info .RedQuantum [.red] (GetQuantumExtent info W .RedQuantum) H 0
      (f.flatMap (ExportQuantumPixels info .RedQuantum) ++ tY) (openedState s .Y dY)).exception =
        s.exception ∧
      (rowsState info .RedQuantum [.red] (GetQuantumExtent info W .RedQuantum) H 0
      (f.flatMap (ExportQuantumPixels info .RedQuantum) ++ tY) (openedState s .Y dY)).opens =
        s.opens ++ [BlobName.Y] :=
    ⟨by rw [rowsState_status]; rfl, by rw [rowsState_exception]; rfl, by rw [rowsState_opens]; rfl⟩
  generalize rowsState info .RedQuantum [.red] (GetQuantumExtent info W .RedQuantum) H 0
    (f.flatMap (ExportQuantumPixels info .RedQuantum) ++ tY) (openedState s .Y dY) = S1
    at e1 c1 st1
  generalize hA1 : primed S1 (dY.drop ((scene + 1) * (H * GetQuantumExtent info W .RedQuantum)))
    (GetQuantumExtent info W .RedQuantum)
    (s.nread + (scene + 1) * (H * GetQuantumExtent info W .RedQuantum)) = A1 at e1
  have a1 : (CloseBlob A1).pixels = S1.pixels ∧ (CloseBlob A1).canvas = S1.canvas ∧
      (CloseBlob A1).exception = S1.exception ∧ (CloseBlob A1).opens = S1.opens := by
    rw [← hA1]; exact ⟨rfl, rfl, rfl, rfl⟩
  -- the Cb file
  have e2 := ReadPartitionFile_ok info files first scene .Cb false .GreenQuantum .GreenQuantum
    [.green] 2 dCb hmon ho hH' rfl hfCb (by rw [hW, hHH]; exact hlCb) (CloseBlob A1)
  rw [hW, hHH] at e2
  rw [show GetQuantumExtent info W .GreenQuantum = GetQuantumExtent info W .RedQuantum from rfl,
    hCb] at e2
  have c2 := plane_step info W H hg .GreenQuantum .green rfl (covers_green info.depth) f hf.1 hfW
    (fun row hr p hp' => ((hf.2 row hr).2 p hp').2.1)
    (fun p => copyComponents info.depth [.red] p blankPixel) tCb
    (openedState (CloseBlob A1) .Cb dCb) (by show (CloseBlob A1).canvas.length = W; rw [a1.2.1]; exact c1.2)
    (by show (CloseBlob A1).pixels = _; rw [a1.1]; exact c1.1)
  rw [show GetQuantumExtent info W .GreenQuantum = GetQuantumExtent info W .RedQuantum from rfl]
    at c2
  have st2 : (rowsState info .GreenQuantum [.green] (GetQuantumExtent info W .RedQuantum) H 0
      (f.flatMap (ExportQuantumPixels info .GreenQuantum) ++ tCb)
      (openedState (CloseBlob A1) .Cb dCb)).status = true ∧
      (rowsState info .GreenQuantum [.green] (GetQuantumExtent info W .RedQuantum) H 0
      (f.flatMap (ExportQuantumPixels info .GreenQuantum) ++ tCb)
      (openedState (CloseBlob A1) .Cb dCb)).exception = s.exception ∧
      (rowsState info .GreenQuantum [.green] (GetQuantumExtent info W .RedQuantum) H 0
      (f.flatMap (ExportQuantumPixels info .GreenQuantum) ++ tCb)
      (openedState (CloseBlob A1) .Cb dCb)).opens = s.opens ++ [BlobName.Y, BlobName.Cb] :=
    ⟨by rw [rowsState_status]; rfl,
     by rw [rowsState_exception]; show (CloseBlob A1).exception = _; rw [a1.2.2.1, st1.2.1],
     by rw [rowsState_opens]; show (CloseBlob A1).opens ++ _ = _; rw [a1.2.2.2, st1.2.2]; simp⟩
  generalize rowsState info .GreenQuantum [.green] (GetQuantumExtent info W .RedQuantum) H 0
    (f.flatMap (ExportQuantumPixels info .GreenQuantum) ++ tCb)
    (openedState (CloseBlob A1) .Cb dCb) = S2 at e2 c2 st2
  generalize hA2 : primed S2 (dCb.drop ((scene + 1) * (H * GetQuantumExtent info W .RedQuantum)))
    (GetQuantumExtent info W .RedQuantum)
    ((CloseBlob A1).nread + (scene + 1) * (H * GetQuantumExtent info W .RedQuantum)) = A2 at e2
  have a2 : (CloseBlob A2).pixels = S2.pixels ∧ (CloseBlob A2).canvas = S2.canvas ∧
      (CloseBlob A2).exception = S2.exception ∧ (CloseBlob A2).opens = S2.opens := by
    rw [← hA2]; exact ⟨rfl, rfl, rfl, rfl⟩
  -- the Cr file
  have e3 := ReadPartitionFile_ok info files first scene .Cr false .BlueQuantum .BlueQuantum
    [.blue] 3 dCr hmon ho hH' rfl hfCr (by rw [hW, hHH]; exact hlCr) (CloseBlob A2)
  rw [hW, hHH] at e3
  rw [show GetQuantumExtent info W .BlueQuantum = GetQuantumExtent info W .RedQuantum from rfl,
    hCr] at e3
  have c3 := plane_step info W H hg .BlueQuantum .blue rfl (covers_blue info.depth) f hf.1 hfW
    (fun row hr p hp' => ((hf.2 row hr).2 p hp').2.2)
    (fun p => copyComponents info.depth [.green] p
      (copyComponents info.depth [.red] p blankPixel)) tCr
    (openedState (CloseBlob A2) .Cr dCr) (by show (CloseBlob A2).canvas.length = W; rw [a2.2.1]; exact c2.2)
    (by show (CloseBlob A2).pixels = _; rw [a2.1]; exact c2.1)
  rw [show GetQuantumExtent info W .BlueQuantum = GetQuantumExtent info W .RedQuantum from rfl]
    at c3
  have st3 : (rowsState info .BlueQuantum [.blue] (GetQuantumExtent info W .RedQuantum) H 0
      (f.flatMap (ExportQuantumPixels info .BlueQuantum) ++ tCr)
      (openedState (CloseBlob A2) .Cr dCr)).status = true ∧
      (rowsState info .BlueQuantum [.blue] (GetQuantumExtent info W .RedQuantum) H 0
      (f.flatMap (ExportQuantumPixels info .BlueQuantum) ++ tCr)
      (openedState (CloseBlob A2) .Cr dCr)).exception = s.exception ∧
      (rowsState info .BlueQuantum [.blue] (GetQuantumExtent info W .RedQuantum) H 0
      (f.flatMap (ExportQuantumPixels info .BlueQuantum) ++ tCr)
      (openedState (CloseBlob A2) .Cr dCr)).opens =
        s.opens ++ [BlobName.Y, BlobName.Cb, BlobName.Cr] :=
    ⟨by rw [rowsState_status]; rfl,
     by rw [rowsState_exception]; show (CloseBlob A2).exception = _; rw [a2.2.2.1, st2.2.1],
     by rw [rowsState_opens]; show (CloseBlob A2).opens ++ _ = _; rw [a2.2.2.2, st2.2.2]; simp⟩
  generalize rowsState info .BlueQuantum [.blue] (GetQuantumExtent info W .RedQuantum) H 0
    (f.flatMap (ExportQuantumPixels info .BlueQuantum) ++ tCr)
    (openedState (CloseBlob A2) .Cr dCr) = S3 at e3 c3 st3
  refine ⟨S3, (CloseBlob A2).nread + (scene + 1) * (H * GetQuantumExtent info W .RedQuantum),
    ?_, st3.1, ?_, c3.2, st3.2.1, st3.2.2⟩
  · unfold FlatPartitionInterlace
    simp only [e1, Bool.false_eq_true, if_false, e2, e3, hm]
    rw [PlaneProgress_true info first 5 _ hmon (by rw [primed_status_eq]; exact st3.1)]
  · rw [c3.1]
    simp only [opaqueFrame]
    apply List.map_congr_left
    intro row _
    apply List.map_congr_left
    intro p _
    exact copy_planes_blank info.depth p

theorem FlatYCBCRImage_partition3 (info : ImageInfo) (W H : Nat) (hg : FullCanvas info W H)
    (hW : 1 ≤ W) (hH : 1 ≤ H) (hi : info.interlace = .PartitionInterlace)
    (hm : info.matte = false) (hmon : ∀ o e, info.progress o e = true)
    (hping : info.ping = false) (ho : info.offset = 0) (hns : info.number_scenes = 0)
    (f : List (List PixelPacket)) (hf : validFrame3 info.depth W H f)
    (files : BlobName → Option (List Nat))
    (hfY : files .Y = some (planeOf info .Y f)) (hfCb : files .Cb = some (planeOf info .Cb f))
    (hfCr : files .Cr = some (planeOf info .Cr f)) :
    ∃ n, FlatYCBCRImage info files =
      some
        { images := [opaqueFrame f]
          exception := []
          opens := [BlobName.Y, BlobName.Cb, BlobName.Cr]
          nread := n } := by
  have hfW : ∀ row ∈ f, row.length = W := fun row hr => (hf.2 row hr).1
  have hlen : ∀ qt : QuantumType, qt.components.length = 1 →
      (f.flatMap (ExportQuantumPixels info qt)).length = H * GetQuantumExtent info W .RedQuantum := by
    intro qt hq
    rw [planeBytes_length info qt W H f hf.1 hfW]
    unfold GetQuantumExtent
    rw [hq]
    rfl
  have hL : 1 ≤ GetQuantumExtent info W .RedQuantum := by
    have := sampleBytes_pos info.depth
    simp only [GetQuantumExtent, QuantumType.components, List.length_singleton, Nat.one_mul]
    exact Nat.mul_pos hW this
  obtain ⟨S, b, hS, hst, hpix, -, hexc, hopens⟩ :=
    FlatPartitionInterlace_frame3 info W H hg hH hm hmon ho files true 0 f hf
      (planeOf info .Y f) (planeOf info .Cb f) (planeOf info .Cr f) [] [] [] hfY hfCb hfCr
      (by simp [planeOf]) (by simp [planeOf]) (by simp [planeOf])
      (by simp only [planeOf, Nat.zero_add, Nat.one_mul]; rw [hlen .RedQuantum rfl])
      (by simp only [planeOf, Nat.zero_add, Nat.one_mul]; rw [hlen .GreenQuantum rfl])
      (by simp only [planeOf, Nat.zero_add, Nat.one_mul]; rw [hlen .BlueQuantum rfl])
      ({ initialState info with count := 0, length := 0, status := true, stream := [] })
      (by simp [initialState, hg.1]) (by simp [initialState, hg.2.2.2.2.1, hg.2.2.2.2.2])
  refine ⟨b, ?_⟩
  unfold FlatYCBCRImage
  have hc0 : info.columns ≠ 0 := by rw [hg.2.2.2.2.1]; omega
  have hr0 : info.rows ≠ 0 := by rw [hg.2.2.2.2.2]; omega
  simp only [hc0, hr0, or_self, if_false, hi, ne_eq, not_true_eq_false]
  unfold FlatFromCanvas
  simp only [hns, ne_eq, not_true_eq_false, if_false]
  obtain ⟨k, hk⟩ : ∃ k, sceneFuel files = k + 1 := ⟨_, rfl⟩
  rw [hk]
  rw [FlatScenes_stop info files hping k [] 0 0 _ _
    (by simp only [FlatFrame, hi, List.isEmpty_nil]; exact hS)
    (Or.inr (Or.inr (by
      simp only [primed, planeOf, Nat.zero_add, Nat.one_mul, List.length_drop]
      rw [hlen .BlueQuantum rfl]
      omega)))]
  simp only [finishRead, primed_status_eq, hst, if_true, List.nil_append, hpix]
  simp only [primed, hexc, hopens, planeOf, Nat.zero_add, Nat.one_mul, List.length_drop]
  rw [hlen .BlueQuantum rfl]
  simp [initialState, hpix]

theorem modifyRow_drop (F : List PixelPacket → List PixelPacket) :
    ∀ (k y : Nat) (P : List (List PixelPacket)),
      (modifyRow F y P).drop k = if k ≤ y then modifyRow F (y - k) (P.drop k) else P.drop k := by
  intro k
  induction k with
  | zero => intro y P; simp
  | succ k ih =>
    intro y P
    cases P with
    | nil => cases y <;> simp [modifyRow]
    | cons r rs =>
      cases y with
      | zero => simp [modifyRow]
      | succ y =>
        simp only [modifyRow, List.drop_succ_cons, ih, Nat.add_le_add_iff_right,
          Nat.add_sub_add_right]

theorem modifyRow_take (F : List PixelPacket → List PixelPacket) :
    ∀ (n y : Nat) (P : List (List PixelPacket)),
      (modifyRow F y P).take n = if y < n then modifyRow F y (P.take n) else P.take n := by
  intro n
  induction n with
  | zero => intro y P; simp
  | succ n ih =>
    intro y P
    cases P with
    | nil => cases y <;> simp [modifyRow]
    | cons r rs =>
      cases y with
      | zero => simp [modifyRow]
      | succ y =>
        simp only [modifyRow, List.take_succ_cons, ih, Nat.add_lt_add_iff_right]
        split <;> simp [modifyRow]

theorem modifyRow_map (F Fc g : List PixelPacket → List PixelPacket)
    (h : ∀ r, g (F r) = Fc (g r)) :
    ∀ (y : Nat) (P : List (List PixelPacket)),
      (modifyRow F y P).map g = modifyRow Fc y (P.map g) := by
  intro y P
  induction P generalizing y with
  | nil => cases y <;> simp [modifyRow]
  | cons r rs ih =>
    cases y with
    | zero => simp [modifyRow, h]
    | succ y => simp [modifyRow, ih]

theorem copyPixels_drop (depth : Nat) (chans : List Component) :
    ∀ (k : Nat) (p q : List PixelPacket),
      (copyPixels depth chans p q).drop k = copyPixels depth chans (p.drop k) (q.drop k) := by
  intro k
  induction k with
  | zero => intro p q; simp
  | succ k ih =>
    intro p q
    cases q with
    | nil => cases p <;> simp [copyPixels]
    | cons q qs =>
      cases p with
      | nil =>
        have := ih [] qs
        simp only [List.drop_nil] at this
        simp only [copyPixels, List.drop_succ_cons, List.drop_nil, this]
      | cons p ps => simp only [copyPixels, List.drop_succ_cons, ih]

theorem copyPixels_take (depth : Nat) (chans : List Component) :
    ∀ (n : Nat) (p q : List PixelPacket),
      (copyPixels depth chans p q).take n = copyPixels depth chans p (q.take n) := by
  intro n
  induction n with
  | zero => intro p q; cases p <;> simp [copyPixels]
  | succ n ih =>
    intro p q
    cases q with
    | nil => cases p <;> simp [copyPixels]
    | cons q qs =>
      cases p with
      | nil => simp only [copyPixels, List.take_succ_cons, ih]
      | cons p ps => simp only [copyPixels, List.take_succ_cons, ih]

theorem copyPixels_congr_take (depth : Nat) (chans : List Component) :
    ∀ (q p1 p2 : List PixelPacket), p1.take q.length = p2.take q.length →
      copyPixels depth chans p1 q = copyPixels depth chans p2 q := by
  intro q
  induction q with
  | nil => intro p1 p2 _; cases p1 <;> cases p2 <;> simp [copyPixels]
  | cons q qs ih =>
    intro p1 p2 h
    cases p1 with
    | nil =>
      cases p2 with
      | nil => rfl
      | cons b bs => simp at h
    | cons a as =>
      cases p2 with
      | nil => simp at h
      | cons b bs =>
        simp only [List.length_cons, List.take_succ_cons, List.cons.injEq] at h
        simp only [copyPixels, h.1, ih as bs h.2]

theorem GetVirtualPixels_succ (canvas : List PixelPacket) (x : Int) (n : Nat) :
    GetVirtualPixels canvas x (n + 1) =
      virtualPixel canvas x :: GetVirtualPixels canvas (x + 1) n := by
  unfold GetVirtualPixels
  rw [List.range_succ_eq_map]
  simp only [List.map_cons, List.map_map, Nat.cast_zero, add_zero, List.cons.injEq, true_and]
  apply List.map_congr_left
  intro i _
  simp only [Function.comp, Nat.succ_eq_add_one, Nat.cast_add, Nat.cast_one]
  congr 1
  omega

theorem GetVirtualPixels_take (canvas : List PixelPacket) :
    ∀ (n m : Nat) (x : Int), m ≤ n →
      (GetVirtualPixels canvas x n).take m = GetVirtualPixels canvas x m := by
  intro n
  induction n with
  | zero => intro m x h; obtain rfl : m = 0 := by omega
            simp [GetVirtualPixels]
  | succ n ih =>
    intro m x h
    cases m with
    | zero => simp [GetVirtualPixels]
    | succ m =>
      rw [GetVirtualPixels_succ, GetVirtualPixels_succ, List.take_succ_cons, ih m _ (by omega)]

theorem GetVirtualPixels_drop (canvas : List PixelPacket) :
    ∀ (k n : Nat) (x : Int),
      (GetVirtualPixels canvas x n).drop k = GetVirtualPixels canvas (x + (k : Int)) (n - k) := by
  intro k
  induction k with
  | zero => intro n x; simp
  | succ k ih =>
    intro n x
    cases n with
    | zero => simp [GetVirtualPixels]
    | succ n =>
      rw [GetVirtualPixels_succ, List.drop_succ_cons, ih, Nat.add_sub_add_right]
      congr 1
      push_cast
      omega

/-- Cropping a copied row is copying into the cropped row from the shifted
canvas run. -/
theorem cropRow_copyPixels (depth : Nat) (chans : List Component) (canvas : List PixelPacket)
    (W x0 cw : Nat) (hx : x0 + cw ≤ W) (q : List PixelPacket) :
    ((copyPixels depth chans (GetVirtualPixels canvas 0 W) q).drop x0).take cw =
      copyPixels depth chans (GetVirtualPixels canvas (x0 : Int) W) ((q.drop x0).take cw) := by
  rw [copyPixels_drop, copyPixels_take, GetVirtualPixels_drop]
  apply copyPixels_congr_take
  have hl : ((q.drop x0).take cw).length ≤ cw := by
    rw [List.length_take]; exact Nat.min_le_left _ _
  rw [GetVirtualPixels_take _ _ _ _ (by omega), GetVirtualPixels_take _ _ _ _ (by omega)]
  simp

theorem importComponents_cropInfo (info : ImageInfo) (x0 y0 cw ch : Nat) :
    ∀ (cs : List Component) (b : List Nat) (q : PixelPacket),
      importComponents (cropInfo info x0 y0 cw ch) cs b q = importComponents info cs b q := by
  intro cs
  induction cs with
  | nil => intro b q; rfl
  | cons c cs ih => intro b q; simp only [importComponents]; rw [ih]; rfl

theorem importRow_cropInfo (info : ImageInfo) (x0 y0 cw ch : Nat) (comps : List Component) :
    ∀ (qs : List PixelPacket) (b : List Nat),
      importRow (cropInfo info x0 y0 cw ch) comps qs b = importRow info comps qs b := by
  intro qs
  induction qs with
  | nil => intro b; rfl
  | cons q qs ih =>
    intro b
    simp only [importRow]
    rw [ih, importComponents_cropInfo]
    rfl

theorem ImportRow_crop (info : ImageInfo) (x0 y0 cw ch : Nat) (hg : CropOf info x0 y0 cw ch)
    (qt : QuantumType) (chans : List Component) (y : Nat) (s : ReadState) :
    ImportRow (cropInfo info x0 y0 cw ch) qt chans y (cropState x0 y0 cw ch s) =
      cropState x0 y0 cw ch (ImportRow info qt chans y s) := by
  have hcanvas : ImportQuantumPixels (cropInfo info x0 y0 cw ch) qt s.canvas s.stream =
      ImportQuantumPixels info qt s.canvas s.stream := importRow_cropInfo info x0 y0 cw ch _ _ _
  have hwin : inWindow info y = decide (y < info.extract_info.height) := by
    unfold inWindow
    rw [hg.hy, hg.hrows]
    apply decide_eq_decide.mpr
    omega
  have hwinc : inWindow (cropInfo info x0 y0 cw ch) y = decide (y0 ≤ y ∧ y < y0 + ch) := by
    unfold inWindow cropInfo
    apply decide_eq_decide.mpr
    simp only
    omega
  have hty : ((y : Int) - (y0 : Int)).toNat = y - y0 := by omega
  have e1 : (cropInfo info x0 y0 cw ch).extract_info.width = info.extract_info.width := rfl
  have e2 : (cropInfo info x0 y0 cw ch).extract_info.x = (x0 : Int) := rfl
  have e3 : (cropInfo info x0 y0 cw ch).extract_info.y = (y0 : Int) := rfl
  have e4 : (cropInfo info x0 y0 cw ch).depth = info.depth := rfl
  have e5 : ∀ w q, GetQuantumExtent (cropInfo info x0 y0 cw ch) w q = GetQuantumExtent info w q :=
    fun _ _ => rfl
  have e6 : ∀ t : ReadState, (cropState x0 y0 cw ch t).canvas = t.canvas := fun _ => rfl
  have e7 : ∀ t : ReadState, (cropState x0 y0 cw ch t).stream = t.stream := fun _ => rfl
  simp only [ImportRow, hwin, hwinc, e1, e2, e3, e4, e5, e6, e7, hcanvas, hty, hg.hx, hg.hy,
    sub_zero, Int.toNat_ofNat]
  simp only [cropState]
  by_cases h1 : y < info.extract_info.height
  · by_cases h2 : y0 ≤ y ∧ y < y0 + ch
    · simp only [h1, h2, and_self, decide_True, if_true]
      congr 1
      unfold cropImage
      rw [modifyRow_drop, if_pos h2.1, modifyRow_take, if_pos (by omega)]
      exact Eq.symm <| modifyRow_map
        (copyPixels info.depth chans
          (GetVirtualPixels (ImportQuantumPixels info qt s.canvas s.stream) 0
            info.extract_info.width))
        (copyPixels info.depth chans
          (GetVirtualPixels (ImportQuantumPixels info qt s.canvas s.stream) (x0 : Int)
            info.extract_info.width))
        (fun row => (row.drop x0).take cw)
        (fun q => cropRow_copyPixels info.depth chans _ _ x0 cw hg.hw q) _ _
    · simp only [h1, h2, decide_True, decide_False, if_true, if_false, Bool.false_eq_true]
      congr 1
      unfold cropImage
      rw [modifyRow_drop]
      split
      · rw [modifyRow_take, if_neg (by omega)]
      · rfl
  · have h2 : ¬ (y0 ≤ y ∧ y < y0 + ch) := by have := hg.hh; omega
    simp only [h1, h2, decide_False, if_false, Bool.false_eq_true]

theorem ReadBlobStream_crop (x0 y0 cw ch : Nat) (s : ReadState) :
    ReadBlobStream (cropState x0 y0 cw ch s) = cropState x0 y0 cw ch (ReadBlobStream s) := by
  unfold ReadBlobStream cropState
  cases s.blob <;> rfl

theorem DiscardBlobStream_crop (x0 y0 cw ch : Nat) (s : ReadState) :
    DiscardBlobStream (cropState x0 y0 cw ch s) = cropState x0 y0 cw ch (DiscardBlobStream s) := by
  unfold DiscardBlobStream
  rw [ReadBlobStream_crop]
  rfl

theorem OpenBlob_crop (files : BlobName → Option (List Nat)) (name : BlobName)
    (x0 y0 cw ch : Nat) (s : ReadState) :
    OpenBlob files name (cropState x0 y0 cw ch s) = cropState x0 y0 cw ch (OpenBlob files name s) := by
  unfold OpenBlob cropState
  cases files name <;> rfl

theorem DiscardBlobBytes_crop (n x0 y0 cw ch : Nat) (s : ReadState) :
    DiscardBlobBytes n (cropState x0 y0 cw ch s) =
      (cropState x0 y0 cw ch (DiscardBlobBytes n s).1, (DiscardBlobBytes n s).2) := by
  cases hb : s.blob <;> simp [DiscardBlobBytes, cropState, hb]

theorem ReadRows_crop (info : ImageInfo) (x0 y0 cw ch : Nat) (hg : CropOf info x0 y0 cw ch)
    (qt : QuantumType) (chans : List Component) (monitor : Bool) :
    ∀ (n y : Nat) (s : ReadState),
      ReadRows (cropInfo info x0 y0 cw ch) qt chans monitor n y (cropState x0 y0 cw ch s) =
        cropState x0 y0 cw ch (ReadRows info qt chans monitor n y s) := by
  intro n
  induction n with
  | zero => intro y s; rfl
  | succ n ih =>
    intro y s
    have hp : (cropInfo info x0 y0 cw ch).progress y (cropInfo info x0 y0 cw ch).rows = true :=
      hg.hmon _ _
    rw [ReadRows, ReadRows]
    rw [ImportRow_crop info x0 y0 cw ch hg, hp, hg.hmon]
    by_cases hc : s.count ≠ s.length
    · have hc2 : (cropState x0 y0 cw ch s).count ≠ (cropState x0 y0 cw ch s).length := hc
      rw [if_pos hc, if_pos hc2]
      rfl
    · have hc2 : ¬ (cropState x0 y0 cw ch s).count ≠ (cropState x0 y0 cw ch s).length := hc
      rw [if_neg hc, if_neg hc2]
      cases monitor
      · simp only [Bool.false_eq_true, if_false]
        rw [ReadBlobStream_crop, ih]
      · simp only [if_true]
        rw [← ih]
        congr 1
        rw [← ReadBlobStream_crop]
        rfl

theorem ReadLineChannels_crop (info : ImageInfo) (x0 y0 cw ch : Nat)
    (hg : CropOf info x0 y0 cw ch) (y : Nat) :
    ∀ (qts : List QuantumType) (s : ReadState),
      ReadLineChannels (cropInfo info x0 y0 cw ch) y qts (cropState x0 y0 cw ch s) =
        cropState x0 y0 cw ch (ReadLineChannels info y qts s) := by
  intro qts
  induction qts with
  | nil => intro s; rfl
  | cons qt qts ih =>
    intro s
    rw [ReadLineChannels, ReadLineChannels]
    by_cases hc : s.count ≠ s.length
    · have hc2 : (cropState x0 y0 cw ch s).count ≠ (cropState x0 y0 cw ch s).length := hc
      rw [if_pos hc, if_pos hc2]
      rfl
    · have hc2 : ¬ (cropState x0 y0 cw ch s).count ≠ (cropState x0 y0 cw ch s).length := hc
      rw [if_neg hc, if_neg hc2, ImportRow_crop info x0 y0 cw ch hg, ReadBlobStream_crop, ih]

theorem PlaneProgress_crop (info : ImageInfo) (x0 y0 cw ch : Nat) (first : Bool) (k : Nat)
    (s : ReadState) :
    PlaneProgress (cropInfo info x0 y0 cw ch) first k (cropState x0 y0 cw ch s) =
      (cropState x0 y0 cw ch (PlaneProgress info first k s).1, (PlaneProgress info first k s).2) := by
  unfold PlaneProgress
  have hp : (cropInfo info x0 y0 cw ch).progress k 5 = info.progress k 5 := rfl
  rw [hp]
  cases first
  · rfl
  · cases info.progress k 5 <;> rfl

theorem withLength_crop (x0 y0 cw ch L : Nat) (s : ReadState) :
    { cropState x0 y0 cw ch s with length := L } = cropState x0 y0 cw ch { s with length := L } :=
  rfl

theorem SkipRows_crop (x0 y0 cw ch : Nat) :
    ∀ (n : Nat) (s : ReadState),
      SkipRows DiscardBlobStream n (cropState x0 y0 cw ch s) =
        cropState x0 y0 cw ch (SkipRows DiscardBlobStream n s) := by
  intro n
  induction n with
  | zero => intro s; rfl
  | succ n ih =>
    intro s
    rw [SkipRows, SkipRows]
    simp only [DiscardBlobStream_crop]
    generalize DiscardBlobStream s = t
    by_cases hc : t.count ≠ t.length
    · have hc2 : (cropState x0 y0 cw ch t).count ≠ (cropState x0 y0 cw ch t).length := hc
      rw [if_pos hc, if_pos hc2]
    · have hc2 : ¬ (cropState x0 y0 cw ch t).count ≠ (cropState x0 y0 cw ch t).length := hc
      rw [if_neg hc, if_neg hc2]
      exact ih t

theorem SkipScenes_crop (x0 y0 cw ch height : Nat) :
    ∀ (n : Nat) (s : ReadState),
      SkipScenes height n (cropState x0 y0 cw ch s) =
        cropState x0 y0 cw ch (SkipScenes height n s) := by
  intro n
  induction n with
  | zero => intro s; rfl
  | succ n ih =>
    intro s
    rw [SkipScenes, SkipScenes]
    simp only [SkipRows_crop]
    generalize SkipRows DiscardBlobStream height s = t
    by_cases hc : t.count ≠ t.length
    · have hc2 : (cropState x0 y0 cw ch t).count ≠ (cropState x0 y0 cw ch t).length := hc
      rw [if_pos hc, if_pos hc2]
    · have hc2 : ¬ (cropState x0 y0 cw ch t).count ≠ (cropState x0 y0 cw ch t).length := hc
      rw [if_neg hc, if_neg hc2]
      exact ih t

theorem ReadPartitionFile_crop (info : ImageInfo) (x0 y0 cw ch : Nat)
    (hg : CropOf info x0 y0 cw ch) (files : BlobName → Option (List Nat)) (first : Bool)
    (scene : Nat) (name : BlobName) (discard : Bool) (qt extentType : QuantumType)
    (chans : List Component) (k : Nat) (s : ReadState) :
    ReadPartitionFile (cropInfo info x0 y0 cw ch) files first scene name discard qt extentType
        chans k (cropState x0 y0 cw ch s) =
      (cropState x0 y0 cw ch
        (ReadPartitionFile info files first scene name discard qt extentType chans k s).1,
        (ReadPartitionFile info files first scene name discard qt extentType chans k s).2) := by
  have e1 : (cropInfo info x0 y0 cw ch).extract_info.width = info.extract_info.width := rfl
  have e2 : (cropInfo info x0 y0 cw ch).extract_info.height = info.extract_info.height := rfl
  have e3 : (cropInfo info x0 y0 cw ch).offset = info.offset := rfl
  have e5 : ∀ w q, GetQuantumExtent (cropInfo info x0 y0 cw ch) w q = GetQuantumExtent info w q :=
    fun _ _ => rfl
  unfold ReadPartitionFile
  simp only [e1, e2, e3, e5, OpenBlob_crop]
  generalize OpenBlob files name s = t
  by_cases h1 : t.status = false
  · have h1c : (cropState x0 y0 cw ch t).status = false := h1
    rw [if_pos h1, if_pos h1c]
  · have h1c : ¬ (cropState x0 y0 cw ch t).status = false := h1
    rw [if_neg h1, if_neg h1c]
    have hd : (if discard then DiscardBlobBytes info.offset (cropState x0 y0 cw ch t)
        else (cropState x0 y0 cw ch t, true)) =
        (cropState x0 y0 cw ch (if discard then DiscardBlobBytes info.offset t else (t, true)).1,
          (if discard then DiscardBlobBytes info.offset t else (t, true)).2) := by
      cases discard
      · rfl
      · simp only [if_true, DiscardBlobBytes_crop]
    rw [hd]
    generalize (if discard then DiscardBlobBytes info.offset t else (t, true)) = d
    obtain ⟨d1, d2⟩ := d
    cases d2
    · rfl
    · simp only [Bool.true_eq_false, if_false, withLength_crop, SkipScenes_crop,
        ReadBlobStream_crop, ReadRows_crop info x0 y0 cw ch hg, PlaneProgress_crop]

theorem CloseBlob_crop (x0 y0 cw ch : Nat) (s : ReadState) :
    CloseBlob (cropState x0 y0 cw ch s) = cropState x0 y0 cw ch (CloseBlob s) := rfl

theorem cropImage_blank (x0 y0 cw ch W H : Nat) (hw : x0 + cw ≤ W) (hh : y0 + ch ≤ H) :
    cropImage x0 y0 cw ch (blankImage W H) = blankImage cw ch := by
  unfold cropImage blankImage
  rw [List.drop_replicate, List.take_replicate, List.map_replicate, List.drop_replicate,
    List.take_replicate]
  congr 1
  · omega
  · congr 1
    omega

theorem finishRead_crop (x0 y0 cw ch : Nat) (previous : List (List (List PixelPacket)))
    (s : ReadState) :
    finishRead (previous.map (cropImage x0 y0 cw ch)) (cropState x0 y0 cw ch s) =
      cropResult x0 y0 cw ch (finishRead previous s) := by
  unfold finishRead cropResult cropState
  cases s.status <;> simp

theorem copyPixels_length (depth : Nat) (chans : List Component) :
    ∀ (q p : List PixelPacket), (copyPixels depth chans p q).length = q.length := by
  intro q
  induction q with
  | nil => intro p; cases p <;> rfl
  | cons q qs ih =>
    intro p
    cases p with
    | nil => simp only [copyPixels, List.length_cons, ih]
    | cons p ps => simp only [copyPixels, List.length_cons, ih]

theorem shape_modifyRow (F : List PixelPacket → List PixelPacket)
    (hF : ∀ r, (F r).length = r.length) :
    ∀ (y : Nat) (P : List (List PixelPacket)), shape (modifyRow F y P) = shape P := by
  intro y P
  induction P generalizing y with
  | nil => cases y <;> rfl
  | cons r rs ih =>
    cases y with
    | zero => simp [modifyRow, shape, hF]
    | succ y =>
      have := ih y
      simp only [shape] at this
      simp [modifyRow, shape, this]

theorem ImportRow_shape (info : ImageInfo) (qt : QuantumType) (chans : List Component) (y : Nat)
    (s : ReadState) : shape (ImportRow info qt chans y s).pixels = shape s.pixels := by
  unfold ImportRow
  simp only
  split
  · exact shape_modifyRow _ (fun r => copyPixels_length _ _ r _) _ _
  · rfl

theorem ReadBlobStream_pixels (s : ReadState) : (ReadBlobStream s).pixels = s.pixels := by
  unfold ReadBlobStream
  cases s.blob <;> rfl

theorem DiscardBlobStream_pixels (s : ReadState) : (DiscardBlobStream s).pixels = s.pixels := by
  unfold DiscardBlobStream
  exact ReadBlobStream_pixels s

theorem OpenBlob_pixels (files : BlobName → Option (List Nat)) (name : BlobName) (s : ReadState) :
    (OpenBlob files name s).pixels = s.pixels := by
  unfold OpenBlob
  cases files name <;> rfl

theorem DiscardBlobBytes_pixels (n : Nat) (s : ReadState) :
    (DiscardBlobBytes n s).1.pixels = s.pixels := by
  unfold DiscardBlobBytes
  cases s.blob <;> rfl

theorem ReadRows_shape (info : ImageInfo) (qt : QuantumType) (chans : List Component)
    (monitor : Bool) :
    ∀ (n y : Nat) (s : ReadState),
      shape (ReadRows info qt chans monitor n y s).pixels = shape s.pixels := by
  intro n
  induction n with
  | zero => intro y s; rfl
  | succ n ih =>
    intro y s
    rw [ReadRows]
    split
    · rfl
    · simp only
      split
      · split
        · rw [ih, ReadBlobStream_pixels]
          exact ImportRow_shape info qt chans y s
        · exact ImportRow_shape info qt chans y s
      · rw [ih, ReadBlobStream_pixels]
        exact ImportRow_shape info qt chans y s

theorem ReadLineChannels_shape (info : ImageInfo) (y : Nat) :
    ∀ (qts : List QuantumType) (s : ReadState),
      shape (ReadLineChannels info y qts s).pixels = shape s.pixels := by
  intro qts
  induction qts with
  | nil => intro s; rfl
  | cons qt qts ih =>
    intro s
    rw [ReadLineChannels]
    split
    · rfl
    · rw [ih, ReadBlobStream_pixels]
      exact ImportRow_shape info qt _ y s

theorem PlaneProgress_pixels (info : ImageInfo) (first : Bool) (k : Nat) (s : ReadState) :
    (PlaneProgress info first k s).1.pixels = s.pixels := by
  unfold PlaneProgress
  cases first
  · rfl
  · cases info.progress k 5 <;> rfl

theorem SkipRows_pixels :
    ∀ (n : Nat) (s : ReadState), (SkipRows DiscardBlobStream n s).pixels = s.pixels := by
  intro n
  induction n with
  | zero => intro s; rfl
  | succ n ih =>
    intro s
    rw [SkipRows]
    split
    · exact DiscardBlobStream_pixels s
    · rw [ih, DiscardBlobStream_pixels]

theorem SkipRows_read_pixels :
    ∀ (n : Nat) (s : ReadState), (SkipRows ReadBlobStream n s).pixels = s.pixels := by
  intro n
  induction n with
  | zero => intro s; rfl
  | succ n ih =>
    intro s
    rw [SkipRows]
    split
    · exact ReadBlobStream_pixels s
    · rw [ih, ReadBlobStream_pixels]

theorem SkipScenes_pixels (height : Nat) :
    ∀ (n : Nat) (s : ReadState), (SkipScenes height n s).pixels = s.pixels := by
  intro n
  induction n with
  | zero => intro s; rfl
  | succ n ih =>
    intro s
    rw [SkipScenes]
    split
    · exact SkipRows_pixels _ s
    · rw [ih, SkipRows_pixels]

theorem SkipToScene_pixels (info : ImageInfo) :
    ∀ (k : Nat) (s : ReadState), (SkipToScene info k s).pixels = s.pixels := by
  intro k
  induction k with
  | zero => intro s; rfl
  | succ k ih =>
    intro s
    rw [SkipToScene, ih, SkipRows_read_pixels]

theorem ReadPartitionFile_shape (info : ImageInfo) (files : BlobName → Option (List Nat))
    (first : Bool) (scene : Nat) (name : BlobName) (discard : Bool) (qt extentType : QuantumType)
    (chans : List Component) (k : Nat) (s : ReadState) :
    shape (ReadPartitionFile info files first scene name discard qt extentType chans k s).1.pixels =
      shape s.pixels := by
  unfold ReadPartitionFile
  simp only
  by_cases h1 : (OpenBlob files name s).status = false
  · rw [if_pos h1, OpenBlob_pixels]
  · rw [if_neg h1]
    have hd : (if discard then DiscardBlobBytes info.offset (OpenBlob files name s)
        else (OpenBlob files name s, true)).1.pixels = s.pixels := by
      split
      · rw [DiscardBlobBytes_pixels, OpenBlob_pixels]
      · exact OpenBlob_pixels files name s
    generalize (if discard then DiscardBlobBytes info.offset (OpenBlob files name s)
        else (OpenBlob files name s, true)) = d at hd ⊢
    by_cases h2 : d.2 = false
    · rw [if_pos h2]
      exact congrArg shape hd
    · rw [if_neg h2, PlaneProgress_pixels, ReadRows_shape, ReadBlobStream_pixels,
        SkipScenes_pixels]
      exact congrArg shape hd

theorem shape_blankImage (columns rows : Nat) :
    shape (blankImage columns rows) = List.replicate rows columns := by
  simp [shape, blankImage]

theorem finishRead_shape (sh : List Nat) (previous : List (List (List PixelPacket)))
    (s : ReadState) (hprev : ∀ f ∈ previous, shape f = sh) (hs : shape s.pixels = sh) :
    ∀ f ∈ (finishRead previous s).images, shape f = sh := by
  intro f hf
  unfold finishRead at hf
  simp only at hf
  split at hf
  · rcases List.mem_append.mp hf with h | h
    · exact hprev f h
    · rw [List.mem_singleton.mp h]; exact hs
  · cases hf

theorem importComponents_congr (a b : ImageInfo) (h : SameCodec a b) :
    ∀ (cs : List Component) (bs : List Nat) (q : PixelPacket),
      importComponents a cs bs q = importComponents b cs bs q := by
  intro cs
  induction cs with
  | nil => intro bs q; rfl
  | cons c cs ih =>
    intro bs q
    simp only [importComponents]
    rw [ih, h.depth, h.endian]

theorem importRow_congr (a b : ImageInfo) (h : SameCodec a b) (comps : List Component) :
    ∀ (qs : List PixelPacket) (bs : List Nat), importRow a comps qs bs = importRow b comps qs bs := by
  intro qs
  induction qs with
  | nil => intro bs; rfl
  | cons q qs ih =>
    intro bs
    simp only [importRow]
    rw [ih, importComponents_congr a b h, h.depth]

theorem ImportRow_congr (a b : ImageInfo) (h : SameCodec a b) (qt : QuantumType)
    (chans : List Component) (y : Nat) (s t : ReadState) (hc : s.canvas = t.canvas)
    (hp : s.pixels = t.pixels) (hs : s.stream = t.stream) :
    (ImportRow a qt chans y s).canvas = (ImportRow b qt chans y t).canvas ∧
      (ImportRow a qt chans y s).pixels = (ImportRow b qt chans y t).pixels := by
  have hw : inWindow a y = inWindow b y := by unfold inWindow; rw [h.extract_info, h.rows]
  have hq : ImportQuantumPixels a qt s.canvas s.stream = ImportQuantumPixels b qt t.canvas t.stream := by
    unfold ImportQuantumPixels
    rw [importRow_congr a b h, hc, hs]
  unfold ImportRow
  simp only [hw, hq, h.extract_info, h.depth, hp]
  split
  · exact ⟨rfl, rfl⟩
  · exact ⟨rfl, rfl⟩

theorem rowsState_congr (a b : ImageInfo) (h : SameCodec a b) (qt : QuantumType)
    (chans : List Component) (L : Nat) :
    ∀ (n y : Nat) (D : List Nat) (s t : ReadState), s.canvas = t.canvas → s.pixels = t.pixels →
      (rowsState a qt chans L n y D s).canvas = (rowsState b qt chans L n y D t).canvas ∧
        (rowsState a qt chans L n y D s).pixels = (rowsState b qt chans L n y D t).pixels := by
  intro n
  induction n with
  | zero => intro y D s t hc hp; exact ⟨hc, hp⟩
  | succ n ih =>
    intro y D s t hc hp
    have := ImportRow_congr a b h qt chans y { s with stream := D.take L }
      { t with stream := D.take L } hc hp rfl
    exact ih (y + 1) (D.drop L) _ _ this.1 this.2

theorem lineChannelsState_congr (a b : ImageInfo) (h : SameCodec a b) (L y : Nat) :
    ∀ (qts : List QuantumType) (D : List Nat) (s t : ReadState),
      s.canvas = t.canvas → s.pixels = t.pixels →
      (lineChannelsState a L y qts D s).canvas = (lineChannelsState b L y qts D t).canvas ∧
        (lineChannelsState a L y qts D s).pixels = (lineChannelsState b L y qts D t).pixels := by
  intro qts
  induction qts with
  | nil => intro D s t hc hp; exact ⟨hc, hp⟩
  | cons qt qts ih =>
    intro D s t hc hp
    have := ImportRow_congr a b h qt (lineChannel qt) y { s with stream := D.take L }
      { t with stream := D.take L } hc hp rfl
    exact ih (D.drop L) _ _ this.1 this.2

theorem lineRowsState_congr (a b : ImageInfo) (h : SameCodec a b) (L : Nat)
    (qts : List QuantumType) :
    ∀ (n y : Nat) (D : List Nat) (s t : ReadState), s.canvas = t.canvas → s.pixels = t.pixels →
      (lineRowsState a L qts n y D s).canvas = (lineRowsState b L qts n y D t).canvas ∧
        (lineRowsState a L qts n y D s).pixels = (lineRowsState b L qts n y D t).pixels := by
  intro n
  induction n with
  | zero => intro y D s t hc hp; exact ⟨hc, hp⟩
  | succ n ih =>
    intro y D s t hc hp
    have := lineChannelsState_congr a b h L y qts D s t hc hp
    exact ih (y + 1) _ _ _ this.1 this.2

theorem GetQuantumExtent_congr (a b : ImageInfo) (h : SameCodec a b) (w : Nat) (qt : QuantumType) :
    GetQuantumExtent a w qt = GetQuantumExtent b w qt := by
  unfold GetQuantumExtent; rw [h.depth]

theorem chunkLength_congr (a b : ImageInfo) (h : SameCodec a b) :
    chunkLength a = chunkLength b := by
  unfold chunkLength ImageInfo.quantum_type
  rw [h.interlace, h.extract_info, h.matte]
  cases b.interlace <;> exact GetQuantumExtent_congr a b h _ _

theorem frameLength_congr (a b : ImageInfo) (h : SameCodec a b) :
    frameLength a = frameLength b := by
  unfold frameLength ImageInfo.channels
  rw [h.extract_info, h.matte, h.depth]

theorem planesState_congr (a b : ImageInfo) (h : SameCodec a b) (D : List Nat)
    (s t : ReadState) (hc : s.canvas = t.canvas) (hp : s.pixels = t.pixels) :
    (planesState a D s).canvas = (planesState b D t).canvas ∧
      (planesState a D s).pixels = (planesState b D t).pixels := by
  unfold planesState
  simp only [h.matte, h.extract_info, GetQuantumExtent_congr a b h]
  have r1 := rowsState_congr a b h .RedQuantum [.red]
    (GetQuantumExtent b b.extract_info.width .RedQuantum) b.extract_info.height 0 D s t hc hp
  have r2 := rowsState_congr a b h .GreenQuantum [.green]
    (GetQuantumExtent b b.extract_info.width .RedQuantum) b.extract_info.height 0
    (D.drop (b.extract_info.height * GetQuantumExtent b b.extract_info.width .RedQuantum))
    _ _ r1.1 r1.2
  have r3 := rowsState_congr a b h .BlueQuantum [.blue]
    (GetQuantumExtent b b.extract_info.width .RedQuantum) b.extract_info.height 0
    (D.drop (b.extract_info.height * GetQuantumExtent b b.extract_info.width .RedQuantum +
      b.extract_info.height * GetQuantumExtent b b.extract_info.width .RedQuantum))
    _ _ r2.1 r2.2
  split
  · exact rowsState_congr a b h .AlphaQuantum [.opacity] _ _ 0 _ _ _ r3.1 r3.2
  · exact r3

theorem frameState_congr (a b : ImageInfo) (h : SameCodec a b) (D : List Nat)
    (s t : ReadState) (hc : s.canvas = t.canvas) (hp : s.pixels = t.pixels) :
    (frameState a D s).canvas = (frameState b D t).canvas ∧
      (frameState a D s).pixels = (frameState b D t).pixels := by
  have hq : a.quantum_type = b.quantum_type := by unfold ImageInfo.quantum_type; rw [h.matte]
  have hpc : a.packetChannels = b.packetChannels := by unfold ImageInfo.packetChannels; rw [h.matte]
  have hlt : a.lineTypes = b.lineTypes := by unfold ImageInfo.lineTypes; rw [h.matte]
  unfold frameState
  rw [h.interlace, chunkLength_congr a b h, hq, hpc, hlt, h.extract_info]
  cases b.interlace
  · exact rowsState_congr a b h _ _ _ _ _ _ _ _ hc hp
  · exact lineRowsState_congr a b h _ _ _ _ _ _ _ hc hp
  · exact planesState_congr a b h D s t hc hp
  · exact planesState_congr a b h D s t hc hp

theorem scenesImages_congr (a b : ImageInfo) (h : SameCodec a b) :
    ∀ (n : Nat) (D : List Nat) (s t : ReadState), s.canvas = t.canvas → s.pixels = t.pixels →
      scenesImages a n D s = scenesImages b n D t := by
  intro n
  induction n with
  | zero => intro D s t _ _; rfl
  | succ n ih =>
    intro D s t hc hp
    have hf := frameState_congr a b h D s t hc hp
    simp only [scenesImages]
    rw [hf.2, frameLength_congr a b h, h.columns, h.rows]
    congr 1
    exact ih _ _ _ hf.1 rfl

theorem SkipRows_read (L : Nat) :
    ∀ (n : Nat) (s : ReadState) (D : List Nat), s.blob = some D → s.length = L →
      n * L ≤ D.length →
      ∃ c st, SkipRows ReadBlobStream n s =
        { s with blob := some (D.drop (n * L)), nread := s.nread + n * L, count := c,
                 stream := st } := by
  intro n
  induction n with
  | zero =>
    intro s D hb _ _
    refine ⟨s.count, s.stream, ?_⟩
    cases s
    simp at hb
    simp [SkipRows, hb]
  | succ n ih =>
    intro s D hb hl hD
    have hLD : L ≤ D.length := by
      have : L ≤ (n + 1) * L := Nat.le_mul_of_pos_left L (Nat.succ_pos n)
      omega
    have hstep : ReadBlobStream s =
        { s with blob := some (D.drop L), nread := s.nread + L, count := L,
                 stream := D.take L } := by
      simp [ReadBlobStream, hb, hl, Nat.min_eq_left hLD]
    obtain ⟨c, st, hc⟩ := ih
      { s with blob := some (D.drop L), nread := s.nread + L, count := L, stream := D.take L }
      (D.drop L) rfl hl (by rw [List.length_drop]; rw [Nat.succ_mul] at hD; omega)
    refine ⟨c, st, ?_⟩
    rw [SkipRows, hstep]
    rw [if_neg (by simp [hl])]
    rw [hc]
    simp [List.drop_drop, Nat.succ_mul, Nat.add_comm, Nat.add_assoc, Nat.add_left_comm]

theorem SkipToScene_skip (info : ImageInfo) :
    ∀ (k : Nat) (s : ReadState) (D : List Nat), s.blob = some D →
      k * (info.rows * GetQuantumExtent info info.extract_info.width info.quantum_type) ≤
        D.length →
      ∃ c l st, SkipToScene info k s =
        { s with
          blob := some (D.drop (k *
            (info.rows * GetQuantumExtent info info.extract_info.width info.quantum_type)))
          nread := s.nread + k *
            (info.rows * GetQuantumExtent info info.extract_info.width info.quantum_type)
          count := c, length := l, stream := st } := by
  generalize hL : GetQuantumExtent info info.extract_info.width info.quantum_type = L
  intro k
  induction k with
  | zero =>
    intro s D hb _
    refine ⟨s.count, s.length, s.stream, ?_⟩
    cases s
    simp at hb
    simp [SkipToScene, hb]
  | succ k ih =>
    intro s D hb hD
    have hsm : (k + 1) * (info.rows * L) = k * (info.rows * L) + info.rows * L :=
      Nat.succ_mul _ _
    obtain ⟨c1, st1, h1⟩ := SkipRows_read L info.rows { s with length := L } D hb rfl (by omega)
    obtain ⟨c, l, st, h2⟩ := ih
      { s with length := L, blob := some (D.drop (info.rows * L)),
               nread := s.nread + info.rows * L, count := c1, stream := st1 }
      (D.drop (info.rows * L)) rfl (by rw [List.length_drop]; omega)
    refine ⟨c, l, st, ?_⟩
    rw [SkipToScene, hL]
    dsimp only at h1 h2 ⊢
    rw [h1, h2]
    simp [List.drop_drop, hsm, Nat.add_comm, Nat.add_assoc]

/-- A single-stream decode of a stream that holds the skipped scenes and then
`n + 1` complete scenes, and that stops after them. -/
theorem FlatYCBCRImage_scenes (info : ImageInfo) (files : BlobName → Option (List Nat))
    (D : List Nat) (hmon : ∀ o e, info.progress o e = true)
    (hi : info.interlace ≠ .PartitionInterlace) (hping : info.ping = false)
    (ho : info.offset = 0) (hc : info.columns ≠ 0) (hr : info.rows ≠ 0)
    (hW : 1 ≤ info.extract_info.width) (hH : 1 ≤ info.extract_info.height)
    (hfile : files .main = some D) (n : Nat)
    (hD : skipLength info + (n + 1) * frameLength info ≤ D.length)
    (hlast : ∀ j < n, lastScene info (firstScene info + j) = false)
    (hstop : lastScene info (firstScene info + n) = true ∨
      D.length - skipLength info - (n + 1) * frameLength info < chunkLength info) :
    FlatYCBCRImage info files =
      some
        { images := scenesImages info (n + 1) (D.drop (skipLength info)) (initialState info)
          exception := []
          opens := [BlobName.main]
          nread := skipLength info + (n + 1) * frameLength info +
            min (chunkLength info) (D.length - skipLength info - (n + 1) * frameLength info) } := by
  have hL := chunkLength_pos info hW
  have hF := chunkLength_le_frameLength info hH
  have hFp := frameLength_pos info hW hH
  rw [FlatYCBCRImage_open info files D hc hr hi ho hfile]
  unfold FlatFromCanvas
  have hskip : ∃ c l st,
      (if info.number_scenes ≠ 0 then
          SkipToScene info info.scene
            { initialState info with
              blob := some D, blobSize := D.length, opens := [BlobName.main] }
        else
          { initialState info with
            blob := some D, blobSize := D.length, opens := [BlobName.main] }) =
        { initialState info with
          blob := some (D.drop (skipLength info)), blobSize := D.length
          opens := [BlobName.main], nread := skipLength info
          count := c, length := l, stream := st } := by
    unfold skipLength firstScene at hD ⊢
    by_cases hns : info.number_scenes ≠ 0
    · simp only [if_pos hns] at hD ⊢
      obtain ⟨c, l, st, h⟩ := SkipToScene_skip info info.scene
        { initialState info with blob := some D, blobSize := D.length, opens := [BlobName.main] }
        D rfl (by omega)
      refine ⟨c, l, st, ?_⟩
      rw [h]
      simp [initialState]
    · simp only [if_neg hns]
      refine ⟨0, 0, [], ?_⟩
      simp [initialState]
  obtain ⟨c, l, st, hs⟩ := hskip
  simp only
  rw [hs]
  have hfuel : n + 1 ≤ sceneFuel files := by
    have h1 : blobLength files .main = D.length := by simp [blobLength, hfile]
    have h2 : n + 1 ≤ (n + 1) * frameLength info := Nat.le_mul_of_pos_right _ (by omega)
    unfold sceneFuel
    omega
  have key := FlatScenes_frames info files hmon hi hping hL hF n (sceneFuel files) []
    (firstScene info) 0 (D.drop (skipLength info))
    ({ initialState info with
        blobSize := D.length
        opens := [BlobName.main], count := 0, length := 0, status := true, stream := [] })
    (skipLength info) rfl (by rw [List.length_drop]; omega) hfuel hlast
    (by rw [List.length_drop]; exact hstop)
  simp only [if_true, List.nil_append, List.length_drop] at key
  have himg := scenesImages_congr info info ⟨rfl, rfl, rfl, rfl, rfl, rfl, rfl⟩ (n + 1)
    (D.drop (skipLength info))
    ({ initialState info with
        blobSize := D.length
        opens := [BlobName.main], count := 0, length := 0, status := true, stream := [] })
    (initialState info) rfl rfl
  rw [himg] at key
  exact key

/-- What reading a channel file that holds exactly one scene leaves behind. -/
theorem ReadPartitionFile_one (info : ImageInfo) (files : BlobName → Option (List Nat))
    (first : Bool) (name : BlobName) (discard : Bool)
    (qt extentType : QuantumType) (chans : List Component) (k : Nat) (data : List Nat)
    (hmon : ∀ o e, info.progress o e = true) (ho : info.offset = 0)
    (hH : 1 ≤ info.extract_info.height)
    (hq : GetQuantumExtent info info.extract_info.width extentType =
      GetQuantumExtent info info.extract_info.width qt)
    (hfile : files name = some data)
    (hlen : data.length = info.extract_info.height *
      GetQuantumExtent info info.extract_info.width qt)
    (hL : 1 ≤ GetQuantumExtent info info.extract_info.width qt) (s : ReadState) :
    ∃ S, ReadPartitionFile info files first 0 name discard qt extentType chans k s = (S, false) ∧
      S.status = true ∧ S.exception = s.exception ∧ S.opens = s.opens ++ [name] ∧
      S.count ≠ S.length := by
  have h := ReadPartitionFile_ok info files first 0 name discard qt extentType chans k data hmon
    ho hH hq hfile (by rw [hlen]; omega) s
  refine ⟨_, h, ?_, ?_, ?_, ?_⟩
  · rw [primed_status_eq, rowsState_status]; rfl
  · show (rowsState _ _ _ _ _ _ _ _).exception = _
    rw [rowsState_exception]; rfl
  · show (rowsState _ _ _ _ _ _ _ _).opens = _
    rw [rowsState_opens]; rfl
  · simp only [primed, List.length_drop, hlen]
    omega

theorem FlatPartitionInterlace_one (info : ImageInfo) (files : BlobName → Option (List Nat))
    (first : Bool) (hmon : ∀ o e, info.progress o e = true) (ho : info.offset = 0)
    (hW : 1 ≤ info.extract_info.width) (hH : 1 ≤ info.extract_info.height)
    (hfiles : oneSceneFiles info files) (s : ReadState) :
    (FlatPartitionInterlace info files first 0 s).status = true ∧
      (FlatPartitionInterlace info files first 0 s).exception = s.exception ∧
      (FlatPartitionInterlace info files first 0 s).opens = s.opens ++ partitionNames info ∧
      (FlatPartitionInterlace info files first 0 s).count ≠
        (FlatPartitionInterlace info files first 0 s).length := by
  have hx : ∀ qt : QuantumType, qt.components.length = 1 →
      GetQuantumExtent info info.extract_info.width qt =
        GetQuantumExtent info info.extract_info.width .RedQuantum := by
    intro qt h
    rw [extent_single info _ qt h, extent_single info _ .RedQuantum rfl]
  have hL : 1 ≤ GetQuantumExtent info info.extract_info.width .RedQuantum := by
    rw [extent_single info _ .RedQuantum rfl]
    exact Nat.mul_pos hW (sampleBytes_pos _)
  have hmem : ∀ name, name ∈ [BlobName.Y, BlobName.Cb, BlobName.Cr] → name ∈ partitionNames info := by
    intro name h
    unfold partitionNames
    split
    · simp only [List.mem_cons, List.mem_singleton, List.not_mem_nil, or_false] at h ⊢
      rcases h with h | h | h <;> simp [h]
    · exact h
  obtain ⟨dY, hfY, hlY⟩ := hfiles .Y (hmem _ (by simp))
  obtain ⟨dCb, hfCb, hlCb⟩ := hfiles .Cb (hmem _ (by simp))
  obtain ⟨dCr, hfCr, hlCr⟩ := hfiles .Cr (hmem _ (by simp))
  obtain ⟨S1, e1, st1, ex1, op1, _⟩ := ReadPartitionFile_one info files first .Y true .RedQuantum
    .RedQuantum [.red] 1 dY hmon ho hH rfl hfY hlY hL s
  obtain ⟨S2, e2, st2, ex2, op2, _⟩ := ReadPartitionFile_one info files first .Cb false
    .GreenQuantum .GreenQuantum [.green] 2 dCb hmon ho hH rfl hfCb
    (by rw [hx .GreenQuantum rfl]; exact hlCb) (by rw [hx .GreenQuantum rfl]; exact hL)
    (CloseBlob S1)
  obtain ⟨S3, e3, st3, ex3, op3, c3⟩ := ReadPartitionFile_one info files first .Cr false
    .BlueQuantum .BlueQuantum [.blue] 3 dCr hmon ho hH rfl hfCr
    (by rw [hx .BlueQuantum rfl]; exact hlCr) (by rw [hx .BlueQuantum rfl]; exact hL)
    (CloseBlob S2)
  have hcl : ∀ t : ReadState, (CloseBlob t).exception = t.exception ∧ (CloseBlob t).opens = t.opens :=
    fun _ => ⟨rfl, rfl⟩
  unfold FlatPartitionInterlace
  simp only [e1, e2, e3, Bool.false_eq_true, if_false]
  cases hm : info.matte
  · simp only [Bool.false_eq_true, if_false]
    rw [PlaneProgress_true info first 5 S3 hmon st3]
    refine ⟨st3, ?_, ?_, c3⟩
    · rw [ex3, (hcl S2).1, ex2, (hcl S1).1, ex1]
    · rw [op3, (hcl S2).2, op2, (hcl S1).2, op1]
      simp [partitionNames, hm]
  · obtain ⟨dA, hfA, hlA⟩ := hfiles .A (by simp [partitionNames, hm])
    obtain ⟨S4, e4, st4, ex4, op4, c4⟩ := ReadPartitionFile_one info files first .A false
      .BlueQuantum .AlphaQuantum [.opacity] 4 dA hmon ho hH
      (by rw [hx .AlphaQuantum rfl, hx .BlueQuantum rfl]) hfA
      (by rw [hx .BlueQuantum rfl]; exact hlA) (by rw [hx .BlueQuantum rfl]; exact hL)
      (CloseBlob S3)
    simp only [if_true, e4, Bool.false_eq_true, if_false]
    rw [PlaneProgress_true info first 5 S4 hmon st4]
    refine ⟨st4, ?_, ?_, c4⟩
    · rw [ex4, (hcl S3).1, ex3, (hcl S2).1, ex2, (hcl S1).1, ex1]
    · rw [op4, (hcl S3).2, op3, (hcl S2).2, op2, (hcl S1).2, op1]
      simp [partitionNames, hm]

/-- A partition decode of channel files that hold one scene each returns one
frame and no exception. -/
theorem FlatYCBCRImage_partition_one (info : ImageInfo) (files : BlobName → Option (List Nat))
    (hi : info.interlace = .PartitionInterlace) (hmon : ∀ o e, info.progress o e = true)
    (hping : info.ping = false) (ho : info.offset = 0) (hc : info.columns ≠ 0)
    (hr : info.rows ≠ 0) (hW : 1 ≤ info.extract_info.width)
    (hH : 1 ≤ info.extract_info.height) (hscene : info.number_scenes = 0 ∨ info.scene = 0)
    (hfiles : oneSceneFiles info files) :
    ∃ f n, FlatYCBCRImage info files =
      some { images := [f], exception := [], opens := partitionNames info, nread := n } := by
  have hskip : ∀ t : ReadState,
      (if info.number_scenes ≠ 0 then SkipToScene info info.scene t else t) = t := by
    intro t
    rcases hscene with h | h
    · rw [if_neg (by rw [h]; simp)]
    · rw [h]; split <;> rfl
  unfold FlatYCBCRImage
  rw [if_neg (by simp [hc, hr]), if_neg (by simp [hi])]
  unfold FlatFromCanvas
  simp only [hskip]
  obtain ⟨fuel, hfu⟩ : ∃ f, sceneFuel files = f + 1 := ⟨_, rfl⟩
  rw [hfu]
  generalize hs : ({ initialState info with count := 0, length := 0, status := true, stream := [] } :
    ReadState) = s
  have hs_ex : s.exception = [] := by rw [← hs]; rfl
  have hs_op : s.opens = [] := by rw [← hs]; rfl
  obtain ⟨st, ex, op, cnt⟩ := FlatPartitionInterlace_one info files true hmon ho hW hH hfiles s
  have hfr : FlatFrame info files ([] : List (List (List PixelPacket))).isEmpty 0 s =
      FlatPartitionInterlace info files true 0 s := by
    unfold FlatFrame; rw [hi]; rfl
  rw [FlatScenes_stop info files hping fuel [] _ 0 s _ hfr (Or.inr (Or.inr cnt))]
  refine ⟨(FlatPartitionInterlace info files true 0 s).pixels,
    (FlatPartitionInterlace info files true 0 s).nread, ?_⟩
  unfold finishRead
  rw [st, ex, op, hs_ex, hs_op]
  rfl

theorem rgbOf_opaqueFrame (f : List (List PixelPacket)) : rgbOf (opaqueFrame f) = rgbOf f := by
  simp [rgbOf, opaqueFrame, rgb, opaquePixel, Function.comp]

theorem fullConfig_geometry (W H channels bits : Nat) (lay : Layout) (e : EndianType) :
    FullCanvas (AcquireImage (fullConfig W H channels bits lay e)) W H :=
  ⟨rfl, rfl, rfl, rfl, rfl, rfl⟩

theorem flatDecode_encode_three (W H bits : Nat) (lay : Layout) (e : EndianType)
    (f : List (List PixelPacket)) (hW : 1 ≤ W) (hH : 1 ≤ H) (hf : validFrame3 bits W H f) :
    ∃ n opens,
      flatDecode (fullConfig W H 3 bits lay e)
          (asSource (encode (fullConfig W H 3 bits lay e) [f]).files) =
        some { images := [opaqueFrame f], exception := [], opens := opens, nread := n } := by
  have hg := fullConfig_geometry W H 3 bits lay e
  by_cases hl : lay = .Partitioned
  · subst hl
    obtain ⟨n, h⟩ := FlatYCBCRImage_partition3 (AcquireImage (fullConfig W H 3 bits .Partitioned e))
      W H hg hW hH rfl rfl (fun _ _ => rfl) rfl rfl rfl f hf
      (asSource (encode (fullConfig W H 3 bits .Partitioned e) [f]).files)
      (by
        simp only [asSource]
        rw [encode_files_partition (fullConfig W H 3 bits .Partitioned e) rfl]; simp)
      (by
        simp only [asSource]
        rw [encode_files_partition (fullConfig W H 3 bits .Partitioned e) rfl]; simp)
      (by
        simp only [asSource]
        rw [encode_files_partition (fullConfig W H 3 bits .Partitioned e) rfl]; simp)
    exact ⟨n, _, h⟩
  · have hi : (AcquireImage (fullConfig W H 3 bits lay e)).interlace ≠ .PartitionInterlace := by
      cases lay <;> simp [AcquireImage, fullConfig, Layout.interlace] at hl ⊢
    have h := FlatYCBCRImage_frames3 (AcquireImage (fullConfig W H 3 bits lay e))
      W H hg hW hH hi rfl (fun _ _ => rfl) rfl rfl rfl [f] (by simp)
      (by intro g hg'; simp at hg'; subst hg'; exact hf)
      (asSource (encode (fullConfig W H 3 bits lay e) [f]).files)
      (by
        simp only [asSource]
        rw [encode_files_main _ (by simpa [fullConfig] using hl)])
    exact ⟨_, _, h⟩

theorem getD_flatMap_uniform {α β : Type} (g : α → List β) (k : Nat) (d : β) (a0 : α) :
    ∀ (l : List α), (∀ x ∈ l, (g x).length = k) → ∀ i j, i < l.length → j < k →
      (l.flatMap g).getD (i * k + j) d = (g (l.getD i a0)).getD j d := by
  intro l
  induction l with
  | nil => intro _ i j hi _; simp at hi
  | cons a as ih =>
    intro hlen i j hi hj
    have ha : (g a).length = k := hlen a (List.mem_cons_self _ _)
    cases i with
    | zero =>
      simp only [Nat.zero_mul, Nat.zero_add, List.flatMap_cons, List.getD_cons_zero]
      exact List.getD_append _ _ _ _ (by omega)
    | succ i =>
      simp only [List.flatMap_cons, List.getD_cons_succ]
      rw [List.getD_append_right _ _ _ _ (by rw [ha, Nat.succ_mul]; omega)]
      have e : (i + 1) * k + j - (g a).length = i * k + j := by rw [ha, Nat.succ_mul]; omega
      rw [e]
      exact ih (fun x hx => hlen x (List.mem_cons_of_mem _ hx)) i j (by simpa using hi) hj

theorem getD_mem {α : Type} (l : List α) (i : Nat) (d : α) (h : i < l.length) : l.getD i d ∈ l := by
  rw [List.getD_eq_getElem _ _ h]
  exact List.getElem_mem _

theorem exportPixel_getD8 (info : ImageInfo) (hd : info.depth = 8) (comps : List Component)
    (p : PixelPacket) (k : Nat) (hk : k < comps.length)
    (hv : loadComponent 8 (comps.getD k Component.red) p ≤ 255) :
    (exportPixel info comps p).getD k 0 = loadComponent 8 (comps.getD k Component.red) p := by
  unfold exportPixel
  have := getD_flatMap_uniform
    (fun c => exportSample info.endian info.depth (loadComponent info.depth c p)) 1 0 Component.red
    comps (fun c _ => by simp [exportSample, hd]) k 0 hk (by omega)
  simp only [Nat.mul_one, Nat.add_zero] at this
  rw [this]
  simp only [exportSample, hd, Nat.le_refl, if_true, List.getD_cons_zero]
  omega

theorem interleaved_bytes (W H C : Nat) (e : EndianType) (f : List (List PixelPacket))
    (hC : C = 3 ∨ C = 4) :
    (encode (fullConfig W H C 8 .Interleaved e) [f]).files .main =
      f.flatMap (fun row => row.flatMap
        (exportPixel (AcquireImage (fullConfig W H C 8 .Interleaved e))
          ((List.range C).map channelComponent))) := by
  rw [encode_files_main _ (by simp [fullConfig])]
  simp only [List.flatMap_cons, List.flatMap_nil, List.append_nil, encodeFrame, AcquireImage,
    fullConfig, Layout.interlace, ExportQuantumPixels]
  rcases hC with rfl | rfl <;> rfl

theorem channelSample_le (k : Nat) (p : PixelPacket) (hk : k < 4)
    (hp : p.red ≤ QuantumRange 8 ∧ p.green ≤ QuantumRange 8 ∧ p.blue ≤ QuantumRange 8) :
    channelSample 8 k p ≤ 255 := by
  have hq : QuantumRange 8 = 255 := rfl
  rw [hq] at hp
  unfold channelSample channelComponent
  match k, hk with
  | 0, _ => exact hp.1
  | 1, _ => exact hp.2.1
  | 2, _ => exact hp.2.2
  | 3, _ => simp [loadComponent, hq]

theorem channels_getD (C k : Nat) (hk : k < C) :
    ((List.range C).map channelComponent).getD k Component.red = channelComponent k := by
  rw [List.getD_eq_getElem _ _ (by simpa using hk)]
  simp

theorem interleaved_layout (W H C : Nat) (e : EndianType) (f : List (List PixelPacket))
    (hC : C = 3 ∨ C = 4) (hf : validFrame3 8 W H f) :
    ((encode (fullConfig W H C 8 .Interleaved e) [f]).files .main).length = W * H * C ∧
      ∀ r c k, r < H → c < W → k < C →
        ((encode (fullConfig W H C 8 .Interleaved e) [f]).files .main).getD
            ((r * W + c) * C + k) 0 =
          channelSample 8 k (pixelAt f r c) := by
  rw [interleaved_bytes W H C e f hC]
  generalize hinfo : AcquireImage (fullConfig W H C 8 .Interleaved e) = info
  have hd : info.depth = 8 := by rw [← hinfo]; rfl
  have hcl : ((List.range C).map channelComponent).length = C := by simp
  have hpx : ∀ p : PixelPacket,
      (exportPixel info ((List.range C).map channelComponent) p).length = C := by
    intro p
    rw [exportPixel_length, hcl, hd]
    simp [sampleBytes]
  have hrow : ∀ row ∈ f,
      (row.flatMap (exportPixel info ((List.range C).map channelComponent))).length = W * C := by
    intro row hr
    rw [flatMap_length_const _ C row (fun p _ => hpx p), (hf.2 row hr).1]
  refine ⟨?_, ?_⟩
  · rw [flatMap_length_const _ (W * C) f hrow, hf.1, Nat.mul_comm W H, Nat.mul_assoc]
  · intro r c k hr hc hk
    have hk4 : k < 4 := by rcases hC with rfl | rfl <;> omega
    have hidx : (r * W + c) * C + k = r * (W * C) + (c * C + k) := by
      rw [Nat.add_mul, Nat.mul_assoc, Nat.add_assoc]
    have hj : c * C + k < W * C := by
      have : (c + 1) * C ≤ W * C := Nat.mul_le_mul_right C hc
      rw [Nat.succ_mul] at this
      omega
    have hrmem : f.getD r [] ∈ f := getD_mem f r [] (by rw [hf.1]; exact hr)
    have hrl : (f.getD r []).length = W := (hf.2 _ hrmem).1
    have hpmem : (f.getD r []).getD c blankPixel ∈ f.getD r [] :=
      getD_mem _ c blankPixel (by rw [hrl]; exact hc)
    rw [hidx, getD_flatMap_uniform _ (W * C) 0 [] f hrow r (c * C + k) (by rw [hf.1]; exact hr) hj,
      getD_flatMap_uniform _ C 0 blankPixel (f.getD r []) (fun p _ => hpx p) c k
        (by rw [hrl]; exact hc) hk]
    have hv := channelSample_le k ((f.getD r []).getD c blankPixel) hk4
      ((hf.2 _ hrmem).2 _ hpmem)
    rw [exportPixel_getD8 info hd _ _ k (by rw [hcl]; exact hk)
      (by rw [channels_getD C k hk]; exact hv), channels_getD C k hk]
    rfl

theorem ext_getD {α : Type} (d : α) (l1 l2 : List α) (hl : l1.length = l2.length)
    (h : ∀ i, i < l1.length → l1.getD i d = l2.getD i d) : l1 = l2 := by
  apply List.ext_getElem hl
  intro i h1 h2
  have := h i h1
  rwa [List.getD_eq_getElem _ _ h1, List.getD_eq_getElem _ _ h2] at this

theorem getD_map_range {α : Type} (g : Nat → α) (n i : Nat) (d : α) (h : i < n) :
    ((List.range n).map g).getD i d = g i := by
  rw [List.getD_eq_getElem _ _ (by simpa using h)]
  simp

theorem pixelAt_frameOfBytes (W H : Nat) (b : List Nat) (r c : Nat) (hr : r < H) (hc : c < W) :
    pixelAt (frameOfBytes W H b) r c =
      ⟨b.getD ((r * W + c) * 3) 0, b.getD ((r * W + c) * 3 + 1) 0,
        b.getD ((r * W + c) * 3 + 2) 0, blankPixel.opacity⟩ := by
  unfold pixelAt frameOfBytes
  rw [getD_map_range _ H r [] hr, getD_map_range _ W c blankPixel hc]

theorem getD_lt_of_forall (b : List Nat) (hb : ∀ x ∈ b, x < 256) (i : Nat) : b.getD i 0 < 256 := by
  by_cases h : i < b.length
  · exact hb _ (getD_mem b i 0 h)
  · rw [List.getD_eq_default _ _ (by omega)]; omega

theorem validFrame3_frameOfBytes (W H : Nat) (b : List Nat) (hb : ∀ x ∈ b, x < 256) :
    validFrame3 8 W H (frameOfBytes W H b) := by
  have hq : QuantumRange 8 = 255 := rfl
  refine ⟨by simp [frameOfBytes], ?_⟩
  intro row hr
  simp only [frameOfBytes, List.mem_map, List.mem_range] at hr
  obtain ⟨r, _, rfl⟩ := hr
  refine ⟨by simp, ?_⟩
  intro p hp
  simp only [List.mem_map, List.mem_range] at hp
  obtain ⟨c, _, rfl⟩ := hp
  have h0 := getD_lt_of_forall b hb ((r * W + c) * 3)
  have h1 := getD_lt_of_forall b hb ((r * W + c) * 3 + 1)
  have h2 := getD_lt_of_forall b hb ((r * W + c) * 3 + 2)
  rw [hq]
  exact ⟨Nat.le_of_lt_succ h0, Nat.le_of_lt_succ h1, Nat.le_of_lt_succ h2⟩

theorem encode_frameOfBytes (W H : Nat) (e : EndianType) (b : List Nat)
    (hlen : b.length = W * H * 3) (hb : ∀ x ∈ b, x < 256) :
    (encode (fullConfig W H 3 8 .Interleaved e) [frameOfBytes W H b]).files .main = b := by
  have hv := validFrame3_frameOfBytes W H b hb
  obtain ⟨hl, hidx⟩ := interleaved_layout W H 3 e (frameOfBytes W H b) (Or.inl rfl) hv
  apply ext_getD 0 _ _ (by rw [hl, hlen])
  intro i hi
  rw [hl] at hi
  have hW : 0 < W := by
    rcases Nat.eq_zero_or_pos W with h | h
    · subst h; simp at hi
    · exact h
  have h3 : 0 < W * 3 := by omega
  have hd := Nat.div_add_mod i (W * 3)
  have hm := Nat.mod_lt i h3
  have hd2 := Nat.div_add_mod (i % (W * 3)) 3
  have hm2 := Nat.mod_lt (i % (W * 3)) (by omega : 0 < 3)
  have hr : i / (W * 3) < H := by
    apply Nat.div_lt_of_lt_mul
    rw [Nat.mul_comm (W * 3) H, ← Nat.mul_assoc, Nat.mul_comm H W]
    exact hi
  have hc : i % (W * 3) / 3 < W := by
    apply Nat.div_lt_of_lt_mul
    rw [Nat.mul_comm 3 W]; exact hm
  have hi' : i = (i / (W * 3) * W + i % (W * 3) / 3) * 3 + i % (W * 3) % 3 := by
    have e1 : (i / (W * 3) * W + i % (W * 3) / 3) * 3 =
        W * 3 * (i / (W * 3)) + 3 * (i % (W * 3) / 3) := by
      rw [Nat.add_mul, Nat.mul_assoc, Nat.mul_comm (i / (W * 3)) (W * 3),
        Nat.mul_comm (i % (W * 3) / 3) 3]
    omega
  have hk : i % (W * 3) % 3 < 3 := hm2
  have key := hidx (i / (W * 3)) (i % (W * 3) / 3) (i % (W * 3) % 3) hr hc hk
  rw [← hi'] at key
  rw [key, pixelAt_frameOfBytes W H b _ _ hr hc]
  generalize i % (W * 3) % 3 = k at hk hi'
  generalize (i / (W * 3) * W + i % (W * 3) / 3) * 3 = m at hi'
  subst hi'
  match k, hk with
  | 0, _ => rfl
  | 1, _ => rfl
  | 2, _ => rfl

theorem opaqueFrame_frameOfBytes (W H : Nat) (b : List Nat) :
    opaqueFrame (frameOfBytes W H b) = frameOfBytes W H b := by
  simp [opaqueFrame, frameOfBytes, opaquePixel, Function.comp]

theorem AcquireImage_cropInfo (cfg : StreamConfig) (hx : 0 ≤ cfg.cropRect.x0)
    (hy : 0 ≤ cfg.cropRect.y0) :
    AcquireImage cfg =
      cropInfo (AcquireImage cfg.uncropped) cfg.cropRect.x0.toNat cfg.cropRect.y0.toNat
        cfg.cropRect.width cfg.cropRect.height := by
  unfold AcquireImage cropInfo StreamConfig.uncropped fullCanvas
  simp only [Int.toNat_of_nonneg hx, Int.toNat_of_nonneg hy]

theorem CropOf_uncropped (cfg : StreamConfig) (hinv : cfg.cropInCanvas) :
    CropOf (AcquireImage cfg.uncropped) cfg.cropRect.x0.toNat cfg.cropRect.y0.toNat
      cfg.cropRect.width cfg.cropRect.height := by
  obtain ⟨hx, hxw, hy, hyh⟩ := hinv
  refine ⟨rfl, rfl, rfl, rfl, ?_, ?_, fun _ _ => rfl⟩
  · show cfg.cropRect.x0.toNat + cfg.cropRect.width ≤ cfg.width
    omega
  · show cfg.cropRect.y0.toNat + cfg.cropRect.height ≤ cfg.height
    omega

theorem length_of_shape (f : List (List PixelPacket)) (rows columns : Nat)
    (h : shape f = List.replicate rows columns) :
    f.length = rows ∧ ∀ row ∈ f, row.length = columns := by
  constructor
  · have := congrArg List.length h
    simpa [shape] using this
  · intro row hr
    have hm : row.length ∈ shape f := List.mem_map_of_mem _ hr
    rw [h] at hm
    exact (List.mem_replicate.mp hm).2

theorem pixelAt_cropImage (x0 y0 cw ch : Nat) (f : List (List PixelPacket)) (r c : Nat)
    (hr : r < ch) (hc : c < cw) :
    pixelAt (cropImage x0 y0 cw ch f) r c = pixelAt f (y0 + r) (x0 + c) := by
  unfold pixelAt cropImage
  have h1 : (((f.drop y0).take ch).map (fun row => (row.drop x0).take cw)).getD r [] =
      ((f.getD (y0 + r) []).drop x0).take cw := by
    simp only [List.getD_eq_getElem?_getD, List.getElem?_map, List.getElem?_take, hr, if_true,
      List.getElem?_drop]
    cases f[y0 + r]? <;> simp
  rw [h1]
  simp only [List.getD_eq_getElem?_getD, List.getElem?_take, hc, if_true, List.getElem?_drop]

/-- A full-canvas decode of a one-frame source returns one frame. -/
theorem flatDecode_one_frame (cfg : StreamConfig) (source : BlobName → Option (List Nat))
    (hW : 1 ≤ cfg.width) (hH : 1 ≤ cfg.height) (hping : cfg.ping = false)
    (hscene : cfg.sceneCount = none ∨ cfg.sceneOffset = 0)
    (hsrc : oneFrameSource cfg source) :
    ∃ f, (flatDecode cfg.uncropped source).map (fun r => r.images) = some [f] := by
  have hsc : (AcquireImage cfg.uncropped).number_scenes = 0 ∨
      (AcquireImage cfg.uncropped).scene = 0 := by
    rcases hscene with h | h
    · left; show cfg.sceneCount.getD 0 = 0; rw [h]; rfl
    · right; exact h
  unfold oneFrameSource at hsrc
  by_cases hl : cfg.layout = .Partitioned
  · rw [if_pos hl] at hsrc
    obtain ⟨f, n, h⟩ := FlatYCBCRImage_partition_one (AcquireImage cfg.uncropped) source
      (by show cfg.layout.interlace = _; rw [hl]; rfl) (fun _ _ => rfl) hping rfl
      (by show cfg.width ≠ 0; omega) (by show cfg.height ≠ 0; omega) hW hH hsc hsrc
    exact ⟨f, by unfold flatDecode; rw [h]; rfl⟩
  · rw [if_neg hl] at hsrc
    obtain ⟨D, hD, hlen⟩ := hsrc
    have hfs : firstScene (AcquireImage cfg.uncropped) = 0 := by
      unfold firstScene
      rcases hsc with h | h
      · rw [if_neg (by rw [h]; simp)]
      · rw [h]; split <;> rfl
    have hsk : skipLength (AcquireImage cfg.uncropped) = 0 := by
      unfold skipLength; rw [hfs, Nat.zero_mul]
    have hL := chunkLength_pos (AcquireImage cfg.uncropped) hW
    have key := FlatYCBCRImage_scenes (AcquireImage cfg.uncropped) source D (fun _ _ => rfl)
      (by
        show cfg.layout.interlace ≠ _
        cases h : cfg.layout <;> simp [Layout.interlace]
        exact hl h)
      hping rfl (by show cfg.width ≠ 0; omega) (by show cfg.height ≠ 0; omega) hW hH hD 0
      (by rw [hsk, hlen]; omega) (fun j hj => absurd hj (Nat.not_lt_zero j))
      (Or.inr (by rw [hsk, hlen]; omega))
    refine ⟨(frameState (AcquireImage cfg.uncropped)
      (D.drop (skipLength (AcquireImage cfg.uncropped)))
      (initialState (AcquireImage cfg.uncropped))).pixels, ?_⟩
    unfold flatDecode
    rw [key]
    rfl

theorem scenesImages_length (info : ImageInfo) :
    ∀ (n : Nat) (D : List Nat) (s : ReadState), (scenesImages info n D s).length = n := by
  intro n
  induction n with
  | zero => intro D s; rfl
  | succ n ih => intro D s; simp only [scenesImages, List.length_cons, ih]

theorem rows_extent_eq_frameLength (info : ImageInfo) (h : info.rows = info.extract_info.height) :
    info.rows * GetQuantumExtent info info.extract_info.width info.quantum_type =
      frameLength info := by
  unfold frameLength GetQuantumExtent ImageInfo.quantum_type ImageInfo.channels
  rw [h]
  cases info.matte <;> simp [QuantumType.components, Nat.mul_assoc]

/-- The scenes a bounded request for `m` scenes from scene `k` on reads from a
single stream of `N` complete scenes. -/
theorem flatDecode_bounded_scenes (cfg : StreamConfig) (source : BlobName → Option (List Nat))
    (D : List Nat) (N m : Nat) (hl : cfg.layout ≠ .Partitioned) (hping : cfg.ping = false)
    (hW : 1 ≤ cfg.width) (hH : 1 ≤ cfg.height) (hcw : 1 ≤ cfg.cropRect.width)
    (hch : cfg.cropRect.height = cfg.height) (hm : 1 ≤ m) (hcount : cfg.sceneCount = some m)
    (hk : cfg.sceneOffset < N) (hlen : D.length = N * frameLength (AcquireImage cfg))
    (hsrc : source .main = some D) :
    (flatDecode cfg source).map (fun r => r.images) =
      some (scenesImages (AcquireImage cfg) (min m (N - cfg.sceneOffset))
        (D.drop (cfg.sceneOffset * frameLength (AcquireImage cfg)))
        (initialState (AcquireImage cfg))) := by
  generalize hinfo : AcquireImage cfg = info at hlen ⊢
  have e_ns : info.number_scenes = m := by rw [← hinfo]; simp [AcquireImage, hcount]
  have e_sc : info.scene = cfg.sceneOffset := by rw [← hinfo]; rfl
  have e_rows : info.rows = info.extract_info.height := by rw [← hinfo]; exact hch
  have hi : info.interlace ≠ .PartitionInterlace := by
    rw [← hinfo]
    show cfg.layout.interlace ≠ _
    cases h : cfg.layout <;> simp [Layout.interlace]
    exact hl h
  have hfs : firstScene info = cfg.sceneOffset := by
    unfold firstScene
    rw [if_pos (by rw [e_ns]; omega), e_sc]
  have hsk : skipLength info = cfg.sceneOffset * frameLength info := by
    unfold skipLength
    rw [hfs, rows_extent_eq_frameLength info e_rows]
  obtain ⟨n, hn⟩ : ∃ n, min m (N - cfg.sceneOffset) = n + 1 :=
    ⟨min m (N - cfg.sceneOffset) - 1, by omega⟩
  have hsum : cfg.sceneOffset * frameLength info + (n + 1) * frameLength info +
      (N - cfg.sceneOffset - (n + 1)) * frameLength info = N * frameLength info := by
    rw [← Nat.add_mul, ← Nat.add_mul]
    congr 1
    omega
  have hW2 : 1 ≤ info.extract_info.width := by rw [← hinfo]; exact hW
  have hL := chunkLength_pos info hW2
  have key := FlatYCBCRImage_scenes info source D (by rw [← hinfo]; intro _ _; rfl) hi
    (by rw [← hinfo]; exact hping) (by rw [← hinfo]; rfl)
    (by rw [← hinfo]; show cfg.cropRect.width ≠ 0; omega)
    (by rw [← hinfo]; show cfg.cropRect.height ≠ 0; omega)
    hW2 (by rw [← hinfo]; exact hH) hsrc n
    (by rw [hsk, hlen]; omega)
    (by
      intro j hj
      unfold lastScene
      rw [hfs, e_ns, e_sc]
      apply decide_eq_false
      omega)
    (by
      by_cases hmn : n + 1 = m
      · left
        unfold lastScene
        rw [hfs, e_ns, e_sc]
        apply decide_eq_true
        omega
      · right
        have : N - cfg.sceneOffset - (n + 1) = 0 := by omega
        rw [this, Nat.zero_mul] at hsum
        rw [hsk, hlen]
        omega)
  unfold flatDecode
  rw [hinfo, key, hn, hsk]
  rfl

theorem ThrowEOF_dead (T : Nat) (s : ReadState) (h : Starved T s) :
    Dead T (ThrowEOF { s with status := false }) :=
  ⟨h, rfl, List.mem_append_right _ (List.mem_singleton.mpr rfl)⟩

theorem Dead.short {T : Nat} {s : ReadState} (L m : Nat) (h : Dead T s) : Short T L m s :=
  Or.inl h.1

/-- One import followed by the next read, from a state that holds a complete
chunk. -/
theorem import_read_short (info : ImageInfo) (qt : QuantumType) (chans : List Component)
    (y T L m : Nat) (hq : GetQuantumExtent info info.extract_info.width qt = L) (st : Bool)
    (s : ReadState) (B : List Nat) (hb : s.blob = some B) (hn : s.nread + B.length = T)
    (hB : B.length < m * L) :
    1 ≤ m ∧ Short T L (m - 1)
      (ReadBlobStream { ImportRow info qt chans y s with status := st }) := by
  obtain ⟨m, rfl⟩ : ∃ k, m = k + 1 := by
    cases m with
    | zero => simp at hB
    | succ k => exact ⟨k, rfl⟩
  refine ⟨Nat.succ_pos _, ?_⟩
  have hblob : (ImportRow info qt chans y s).blob = some B := by
    unfold ImportRow; simp only; split <;> exact hb
  have hlen : (ImportRow info qt chans y s).length = L := by
    unfold ImportRow; simp only; split <;> exact hq
  have hnr : (ImportRow info qt chans y s).nread = s.nread := by
    unfold ImportRow; simp only; split <;> rfl
  have hr : ReadBlobStream { ImportRow info qt chans y s with status := st } =
      { ImportRow info qt chans y s with
        status := st
        stream := B.take L
        count := min L B.length
        blob := some (B.drop L)
        nread := s.nread + min L B.length } := by
    unfold ReadBlobStream
    simp only [hblob, hlen, hnr]
  rw [hr, Nat.add_sub_cancel]
  rw [Nat.succ_mul] at hB
  by_cases hs : B.length < L
  · left
    refine ⟨?_, ?_, ?_⟩
    · show min L B.length ≠ (ImportRow info qt chans y s).length
      rw [hlen]; omega
    · show some (B.drop L) = some []
      rw [List.drop_eq_nil_of_le (by omega)]
    · show s.nread + min L B.length = T
      omega
  · right
    refine ⟨?_, B.drop L, rfl, ?_, ?_⟩
    · show min L B.length = (ImportRow info qt chans y s).length
      rw [hlen]; omega
    · show s.nread + min L B.length + (B.drop L).length = T
      rw [List.length_drop]; omega
    · rw [List.length_drop]; omega

theorem ReadRows_starved (info : ImageInfo) (qt : QuantumType) (chans : List Component)
    (monitor : Bool) (T n y : Nat) (s : ReadState) (h : Starved T s) (hn : 1 ≤ n) :
    Dead T (ReadRows info qt chans monitor n y s) := by
  obtain ⟨n, rfl⟩ : ∃ k, n = k + 1 := ⟨n - 1, by omega⟩
  rw [ReadRows, if_pos h.1]
  exact ThrowEOF_dead T s h

theorem ReadRows_dead (info : ImageInfo) (qt : QuantumType) (chans : List Component)
    (monitor : Bool) (T n y : Nat) (s : ReadState) (h : Dead T s) :
    Dead T (ReadRows info qt chans monitor n y s) := by
  cases n with
  | zero => exact h
  | succ n => exact ReadRows_starved info qt chans monitor T _ y s h.1 (Nat.succ_pos n)

theorem ReadRows_short (info : ImageInfo) (qt : QuantumType) (chans : List Component)
    (monitor : Bool) (hmon : ∀ o e, info.progress o e = true) (T L : Nat)
    (hq : GetQuantumExtent info info.extract_info.width qt = L) :
    ∀ (n y m : Nat) (s : ReadState), Short T L m s →
      Dead T (ReadRows info qt chans monitor n y s) ∨
        (n ≤ m ∧ Short T L (m - n) (ReadRows info qt chans monitor n y s)) := by
  intro n
  induction n with
  | zero => intro y m s h; exact Or.inr ⟨Nat.zero_le _, h⟩
  | succ n ih =>
    intro y m s h
    rcases h with h | ⟨hc, B, hb, hn, hB⟩
    · exact Or.inl (ReadRows_starved info qt chans monitor T _ y s h (Nat.succ_pos n))
    · rw [ReadRows, if_neg (fun hne => hne hc)]
      simp only [hmon, if_true]
      have key : ∀ st : Bool,
          Dead T (ReadRows info qt chans monitor n (y + 1)
            (ReadBlobStream { ImportRow info qt chans y s with status := st })) ∨
          (n + 1 ≤ m ∧ Short T L (m - (n + 1)) (ReadRows info qt chans monitor n (y + 1)
            (ReadBlobStream { ImportRow info qt chans y s with status := st }))) := by
        intro st
        obtain ⟨hm, hsh⟩ := import_read_short info qt chans y T L m hq st s B hb hn hB
        rcases ih (y + 1) (m - 1) _ hsh with hd | ⟨hle, hsh2⟩
        · exact Or.inl hd
        · refine Or.inr ⟨by omega, ?_⟩
          rw [show m - (n + 1) = m - 1 - n by omega]
          exact hsh2
      cases monitor
      · simp only [Bool.false_eq_true, if_false]
        have := key (ImportRow info qt chans y s).status
        exact this
      · simp only [if_true]
        exact key true

theorem ReadLineChannels_starved (info : ImageInfo) (T y : Nat) (qt : QuantumType)
    (qts : List QuantumType) (s : ReadState) (h : Starved T s) :
    Dead T (ReadLineChannels info y (qt :: qts) s) := by
  rw [ReadLineChannels, if_pos h.1]
  exact ThrowEOF_dead T s h

theorem ReadLineChannels_dead (info : ImageInfo) (T y : Nat) (qts : List QuantumType)
    (s : ReadState) (h : Dead T s) : Dead T (ReadLineChannels info y qts s) := by
  cases qts with
  | nil => exact h
  | cons qt qts => exact ReadLineChannels_starved info T y qt qts s h.1

theorem ReadLineChannels_short (info : ImageInfo) (T L y : Nat) :
    ∀ (qts : List QuantumType) (m : Nat) (s : ReadState),
      (∀ qt ∈ qts, GetQuantumExtent info info.extract_info.width qt = L) → Short T L m s →
      Dead T (ReadLineChannels info y qts s) ∨
        (qts.length ≤ m ∧ Short T L (m - qts.length) (ReadLineChannels info y qts s)) := by
  intro qts
  induction qts with
  | nil => intro m s _ h; exact Or.inr ⟨Nat.zero_le _, h⟩
  | cons qt qts ih =>
    intro m s hq h
    rcases h with h | ⟨hc, B, hb, hn, hB⟩
    · exact Or.inl (ReadLineChannels_starved info T y qt qts s h)
    · rw [ReadLineChannels, if_neg (fun hne => hne hc)]
      obtain ⟨hm, hsh⟩ := import_read_short info qt (lineChannel qt) y T L m
        (hq qt (List.mem_cons_self _ _)) (ImportRow info qt (lineChannel qt) y s).status s B hb hn hB
      rcases ih (m - 1) _ (fun q hq' => hq q (List.mem_cons_of_mem _ hq')) hsh with hd | ⟨hle, hsh2⟩
      · exact Or.inl hd
      · refine Or.inr ⟨by simp only [List.length_cons]; omega, ?_⟩
        rw [show m - (qt :: qts).length = m - 1 - qts.length by
          simp only [List.length_cons]; omega]
        exact hsh2

theorem FlatLineRows_dead (info : ImageInfo) (T : Nat) :
    ∀ (n y : Nat) (s : ReadState), Dead T s → Dead T (FlatLineRows info false n y s) := by
  intro n
  induction n with
  | zero => intro y s h; exact h
  | succ n ih =>
    intro y s h
    rw [FlatLineRows]
    simp only [Bool.false_eq_true, if_false]
    exact ih _ _ (ReadLineChannels_dead info T y _ s h)

theorem FlatLineRows_short (info : ImageInfo) (T L : Nat)
    (hq : ∀ qt ∈ info.lineTypes, GetQuantumExtent info info.extract_info.width qt = L) :
    ∀ (n y m : Nat) (s : ReadState), Short T L m s →
      Dead T (FlatLineRows info false n y s) ∨
        (n * info.lineTypes.length ≤ m ∧
          Short T L (m - n * info.lineTypes.length) (FlatLineRows info false n y s)) := by
  intro n
  induction n with
  | zero => intro y m s h; exact Or.inr ⟨by simp, by simpa using h⟩
  | succ n ih =>
    intro y m s h
    rw [FlatLineRows]
    simp only [Bool.false_eq_true, if_false]
    rcases ReadLineChannels_short info T L y info.lineTypes m s hq h with hd | ⟨hle, hsh⟩
    · exact Or.inl (FlatLineRows_dead info T n (y + 1) _ hd)
    · rcases ih (y + 1) _ _ hsh with hd | ⟨hle2, hsh2⟩
      · exact Or.inl hd
      · have e : (n + 1) * info.lineTypes.length = n * info.lineTypes.length + info.lineTypes.length :=
          Nat.succ_mul _ _
        refine Or.inr ⟨by omega, ?_⟩
        rw [show m - (n + 1) * info.lineTypes.length =
          m - info.lineTypes.length - n * info.lineTypes.length by omega]
        exact hsh2

/-- The state at the head of a scene that holds a complete first chunk and
less than `m` further ones. -/
theorem primed_short (s0 : ReadState) (D : List Nat) (L base m : Nat) (hL : L ≤ D.length)
    (hD : D.length < (m + 1) * L) : Short (base + D.length) L m (primed s0 D L base) := by
  rw [Nat.succ_mul] at hD
  right
  refine ⟨?_, D.drop L, rfl, ?_, ?_⟩
  · show min L D.length = L
    omega
  · show base + min L D.length + (D.drop L).length = base + D.length
    rw [List.length_drop]; omega
  · rw [List.length_drop]; omega

theorem FlatNoInterlace_truncated (info : ImageInfo) (first : Bool)
    (hmon : ∀ o e, info.progress o e = true) (hi : info.interlace = .NoInterlace)
    (scene : Nat) (D : List Nat) (s0 : ReadState) (base : Nat)
    (hL : chunkLength info ≤ D.length) (hD : D.length < frameLength info) :
    Dead (base + D.length)
      (FlatNoInterlace info first scene
        (if scene = 0 then { s0 with blob := some D, nread := base }
         else primed s0 D (chunkLength info) base)) := by
  have hLq : GetQuantumExtent info info.extract_info.width info.quantum_type = chunkLength info := by
    simp [chunkLength, hi]
  have hH : 1 ≤ info.extract_info.height := by
    rw [frameLength_no, hLq] at hD
    rcases Nat.eq_zero_or_pos info.extract_info.height with h | h
    · rw [h, Nat.zero_mul] at hD; omega
    · exact h
  have hsh : Short (base + D.length) (chunkLength info) (info.extract_info.height - 1)
      (primed s0 D (chunkLength info) base) := by
    apply primed_short _ _ _ _ _ hL
    rw [Nat.sub_add_cancel hH, ← hLq, ← frameLength_no]
    exact hD
  have hcount : (primed s0 D (chunkLength info) base).count =
      (primed s0 D (chunkLength info) base).length := by
    simp only [primed]; exact Nat.min_eq_left hL
  have hrows := ReadRows_short info info.quantum_type info.packetChannels first hmon
    (base + D.length) (chunkLength info) hLq info.extract_info.height 0 _ _ hsh
  have hdead : Dead (base + D.length)
      (ReadRows info info.quantum_type info.packetChannels first info.extract_info.height 0
        (primed s0 D (chunkLength info) base)) := by
    rcases hrows with h | ⟨hle, _⟩
    · exact h
    · omega
  unfold FlatNoInterlace
  by_cases hs : scene = 0
  · have e : ReadBlobStream
        { blob := some D, blobSize := s0.blobSize, stream := s0.stream, count := s0.count
          length := chunkLength info, status := s0.status, canvas := s0.canvas
          pixels := s0.pixels, exception := s0.exception, opens := s0.opens, nread := base } =
        primed s0 D (chunkLength info) base :=
      ReadBlobStream_length ({ s0 with blob := some D, nread := base } : ReadState) D _ rfl
    simp only [hs, if_true, hLq]
    rw [e]
    simp only [hcount, ne_eq, not_true_eq_false, and_false, if_false]
    exact hdead
  · simp only [hs, if_false, false_and]
    exact hdead

theorem FlatLineInterlace_truncated (info : ImageInfo)
    (hi : info.interlace = .LineInterlace)
    (scene : Nat) (hs : scene ≠ 0) (D : List Nat) (s0 : ReadState) (base : Nat)
    (hL : chunkLength info ≤ D.length) (hD : D.length < frameLength info) :
    Dead (base + D.length)
      (FlatLineInterlace info false scene
        (if scene = 0 then { s0 with blob := some D, nread := base }
         else primed s0 D (chunkLength info) base)) := by
  have hLq : GetQuantumExtent info info.extract_info.width .RedQuantum = chunkLength info := by
    simp [chunkLength, hi]
  rw [frameLength_line, hLq, ← Nat.mul_assoc] at hD
  have hpos : 1 ≤ info.extract_info.height * info.lineTypes.length := by
    rcases Nat.eq_zero_or_pos (info.extract_info.height * info.lineTypes.length) with h | h
    · rw [h, Nat.zero_mul] at hD; omega
    · exact h
  have hsh : Short (base + D.length) (chunkLength info)
      (info.extract_info.height * info.lineTypes.length - 1)
      (primed s0 D (chunkLength info) base) := by
    apply primed_short _ _ _ _ _ hL
    rw [Nat.sub_add_cancel hpos]
    exact hD
  unfold FlatLineInterlace
  simp only [hs, if_false]
  rcases FlatLineRows_short info (base + D.length) (chunkLength info)
      (fun qt hq => by rw [← hLq]; exact (lineTypes_extent info qt hq).symm)
      info.extract_info.height 0 _ _ hsh with h | ⟨hle, _⟩
  · exact h
  · omega

theorem FlatPlaneInterlace_truncated (info : ImageInfo)
    (hmon : ∀ o e, info.progress o e = true) (hi : info.interlace = .PlaneInterlace)
    (scene : Nat) (hs : scene ≠ 0) (D : List Nat) (s0 : ReadState) (base : Nat)
    (hL : chunkLength info ≤ D.length) (hD : D.length < frameLength info) :
    Dead (base + D.length)
      (FlatPlaneInterlace info false scene
        (if scene = 0 then { s0 with blob := some D, nread := base }
         else primed s0 D (chunkLength info) base)) := by
  have hLq : GetQuantumExtent info info.extract_info.width .RedQuantum = chunkLength info := by
    simp [chunkLength, hi]
  have hx : ∀ qt : QuantumType, qt.components.length = 1 →
      GetQuantumExtent info info.extract_info.width qt = chunkLength info := by
    intro qt h
    rw [← hLq, extent_single info _ qt h, extent_single info _ .RedQuantum rfl]
  generalize hHdef : info.extract_info.height = H at *
  generalize hLdef : chunkLength info = L at *
  rw [frameLength_plane, hHdef, hLq] at hD
  have hpp : ∀ (k : Nat) (t : ReadState), PlaneProgress info false k t = (t, false) :=
    fun _ _ => rfl
  unfold FlatPlaneInterlace
  simp only [hs, if_false, hHdef, hpp, Bool.false_eq_true]
  have step : ∀ (qt : QuantumType) (chans : List Component) (m : Nat) (t : ReadState),
      qt.components.length = 1 →
      (Dead (base + D.length) t ∨ Short (base + D.length) L m t) →
      Dead (base + D.length) (ReadRows info qt chans false H 0 t) ∨
        (H ≤ m ∧ Short (base + D.length) L (m - H) (ReadRows info qt chans false H 0 t)) := by
    intro qt chans m t hq ht
    rcases ht with hd | hsh
    · exact Or.inl (ReadRows_dead info qt chans false _ H 0 t hd)
    · exact ReadRows_short info qt chans false hmon _ L (hx qt hq) H 0 m t hsh
  have weaken : ∀ (m : Nat) (t : ReadState),
      (Dead (base + D.length) t ∨ (H ≤ m ∧ Short (base + D.length) L (m - H) t)) →
      (Dead (base + D.length) t ∨ Short (base + D.length) L (m - H) t) := by
    intro m t h
    rcases h with h | h
    · exact Or.inl h
    · exact Or.inr h.2
  have hch : info.channels = if info.matte then 4 else 3 := rfl
  rw [hch] at hD
  have hH : 1 ≤ H := by
    rcases Nat.eq_zero_or_pos H with h | h
    · rw [h, Nat.zero_mul, Nat.mul_zero] at hD; omega
    · exact h
  cases hm : info.matte
  · simp only [hm, Bool.false_eq_true, if_false] at hD ⊢
    have h0 : Short (base + D.length) L (3 * H - 1) (primed s0 D L base) :=
      primed_short _ _ _ _ _ hL (by
        have : 3 * H - 1 + 1 = 3 * H := by omega
        rw [this, Nat.mul_assoc]; exact hD)
    have r1 := step .RedQuantum [.red] _ _ rfl (Or.inr h0)
    have r2 := step .GreenQuantum [.green] _ _ rfl (weaken _ _ r1)
    have r3 := step .BlueQuantum [.blue] _ _ rfl (weaken _ _ r2)
    rcases r3 with h | ⟨hle, _⟩
    · exact h
    · rcases r2 with h2 | ⟨hle2, _⟩
      · exact ReadRows_dead info _ _ false _ H 0 _ h2
      · rcases r1 with h1 | ⟨hle1, _⟩
        · exact ReadRows_dead info _ _ false _ H 0 _ (ReadRows_dead info _ _ false _ H 0 _ h1)
        · omega
  · simp only [hm, if_true] at hD ⊢
    have h0 : Short (base + D.length) L (4 * H - 1) (primed s0 D L base) :=
      primed_short _ _ _ _ _ hL (by
        have : 4 * H - 1 + 1 = 4 * H := by omega
        rw [this, Nat.mul_assoc]; exact hD)
    have r1 := step .RedQuantum [.red] _ _ rfl (Or.inr h0)
    have r2 := step .GreenQuantum [.green] _ _ rfl (weaken _ _ r1)
    have r3 := step .BlueQuantum [.blue] _ _ rfl (weaken _ _ r2)
    have r4 := step .AlphaQuantum [.opacity] _ _ rfl (weaken _ _ r3)
    rcases r4 with h | ⟨hle, _⟩
    · exact h
    · rcases r3 with h3 | ⟨hle3, _⟩
      · exact ReadRows_dead info _ _ false _ H 0 _ h3
      · rcases r2 with h2 | ⟨hle2, _⟩
        · exact ReadRows_dead info _ _ false _ H 0 _ (ReadRows_dead info _ _ false _ H 0 _ h2)
        · rcases r1 with h1 | ⟨hle1, _⟩
          · exact ReadRows_dead info _ _ false _ H 0 _
              (ReadRows_dead info _ _ false _ H 0 _ (ReadRows_dead info _ _ false _ H 0 _ h1))
          · omega

theorem scenesState_status (info : ImageInfo) :
    ∀ (n : Nat) (D : List Nat) (s0 : ReadState), (scenesState info n D s0).status = s0.status := by
  intro n
  induction n with
  | zero => intro D s0; rfl
  | succ n ih =>
    intro D s0
    rw [scenesState, ih]
    exact frameState_status info D s0

theorem FlatFrame_truncated (info : ImageInfo) (files : BlobName → Option (List Nat))
    (first : Bool) (hmon : ∀ o e, info.progress o e = true)
    (hi : info.interlace ≠ .PartitionInterlace) (scene : Nat)
    (hcase : info.interlace = .NoInterlace ∨ (scene ≠ 0 ∧ first = false))
    (D : List Nat) (s0 : ReadState) (base : Nat)
    (hL : chunkLength info ≤ D.length) (hD : D.length < frameLength info) :
    Dead (base + D.length)
      (FlatFrame info files first scene
        (if scene = 0 then { s0 with blob := some D, nread := base }
         else primed s0 D (chunkLength info) base)) := by
  unfold FlatFrame
  cases h : info.interlace with
  | NoInterlace => exact FlatNoInterlace_truncated info first hmon h scene D s0 base hL hD
  | LineInterlace =>
    rcases hcase with hc | ⟨hs, hf⟩
    · rw [h] at hc; cases hc
    · rw [hf]; exact FlatLineInterlace_truncated info h scene hs D s0 base hL hD
  | PlaneInterlace =>
    rcases hcase with hc | ⟨hs, hf⟩
    · rw [h] at hc; cases hc
    · rw [hf]; exact FlatPlaneInterlace_truncated info hmon h scene hs D s0 base hL hD
  | PartitionInterlace => exact absurd h hi

/-- The scene loop over `j + 1` complete scenes that are followed by at least
one more chunk. -/
theorem FlatScenes_head (info : ImageInfo) (files : BlobName → Option (List Nat))
    (hmon : ∀ o e, info.progress o e = true)
    (hi : info.interlace ≠ .PartitionInterlace) (hping : info.ping = false)
    (hF : chunkLength info ≤ frameLength info) :
    ∀ (j fuel : Nat) (previous : List (List (List PixelPacket))) (image_scene scene : Nat)
      (D : List Nat) (s0 : ReadState) (base : Nat),
      s0.status = true → (j + 1) * frameLength info + chunkLength info ≤ D.length →
      (∀ i < j + 1, lastScene info (image_scene + i) = false) →
      FlatScenes info files (fuel + (j + 1)) previous image_scene scene
          (if scene = 0 then { s0 with blob := some D, nread := base }
           else primed s0 D (chunkLength info) base) =
        FlatScenes info files fuel (previous ++ scenesImages info (j + 1) D s0)
          (image_scene + (j + 1)) (scene + (j + 1))
          (primed (scenesState info (j + 1) D s0) (D.drop ((j + 1) * frameLength info))
            (chunkLength info) (base + (j + 1) * frameLength info)) := by
  intro j
  induction j with
  | zero =>
    intro fuel previous image_scene scene D s0 base hst hD hnot
    simp only [Nat.zero_add, Nat.one_mul] at hD ⊢
    have hfr := FlatFrame_primed info files previous.isEmpty hmon hi scene D s0 base hst
      (by omega) hF
    have hst0 : (frameState info D s0).status = true := by
      rw [frameState_status]; exact hst
    have hst1 : (primed (frameState info D s0) (D.drop (frameLength info)) (chunkLength info)
        (base + frameLength info)).status = true := by
      rw [primed_status_eq]; exact hst0
    have hlast : lastScene info image_scene = false := by
      have := hnot 0 (Nat.succ_pos 0)
      simpa using this
    have hcount : (primed (frameState info D s0) (D.drop (frameLength info)) (chunkLength info)
        (base + frameLength info)).count =
        (primed (frameState info D s0) (D.drop (frameLength info)) (chunkLength info)
        (base + frameLength info)).length := by
      simp only [primed]
      apply Nat.min_eq_left
      rw [List.length_drop]
      omega
    rw [FlatScenes_step info files hmon hping fuel previous image_scene scene _ _ hfr hst1 hlast
      hcount]
    simp only [scenesImages, scenesState]
    congr 1
    simp [primed, hst0]
  | succ j ih =>
    intro fuel previous image_scene scene D s0 base hst hD hnot
    have hsucc : (j + 1 + 1) * frameLength info = (j + 1) * frameLength info + frameLength info :=
      Nat.succ_mul _ _
    have hfr := FlatFrame_primed info files previous.isEmpty hmon hi scene D s0 base hst
      (by omega) hF
    have hst0 : (frameState info D s0).status = true := by
      rw [frameState_status]; exact hst
    have hst1 : (primed (frameState info D s0) (D.drop (frameLength info)) (chunkLength info)
        (base + frameLength info)).status = true := by
      rw [primed_status_eq]; exact hst0
    have hlast : lastScene info image_scene = false := by
      have := hnot 0 (Nat.succ_pos _)
      simpa using this
    have hcount : (primed (frameState info D s0) (D.drop (frameLength info)) (chunkLength info)
        (base + frameLength info)).count =
        (primed (frameState info D s0) (D.drop (frameLength info)) (chunkLength info)
        (base + frameLength info)).length := by
      simp only [primed]
      apply Nat.min_eq_left
      rw [List.length_drop]
      have : frameLength info ≤ (j + 1) * frameLength info :=
        Nat.le_mul_of_pos_left _ (Nat.succ_pos _)
      omega
    rw [show fuel + (j + 1 + 1) = fuel + (j + 1) + 1 from rfl]
    rw [FlatScenes_step info files hmon hping (fuel + (j + 1)) previous image_scene scene _ _ hfr
      hst1 hlast hcount]
    have hs2 : ({ primed (frameState info D s0) (D.drop (frameLength info)) (chunkLength info)
          (base + frameLength info) with
          pixels := blankImage info.columns info.rows, status := true } : ReadState) =
        (if scene + 1 = 0 then
          { ({ frameState info D s0 with pixels := blankImage info.columns info.rows } : ReadState)
            with blob := some (D.drop (frameLength info)), nread := base + frameLength info }
         else primed { frameState info D s0 with pixels := blankImage info.columns info.rows }
            (D.drop (frameLength info)) (chunkLength info) (base + frameLength info)) := by
      simp only [Nat.succ_ne_zero, if_false]
      simp [primed, hst0]
    rw [hs2]
    rw [ih fuel _ (image_scene + 1) (scene + 1) (D.drop (frameLength info))
      ({ frameState info D s0 with pixels := blankImage info.columns info.rows } : ReadState)
      (base + frameLength info) hst0 (by rw [List.length_drop]; omega)
      (by intro i hi'; have := hnot (i + 1) (by omega); rwa [Nat.add_assoc, Nat.add_comm 1 i])]
    have e1 : image_scene + 1 + (j + 1) = image_scene + (j + 1 + 1) := by omega
    have e2 : scene + 1 + (j + 1) = scene + (j + 1 + 1) := by omega
    rw [e1, e2]
    congr 1
    · rw [List.append_assoc]; rfl
    · apply primed_congr
      · rfl
      · rw [List.drop_drop, hsucc, Nat.add_comm]
      · omega

theorem finishRead_dead (T : Nat) (previous : List (List (List PixelPacket))) (s : ReadState)
    (h : Dead T s) :
    (finishRead previous s).images = [] ∧
      ExceptionType.UnexpectedEndOfFile ∈ (finishRead previous s).exception ∧
      (finishRead previous s).nread = T := by
  obtain ⟨⟨_, _, hn⟩, hst, hex⟩ := h
  unfold finishRead
  simp only [hst, Bool.false_eq_true, if_false]
  exact ⟨trivial, hex, hn⟩

/-- The scene loop on a stream of `j` complete scenes followed by at least one
chunk, but not all chunks, of another scene. -/
theorem FlatScenes_truncated (info : ImageInfo) (files : BlobName → Option (List Nat))
    (hmon : ∀ o e, info.progress o e = true)
    (hi : info.interlace ≠ .PartitionInterlace) (hping : info.ping = false)
    (hF : chunkLength info ≤ frameLength info) (j fuel image_scene : Nat) (D : List Nat)
    (s0 : ReadState) (base : Nat) (hst : s0.status = true)
    (hlen : j * frameLength info + chunkLength info ≤ D.length)
    (hshort : D.length < (j + 1) * frameLength info)
    (hnot : ∀ i < j, lastScene info (image_scene + i) = false)
    (hcase : info.interlace = .NoInterlace ∨ 1 ≤ j) :
    ∃ r, FlatScenes info files (fuel + (j + 1)) [] image_scene 0
          { s0 with blob := some D, nread := base } = some r ∧
      r.images = [] ∧ ExceptionType.UnexpectedEndOfFile ∈ r.exception ∧
      r.nread = base + D.length := by
  rw [Nat.succ_mul] at hshort
  cases j with
  | zero =>
    have hno : info.interlace = .NoInterlace := by
      rcases hcase with h | h
      · exact h
      · omega
    simp only [Nat.zero_mul, Nat.zero_add] at hlen hshort ⊢
    have hd := FlatFrame_truncated info files true hmon hi 0 (Or.inl hno) D s0 base hlen hshort
    simp only [if_true] at hd
    have hstop := FlatScenes_stop info files hping fuel [] image_scene 0
      { s0 with blob := some D, nread := base } _ rfl (Or.inl hd.2.1)
    exact ⟨_, hstop, finishRead_dead _ _ _ hd⟩
  | succ j =>
    have hpre := FlatScenes_head info files hmon hi hping hF j (fuel + 1) [] image_scene 0 D s0
      base hst (by omega) hnot
    simp only [if_true, List.nil_append, Nat.zero_add] at hpre
    rw [show fuel + (j + 1 + 1) = fuel + 1 + (j + 1) by omega, hpre]
    have hd := FlatFrame_truncated info files false hmon hi (j + 1)
      (Or.inr ⟨Nat.succ_ne_zero j, rfl⟩) (D.drop ((j + 1) * frameLength info))
      (scenesState info (j + 1) D s0) (base + (j + 1) * frameLength info)
      (by rw [List.length_drop]; omega) (by rw [List.length_drop]; omega)
    simp only [Nat.succ_ne_zero, if_false] at hd
    have hfirst : (scenesImages info (j + 1) D s0).isEmpty = false := rfl
    have hstop := FlatScenes_stop info files hping fuel (scenesImages info (j + 1) D s0)
      (image_scene + (j + 1)) (j + 1)
      (primed (scenesState info (j + 1) D s0) (D.drop ((j + 1) * frameLength info))
        (chunkLength info) (base + (j + 1) * frameLength info)) _
      (by rw [hfirst]) (Or.inl hd.2.1)
    refine ⟨_, hstop, ?_⟩
    have := finishRead_dead _ (scenesImages info (j + 1) D s0) _ hd
    rw [List.length_drop] at this
    refine ⟨this.1, this.2.1, ?_⟩
    rw [this.2.2]
    omega

/-- A single-stream decode of every scene of a stream that breaks off inside
scene `j`, after its first chunk. -/
theorem FlatYCBCRImage_truncated (info : ImageInfo) (files : BlobName → Option (List Nat))
    (D : List Nat) (hmon : ∀ o e, info.progress o e = true)
    (hi : info.interlace ≠ .PartitionInterlace) (hping : info.ping = false)
    (ho : info.offset = 0) (hc : info.columns ≠ 0) (hr : info.rows ≠ 0)
    (hW : 1 ≤ info.extract_info.width) (hH : 1 ≤ info.extract_info.height)
    (hns : info.number_scenes = 0) (hfile : files .main = some D) (j : Nat)
    (hlen : j * frameLength info + chunkLength info ≤ D.length)
    (hshort : D.length < (j + 1) * frameLength info)
    (hcase : info.interlace = .NoInterlace ∨ 1 ≤ j) :
    ∃ r, FlatYCBCRImage info files = some r ∧ r.images = [] ∧
      ExceptionType.UnexpectedEndOfFile ∈ r.exception ∧ r.nread = D.length := by
  have hL := chunkLength_pos info hW
  have hF := chunkLength_le_frameLength info hH
  rw [FlatYCBCRImage_open info files D hc hr hi ho hfile]
  unfold FlatFromCanvas
  simp only [hns, ne_eq, not_true_eq_false, if_false]
  have hfuel : j + 1 ≤ sceneFuel files := by
    have h1 : blobLength files .main = D.length := by simp [blobLength, hfile]
    have h2 : j ≤ j * frameLength info := Nat.le_mul_of_pos_right _ (by omega)
    unfold sceneFuel
    omega
  obtain ⟨fuel, hfu⟩ : ∃ f, sceneFuel files = f + (j + 1) := ⟨sceneFuel files - (j + 1), by omega⟩
  rw [hfu]
  obtain ⟨r, hr1, hr2, hr3, hr4⟩ := FlatScenes_truncated info files hmon hi hping hF j fuel 0 D
    ({ initialState info with
        blobSize := D.length
        opens := [BlobName.main], count := 0, length := 0, status := true, stream := [] })
    0 rfl hlen hshort (fun i _ => lastScene_unbounded info hns _) hcase
  refine ⟨r, ?_, hr2, hr3, by rw [hr4, Nat.zero_add]⟩
  rw [← hr1]
  rfl

theorem layout_interlace_ne (cfg : StreamConfig) (hl : cfg.layout ≠ .Partitioned) :
    (AcquireImage cfg).interlace ≠ .PartitionInterlace := by
  show cfg.layout.interlace ≠ _
  cases h : cfg.layout <;> simp [Layout.interlace]
  exact hl h

/-- A decode of every scene of a single stream that breaks off inside scene
`j`, `c` chunks into it. -/
theorem flatDecode_truncated (cfg : StreamConfig) (source : BlobName → Option (List Nat))
    (full : List Nat) (j c : Nat) (hl : cfg.layout ≠ .Partitioned) (hping : cfg.ping = false)
    (hcount : cfg.sceneCount = none) (hW : 1 ≤ cfg.width) (hH : 1 ≤ cfg.height)
    (hcw : 1 ≤ cfg.cropRect.width) (hch : 1 ≤ cfg.cropRect.height)
    (hframe : cfg.layout = .Interleaved ∨ 1 ≤ j) (hc : 1 ≤ c)
    (hinside : c * chunkLength (AcquireImage cfg) < frameLength (AcquireImage cfg))
    (hfull : j * frameLength (AcquireImage cfg) + c * chunkLength (AcquireImage cfg) ≤ full.length)
    (hsrc : source .main =
      some (full.take
        (j * frameLength (AcquireImage cfg) + c * chunkLength (AcquireImage cfg)))) :
    ∃ r, flatDecode cfg source = some r ∧ r.images = [] ∧
      ExceptionType.UnexpectedEndOfFile ∈ r.exception ∧
      r.nread = j * frameLength (AcquireImage cfg) + c * chunkLength (AcquireImage cfg) := by
  have hi := layout_interlace_ne cfg hl
  have hcL : chunkLength (AcquireImage cfg) ≤ c * chunkLength (AcquireImage cfg) :=
    Nat.le_mul_of_pos_left _ hc
  have hlenD : (full.take
      (j * frameLength (AcquireImage cfg) + c * chunkLength (AcquireImage cfg))).length =
      j * frameLength (AcquireImage cfg) + c * chunkLength (AcquireImage cfg) := by
    rw [List.length_take]; omega
  obtain ⟨r, h1, h2, h3, h4⟩ := FlatYCBCRImage_truncated (AcquireImage cfg) source _
    (fun _ _ => rfl) hi hping rfl (by show cfg.cropRect.width ≠ 0; omega)
    (by show cfg.cropRect.height ≠ 0; omega) hW hH
    (by show cfg.sceneCount.getD 0 = 0; rw [hcount]; rfl) hsrc j
    (by rw [hlenD]; omega) (by rw [hlenD, Nat.succ_mul]; omega)
    (by
      rcases hframe with h | h
      · left; show cfg.layout.interlace = _; rw [h]; rfl
      · right; exact h)
  exact ⟨r, h1, h2, h3, by rw [h4, hlenD]⟩

/-- A decode of every scene of a single stream of `j >= 1` complete scenes. -/
theorem flatDecode_complete_count (cfg : StreamConfig) (source : BlobName → Option (List Nat))
    (D : List Nat) (j : Nat) (hl : cfg.layout ≠ .Partitioned) (hping : cfg.ping = false)
    (hcount : cfg.sceneCount = none) (hW : 1 ≤ cfg.width) (hH : 1 ≤ cfg.height)
    (hcw : 1 ≤ cfg.cropRect.width) (hch : 1 ≤ cfg.cropRect.height) (hj : 1 ≤ j)
    (hlen : D.length = j * frameLength (AcquireImage cfg)) (hsrc : source .main = some D) :
    (flatDecode cfg source).map (fun r => (r.images.length, r.exception)) = some (j, []) := by
  obtain ⟨n, rfl⟩ : ∃ n, j = n + 1 := ⟨j - 1, by omega⟩
  have hns : (AcquireImage cfg).number_scenes = 0 := by
    show cfg.sceneCount.getD 0 = 0; rw [hcount]; rfl
  have hfs : firstScene (AcquireImage cfg) = 0 := by
    unfold firstScene; rw [if_neg (by rw [hns]; simp)]
  have hsk : skipLength (AcquireImage cfg) = 0 := by
    unfold skipLength; rw [hfs, Nat.zero_mul]
  have hL := chunkLength_pos (AcquireImage cfg) hW
  have key := FlatYCBCRImage_scenes (AcquireImage cfg) source D (fun _ _ => rfl)
    (layout_interlace_ne cfg hl) hping rfl (by show cfg.cropRect.width ≠ 0; omega)
    (by show cfg.cropRect.height ≠ 0; omega) hW hH hsrc n
    (by rw [hsk, hlen]; omega)
    (fun i _ => lastScene_unbounded _ hns _)
    (Or.inr (by rw [hsk, hlen]; omega))
  unfold flatDecode
  rw [key]
  simp only [Option.map_some', scenesImages_length]

theorem channelQuantum_components (k : Nat) (hk : k < 4) :
    (channelQuantum k).components = [channelComponent k] := by
  match k, hk with
  | 0, _ => rfl
  | 1, _ => rfl
  | 2, _ => rfl
  | 3, _ => rfl

theorem getD_range (n k : Nat) (h : k < n) : (List.range n).getD k 0 = k := by
  rw [List.getD_eq_getElem _ _ (by simpa using h)]
  simp

/-- Byte `c` of one exported 8-bit channel row. -/
theorem channelRow_getD (info : ImageInfo) (hd : info.depth = 8) (k : Nat) (hk : k < 4)
    (row : List PixelPacket) (c : Nat) (hc : c < row.length)
    (hv : ∀ p ∈ row, channelSample 8 k p ≤ 255) :
    (ExportQuantumPixels info (channelQuantum k) row).length = row.length ∧
      (ExportQuantumPixels info (channelQuantum k) row).getD c 0 =
        channelSample 8 k (row.getD c blankPixel) := by
  unfold ExportQuantumPixels
  rw [channelQuantum_components k hk]
  have hpx : ∀ p ∈ row, (exportPixel info [channelComponent k] p).length = 1 := by
    intro p _
    rw [exportPixel_length, hd]
    simp [sampleBytes]
  refine ⟨by rw [flatMap_length_const _ 1 row hpx, Nat.mul_one], ?_⟩
  have := getD_flatMap_uniform (exportPixel info [channelComponent k]) 1 0 blankPixel row hpx c 0
    hc (by omega)
  simp only [Nat.mul_one, Nat.add_zero] at this
  rw [this]
  have hmem := getD_mem row c blankPixel hc
  rw [exportPixel_getD8 info hd _ _ 0 (by simp) (by simpa using hv _ hmem)]
  rfl

theorem line_bytes (W H C : Nat) (e : EndianType) (f : List (List PixelPacket))
    (hC : C = 3 ∨ C = 4) :
    (encode (fullConfig W H C 8 .LineInterlaced e) [f]).files .main =
      f.flatMap (fun row => (List.range C).flatMap (fun k =>
        ExportQuantumPixels (AcquireImage (fullConfig W H C 8 .LineInterlaced e))
          (channelQuantum k) row)) := by
  rw [encode_files_main _ (by simp [fullConfig])]
  simp only [List.flatMap_cons, List.flatMap_nil, List.append_nil, encodeFrame, AcquireImage,
    fullConfig, Layout.interlace]
  rcases hC with rfl | rfl <;> rfl

theorem plane_bytes (W H C : Nat) (e : EndianType) (f : List (List PixelPacket))
    (hC : C = 3 ∨ C = 4) :
    (encode (fullConfig W H C 8 .PlaneInterlaced e) [f]).files .main =
      (List.range C).flatMap (fun k => f.flatMap (fun row =>
        ExportQuantumPixels (AcquireImage (fullConfig W H C 8 .PlaneInterlaced e))
          (channelQuantum k) row)) := by
  rw [encode_files_main _ (by simp [fullConfig])]
  simp only [List.flatMap_cons, List.flatMap_nil, List.append_nil, encodeFrame, AcquireImage,
    fullConfig, Layout.interlace]
  rcases hC with rfl | rfl
  · simp [List.range_succ, ImageInfo.quantum_type, channelQuantum]
  · simp [List.range_succ, ImageInfo.quantum_type, channelQuantum]

theorem line_layout (W H C : Nat) (e : EndianType) (f : List (List PixelPacket))
    (hC : C = 3 ∨ C = 4) (hf : validFrame3 8 W H f) :
    ((encode (fullConfig W H C 8 .LineInterlaced e) [f]).files .main).length = W * H * C ∧
      ∀ r c k, r < H → c < W → k < C →
        ((encode (fullConfig W H C 8 .LineInterlaced e) [f]).files .main).getD
            (r * W * C + k * W + c) 0 =
          channelSample 8 k (pixelAt f r c) := by
  rw [line_bytes W H C e f hC]
  generalize hinfo : AcquireImage (fullConfig W H C 8 .LineInterlaced e) = info
  have hd : info.depth = 8 := by rw [← hinfo]; rfl
  have hC4 : C ≤ 4 := by rcases hC with rfl | rfl <;> omega
  have hval : ∀ row ∈ f, ∀ k, k < 4 → ∀ p ∈ row, channelSample 8 k p ≤ 255 :=
    fun row hr k hk p hp => channelSample_le k p hk ((hf.2 row hr).2 p hp)
  have hchan : ∀ row ∈ f, ∀ k ∈ List.range C,
      (ExportQuantumPixels info (channelQuantum k) row).length = W := by
    intro row hr k hk
    have hk' : k < C := List.mem_range.mp hk
    by_cases hW : 0 < W
    · rw [(channelRow_getD info hd k (by omega) row 0 (by rw [(hf.2 row hr).1]; exact hW)
        (hval row hr k (by omega))).1, (hf.2 row hr).1]
    · have hrl : row.length = 0 := by rw [(hf.2 row hr).1]; omega
      have : row = [] := List.length_eq_zero.mp hrl
      subst this
      simp [ExportQuantumPixels]; omega
  have hrow : ∀ row ∈ f,
      ((List.range C).flatMap (fun k => ExportQuantumPixels info (channelQuantum k) row)).length =
        C * W := by
    intro row hr
    rw [flatMap_length_const _ W (List.range C) (hchan row hr), List.length_range]
  refine ⟨?_, ?_⟩
  · rw [flatMap_length_const _ (C * W) f hrow, hf.1]
    ring
  · intro r c k hr hc hk
    have hidx : r * W * C + k * W + c = r * (C * W) + (k * W + c) := by ring
    have hj : k * W + c < C * W := by
      have : (k + 1) * W ≤ C * W := Nat.mul_le_mul_right W hk
      rw [Nat.succ_mul] at this
      omega
    have hrmem : f.getD r [] ∈ f := getD_mem f r [] (by rw [hf.1]; exact hr)
    have hrl : (f.getD r []).length = W := (hf.2 _ hrmem).1
    rw [hidx, getD_flatMap_uniform _ (C * W) 0 [] f hrow r (k * W + c) (by rw [hf.1]; exact hr) hj,
      getD_flatMap_uniform _ W 0 0 (List.range C) (hchan _ hrmem) k c
        (by rw [List.length_range]; exact hk) hc,
      getD_range C k hk]
    exact (channelRow_getD info hd k (by omega) _ c (by rw [hrl]; exact hc)
      (hval _ hrmem k (by omega))).2

theorem plane_layout (W H C : Nat) (e : EndianType) (f : List (List PixelPacket))
    (hC : C = 3 ∨ C = 4) (hf : validFrame3 8 W H f) :
    ((encode (fullConfig W H C 8 .PlaneInterlaced e) [f]).files .main).length = W * H * C ∧
      ∀ r c k, r < H → c < W → k < C →
        ((encode (fullConfig W H C 8 .PlaneInterlaced e) [f]).files .main).getD
            (k * W * H + r * W + c) 0 =
          channelSample 8 k (pixelAt f r c) := by
  rw [plane_bytes W H C e f hC]
  generalize hinfo : AcquireImage (fullConfig W H C 8 .PlaneInterlaced e) = info
  have hd : info.depth = 8 := by rw [← hinfo]; rfl
  have hC4 : C ≤ 4 := by rcases hC with rfl | rfl <;> omega
  have hval : ∀ row ∈ f, ∀ k, k < 4 → ∀ p ∈ row, channelSample 8 k p ≤ 255 :=
    fun row hr k hk p hp => channelSample_le k p hk ((hf.2 row hr).2 p hp)
  have hchan : ∀ k, k < C → ∀ row ∈ f,
      (ExportQuantumPixels info (channelQuantum k) row).length = W := by
    intro k hk' row hr
    by_cases hW : 0 < W
    · rw [(channelRow_getD info hd k (by omega) row 0 (by rw [(hf.2 row hr).1]; exact hW)
        (hval row hr k (by omega))).1, (hf.2 row hr).1]
    · have hrl : row.length = 0 := by rw [(hf.2 row hr).1]; omega
      have : row = [] := List.length_eq_zero.mp hrl
      subst this
      simp [ExportQuantumPixels]; omega
  have hplane : ∀ k ∈ List.range C,
      (f.flatMap (fun row => ExportQuantumPixels info (channelQuantum k) row)).length = H * W := by
    intro k hk
    rw [flatMap_length_const _ W f (hchan k (List.mem_range.mp hk)), hf.1]
  refine ⟨?_, ?_⟩
  · rw [flatMap_length_const _ (H * W) (List.range C) hplane, List.length_range]
    ring
  · intro r c k hr hc hk
    have hidx : k * W * H + r * W + c = k * (H * W) + (r * W + c) := by ring
    have hj : r * W + c < H * W := by
      have : (r + 1) * W ≤ H * W := Nat.mul_le_mul_right W hr
      rw [Nat.succ_mul] at this
      omega
    have hrmem : f.getD r [] ∈ f := getD_mem f r [] (by rw [hf.1]; exact hr)
    have hrl : (f.getD r []).length = W := (hf.2 _ hrmem).1
    rw [hidx, getD_flatMap_uniform _ (H * W) 0 0 (List.range C) hplane k (r * W + c)
        (by rw [List.length_range]; exact hk) hj,
      getD_range C k hk,
      getD_flatMap_uniform _ W 0 [] f (hchan k hk) r c (by rw [hf.1]; exact hr) hc]
    exact (channelRow_getD info hd k (by omega) _ c (by rw [hrl]; exact hc)
      (hval _ hrmem k (by omega))).2

theorem ExportQuantumPixels_codec (info info' : ImageInfo) (he : info.endian = info'.endian)
    (hd : info.depth = info'.depth) (qt : QuantumType) (row : List PixelPacket) :
    ExportQuantumPixels info qt row = ExportQuantumPixels info' qt row := by
  unfold ExportQuantumPixels exportPixel
  rw [he, hd]

theorem WritePartitionInterlace_opens (info : ImageInfo) (first : Bool) (scene : Nat)
    (hmon : ∀ o e, info.progress o e = true) (f : List (List PixelPacket)) (s : WriteState)
    (hw : ∀ n, s.writable n = true) (hr : s.room = none) :
    (WritePartitionInterlace info first scene f s).2 = false ∧
      (WritePartitionInterlace info first scene f s).1.opens =
        s.opens ++ ([(BlobName.Y, decide (scene ≠ 0)), (BlobName.Cb, decide (scene ≠ 0)),
          (BlobName.Cr, decide (scene ≠ 0))] ++
          if info.quantum_type = QuantumType.RGBAQuantum then [(BlobName.A, decide (scene ≠ 0))]
          else []) := by
  obtain ⟨l1, c1, w1, e1⟩ := WritePartitionFile_ok info scene .Y .RedQuantum hmon f s (hw _) hr
  generalize hs1 : wroteFile s .Y (decide (scene ≠ 0))
    (f.flatMap (ExportQuantumPixels info .RedQuantum)) l1 c1 w1 = s1 at e1
  have w1' : s1.writable = s.writable := by rw [← hs1]; rfl
  have r1' : s1.room = none := by rw [← hs1]; exact hr
  have st1 : s1.status = true := by rw [← hs1]; rfl
  have o1 : s1.opens = s.opens ++ [(BlobName.Y, decide (scene ≠ 0))] := by rw [← hs1]; rfl
  obtain ⟨l2, c2, w2, e2⟩ := WritePartitionFile_ok info scene .Cb .GreenQuantum hmon f
    (CloseBlobWrite s1) (by show s1.writable _ = true; rw [w1']; exact hw _) r1'
  generalize hs2 : wroteFile (CloseBlobWrite s1) .Cb (decide (scene ≠ 0))
    (f.flatMap (ExportQuantumPixels info .GreenQuantum)) l2 c2 w2 = s2 at e2
  have w2' : s2.writable = s.writable := by rw [← hs2]; exact w1'
  have r2' : s2.room = none := by rw [← hs2]; exact r1'
  have st2 : s2.status = true := by rw [← hs2]; rfl
  have o2 : s2.opens = s1.opens ++ [(BlobName.Cb, decide (scene ≠ 0))] := by rw [← hs2]; rfl
  obtain ⟨l3, c3, w3, e3⟩ := WritePartitionFile_ok info scene .Cr .BlueQuantum hmon f
    (CloseBlobWrite s2) (by show s2.writable _ = true; rw [w2']; exact hw _) r2'
  generalize hs3 : wroteFile (CloseBlobWrite s2) .Cr (decide (scene ≠ 0))
    (f.flatMap (ExportQuantumPixels info .BlueQuantum)) l3 c3 w3 = s3 at e3
  have w3' : s3.writable = s.writable := by rw [← hs3]; exact w2'
  have r3' : s3.room = none := by rw [← hs3]; exact r2'
  have st3 : s3.status = true := by rw [← hs3]; rfl
  have o3 : s3.opens = s2.opens ++ [(BlobName.Cr, decide (scene ≠ 0))] := by rw [← hs3]; rfl
  unfold WritePartitionInterlace
  simp only [e1, Bool.false_eq_true, if_false, WriteProgress_true info first _ s1 hmon st1, e2,
    WriteProgress_true info first _ s2 hmon st2, e3, WriteProgress_true info first _ s3 hmon st3]
  by_cases hq : info.quantum_type = QuantumType.RGBAQuantum
  · obtain ⟨l4, c4, w4, e4⟩ := WritePartitionFile_ok info scene .A .AlphaQuantum hmon f
      (CloseBlobWrite s3) (by show s3.writable _ = true; rw [w3']; exact hw _) r3'
    generalize hs4 : wroteFile (CloseBlobWrite s3) .A (decide (scene ≠ 0))
      (f.flatMap (ExportQuantumPixels info .AlphaQuantum)) l4 c4 w4 = s4 at e4
    have st4 : s4.status = true := by rw [← hs4]; rfl
    have o4 : s4.opens = s3.opens ++ [(BlobName.A, decide (scene ≠ 0))] := by rw [← hs4]; rfl
    simp only [hq, if_true, e4, Bool.false_eq_true, if_false,
      WriteProgress_true info first _ s4 hmon st4,
      WriteProgress_true info first _ (CloseBlobWrite s4) hmon st4]
    refine ⟨trivial, ?_⟩
    show s4.opens = _
    rw [o4, o3, o2, o1]
    simp
  · simp only [hq, if_false, WriteProgress_true info first _ (CloseBlobWrite s3) hmon st3]
    refine ⟨trivial, ?_⟩
    show s3.opens = _
    rw [o3, o2, o1]
    simp

/-- The `OpenBlob` calls of the partition writer for one frame. -/
theorem encode_opens_partition (cfg : StreamConfig) (hl : cfg.layout = .Partitioned)
    (f : List (List PixelPacket)) :
    (encode cfg [f]).opens =
      [(BlobName.Y, false), (BlobName.Cb, false), (BlobName.Cr, false)] ++
        (if cfg.channelCount = 4 then [(BlobName.A, false)] else []) := by
  have hi : (AcquireImage cfg).interlace = .PartitionInterlace := by
    simp [AcquireImage, hl, Layout.interlace]
  have h := WritePartitionInterlace_opens (AcquireImage cfg) true 0 (fun _ _ => rfl) f
    { files := emptySink.files, writable := emptySink.writable,
      room := emptySink.room, blob := none, count := 0, length := 0, status := true,
      opens := [], writes := 0 } (fun _ => rfl) rfl
  unfold encode WriteYCBCRImage
  simp only [hi, ne_eq, not_true_eq_false, if_false]
  rw [WriteScenes.eq_def]
  simp only [WriteFrame, hi, h.1, Bool.false_eq_true, if_false, h.2]
  by_cases hc : cfg.channelCount = 4
  · simp [hc, ImageInfo.quantum_type, AcquireImage]
  · simp [hc, ImageInfo.quantum_type, AcquireImage]

/-- The channel files of the partition writer, put one after the other, are
the stream of the plane writer. -/
theorem partition_concat (cfg : StreamConfig) (hl : cfg.layout = .Partitioned)
    (f : List (List PixelPacket)) :
    (encode cfg [f]).files .Y ++ ((encode cfg [f]).files .Cb ++
        ((encode cfg [f]).files .Cr ++ (encode cfg [f]).files .A)) =
      (encode { cfg with layout := .PlaneInterlaced } [f]).files .main := by
  rw [encode_files_partition cfg hl, encode_files_partition cfg hl, encode_files_partition cfg hl,
    encode_files_partition cfg hl, encode_files_main _ (by simp)]
  simp only [List.flatMap_cons, List.flatMap_nil, List.append_nil, planeOf, encodeFrame,
    AcquireImage, Layout.interlace, ImageInfo.quantum_type]
  rfl

theorem overwrites_packet (info : ImageInfo) :
    Overwrites info info.quantum_type.components info.packetChannels := by
  intro b q1 q2 q
  unfold ImageInfo.quantum_type ImageInfo.packetChannels
  cases info.matte <;>
    simp [QuantumType.components, importComponents, copyComponents, storeComponent, loadComponent]

theorem overwrites_line (info : ImageInfo) (qt : QuantumType) (h : qt ∈ quantum_types) :
    Overwrites info qt.components (lineChannel qt) := by
  intro b q1 q2 q
  simp only [quantum_types, List.mem_cons, List.mem_singleton, List.not_mem_nil, or_false] at h
  rcases h with rfl | rfl | rfl | rfl <;>
    simp [QuantumType.components, lineChannel, importComponents, copyComponents, storeComponent,
      loadComponent]

theorem overwrites_red (info : ImageInfo) :
    Overwrites info QuantumType.RedQuantum.components [.red] := by
  intro b q1 q2 q
  simp [QuantumType.components, importComponents, copyComponents, storeComponent, loadComponent]

theorem overwrites_green (info : ImageInfo) :
    Overwrites info QuantumType.GreenQuantum.components [.green] := by
  intro b q1 q2 q
  simp [QuantumType.components, importComponents, copyComponents, storeComponent, loadComponent]

theorem overwrites_blue (info : ImageInfo) :
    Overwrites info QuantumType.BlueQuantum.components [.blue] := by
  intro b q1 q2 q
  simp [QuantumType.components, importComponents, copyComponents, storeComponent, loadComponent]

theorem overwrites_alpha (info : ImageInfo) :
    Overwrites info QuantumType.AlphaQuantum.components [.opacity] := by
  intro b q1 q2 q
  simp [QuantumType.components, importComponents, copyComponents, storeComponent, loadComponent]

theorem importRow_length (info : ImageInfo) (comps : List Component) :
    ∀ (c : List PixelPacket) (b : List Nat), (importRow info comps c b).length = c.length := by
  intro c
  induction c with
  | nil => intro b; rfl
  | cons q qs ih => intro b; simp only [importRow, List.length_cons, ih]

theorem importRow_sameOn (info : ImageInfo) (comps chans : List Component)
    (h : Overwrites info comps chans) :
    ∀ (c c' : List PixelPacket) (b : List Nat), c.length = c'.length →
      List.Forall₂ (SameOn info.depth chans) (importRow info comps c b)
        (importRow info comps c' b) := by
  intro c
  induction c with
  | nil =>
    intro c' b hl
    cases c' with
    | nil => exact List.Forall₂.nil
    | cons _ _ => simp at hl
  | cons q qs ih =>
    intro c' b hl
    cases c' with
    | nil => simp at hl
    | cons q' qs' =>
      simp only [importRow]
      exact List.Forall₂.cons (h b q q') (ih qs' _ (by simpa using hl))

theorem forall2_getD {α : Type} (R : α → α → Prop) (d : α) (hd : R d d) :
    ∀ (l l' : List α), List.Forall₂ R l l' → ∀ i, R (l.getD i d) (l'.getD i d) := by
  intro l l' h
  induction h with
  | nil => intro i; simpa using hd
  | cons hx _ ih =>
    intro i
    cases i with
    | zero => simpa using hx
    | succ i => simpa using ih i

theorem virtualPixel_sameOn (depth : Nat) (chans : List Component) (c c' : List PixelPacket)
    (h : List.Forall₂ (SameOn depth chans) c c') (j : Int) :
    SameOn depth chans (virtualPixel c j) (virtualPixel c' j) := by
  unfold virtualPixel
  rw [h.length_eq]
  split
  · exact forall2_getD _ blackPixel (fun _ => rfl) c c' h _
  · exact fun _ => rfl

theorem GetVirtualPixels_sameOn (depth : Nat) (chans : List Component) (c c' : List PixelPacket)
    (h : List.Forall₂ (SameOn depth chans) c c') (x : Int) (n : Nat) :
    List.Forall₂ (SameOn depth chans) (GetVirtualPixels c x n) (GetVirtualPixels c' x n) := by
  unfold GetVirtualPixels
  rw [List.forall₂_map_left_iff, List.forall₂_map_right_iff, List.forall₂_same]
  intro i _
  exact virtualPixel_sameOn depth chans c c' h _

theorem copyPixels_sameOn (depth : Nat) (chans : List Component) :
    ∀ (ps ps' : List PixelPacket), List.Forall₂ (SameOn depth chans) ps ps' →
      ∀ qs, copyPixels depth chans ps qs = copyPixels depth chans ps' qs := by
  intro ps ps' h
  induction h with
  | nil => intro qs; rfl
  | cons hx _ ih =>
    intro qs
    cases qs with
    | nil => simp [copyPixels]
    | cons q qs => simp only [copyPixels, hx q, ih qs]

/-- One row transfer gives the same image whatever the canvas held before. -/
theorem ImportRow_agree (info : ImageInfo) (qt : QuantumType) (chans : List Component) (y : Nat)
    (h : Overwrites info qt.components chans) (s t : ReadState) (hp : s.pixels = t.pixels)
    (hc : s.canvas.length = t.canvas.length) (hs : s.stream = t.stream) :
    (ImportRow info qt chans y s).pixels = (ImportRow info qt chans y t).pixels ∧
      (ImportRow info qt chans y s).canvas.length = (ImportRow info qt chans y t).canvas.length := by
  have hrow := importRow_sameOn info qt.components chans h s.canvas t.canvas s.stream hc
  have hv := GetVirtualPixels_sameOn info.depth chans _ _ hrow info.extract_info.x
    info.extract_info.width
  have hcp := copyPixels_sameOn info.depth chans _ _ hv
  have hfun : copyPixels info.depth chans
        (GetVirtualPixels (importRow info qt.components s.canvas s.stream) info.extract_info.x
          info.extract_info.width) =
      copyPixels info.depth chans
        (GetVirtualPixels (importRow info qt.components t.canvas s.stream) info.extract_info.x
          info.extract_info.width) := funext hcp
  unfold ImportRow ImportQuantumPixels
  simp only [← hs, ← hp]
  split
  · refine ⟨?_, ?_⟩
    · show modifyRow _ _ s.pixels = modifyRow _ _ s.pixels
      rw [hfun]
    · show (importRow _ _ _ _).length = (importRow _ _ _ _).length
      rw [importRow_length, importRow_length, hc]
  · refine ⟨rfl, ?_⟩
    show (importRow _ _ _ _).length = (importRow _ _ _ _).length
    rw [importRow_length, importRow_length, hc]

theorem ImportRow_canvas_length (info : ImageInfo) (qt : QuantumType) (chans : List Component)
    (y : Nat) (s : ReadState) :
    (ImportRow info qt chans y s).canvas.length = s.canvas.length := by
  unfold ImportRow ImportQuantumPixels
  simp only
  split
  · show (importRow _ _ _ _).length = _
    rw [importRow_length]
  · show (importRow _ _ _ _).length = _
    rw [importRow_length]

theorem rowsState_agree (info : ImageInfo) (qt : QuantumType) (chans : List Component) (L : Nat)
    (h : Overwrites info qt.components chans) :
    ∀ (n y : Nat) (D : List Nat) (s t : ReadState), s.pixels = t.pixels →
      s.canvas.length = t.canvas.length →
      (rowsState info qt chans L n y D s).pixels = (rowsState info qt chans L n y D t).pixels ∧
        (rowsState info qt chans L n y D s).canvas.length =
          (rowsState info qt chans L n y D t).canvas.length := by
  intro n
  induction n with
  | zero => intro y D s t hp hc; exact ⟨hp, hc⟩
  | succ n ih =>
    intro y D s t hp hc
    simp only [rowsState]
    have := ImportRow_agree info qt chans y h { s with stream := D.take L }
      { t with stream := D.take L } hp hc rfl
    exact ih _ _ _ _ this.1 this.2

theorem rowsState_canvas_length (info : ImageInfo) (qt : QuantumType) (chans : List Component)
    (L : Nat) :
    ∀ (n y : Nat) (D : List Nat) (s : ReadState),
      (rowsState info qt chans L n y D s).canvas.length = s.canvas.length := by
  intro n
  induction n with
  | zero => intro y D s; rfl
  | succ n ih =>
    intro y D s
    simp only [rowsState]
    rw [ih, ImportRow_canvas_length]

theorem lineChannelsState_agree (info : ImageInfo) (L y : Nat) :
    ∀ (qts : List QuantumType), (∀ qt ∈ qts, qt ∈ quantum_types) →
      ∀ (D : List Nat) (s t : ReadState), s.pixels = t.pixels →
      s.canvas.length = t.canvas.length →
      (lineChannelsState info L y qts D s).pixels = (lineChannelsState info L y qts D t).pixels ∧
        (lineChannelsState info L y qts D s).canvas.length =
          (lineChannelsState info L y qts D t).canvas.length := by
  intro qts
  induction qts with
  | nil => intro _ D s t hp hc; exact ⟨hp, hc⟩
  | cons qt qts ih =>
    intro hq D s t hp hc
    simp only [lineChannelsState]
    have := ImportRow_agree info qt (lineChannel qt) y
      (overwrites_line info qt (hq qt (List.mem_cons_self _ _))) { s with stream := D.take L }
      { t with stream := D.take L } hp hc rfl
    exact ih (fun q hq' => hq q (List.mem_cons_of_mem _ hq')) _ _ _ this.1 this.2

theorem lineChannelsState_canvas_length (info : ImageInfo) (L y : Nat) :
    ∀ (qts : List QuantumType) (D : List Nat) (s : ReadState),
      (lineChannelsState info L y qts D s).canvas.length = s.canvas.length := by
  intro qts
  induction qts with
  | nil => intro D s; rfl
  | cons qt qts ih =>
    intro D s
    simp only [lineChannelsState]
    rw [ih, ImportRow_canvas_length]

theorem lineRowsState_agree (info : ImageInfo) (L : Nat) (qts : List QuantumType)
    (hq : ∀ qt ∈ qts, qt ∈ quantum_types) :
    ∀ (n y : Nat) (D : List Nat) (s t : ReadState), s.pixels = t.pixels →
      s.canvas.length = t.canvas.length →
      (lineRowsState info L qts n y D s).pixels = (lineRowsState info L qts n y D t).pixels ∧
        (lineRowsState info L qts n y D s).canvas.length =
          (lineRowsState info L qts n y D t).canvas.length := by
  intro n
  induction n with
  | zero => intro y D s t hp hc; exact ⟨hp, hc⟩
  | succ n ih =>
    intro y D s t hp hc
    simp only [lineRowsState]
    have := lineChannelsState_agree info L y qts hq D s t hp hc
    exact ih _ _ _ _ this.1 this.2

theorem lineRowsState_canvas_length (info : ImageInfo) (L : Nat) (qts : List QuantumType) :
    ∀ (n y : Nat) (D : List Nat) (s : ReadState),
      (lineRowsState info L qts n y D s).canvas.length = s.canvas.length := by
  intro n
  induction n with
  | zero => intro y D s; rfl
  | succ n ih =>
    intro y D s
    simp only [lineRowsState]
    rw [ih, lineChannelsState_canvas_length]

theorem lineTypes_mem (info : ImageInfo) : ∀ qt ∈ info.lineTypes, qt ∈ quantum_types :=
  fun _ h => List.mem_of_mem_take h

theorem planesState_agree (info : ImageInfo) (D : List Nat) (s t : ReadState)
    (hp : s.pixels = t.pixels) (hc : s.canvas.length = t.canvas.length) :
    (planesState info D s).pixels = (planesState info D t).pixels ∧
      (planesState info D s).canvas.length = (planesState info D t).canvas.length := by
  unfold planesState
  simp only
  have h1 := rowsState_agree info .RedQuantum [.red]
    (GetQuantumExtent info info.extract_info.width QuantumType.RedQuantum) (overwrites_red info)
    info.extract_info.height 0 D s t hp hc
  have h2 := rowsState_agree info .GreenQuantum [.green]
    (GetQuantumExtent info info.extract_info.width QuantumType.RedQuantum) (overwrites_green info)
    info.extract_info.height 0 (D.drop (info.extract_info.height *
      GetQuantumExtent info info.extract_info.width QuantumType.RedQuantum)) _ _ h1.1 h1.2
  have h3 := rowsState_agree info .BlueQuantum [.blue]
    (GetQuantumExtent info info.extract_info.width QuantumType.RedQuantum) (overwrites_blue info)
    info.extract_info.height 0 (D.drop (info.extract_info.height *
      GetQuantumExtent info info.extract_info.width QuantumType.RedQuantum +
      info.extract_info.height *
      GetQuantumExtent info info.extract_info.width QuantumType.RedQuantum)) _ _ h2.1 h2.2
  split
  · exact rowsState_agree info .AlphaQuantum [.opacity] _ (overwrites_alpha info) _ 0 _ _ _
      h3.1 h3.2
  · exact h3

theorem planesState_canvas_length (info : ImageInfo) (D : List Nat) (s : ReadState) :
    (planesState info D s).canvas.length = s.canvas.length := by
  unfold planesState
  simp only
  split <;> simp only [rowsState_canvas_length]

/-- The image one scene decodes to does not depend on what the canvas held
before. -/
theorem frameState_agree (info : ImageInfo) (D : List Nat) (s t : ReadState)
    (hp : s.pixels = t.pixels) (hc : s.canvas.length = t.canvas.length) :
    (frameState info D s).pixels = (frameState info D t).pixels ∧
      (frameState info D s).canvas.length = (frameState info D t).canvas.length := by
  unfold frameState
  cases info.interlace with
  | NoInterlace => exact rowsState_agree info _ _ _ (overwrites_packet info) _ 0 D s t hp hc
  | LineInterlace => exact lineRowsState_agree info _ _ (lineTypes_mem info) _ 0 D s t hp hc
  | PlaneInterlace => exact planesState_agree info D s t hp hc
  | PartitionInterlace => exact planesState_agree info D s t hp hc

theorem frameState_canvas_length (info : ImageInfo) (D : List Nat) (s : ReadState) :
    (frameState info D s).canvas.length = s.canvas.length := by
  unfold frameState
  cases info.interlace with
  | NoInterlace => exact rowsState_canvas_length info _ _ _ _ 0 D s
  | LineInterlace => exact lineRowsState_canvas_length info _ _ _ 0 D s
  | PlaneInterlace => exact planesState_canvas_length info D s
  | PartitionInterlace => exact planesState_canvas_length info D s

theorem take_take_le {α : Type} (D : List α) (L M : Nat) (h : L ≤ M) :
    (D.take M).take L = D.take L := by
  rw [List.take_take, Nat.min_eq_left h]

theorem rowsState_take (info : ImageInfo) (qt : QuantumType) (chans : List Component) (L : Nat) :
    ∀ (n y : Nat) (D : List Nat) (s : ReadState) (M : Nat), n * L ≤ M →
      rowsState info qt chans L n y (D.take M) s = rowsState info qt chans L n y D s := by
  intro n
  induction n with
  | zero => intro y D s M _; rfl
  | succ n ih =>
    intro y D s M hM
    rw [Nat.succ_mul] at hM
    simp only [rowsState]
    rw [take_take_le D L M (by omega), List.drop_take, ih _ _ _ _ (by omega)]

theorem lineChannelsState_take (info : ImageInfo) (L y : Nat) :
    ∀ (qts : List QuantumType) (D : List Nat) (s : ReadState) (M : Nat), qts.length * L ≤ M →
      lineChannelsState info L y qts (D.take M) s = lineChannelsState info L y qts D s := by
  intro qts
  induction qts with
  | nil => intro D s M _; rfl
  | cons qt qts ih =>
    intro D s M hM
    rw [List.length_cons, Nat.succ_mul] at hM
    simp only [lineChannelsState]
    rw [take_take_le D L M (by omega), List.drop_take, ih _ _ _ (by omega)]

theorem lineRowsState_take (info : ImageInfo) (L : Nat) (qts : List QuantumType) :
    ∀ (n y : Nat) (D : List Nat) (s : ReadState) (M : Nat), n * (qts.length * L) ≤ M →
      lineRowsState info L qts n y (D.take M) s = lineRowsState info L qts n y D s := by
  intro n
  induction n with
  | zero => intro y D s M _; rfl
  | succ n ih =>
    intro y D s M hM
    rw [Nat.succ_mul] at hM
    simp only [lineRowsState]
    rw [lineChannelsState_take info L y qts D s M (by omega), List.drop_take,
      ih _ _ _ _ (by omega)]

theorem planesState_take (info : ImageInfo) (D : List Nat) (s : ReadState) (M : Nat)
    (hM : frameLength info ≤ M) : planesState info (D.take M) s = planesState info D s := by
  rw [frameLength_plane] at hM
  unfold planesState
  simp only
  generalize hP : info.extract_info.height *
    GetQuantumExtent info info.extract_info.width QuantumType.RedQuantum = P at hM ⊢
  have hch : info.channels = 3 ∨ info.channels = 4 := by
    unfold ImageInfo.channels; cases info.matte <;> simp
  have h3 : 3 * P ≤ M := by
    rcases hch with h | h <;> rw [h] at hM <;> omega
  rw [List.drop_take, List.drop_take, List.drop_take,
    rowsState_take info _ _ _ _ 0 D s M (by rw [hP]; omega),
    rowsState_take info _ _ _ _ 0 (D.drop P) _ (M - P) (by rw [hP]; omega),
    rowsState_take info _ _ _ _ 0 (D.drop (P + P)) _ (M - (P + P)) (by rw [hP]; omega)]
  by_cases hm : info.matte = true
  · have h4 : 4 * P ≤ M := by
      have : info.channels = 4 := by unfold ImageInfo.channels; simp [hm]
      rw [this] at hM; exact hM
    simp only [hm, if_true]
    rw [rowsState_take info _ _ _ _ 0 (D.drop (P + P + P)) _ (M - (P + P + P))
      (by rw [hP]; omega)]
  · simp only [hm, if_false]
    simp

/-- One scene depends on the bytes of the scene only. -/
theorem frameState_take (info : ImageInfo) (D : List Nat) (s : ReadState) (M : Nat)
    (hM : frameLength info ≤ M) : frameState info (D.take M) s = frameState info D s := by
  unfold frameState
  cases h : info.interlace with
  | NoInterlace =>
    simp only
    apply rowsState_take
    rw [frameLength_no] at hM
    simpa [chunkLength, h] using hM
  | LineInterlace =>
    simp only
    apply lineRowsState_take
    rw [frameLength_line] at hM
    simpa [chunkLength, h] using hM
  | PlaneInterlace => exact planesState_take info D s M hM
  | PartitionInterlace => exact planesState_take info D s M hM

theorem scenesState_succ_pixels (info : ImageInfo) :
    ∀ (n : Nat) (D : List Nat) (s0 : ReadState),
      s0.pixels = blankImage info.columns info.rows →
      (scenesState info n D s0).pixels = blankImage info.columns info.rows := by
  intro n
  induction n with
  | zero => intro D s0 h; exact h
  | succ n ih => intro D s0 _; rw [scenesState]; exact ih _ _ rfl

theorem scenesState_canvas_length (info : ImageInfo) :
    ∀ (n : Nat) (D : List Nat) (s0 : ReadState),
      (scenesState info n D s0).canvas.length = s0.canvas.length := by
  intro n
  induction n with
  | zero => intro D s0; rfl
  | succ n ih =>
    intro D s0
    rw [scenesState, ih]
    exact frameState_canvas_length info D s0

theorem scenesImages_getD (info : ImageInfo) :
    ∀ (n : Nat) (D : List Nat) (s0 : ReadState) (i : Nat), i < n →
      (scenesImages info n D s0).getD i [] =
        (frameState info (D.drop (i * frameLength info)) (scenesState info i D s0)).pixels := by
  intro n
  induction n with
  | zero => intro D s0 i hi; omega
  | succ n ih =>
    intro D s0 i hi
    cases i with
    | zero => simp [scenesImages, scenesState]
    | succ i =>
      simp only [scenesImages, List.getD_cons_succ, scenesState]
      rw [ih _ _ i (by omega), List.drop_drop, Nat.succ_mul]
      congr 3
      omega

/-- Scene `i` of a run of complete scenes is what its own bytes decode to from
the initial state. -/
theorem scenesImages_slice (info : ImageInfo) (n : Nat) (D : List Nat) (s0 t : ReadState)
    (hp : s0.pixels = blankImage info.columns info.rows)
    (ht : t.pixels = blankImage info.columns info.rows)
    (hc : s0.canvas.length = t.canvas.length) (i : Nat) (hi : i < n) :
    (scenesImages info n D s0).getD i [] =
      (frameState info ((D.drop (i * frameLength info)).take (frameLength info)) t).pixels := by
  rw [scenesImages_getD info n D s0 i hi, frameState_take info _ t _ (Nat.le_refl _)]
  exact (frameState_agree info _ _ t
    (by rw [scenesState_succ_pixels info i D s0 hp, ht])
    (by rw [scenesState_canvas_length, hc])).1

theorem interlace_ne_partition (cfg : StreamConfig) (hl : cfg.layout ≠ .Partitioned) :
    (AcquireImage cfg).interlace ≠ .PartitionInterlace := by
  show cfg.layout.interlace ≠ _
  cases h : cfg.layout <;> simp [Layout.interlace]
  exact hl h

/-- The decode of every scene of a single stream of `N` complete scenes, for
any non-empty crop rectangle. -/
theorem flatDecode_complete_frames (cfg : StreamConfig) (source : BlobName → Option (List Nat))
    (D : List Nat) (N : Nat) (hl : cfg.layout ≠ .Partitioned) (hping : cfg.ping = false)
    (hcount : cfg.sceneCount = none) (hW : 1 ≤ cfg.width) (hH : 1 ≤ cfg.height)
    (hcw : 1 ≤ cfg.cropRect.width) (hch : 1 ≤ cfg.cropRect.height) (hN : 1 ≤ N)
    (hlen : D.length = N * frameLength (AcquireImage cfg)) (hsrc : source .main = some D) :
    flatDecode cfg source =
      some
        { images := scenesImages (AcquireImage cfg) N D (initialState (AcquireImage cfg))
          exception := []
          opens := [BlobName.main]
          nread := D.length } := by
  have hi := interlace_ne_partition cfg hl
  generalize hinfo : AcquireImage cfg = info at hlen hi ⊢
  have e_ns : info.number_scenes = 0 := by rw [← hinfo]; simp [AcquireImage, hcount]
  have hfs : firstScene info = 0 := by unfold firstScene; simp [e_ns]
  have hsk : skipLength info = 0 := by unfold skipLength; rw [hfs, Nat.zero_mul]
  obtain ⟨n, rfl⟩ : ∃ n, N = n + 1 := ⟨N - 1, by omega⟩
  have hW2 : 1 ≤ info.extract_info.width := by rw [← hinfo]; exact hW
  have hL := chunkLength_pos info hW2
  have key := FlatYCBCRImage_scenes info source D (by rw [← hinfo]; intro _ _; rfl) hi
    (by rw [← hinfo]; exact hping) (by rw [← hinfo]; rfl)
    (by rw [← hinfo]; show cfg.cropRect.width ≠ 0; omega)
    (by rw [← hinfo]; show cfg.cropRect.height ≠ 0; omega)
    hW2 (by rw [← hinfo]; exact hH) hsrc n
    (by rw [hsk, hlen]; omega)
    (fun j _ => lastScene_unbounded info e_ns _)
    (by right; rw [hsk, hlen]; omega)
  unfold flatDecode
  rw [hinfo, key, hsk]
  simp only [List.drop_zero, Nat.zero_add, Nat.sub_zero]
  rw [hlen]
  simp

theorem slice_length (D : List Nat) (N F i : Nat) (hlen : D.length = N * F) (hi : i < N) :
    ((D.drop (i * F)).take F).length = F := by
  have h1 : (i + 1) * F ≤ N * F := Nat.mul_le_mul_right F hi
  rw [Nat.succ_mul] at h1
  rw [List.length_take, List.length_drop, hlen]
  omega

/-- The result of a bounded request for `m` scenes from scene `k` on, read from
a single stream of `N` complete scenes by a request as high as the canvas. -/
theorem flatDecode_bounded_result (cfg : StreamConfig) (source : BlobName → Option (List Nat))
    (D : List Nat) (N m : Nat) (hl : cfg.layout ≠ .Partitioned) (hping : cfg.ping = false)
    (hW : 1 ≤ cfg.width) (hH : 1 ≤ cfg.height) (hcw : 1 ≤ cfg.cropRect.width)
    (hch : cfg.cropRect.height = cfg.height) (hm : 1 ≤ m) (hcount : cfg.sceneCount = some m)
    (hk : cfg.sceneOffset < N) (hlen : D.length = N * frameLength (AcquireImage cfg))
    (hsrc : source .main = some D) :
    flatDecode cfg source =
      some
        { images := scenesImages (AcquireImage cfg) (min m (N - cfg.sceneOffset))
            (D.drop (cfg.sceneOffset * frameLength (AcquireImage cfg)))
            (initialState (AcquireImage cfg))
          exception := []
          opens := [BlobName.main]
          nread := (cfg.sceneOffset + min m (N - cfg.sceneOffset)) *
              frameLength (AcquireImage cfg) +
            min (chunkLength (AcquireImage cfg))
              ((N - cfg.sceneOffset - min m (N - cfg.sceneOffset)) *
                frameLength (AcquireImage cfg)) } := by
  have hi := interlace_ne_partition cfg hl
  generalize hinfo : AcquireImage cfg = info at hlen hi ⊢
  have e_ns : info.number_scenes = m := by rw [← hinfo]; simp [AcquireImage, hcount]
  have e_sc : info.scene = cfg.sceneOffset := by rw [← hinfo]; rfl
  have e_rows : info.rows = info.extract_info.height := by rw [← hinfo]; exact hch
  have hfs : firstScene info = cfg.sceneOffset := by
    unfold firstScene
    rw [if_pos (by rw [e_ns]; omega), e_sc]
  have hsk : skipLength info = cfg.sceneOffset * frameLength info := by
    unfold skipLength
    rw [hfs, rows_extent_eq_frameLength info e_rows]
  obtain ⟨n, hn⟩ : ∃ n, min m (N - cfg.sceneOffset) = n + 1 :=
    ⟨min m (N - cfg.sceneOffset) - 1, by omega⟩
  have hsum : cfg.sceneOffset * frameLength info + (n + 1) * frameLength info +
      (N - cfg.sceneOffset - (n + 1)) * frameLength info = N * frameLength info := by
    rw [← Nat.add_mul, ← Nat.add_mul]
    congr 1
    omega
  have hW2 : 1 ≤ info.extract_info.width := by rw [← hinfo]; exact hW
  have hL := chunkLength_pos info hW2
  have key := FlatYCBCRImage_scenes info source D (by rw [← hinfo]; intro _ _; rfl) hi
    (by rw [← hinfo]; exact hping) (by rw [← hinfo]; rfl)
    (by rw [← hinfo]; show cfg.cropRect.width ≠ 0; omega)
    (by rw [← hinfo]; show cfg.cropRect.height ≠ 0; omega)
    hW2 (by rw [← hinfo]; exact hH) hsrc n
    (by rw [hsk, hlen]; omega)
    (by
      intro j hj
      unfold lastScene
      rw [hfs, e_ns, e_sc]
      apply decide_eq_false
      omega)
    (by
      by_cases hmn : n + 1 = m
      · left
        unfold lastScene
        rw [hfs, e_ns, e_sc]
        apply decide_eq_true
        omega
      · right
        have : N - cfg.sceneOffset - (n + 1) = 0 := by omega
        rw [this, Nat.zero_mul] at hsum
        rw [hsk, hlen]
        omega)
  unfold flatDecode
  rw [hinfo, key, hn, hsk]
  have e1 : D.length - cfg.sceneOffset * frameLength info - (n + 1) * frameLength info =
      (N - cfg.sceneOffset - (n + 1)) * frameLength info := by
    rw [hlen]; omega
  rw [e1, Nat.add_mul cfg.sceneOffset]

theorem FlatFromCanvas_skipPhase (info : ImageInfo) (files : BlobName → Option (List Nat))
    (s : ReadState) :
    FlatFromCanvas info files s =
      FlatScenes info files (sceneFuel files) [] (firstScene info) 0
        { skipPhase info s with count := 0, length := 0, status := true, stream := [] } := rfl

theorem OpenBlob_main (info : ImageInfo) (files : BlobName → Option (List Nat)) (D : List Nat)
    (hfile : files .main = some D) :
    OpenBlob files .main (initialState info) =
      { initialState info with blob := some D, blobSize := D.length, opens := [BlobName.main] } := by
  unfold OpenBlob
  rw [hfile]
  rfl

/-- The stored size of one scene in the terms of the configuration. -/
theorem frameLength_config (cfg : StreamConfig)
    (hC : cfg.channelCount = 3 ∨ cfg.channelCount = 4)
    (hbits : cfg.sampleBits = 8 ∨ cfg.sampleBits = 16) :
    frameLength (AcquireImage cfg) =
      cfg.height * cfg.width * cfg.channelCount * (cfg.sampleBits / 8) := by
  unfold frameLength ImageInfo.channels sampleBytes AcquireImage
  simp only
  rcases hC with h | h <;> rcases hbits with h2 | h2 <;> simp [h, h2] <;> ring

theorem ReadPartitionFile_one_nread (info : ImageInfo) (files : BlobName → Option (List Nat))
    (first : Bool) (name : BlobName) (discard : Bool)
    (qt extentType : QuantumType) (chans : List Component) (k : Nat) (data : List Nat)
    (hmon : ∀ o e, info.progress o e = true) (ho : info.offset = 0)
    (hH : 1 ≤ info.extract_info.height)
    (hq : GetQuantumExtent info info.extract_info.width extentType =
      GetQuantumExtent info info.extract_info.width qt)
    (hfile : files name = some data)
    (hlen : data.length = info.extract_info.height *
      GetQuantumExtent info info.extract_info.width qt) (s : ReadState) :
    (ReadPartitionFile info files first 0 name discard qt extentType chans k s).1.nread =
      s.nread + info.extract_info.height * GetQuantumExtent info info.extract_info.width qt := by
  rw [ReadPartitionFile_ok info files first 0 name discard qt extentType chans k data hmon
    ho hH hq hfile (by rw [hlen]; omega) s]
  simp only [primed, List.length_drop, hlen]
  omega

theorem FlatPartitionInterlace_one_nread (info : ImageInfo)
    (files : BlobName → Option (List Nat)) (first : Bool)
    (hmon : ∀ o e, info.progress o e = true) (ho : info.offset = 0)
    (hW : 1 ≤ info.extract_info.width) (hH : 1 ≤ info.extract_info.height)
    (hfiles : oneSceneFiles info files) (s : ReadState) :
    (FlatPartitionInterlace info files first 0 s).nread = s.nread + frameLength info := by
  have hx : ∀ qt : QuantumType, qt.components.length = 1 →
      GetQuantumExtent info info.extract_info.width qt =
        GetQuantumExtent info info.extract_info.width .RedQuantum := by
    intro qt h
    rw [extent_single info _ qt h, extent_single info _ .RedQuantum rfl]
  have hL : 1 ≤ GetQuantumExtent info info.extract_info.width .RedQuantum := by
    rw [extent_single info _ .RedQuantum rfl]
    exact Nat.mul_pos hW (sampleBytes_pos _)
  have hmem : ∀ name, name ∈ [BlobName.Y, BlobName.Cb, BlobName.Cr] → name ∈ partitionNames info := by
    intro name h
    unfold partitionNames
    split
    · simp only [List.mem_cons, List.mem_singleton, List.not_mem_nil, or_false] at h ⊢
      rcases h with h | h | h <;> simp [h]
    · exact h
  obtain ⟨dY, hfY, hlY⟩ := hfiles .Y (hmem _ (by simp))
  obtain ⟨dCb, hfCb, hlCb⟩ := hfiles .Cb (hmem _ (by simp))
  obtain ⟨dCr, hfCr, hlCr⟩ := hfiles .Cr (hmem _ (by simp))
  obtain ⟨S1, e1, st1, _, _, _⟩ := ReadPartitionFile_one info files first .Y true .RedQuantum
    .RedQuantum [.red] 1 dY hmon ho hH rfl hfY hlY hL s
  have n1 := ReadPartitionFile_one_nread info files first .Y true .RedQuantum
    .RedQuantum [.red] 1 dY hmon ho hH rfl hfY hlY s
  rw [e1] at n1
  obtain ⟨S2, e2, st2, _, _, _⟩ := ReadPartitionFile_one info files first .Cb false
    .GreenQuantum .GreenQuantum [.green] 2 dCb hmon ho hH rfl hfCb
    (by rw [hx .GreenQuantum rfl]; exact hlCb) (by rw [hx .GreenQuantum rfl]; exact hL)
    (CloseBlob S1)
  have n2 := ReadPartitionFile_one_nread info files first .Cb false
    .GreenQuantum .GreenQuantum [.green] 2 dCb hmon ho hH rfl hfCb
    (by rw [hx .GreenQuantum rfl]; exact hlCb) (CloseBlob S1)
  rw [e2, hx .GreenQuantum rfl] at n2
  obtain ⟨S3, e3, st3, _, _, _⟩ := ReadPartitionFile_one info files first .Cr false
    .BlueQuantum .BlueQuantum [.blue] 3 dCr hmon ho hH rfl hfCr
    (by rw [hx .BlueQuantum rfl]; exact hlCr) (by rw [hx .BlueQuantum rfl]; exact hL)
    (CloseBlob S2)
  have n3 := ReadPartitionFile_one_nread info files first .Cr false
    .BlueQuantum .BlueQuantum [.blue] 3 dCr hmon ho hH rfl hfCr
    (by rw [hx .BlueQuantum rfl]; exact hlCr) (CloseBlob S2)
  rw [e3, hx .BlueQuantum rfl] at n3
  have hcl : ∀ t : ReadState, (CloseBlob t).nread = t.nread := fun _ => rfl
  simp only [hcl] at n1 n2 n3
  rw [frameLength_plane]
  unfold FlatPartitionInterlace
  simp only [e1, e2, e3, Bool.false_eq_true, if_false]
  cases hm : info.matte
  · simp only [Bool.false_eq_true, if_false]
    rw [PlaneProgress_true info first 5 S3 hmon st3]
    show S3.nread = _
    have hch : info.channels = 3 := by unfold ImageInfo.channels; simp [hm]
    rw [n3, n2, n1, hch]
    omega
  · obtain ⟨dA, hfA, hlA⟩ := hfiles .A (by simp [partitionNames, hm])
    obtain ⟨S4, e4, st4, _, _, _⟩ := ReadPartitionFile_one info files first .A false
      .BlueQuantum .AlphaQuantum [.opacity] 4 dA hmon ho hH
      (by rw [hx .AlphaQuantum rfl, hx .BlueQuantum rfl]) hfA
      (by rw [hx .BlueQuantum rfl]; exact hlA) (by rw [hx .BlueQuantum rfl]; exact hL)
      (CloseBlob S3)
    have n4 := ReadPartitionFile_one_nread info files first .A false
      .BlueQuantum .AlphaQuantum [.opacity] 4 dA hmon ho hH
      (by rw [hx .AlphaQuantum rfl, hx .BlueQuantum rfl]) hfA
      (by rw [hx .BlueQuantum rfl]; exact hlA) (CloseBlob S3)
    rw [e4, hx .BlueQuantum rfl] at n4
    simp only [hcl] at n4
    simp only [if_true, e4, Bool.false_eq_true, if_false]
    rw [PlaneProgress_true info first 5 S4 hmon st4]
    show S4.nread = _
    have hch : info.channels = 4 := by unfold ImageInfo.channels; simp [hm]
    rw [n4, n3, n2, n1, hch]
    omega

/-- A partition decode of channel files that hold one scene each consumes the
bytes of one scene. -/
theorem FlatYCBCRImage_partition_one_nread (info : ImageInfo)
    (files : BlobName → Option (List Nat))
    (hi : info.interlace = .PartitionInterlace) (hmon : ∀ o e, info.progress o e = true)
    (hping : info.ping = false) (ho : info.offset = 0) (hc : info.columns ≠ 0)
    (hr : info.rows ≠ 0) (hW : 1 ≤ info.extract_info.width)
    (hH : 1 ≤ info.extract_info.height) (hscene : info.number_scenes = 0 ∨ info.scene = 0)
    (hfiles : oneSceneFiles info files) :
    ∃ f, FlatYCBCRImage info files =
      some
        { images := [f], exception := [], opens := partitionNames info
          nread := frameLength info } := by
  have hskip : ∀ t : ReadState,
      (if info.number_scenes ≠ 0 then SkipToScene info info.scene t else t) = t := by
    intro t
    rcases hscene with h | h
    · rw [if_neg (by rw [h]; simp)]
    · rw [h]; split <;> rfl
  unfold FlatYCBCRImage
  rw [if_neg (by simp [hc, hr]), if_neg (by simp [hi])]
  unfold FlatFromCanvas
  simp only [hskip]
  obtain ⟨fuel, hfu⟩ : ∃ f, sceneFuel files = f + 1 := ⟨_, rfl⟩
  rw [hfu]
  generalize hs : ({ initialState info with count := 0, length := 0, status := true, stream := [] } :
    ReadState) = s
  have hs_ex : s.exception = [] := by rw [← hs]; rfl
  have hs_op : s.opens = [] := by rw [← hs]; rfl
  have hs_n : s.nread = 0 := by rw [← hs]; rfl
  obtain ⟨st, ex, op, cnt⟩ := FlatPartitionInterlace_one info files true hmon ho hW hH hfiles s
  have nr := FlatPartitionInterlace_one_nread info files true hmon ho hW hH hfiles s
  have hfr : FlatFrame info files ([] : List (List (List PixelPacket))).isEmpty 0 s =
      FlatPartitionInterlace info files true 0 s := by
    unfold FlatFrame; rw [hi]; rfl
  rw [FlatScenes_stop info files hping fuel [] _ 0 s _ hfr (Or.inr (Or.inr cnt))]
  refine ⟨(FlatPartitionInterlace info files true 0 s).pixels, ?_⟩
  unfold finishRead
  rw [st, ex, op, nr, hs_ex, hs_op, hs_n, Nat.zero_add]
  rfl

/-- A source that holds one stored frame decodes, with the whole canvas
requested, to one frame, and the bytes of one stored frame are consumed. -/
theorem flatDecode_one_frame_result (cfg : StreamConfig) (source : BlobName → Option (List Nat))
    (hW : 1 ≤ cfg.width) (hH : 1 ≤ cfg.height) (hping : cfg.ping = false)
    (hscene : cfg.sceneCount = none ∨ cfg.sceneOffset = 0)
    (hsrc : oneFrameSource cfg source) :
    ∃ f, flatDecode cfg.uncropped source =
      some
        { images := [f], exception := [], opens := streamNames cfg
          nread := frameLength (AcquireImage cfg) } := by
  have hsc : (AcquireImage cfg.uncropped).number_scenes = 0 ∨
      (AcquireImage cfg.uncropped).scene = 0 := by
    rcases hscene with h | h
    · left; show cfg.sceneCount.getD 0 = 0; rw [h]; rfl
    · right; exact h
  have hFr : frameLength (AcquireImage cfg.uncropped) = frameLength (AcquireImage cfg) := rfl
  unfold oneFrameSource at hsrc
  unfold streamNames
  by_cases hl : cfg.layout = .Partitioned
  · rw [if_pos hl] at hsrc ⊢
    obtain ⟨f, h⟩ := FlatYCBCRImage_partition_one_nread (AcquireImage cfg.uncropped) source
      (by show cfg.layout.interlace = _; rw [hl]; rfl) (fun _ _ => rfl) hping rfl
      (by show cfg.width ≠ 0; omega) (by show cfg.height ≠ 0; omega) hW hH hsc hsrc
    exact ⟨f, by unfold flatDecode; rw [h]; rfl⟩
  · rw [if_neg hl] at hsrc ⊢
    obtain ⟨D, hD, hlen⟩ := hsrc
    have hfs : firstScene (AcquireImage cfg.uncropped) = 0 := by
      unfold firstScene
      rcases hsc with h | h
      · rw [if_neg (by rw [h]; simp)]
      · rw [h]; split <;> rfl
    have hsk : skipLength (AcquireImage cfg.uncropped) = 0 := by
      unfold skipLength; rw [hfs, Nat.zero_mul]
    have hL := chunkLength_pos (AcquireImage cfg.uncropped) hW
    have key := FlatYCBCRImage_scenes (AcquireImage cfg.uncropped) source D (fun _ _ => rfl)
      (interlace_ne_partition cfg.uncropped hl)
      hping rfl (by show cfg.width ≠ 0; omega) (by show cfg.height ≠ 0; omega) hW hH hD 0
      (by rw [hsk, hlen]; omega) (fun j hj => absurd hj (Nat.not_lt_zero j))
      (Or.inr (by rw [hsk, hlen]; omega))
    refine ⟨(frameState (AcquireImage cfg.uncropped)
      (D.drop (skipLength (AcquireImage cfg.uncropped)))
      (initialState (AcquireImage cfg.uncropped))).pixels, ?_⟩
    unfold flatDecode
    rw [key, hsk, hlen, hFr]
    simp [scenesImages]

/-- The whole result of a single-stream encode on the empty sink. -/
theorem encode_result_main (cfg : StreamConfig) (hl : cfg.layout ≠ .Partitioned)
    (frames : List (List (List PixelPacket))) :
    (encode cfg frames).files =
        Function.update (fun _ => []) BlobName.main
          (frames.flatMap (encodeFrame (AcquireImage cfg))) ∧
      (encode cfg frames).status = true ∧
      (encode cfg frames).opens = [(BlobName.main, false)] := by
  have hi := interlace_ne_partition cfg hl
  unfold encode WriteYCBCRImage
  simp only [hi, ne_eq, not_false_eq_true, if_true]
  have hw : emptySink.writable BlobName.main = true := rfl
  simp only [OpenBlobWrite, hw, if_true, Bool.false_eq_true, if_false, Bool.true_eq_false]
  have := WriteScenes_ok (AcquireImage cfg) frames.length .main (fun _ _ => rfl) hi rfl frames true 0
    { files := Function.update emptySink.files BlobName.main [], writable := emptySink.writable,
      room := emptySink.room, blob := some BlobName.main, count := 0, length := 0, status := true,
      opens := [] ++ [(BlobName.main, false)], writes := 0 } rfl rfl rfl
  refine ⟨?_, this.2.1, ?_⟩
  · rw [this.1]
    funext n
    by_cases hn : n = BlobName.main
    · subst hn; simp
    · simp [Function.update, hn, emptySink]
  · rw [this.2.2]; rfl

/-- The partition writer on one image, whatever the streams held before. -/
theorem WritePartitionInterlace_any (info : ImageInfo) (first : Bool) (scene : Nat)
    (hmon : ∀ o e, info.progress o e = true) (f : List (List PixelPacket)) (s : WriteState)
    (hw : ∀ n, s.writable n = true) (hr : s.room = none) :
    ∃ s', WritePartitionInterlace info first scene f s = (s', false) ∧
      (∀ n, s'.files n =
        (if scene = 0 ∧ n ∈ partitionNames info then [] else s.files n) ++ planeOf info n f) ∧
      s'.writable = s.writable ∧ s'.room = none ∧ s'.status = true ∧
      s'.opens = s.opens ++ (partitionNames info).map (fun n => (n, decide (scene ≠ 0))) := by
  obtain ⟨l1, c1, w1, e1⟩ := WritePartitionFile_ok info scene .Y .RedQuantum hmon f s (hw _) hr
  have st1 : (wroteFile s .Y (decide (scene ≠ 0))
    (f.flatMap (ExportQuantumPixels info .RedQuantum)) l1 c1 w1).status = true := rfl
  obtain ⟨l2, c2, w2, e2⟩ := WritePartitionFile_ok info scene .Cb .GreenQuantum hmon f
    (CloseBlobWrite (wroteFile s .Y (decide (scene ≠ 0))
      (f.flatMap (ExportQuantumPixels info .RedQuantum)) l1 c1 w1)) (hw _) hr
  have st2 : (wroteFile (CloseBlobWrite (wroteFile s .Y (decide (scene ≠ 0))
      (f.flatMap (ExportQuantumPixels info .RedQuantum)) l1 c1 w1)) .Cb (decide (scene ≠ 0))
    (f.flatMap (ExportQuantumPixels info .GreenQuantum)) l2 c2 w2).status = true := rfl
  obtain ⟨l3, c3, w3, e3⟩ := WritePartitionFile_ok info scene .Cr .BlueQuantum hmon f
    (CloseBlobWrite (wroteFile (CloseBlobWrite (wroteFile s .Y (decide (scene ≠ 0))
      (f.flatMap (ExportQuantumPixels info .RedQuantum)) l1 c1 w1)) .Cb (decide (scene ≠ 0))
    (f.flatMap (ExportQuantumPixels info .GreenQuantum)) l2 c2 w2)) (hw _) hr
  have st3 : (wroteFile (CloseBlobWrite (wroteFile (CloseBlobWrite (wroteFile s .Y
      (decide (scene ≠ 0)) (f.flatMap (ExportQuantumPixels info .RedQuantum)) l1 c1 w1)) .Cb
      (decide (scene ≠ 0)) (f.flatMap (ExportQuantumPixels info .GreenQuantum)) l2 c2 w2)) .Cr
      (decide (scene ≠ 0)) (f.flatMap (ExportQuantumPixels info .BlueQuantum)) l3 c3 w3).status =
      true := rfl
  have hcl : ∀ t : WriteState, t.status = true → (CloseBlobWrite t).status = true :=
    fun _ h => h
  unfold WritePartitionInterlace
  simp only [e1, Bool.false_eq_true, if_false, WriteProgress_true info first _ _ hmon st1, e2,
    WriteProgress_true info first _ _ hmon st2, e3, WriteProgress_true info first _ _ hmon st3]
  by_cases hm : info.matte = true
  · have hq : info.quantum_type = QuantumType.RGBAQuantum := by
      simp [ImageInfo.quantum_type, hm]
    obtain ⟨l4, c4, w4, e4⟩ := WritePartitionFile_ok info scene .A .AlphaQuantum hmon f
      (CloseBlobWrite (wroteFile (CloseBlobWrite (wroteFile (CloseBlobWrite (wroteFile s .Y
        (decide (scene ≠ 0)) (f.flatMap (ExportQuantumPixels info .RedQuantum)) l1 c1 w1)) .Cb
        (decide (scene ≠ 0)) (f.flatMap (ExportQuantumPixels info .GreenQuantum)) l2 c2 w2)) .Cr
        (decide (scene ≠ 0)) (f.flatMap (ExportQuantumPixels info .BlueQuantum)) l3 c3 w3))
      (hw _) hr
    have st4 : (wroteFile (CloseBlobWrite (wroteFile (CloseBlobWrite (wroteFile (CloseBlobWrite
        (wroteFile s .Y (decide (scene ≠ 0)) (f.flatMap (ExportQuantumPixels info .RedQuantum))
          l1 c1 w1)) .Cb (decide (scene ≠ 0))
        (f.flatMap (ExportQuantumPixels info .GreenQuantum)) l2 c2 w2)) .Cr (decide (scene ≠ 0))
        (f.flatMap (ExportQuantumPixels info .BlueQuantum)) l3 c3 w3)) .A (decide (scene ≠ 0))
        (f.flatMap (ExportQuantumPixels info .AlphaQuantum)) l4 c4 w4).status = true := rfl
    simp only [hq, if_true, e4, Bool.false_eq_true, if_false,
      WriteProgress_true info first _ _ hmon st4]
    rw [WriteProgress_true info first 5 _ hmon (hcl _ st4)]
    refine ⟨_, rfl, ?_, rfl, hr, rfl, ?_⟩
    · intro n
      by_cases hs : scene = 0
      · cases n <;> simp [wroteFile, CloseBlobWrite, Function.update, planeOf, partitionNames, hm,
          hq, hs]
      · cases n <;> simp [wroteFile, CloseBlobWrite, Function.update, planeOf, partitionNames, hm,
          hq, hs]
    · simp [wroteFile, CloseBlobWrite, partitionNames, hm]
  · have hq : ¬ info.quantum_type = QuantumType.RGBAQuantum := by
      simp [ImageInfo.quantum_type, hm]
    simp only [hq, if_false]
    rw [WriteProgress_true info first 5 _ hmon (hcl _ st3)]
    refine ⟨_, rfl, ?_, rfl, hr, rfl, ?_⟩
    · intro n
      by_cases hs : scene = 0
      · cases n <;> simp [wroteFile, CloseBlobWrite, Function.update, planeOf, partitionNames, hm,
          hq, hs]
      · cases n <;> simp [wroteFile, CloseBlobWrite, Function.update, planeOf, partitionNames, hm,
          hq, hs]
    · simp [wroteFile, CloseBlobWrite, partitionNames, hm]

theorem partitionOpens_succ (info : ImageInfo) (scene n : Nat) :
    partitionOpens info scene (n + 1) =
      (partitionNames info).map (fun name => (name, decide (scene ≠ 0))) ++
        partitionOpens info (scene + 1) n := by
  unfold partitionOpens
  rw [List.range_succ_eq_map]
  simp only [List.flatMap_cons, Nat.add_zero, List.flatMap_map]
  congr 1
  apply List.flatMap_congr
  intro i _
  simp [Function.comp, Nat.add_assoc, Nat.add_comm 1 i]

theorem WriteScenes_partition_any (info : ImageInfo) (total : Nat)
    (hmon : ∀ o e, info.progress o e = true) (hi : info.interlace = .PartitionInterlace)
    (hadj : info.adjoin = true) :
    ∀ (images : List (List (List PixelPacket))) (first : Bool) (scene : Nat) (s : WriteState),
      images ≠ [] → (∀ n, s.writable n = true) → s.room = none →
      (∀ n, (WriteScenes info total images first scene s).files n =
          (if scene = 0 ∧ n ∈ partitionNames info then [] else s.files n) ++
            images.flatMap (planeOf info n)) ∧
        (WriteScenes info total images first scene s).status = true ∧
        (WriteScenes info total images first scene s).opens =
          s.opens ++ partitionOpens info scene images.length := by
  intro images
  induction images with
  | nil => intro first scene s h; exact absurd rfl h
  | cons f rest ih =>
    intro first scene s _ hw hr
    obtain ⟨s', e, hf, hw', hr', hst', hop'⟩ :=
      WritePartitionInterlace_any info first scene hmon f s hw hr
    rw [WriteScenes.eq_def]
    simp only [WriteFrame, hi, e, Bool.false_eq_true, if_false]
    cases rest with
    | nil =>
      refine ⟨fun n => by simp [hf n], rfl, ?_⟩
      show s'.opens = s.opens ++ partitionOpens info scene (0 + 1)
      rw [hop', partitionOpens_succ]
      simp [partitionOpens]
    | cons g rest =>
      simp only [hmon, Bool.true_eq_false, if_false, hadj, if_true]
      rw [wstatus_true_eq s' hst']
      obtain ⟨h1, h2, h3⟩ := ih false (scene + 1) s' (by simp) (by rw [hw']; exact hw) hr'
      refine ⟨fun n => ?_, h2, ?_⟩
      · rw [h1 n, hf n]
        simp [List.append_assoc]
      · show _ = s.opens ++ partitionOpens info scene ((g :: rest).length + 1)
        rw [partitionOpens_succ, h3, hop', List.append_assoc]

theorem offered_offered (s : WriteState) (name : BlobName) (a b : List Nat)
    (r l c w l' c' w' : Nat) :
    offered (offered s name a r l c w) name b (r - a.length) l' c' w' =
      offered s name (a ++ b) r l' c' w' := by
  simp [offered, List.take_append_eq_append_take, List.append_assoc, Nat.sub_sub]

theorem offered_nil (s : WriteState) (name : BlobName) (r : Nat) (hr : s.room = some r) :
    offered s name [] r s.length s.count s.writes = s := by
  cases s
  simp only [offered, List.take_nil, List.append_nil, Function.update_eq_self, List.length_nil,
    Nat.sub_zero]
  simp at hr
  simp [hr]

theorem offered_short (s : WriteState) (name : BlobName) (a b : List Nat) (r l c w : Nat)
    (h : r < a.length) : offered s name a r l c w = offered s name (a ++ b) r l c w := by
  have h1 : (a ++ b).take r = a.take r := List.take_append_of_le_length (Nat.le_of_lt h)
  have h2 : r - a.length = r - (a ++ b).length := by rw [List.length_append]; omega
  simp only [offered, h1, h2]

theorem WriteBlob_room (data : List Nat) (s : WriteState) (name : BlobName) (r : Nat)
    (hb : s.blob = some name) (hr : s.room = some r) :
    WriteBlob data s = offered s name data r data.length (min r data.length) (s.writes + 1) := by
  simp [WriteBlob, hb, hr, offered]

theorem WriteRows_room (info : ImageInfo) (qt : QuantumType) (mon : Bool) (rows : Nat)
    (name : BlobName) (hmon : ∀ o e, info.progress o e = true) :
    ∀ (ps : List (List PixelPacket)) (y : Nat) (s : WriteState) (r : Nat),
      s.blob = some name → s.room = some r → s.status = true →
      ∃ l c w, WriteRows info qt mon rows ps y s =
        offered s name (ps.flatMap (ExportQuantumPixels info qt)) r l c w := by
  intro ps
  induction ps with
  | nil =>
    intro y s r _ hr _
    exact ⟨s.length, s.count, s.writes, by rw [WriteRows, List.flatMap_nil, offered_nil s name r hr]⟩
  | cons p ps ih =>
    intro y s r hb hr hst
    have h1 := WriteBlob_room (ExportQuantumPixels info qt p) s name r hb hr
    generalize hd : ExportQuantumPixels info qt p = d at h1
    obtain ⟨s1, hs1⟩ : ∃ s1, s1 = offered s name d r d.length (min r d.length) (s.writes + 1) :=
      ⟨_, rfl⟩
    have hb1 : s1.blob = some name := by rw [hs1]; exact hb
    have hr1 : s1.room = some (r - d.length) := by rw [hs1]; rfl
    have hst1 : s1.status = true := by rw [hs1]; exact hst
    have hc1 : s1.count = min r d.length := by rw [hs1]; rfl
    have hl1 : s1.length = d.length := by rw [hs1]; rfl
    rw [← hs1] at h1
    rw [WriteRows]
    simp only [hd, h1, List.flatMap_cons]
    by_cases hshort : r < d.length
    · rw [if_pos (by rw [hc1, hl1]; omega)]
      exact ⟨_, _, _, by rw [hs1]; exact offered_short s name _ _ r _ _ _ hshort⟩
    · rw [if_neg (by rw [hc1, hl1]; omega)]
      obtain ⟨l, c, w, e⟩ := ih (y + 1) s1 (r - d.length) hb1 hr1 hst1
      refine ⟨l, c, w, ?_⟩
      cases mon
      · simp only [Bool.false_eq_true, if_false]
        rw [e, hs1, offered_offered]
      · simp only [if_true, hmon]
        rw [wstatus_true_eq _ hst1, e, hs1, offered_offered]

theorem WriteLineChannels_room (info : ImageInfo) (p : List PixelPacket) (name : BlobName) :
    ∀ (qts : List QuantumType) (s : WriteState) (r : Nat),
      s.blob = some name → s.room = some r →
      ∃ l c w fl, WriteLineChannels info p qts s =
          (offered s name (qts.flatMap (fun qt => ExportQuantumPixels info qt p)) r l c w, fl) ∧
        (fl = true → r < (qts.flatMap (fun qt => ExportQuantumPixels info qt p)).length) := by
  intro qts
  induction qts with
  | nil =>
    intro s r _ hr
    exact ⟨s.length, s.count, s.writes, false,
      by rw [WriteLineChannels, List.flatMap_nil, offered_nil s name r hr], by simp⟩
  | cons qt qts ih =>
    intro s r hb hr
    have h1 := WriteBlob_room (ExportQuantumPixels info qt p) s name r hb hr
    generalize hd : ExportQuantumPixels info qt p = d at h1
    obtain ⟨s1, hs1⟩ : ∃ s1, s1 = offered s name d r d.length (min r d.length) (s.writes + 1) :=
      ⟨_, rfl⟩
    have hb1 : s1.blob = some name := by rw [hs1]; exact hb
    have hr1 : s1.room = some (r - d.length) := by rw [hs1]; rfl
    have hc1 : s1.count = min r d.length := by rw [hs1]; rfl
    have hl1 : s1.length = d.length := by rw [hs1]; rfl
    rw [← hs1] at h1
    rw [WriteLineChannels]
    simp only [hd, h1, List.flatMap_cons]
    by_cases hshort : r < d.length
    · rw [if_pos (by rw [hc1, hl1]; omega)]
      exact ⟨_, _, _, true, by rw [hs1, offered_short s name _ _ r _ _ _ hshort],
        fun _ => by rw [List.length_append]; omega⟩
    · rw [if_neg (by rw [hc1, hl1]; omega)]
      obtain ⟨l, c, w, fl, e, hfl⟩ := ih s1 (r - d.length) hb1 hr1
      refine ⟨l, c, w, fl, ?_, ?_⟩
      · rw [e, hs1, offered_offered]
      · intro h
        have := hfl h
        rw [List.length_append]
        omega

theorem WriteLineRows_room (info : ImageInfo) (first : Bool) (rows : Nat)
    (name : BlobName) (hmon : ∀ o e, info.progress o e = true) :
    ∀ (ps : List (List PixelPacket)) (y : Nat) (s : WriteState) (r : Nat),
      s.blob = some name → s.room = some r → s.status = true →
      ∃ l c w, WriteLineRows info first rows ps y s =
        offered s name
          (ps.flatMap (fun p => (lineExports info).flatMap (fun qt => ExportQuantumPixels info qt p)))
          r l c w := by
  intro ps
  induction ps with
  | nil =>
    intro y s r _ hr _
    exact ⟨s.length, s.count, s.writes,
      by rw [WriteLineRows, List.flatMap_nil, offered_nil s name r hr]⟩
  | cons p ps ih =>
    intro y s r hb hr hst
    obtain ⟨l1, c1, w1, fl, e1, hfl⟩ := WriteLineChannels_room info p name (lineExports info) s r
      hb hr
    rw [WriteLineRows]
    simp only [e1, List.flatMap_cons]
    cases fl
    · simp only [Bool.false_eq_true, if_false]
      have hst1 : (offered s name
          ((lineExports info).flatMap (fun qt => ExportQuantumPixels info qt p)) r l1 c1
          w1).status = true := hst
      obtain ⟨l, c, w, e⟩ := ih (y + 1)
        (offered s name ((lineExports info).flatMap (fun qt => ExportQuantumPixels info qt p)) r
          l1 c1 w1)
        (r - ((lineExports info).flatMap (fun qt => ExportQuantumPixels info qt p)).length)
        hb rfl hst1
      refine ⟨l, c, w, ?_⟩
      cases first
      · simp only [Bool.false_eq_true, if_false]
        rw [e, offered_offered]
      · simp only [if_true, hmon]
        rw [wstatus_true_eq _ hst1, e, offered_offered]
    · simp only [if_true]
      exact ⟨_, _, _, offered_short s name _ _ r _ _ _ (hfl rfl)⟩

theorem WriteProgress_offered (info : ImageInfo) (first : Bool) (k : Nat) (s : WriteState)
    (name : BlobName) (d : List Nat) (r l c w : Nat)
    (hmon : ∀ o e, info.progress o e = true) (hst : s.status = true) :
    WriteProgress info first k (offered s name d r l c w) = (offered s name d r l c w, false) :=
  WriteProgress_true info first k _ hmon hst

theorem WritePlaneInterlace_room (info : ImageInfo) (first : Bool) (name : BlobName)
    (hmon : ∀ o e, info.progress o e = true) (f : List (List PixelPacket)) (s : WriteState)
    (r : Nat) (hb : s.blob = some name) (hr : s.room = some r) (hst : s.status = true) :
    ∃ l c w, WritePlaneInterlace info first f s =
      offered s name
        (f.flatMap (ExportQuantumPixels info .RedQuantum) ++
          (f.flatMap (ExportQuantumPixels info .GreenQuantum) ++
            (f.flatMap (ExportQuantumPixels info .BlueQuantum) ++
              (if info.quantum_type = QuantumType.RGBAQuantum then
                f.flatMap (ExportQuantumPixels info .AlphaQuantum)
              else [])))) r l c w := by
  obtain ⟨l1, c1, w1, e1⟩ := WriteRows_room info .RedQuantum false f.length name hmon f 0 s r hb hr
    hst
  obtain ⟨l2, c2, w2, e2⟩ := WriteRows_room info .GreenQuantum false f.length name hmon f 0
    (offered s name (f.flatMap (ExportQuantumPixels info .RedQuantum)) r l1 c1 w1) _ hb rfl hst
  rw [offered_offered] at e2
  obtain ⟨l3, c3, w3, e3⟩ := WriteRows_room info .BlueQuantum false f.length name hmon f 0
    (offered s name (f.flatMap (ExportQuantumPixels info .RedQuantum) ++
      f.flatMap (ExportQuantumPixels info .GreenQuantum)) r l2 c2 w2) _ hb rfl hst
  rw [offered_offered] at e3
  unfold WritePlaneInterlace
  simp only [e1, WriteProgress_offered info first _ s name _ _ _ _ _ hmon hst, Bool.false_eq_true,
    if_false, e2, e3]
  by_cases hq : info.quantum_type = QuantumType.RGBAQuantum
  · obtain ⟨l4, c4, w4, e4⟩ := WriteRows_room info .AlphaQuantum false f.length name hmon f 0
      (offered s name ((f.flatMap (ExportQuantumPixels info .RedQuantum) ++
        f.flatMap (ExportQuantumPixels info .GreenQuantum)) ++
        f.flatMap (ExportQuantumPixels info .BlueQuantum)) r l3 c3 w3) _ hb rfl hst
    rw [offered_offered] at e4
    simp only [hq, if_true, e4, WriteProgress_offered info first _ s name _ _ _ _ _ hmon hst]
    exact ⟨l4, c4, w4, by simp [List.append_assoc]⟩
  · simp only [hq, if_false, WriteProgress_offered info first _ s name _ _ _ _ _ hmon hst]
    exact ⟨l3, c3, w3, by simp [List.append_assoc]⟩

theorem WriteFrame_room (info : ImageInfo) (first : Bool) (scene : Nat) (name : BlobName)
    (hmon : ∀ o e, info.progress o e = true) (hi : info.interlace ≠ .PartitionInterlace)
    (f : List (List PixelPacket)) (s : WriteState) (r : Nat)
    (hb : s.blob = some name) (hr : s.room = some r) (hst : s.status = true) :
    ∃ l c w, WriteFrame info first scene f s =
      (offered s name (encodeFrame info f) r l c w, false) := by
  unfold WriteFrame encodeFrame
  cases h : info.interlace with
  | NoInterlace =>
    obtain ⟨l, c, w, e⟩ := WriteRows_room info info.quantum_type first f.length name hmon f 0 s r
      hb hr hst
    exact ⟨l, c, w, by simp only [e]⟩
  | LineInterlace =>
    obtain ⟨l, c, w, e⟩ := WriteLineRows_room info first f.length name hmon f 0 s r hb hr hst
    exact ⟨l, c, w, by simp only [e]⟩
  | PlaneInterlace =>
    obtain ⟨l, c, w, e⟩ := WritePlaneInterlace_room info first name hmon f s r hb hr hst
    exact ⟨l, c, w, by simp only [e]⟩
  | PartitionInterlace => exact absurd h hi

theorem WriteScenes_room (info : ImageInfo) (total : Nat) (name : BlobName)
    (hmon : ∀ o e, info.progress o e = true) (hi : info.interlace ≠ .PartitionInterlace)
    (hadj : info.adjoin = true) :
    ∀ (images : List (List (List PixelPacket))) (first : Bool) (scene : Nat) (s : WriteState)
      (r : Nat), s.blob = some name → s.room = some r → s.status = true →
      (WriteScenes info total images first scene s).files =
          Function.update s.files name
            (s.files name ++ (images.flatMap (encodeFrame info)).take r) ∧
        (WriteScenes info total images first scene s).status = true ∧
        (WriteScenes info total images first scene s).opens = s.opens := by
  intro images
  induction images with
  | nil => intro first scene s r _ _ _; simp [WriteScenes]
  | cons f rest ih =>
    intro first scene s r hb hr hst
    obtain ⟨l, c, w, e⟩ := WriteFrame_room info first scene name hmon hi f s r hb hr hst
    rw [WriteScenes.eq_def]
    simp only [e, Bool.false_eq_true, if_false]
    cases rest with
    | nil => simp [offered]
    | cons g rest =>
      simp only [hmon, Bool.true_eq_false, if_false, hadj, if_true]
      have hst1 : (offered s name (encodeFrame info f) r l c w).status = true := hst
      obtain ⟨h1, h2, h3⟩ := ih false (scene + 1) (offered s name (encodeFrame info f) r l c w)
        (r - (encodeFrame info f).length) hb rfl hst1
      rw [wstatus_true_eq _ hst1]
      refine ⟨?_, h2, ?_⟩
      · rw [h1]
        simp [offered, List.take_append_eq_append_take, List.append_assoc]
      · rw [h3]; rfl

theorem WriteBlob_writable (d : List Nat) (s : WriteState) :
    (WriteBlob d s).writable = s.writable := by
  unfold WriteBlob
  cases s.blob with
  | none => rfl
  | some name => cases s.room <;> rfl

theorem WriteRows_writable (info : ImageInfo) (qt : QuantumType) (mon : Bool) (rows : Nat) :
    ∀ (ps : List (List PixelPacket)) (y : Nat) (s : WriteState),
      (WriteRows info qt mon rows ps y s).writable = s.writable := by
  intro ps
  induction ps with
  | nil => intro y s; rfl
  | cons p ps ih =>
    intro y s
    rw [WriteRows]
    split
    · exact WriteBlob_writable _ s
    · split
      · split
        · rw [ih]; exact WriteBlob_writable _ s
        · exact WriteBlob_writable _ s
      · rw [ih]; exact WriteBlob_writable _ s

theorem WritePartitionFile_flag (info : ImageInfo) (scene : Nat) (name : BlobName)
    (qt : QuantumType) (f : List (List PixelPacket)) (s : WriteState)
    (hw : ∀ n, s.writable n = true) :
    (WritePartitionFile info scene name qt f s).2 = false ∧
      ∀ n, (WritePartitionFile info scene name qt f s).1.writable n = true := by
  unfold WritePartitionFile OpenBlobWrite
  simp only [hw, if_true, Bool.true_eq_false, if_false]
  refine ⟨trivial, fun n => ?_⟩
  rw [WriteRows_writable]
  exact hw n

theorem WriteProgress_flag (info : ImageInfo) (first : Bool) (k : Nat) (s : WriteState)
    (hmon : ∀ o e, info.progress o e = true) :
    (WriteProgress info first k s).2 = false ∧
      (WriteProgress info first k s).1.writable = s.writable := by
  unfold WriteProgress
  cases first <;> simp [hmon]

theorem WritePartitionInterlace_flag (info : ImageInfo) (first : Bool) (scene : Nat)
    (hmon : ∀ o e, info.progress o e = true) (f : List (List PixelPacket)) (s : WriteState)
    (hw : ∀ n, s.writable n = true) :
    (WritePartitionInterlace info first scene f s).2 = false ∧
      ∀ n, (WritePartitionInterlace info first scene f s).1.writable n = true := by
  have step : ∀ (name : BlobName) (qt : QuantumType) (k : Nat) (t : WriteState),
      (∀ n, t.writable n = true) →
      (WritePartitionFile info scene name qt f t).2 = false ∧
      (WriteProgress info first k (WritePartitionFile info scene name qt f t).1).2 = false ∧
      ∀ n, (CloseBlobWrite
        (WriteProgress info first k (WritePartitionFile info scene name qt f t).1).1).writable n =
          true := by
    intro name qt k t ht
    obtain ⟨h1, h2⟩ := WritePartitionFile_flag info scene name qt f t ht
    obtain ⟨h3, h4⟩ := WriteProgress_flag info first k
      (WritePartitionFile info scene name qt f t).1 hmon
    refine ⟨h1, h3, fun n => ?_⟩
    show (WriteProgress info first k (WritePartitionFile info scene name qt f t).1).1.writable n =
      true
    rw [h4]
    exact h2 n
  obtain ⟨a1, b1, c1⟩ := step .Y .RedQuantum 1 s hw
  obtain ⟨a2, b2, c2⟩ := step .Cb .GreenQuantum 2 _ c1
  obtain ⟨a3, b3, c3⟩ := step .Cr .BlueQuantum 3 _ c2
  obtain ⟨a4, b4, c4⟩ := step .A .AlphaQuantum 4 _ c3
  have fin : ∀ t : WriteState, (∀ n, (CloseBlobWrite t).writable n = true) →
      ∀ n, (WriteProgress info first 5 (CloseBlobWrite t)).1.writable n = true := by
    intro t ht n
    rw [(WriteProgress_flag info first 5 _ hmon).2]
    exact ht n
  unfold WritePartitionInterlace
  simp only [a1, b1, a2, b2, a3, b3, Bool.false_eq_true, if_false]
  split
  · simp only [a4, b4, Bool.false_eq_true, if_false]
    exact ⟨trivial, fin _ c4⟩
  · exact ⟨rfl, fin _ c3⟩

/-- The writer returns `MagickTrue` whenever every `OpenBlob` succeeds, however
many bytes the sink accepts. -/
theorem WriteScenes_status (info : ImageInfo) (total : Nat)
    (hmon : ∀ o e, info.progress o e = true) :
    ∀ (images : List (List (List PixelPacket))) (first : Bool) (scene : Nat) (s : WriteState),
      (∀ n, s.writable n = true) →
      (WriteScenes info total images first scene s).status = true := by
  intro images
  induction images with
  | nil => intro first scene s _; rfl
  | cons f rest ih =>
    intro first scene s hw
    have hflag : (WriteFrame info first scene f s).2 = false ∧
        ∀ n, (WriteFrame info first scene f s).1.writable n = true := by
      unfold WriteFrame
      cases info.interlace with
      | NoInterlace => exact ⟨rfl, fun n => by simp only [WriteRows_writable]; exact hw n⟩
      | LineInterlace =>
        refine ⟨rfl, fun n => ?_⟩
        simp only
        have key : ∀ (ps : List (List PixelPacket)) (y : Nat) (t : WriteState),
            (WriteLineRows info first f.length ps y t).writable = t.writable := by
          intro ps
          induction ps with
          | nil => intro y t; rfl
          | cons p ps ih2 =>
            intro y t
            have hch : ∀ (qts : List QuantumType) (u : WriteState),
                (WriteLineChannels info p qts u).1.writable = u.writable := by
              intro qts
              induction qts with
              | nil => intro u; rfl
              | cons qt qts ih3 =>
                intro u
                rw [WriteLineChannels]
                split
                · exact WriteBlob_writable _ u
                · rw [ih3]; exact WriteBlob_writable _ u
            rw [WriteLineRows]
            split
            · exact hch _ t
            · split
              · split
                · rw [ih2]; exact hch _ t
                · exact hch _ t
              · rw [ih2]; exact hch _ t
        rw [key]
        exact hw n
      | PlaneInterlace =>
        refine ⟨rfl, fun n => ?_⟩
        simp only
        unfold WritePlaneInterlace
        simp only [(WriteProgress_flag info first _ _ hmon).1, Bool.false_eq_true, if_false,
          (WriteProgress_flag info first _ _ hmon).2, WriteRows_writable]
        split <;> simp only [WriteRows_writable, (WriteProgress_flag info first _ _ hmon).2] <;>
          exact hw n
      | PartitionInterlace => exact WritePartitionInterlace_flag info first scene hmon f s hw
    rw [WriteScenes.eq_def]
    simp only [hflag.1, Bool.false_eq_true, if_false]
    cases rest with
    | nil => rfl
    | cons g rest =>
      simp only
      split
      · rfl
      · split
        · exact ih false (scene + 1) _ hflag.2
        · rfl

theorem encodeTo_status (cfg : StreamConfig) (frames : List (List (List PixelPacket)))
    (sink : Sink) (hw : ∀ n, sink.writable n = true) :
    (encodeTo cfg frames sink).status = true := by
  unfold encodeTo WriteYCBCRImage
  simp only
  split
  · simp only [OpenBlobWrite, hw, if_true, Bool.true_eq_false, if_false]
    exact WriteScenes_status _ _ (fun _ _ => rfl) _ _ _ _ hw
  · exact WriteScenes_status _ _ (fun _ _ => rfl) _ _ _ _ hw

/-- A single-stream encode on a sink with room for `r` bytes leaves the first
`r` bytes of the full encoding in the stream. -/
theorem encodeTo_room (cfg : StreamConfig) (hl : cfg.layout ≠ .Partitioned)
    (frames : List (List (List PixelPacket))) (sink : Sink) (r : Nat)
    (hw : sink.writable .main = true) (hr : sink.room = some r) :
    (encodeTo cfg frames sink).files .main = ((encode cfg frames).files .main).take r := by
  have hi := interlace_ne_partition cfg hl
  rw [encode_files_main cfg hl]
  unfold encodeTo WriteYCBCRImage
  simp only [hi, ne_eq, not_false_eq_true, if_true]
  simp only [OpenBlobWrite, hw, if_true, Bool.false_eq_true, if_false, Bool.true_eq_false]
  have := (WriteScenes_room (AcquireImage cfg) frames.length .main (fun _ _ => rfl) hi rfl frames
    true 0
    { files := Function.update sink.files BlobName.main [], writable := sink.writable,
      room := sink.room, blob := some BlobName.main, count := 0, length := 0, status := true,
      opens := [] ++ [(BlobName.main, false)], writes := 0 } r rfl hr rfl).1
  rw [this]
  simp

theorem covers_opacity (depth : Nat) (p : PixelPacket) :
    Covers depth [.opacity] [.opacity] p := by
  intro c q; simp [copyComponents, storeComponent, loadComponent]

theorem lineTypes_rgba (info : ImageInfo) (hm : info.matte = true) :
    info.lineTypes = [.RedQuantum, .GreenQuantum, .BlueQuantum, .OpacityQuantum] := by
  simp [ImageInfo.lineTypes, quantum_types, hm]

theorem lineExports_rgba (info : ImageInfo) (hm : info.matte = true) :
    lineExports info = [.RedQuantum, .GreenQuantum, .BlueQuantum, .AlphaQuantum] := by
  simp [lineExports, ImageInfo.quantum_type, hm]

/-- The bytes the line writer emits for a row are the bytes of the row with
complemented alpha in the quantum types of the line reader. -/
theorem lineRow_complement (info : ImageInfo) (row : List PixelPacket) :
    [QuantumType.RedQuantum, .GreenQuantum, .BlueQuantum, .AlphaQuantum].flatMap
        (fun qt => ExportQuantumPixels info qt row) =
      [QuantumType.RedQuantum, .GreenQuantum, .BlueQuantum, .OpacityQuantum].flatMap
        (fun qt => ExportQuantumPixels info qt (row.map (complementAlpha info.depth))) := by
  simp only [List.flatMap_cons, List.flatMap_nil, List.append_nil, ExportQuantumPixels,
    List.flatMap_map]
  rfl

theorem copy_line_blank (depth : Nat) (p : PixelPacket) :
    copyComponents depth [.opacity] p
        (copyComponents depth [.blue] p
          (copyComponents depth [.green] p (copyComponents depth [.red] p blankPixel))) = p := by
  simp [copyComponents, storeComponent, loadComponent]

theorem frameState_content_line4 (info : ImageInfo) (W H : Nat) (hg : FullCanvas info W H)
    (hi : info.interlace = .LineInterlace) (hm : info.matte = true)
    (f : List (List PixelPacket)) (hf : validFrame4 info.depth W H f) (tail : List Nat)
    (s0 : ReadState) (hc : s0.canvas.length = W) (hp : s0.pixels = blankImage W H) :
    (frameState info (encodeFrame info f ++ tail) s0).pixels =
      f.map (fun row => row.map (complementAlpha info.depth)) := by
  obtain ⟨hW, hH, hx, hy, hcol, hrows⟩ := hg
  have hlen : (f.map (fun row => row.map (complementAlpha info.depth))).length = H := by
    rw [List.length_map, hf.1]
  have := lineRowsState_content info W (GetQuantumExtent info W .RedQuantum)
    [.RedQuantum, .GreenQuantum, .BlueQuantum, .OpacityQuantum] hW hx hy
    (by intro qt hq; simp at hq; rcases hq with rfl | rfl | rfl | rfl <;> rfl)
    (f.map (fun row => row.map (complementAlpha info.depth))) 0 tail s0 [] (blankImage W H)
    (by
      intro row' hr'
      obtain ⟨row, hr, rfl⟩ := List.mem_map.mp hr'
      refine ⟨by rw [List.length_map]; exact (hf.2 row hr).1, ?_⟩
      intro qt hq
      simp at hq
      have hv : ∀ p' ∈ row.map (complementAlpha info.depth),
          p'.red ≤ QuantumRange info.depth ∧ p'.green ≤ QuantumRange info.depth ∧
            p'.blue ≤ QuantumRange info.depth ∧ p'.opacity ≤ QuantumRange info.depth := by
        intro p' hp'
        obtain ⟨p, hpm, rfl⟩ := List.mem_map.mp hp'
        obtain ⟨h1, h2, h3, _⟩ := (hf.2 row hr).2 p hpm
        exact ⟨h1, h2, h3, Nat.sub_le _ _⟩
      rcases hq with rfl | rfl | rfl | rfl
      · exact ⟨fun p hp' c hc' => by
          simp [QuantumType.components] at hc'; subst hc'
          exact (hv p hp').1, fun p _ => covers_red info.depth p⟩
      · exact ⟨fun p hp' c hc' => by
          simp [QuantumType.components] at hc'; subst hc'
          exact (hv p hp').2.1, fun p _ => covers_green info.depth p⟩
      · exact ⟨fun p hp' c hc' => by
          simp [QuantumType.components] at hc'; subst hc'
          exact (hv p hp').2.2.1, fun p _ => covers_blue info.depth p⟩
      · exact ⟨fun p hp' c hc' => by
          simp [QuantumType.components] at hc'; subst hc'
          exact (hv p hp').2.2.2, fun p _ => covers_opacity info.depth p⟩)
    hc (by simp [hp]) rfl (by simp [blankImage, hf.1])
    (by intro q hq; simp [blankImage] at hq; rw [hq.2]; simp)
    (by rw [hrows, hlen]; omega)
  have hdata : encodeFrame info f =
      (f.map (fun row => row.map (complementAlpha info.depth))).flatMap (fun p =>
        [QuantumType.RedQuantum, .GreenQuantum, .BlueQuantum, .OpacityQuantum].flatMap
          (fun qt => ExportQuantumPixels info qt p)) := by
    simp only [encodeFrame, hi, lineExports_rgba info hm, List.flatMap_map]
    apply List.flatMap_congr
    intro row _
    exact lineRow_complement info row
  simp only [frameState, hi, chunkLength, hW, hH, lineTypes_rgba info hm]
  rw [hdata, ← hlen, this.1]
  simp only [List.nil_append, List.foldl_cons, List.foldl_nil, lineChannel, blankImage]
  rw [zipWith_replicate_right _ _ _ H (by rw [hlen])]
  rw [List.map_map]
  apply List.map_congr_left
  intro row hr
  simp only [Function.comp]
  rw [zipWith_replicate_right _ blankPixel _ W (by rw [List.length_map, (hf.2 row hr).1]),
    zipWith_map_right, zipWith_map_right, zipWith_map_right]
  simp only [copy_line_blank, List.map_id']

theorem encodeFrame_length_line4 (info : ImageInfo) (W H : Nat) (hg : FullCanvas info W H)
    (hi : info.interlace = .LineInterlace) (hm : info.matte = true)
    (f : List (List PixelPacket)) (hH : f.length = H) (hfW : ∀ row ∈ f, row.length = W) :
    (encodeFrame info f).length = frameLength info := by
  obtain ⟨hW, hHH, -, -, -, -⟩ := hg
  have hch : info.channels = 4 := by simp [ImageInfo.channels, hm]
  have e1 : ∀ qt : QuantumType, qt.components.length = 1 →
      GetQuantumExtent info W qt = W * sampleBytes info.depth := fun qt h => by
    simp [GetQuantumExtent, h]
  unfold encodeFrame frameLength
  rw [hW, hHH, hch, hi]
  simp only [lineExports_rgba info hm]
  rw [flatMap_length_const _ (4 * (W * sampleBytes info.depth)) f, hH]
  intro row hr
  simp only [List.flatMap_cons, List.flatMap_nil, List.append_nil, List.length_append,
    ExportQuantumPixels_length, hfW row hr]
  rw [e1 .RedQuantum rfl, e1 .GreenQuantum rfl, e1 .BlueQuantum rfl, e1 .AlphaQuantum rfl]
  omega

theorem lineTypes_scene (a b : ImageInfo) (h : SameCodec a b) : a.lineTypes = b.lineTypes := by
  unfold ImageInfo.lineTypes; rw [h.matte]

theorem packetChannels_scene (a b : ImageInfo) (h : SameCodec a b) :
    a.packetChannels = b.packetChannels := by
  unfold ImageInfo.packetChannels; rw [h.matte]

theorem padLength_eq (n : Nat) : padLength n = n % 2 := by
  unfold padLength
  rw [Nat.and_one_is_mod]
  have h : (2 : Nat) ^ 64 = 18446744073709551616 := by norm_num
  rw [h]
  omega

theorem ExportGrayPixels_length (info : PGXInfo) (row : List Nat) :
    (ExportGrayPixels info row).length = row.length * sampleBytes info.depth := by
  unfold ExportGrayPixels
  induction row with
  | nil => simp
  | cons v vs ih =>
    simp only [List.flatMap_cons, List.length_append, exportSample_length, List.length_cons, ih]
    rw [Nat.succ_mul]
    omega

theorem ImportGrayPixels_export (info : PGXInfo) :
    ∀ (row : List Nat) (tail : List Nat), (∀ v ∈ row, v ≤ QuantumRange info.depth) →
      ImportGrayPixels info row.length (ExportGrayPixels info row ++ tail) = row := by
  intro row
  induction row with
  | nil => intro tail _; rfl
  | cons v vs ih =>
    intro tail hv
    have h1 : ExportGrayPixels info (v :: vs) ++ tail =
        exportSample info.endian info.depth v ++ (ExportGrayPixels info vs ++ tail) := by
      simp [ExportGrayPixels, List.append_assoc]
    simp only [List.length_cons, ImportGrayPixels]
    rw [h1, importSample_exportSample _ _ _ _ (hv v (List.mem_cons_self _ _))]
    rw [List.drop_append_of_le_length (by rw [exportSample_length]),
      List.drop_of_length_le (by rw [exportSample_length]), List.nil_append,
      ih tail (fun w hw => hv w (List.mem_cons_of_mem _ hw))]

theorem ReadPGXRows_succ (info : PGXInfo) (hmon : ∀ y n, info.progress y n = true) (L n y : Nat)
    (s : PGXReadState) (hL : L ≤ s.blob.length) :
    ReadPGXRows info L (n + 1) y s =
      ReadPGXRows info L n (y + 1)
        { blob := s.blob.drop L
          eof := s.eof
          count := L
          stream := s.blob.take L
          pixels := s.pixels.set y (ImportGrayPixels info info.columns (s.blob.take L)) } := by
  have hd : decide (s.blob.length < L) = false := by
    rw [decide_eq_false_iff_not]; omega
  conv_lhs => rw [ReadPGXRows]
  simp [ReadPGXBlob, Nat.min_eq_left hL, hmon, hd]

theorem ReadPGXRows_rows (info : PGXInfo) (hmon : ∀ y n, info.progress y n = true) (L : Nat) :
    ∀ (n y : Nat) (s : PGXReadState), n * L ≤ s.blob.length →
      (ReadPGXRows info L n y s).pixels = storeRows (readRowsOf info L n s.blob) y s.pixels ∧
        (ReadPGXRows info L n y s).eof = s.eof ∧
        (ReadPGXRows info L n y s).blob = s.blob.drop (n * L) := by
  intro n
  induction n with
  | zero => intro y s _; exact ⟨rfl, rfl, by simp [ReadPGXRows]⟩
  | succ n ih =>
    intro y s hlen
    rw [Nat.succ_mul] at hlen
    have hL : L ≤ s.blob.length := by omega
    rw [ReadPGXRows_succ info hmon L n y s hL]
    obtain ⟨h1, h2, h3⟩ := ih (y + 1)
      { blob := s.blob.drop L
        eof := s.eof
        count := L
        stream := s.blob.take L
        pixels := s.pixels.set y (ImportGrayPixels info info.columns (s.blob.take L)) }
      (by show n * L ≤ (s.blob.drop L).length; rw [List.length_drop]; omega)
    refine ⟨?_, ?_, ?_⟩
    · rw [h1]; rfl
    · rw [h2]
    · rw [h3]
      show (s.blob.drop L).drop (n * L) = _
      rw [List.drop_drop, Nat.succ_mul]
      congr 1
      omega

theorem storeRows_fill : ∀ (rows done todo : List (List Nat)), todo.length = rows.length →
    storeRows rows done.length (done ++ todo) = done ++ rows := by
  intro rows
  induction rows with
  | nil =>
    intro done todo h
    have : todo = [] := List.eq_nil_of_length_eq_zero h
    rw [this]; rfl
  | cons r rs ih =>
    intro done todo h
    cases todo with
    | nil => simp at h
    | cons t ts =>
      simp only [storeRows]
      have h2 : (done ++ t :: ts).set done.length r = (done ++ [r]) ++ ts := by
        rw [List.set_append_right _ _ (Nat.le_refl _)]
        simp
      rw [h2]
      have := ih (done ++ [r]) ts (by simpa using h)
      rw [List.length_append, List.length_singleton] at this
      rw [this]
      simp

theorem storeRows_getD : ∀ (rows : List (List Nat)) (y : Nat) (px : List (List Nat)) (i : Nat),
    i < y → (storeRows rows y px).getD i [] = px.getD i [] := by
  intro rows
  induction rows with
  | nil => intro y px i _; rfl
  | cons r rs ih =>
    intro y px i hi
    simp only [storeRows]
    rw [ih (y + 1) _ i (by omega)]
    simp only [List.getD_eq_getElem?_getD]
    rw [List.getElem?_set_ne (by omega)]

theorem readRowsOf_plain (info : PGXInfo) (L : Nat) :
    ∀ (image : List (List Nat)) (tail : List Nat),
      (∀ row ∈ image, row.length = info.columns ∧ (ExportGrayPixels info row).length = L ∧
        ∀ v ∈ row, v ≤ QuantumRange info.depth) →
      readRowsOf info L image.length (image.flatMap (ExportGrayPixels info) ++ tail) = image := by
  intro image
  induction image with
  | nil => intro tail _; rfl
  | cons row rows ih =>
    intro tail h
    obtain ⟨hw, hl, hv⟩ := h row (List.mem_cons_self _ _)
    simp only [List.length_cons, readRowsOf, List.flatMap_cons, List.append_assoc]
    rw [List.take_append_of_le_length (by rw [hl]), List.take_of_length_le (by rw [hl]),
      List.drop_append_of_le_length (by rw [hl]), List.drop_of_length_le (by rw [hl]),
      List.nil_append, ih tail (fun r hr => h r (List.mem_cons_of_mem _ hr))]
    have := ImportGrayPixels_export info row [] hv
    rw [List.append_nil, hw] at this
    rw [this]

theorem WritePGXRows_ok (info : PGXInfo) (hmon : ∀ y n, info.progress y n = true) :
    ∀ (image : List (List Nat)) (y : Nat) (s : WriteState),
      s.blob = some BlobName.main → s.room = none → s.status = true →
      ∃ l c w, WritePGXRows info image y s =
        (appendTo s .main (pgxPayload info image) l c w, false) := by
  intro image
  induction image with
  | nil =>
    intro y s _ _ _
    exact ⟨s.length, s.count, s.writes, by simp [WritePGXRows, pgxPayload, appendTo]⟩
  | cons p ps ih =>
    intro y s hb hr hst
    have hw := WriteBlob_ok (ExportGrayPixels info p) s .main hb hr
    have hw2 := WriteBlob_ok
      ((ExportGrayPixels info p).take (padLength (ExportGrayPixels info p).length))
      (appendTo s .main (ExportGrayPixels info p) (ExportGrayPixels info p).length
        (ExportGrayPixels info p).length (s.writes + 1)) .main hb hr
    obtain ⟨l, c, w, h⟩ := ih (y + 1)
      (appendTo s .main
        (ExportGrayPixels info p ++
          (ExportGrayPixels info p).take (padLength (ExportGrayPixels info p).length))
        (ExportGrayPixels info p).length
        ((ExportGrayPixels info p).take (padLength (ExportGrayPixels info p).length)).length
        (s.writes + 1 + 1)) hb hr hst
    refine ⟨l, c, w, ?_⟩
    unfold WritePGXRows
    simp only [hw, hmon]
    have e1 : (appendTo s .main (ExportGrayPixels info p) (ExportGrayPixels info p).length
        (ExportGrayPixels info p).length (s.writes + 1)).count =
        (appendTo s .main (ExportGrayPixels info p) (ExportGrayPixels info p).length
        (ExportGrayPixels info p).length (s.writes + 1)).length := rfl
    have e2 : (appendTo s .main (ExportGrayPixels info p) (ExportGrayPixels info p).length
        (ExportGrayPixels info p).length (s.writes + 1)).length =
        (ExportGrayPixels info p).length := rfl
    simp only [e1, ne_eq, not_true_eq_false, if_false, Bool.true_eq_false, e2]
    rw [hw2, appendTo_appendTo]
    have e3 : ({ ({ appendTo s .main
          (ExportGrayPixels info p ++
            (ExportGrayPixels info p).take (padLength (ExportGrayPixels info p).length))
          ((ExportGrayPixels info p).take (padLength (ExportGrayPixels info p).length)).length
          ((ExportGrayPixels info p).take (padLength (ExportGrayPixels info p).length)).length
          ((appendTo s .main (ExportGrayPixels info p) (ExportGrayPixels info p).length
            (ExportGrayPixels info p).length (s.writes + 1)).writes + 1) with
          length := (ExportGrayPixels info p).length } : WriteState) with status := true } :
            WriteState) =
        appendTo s .main
          (ExportGrayPixels info p ++
            (ExportGrayPixels info p).take (padLength (ExportGrayPixels info p).length))
          (ExportGrayPixels info p).length
          ((ExportGrayPixels info p).take (padLength (ExportGrayPixels info p).length)).length
          (s.writes + 1 + 1) := by
      simp [appendTo, hst]
    rw [e3, h, appendTo_appendTo]
    simp [pgxPayload]

theorem pgxPayload_length (info : PGXInfo) (image : List (List Nat))
    (hw : ∀ row ∈ image, row.length = info.columns) :
    (pgxPayload info image).length = image.length * (GrayExtent info + GrayExtent info % 2) := by
  unfold pgxPayload
  rw [flatMap_length_const _ (GrayExtent info + GrayExtent info % 2)]
  intro row hr
  have hl : (ExportGrayPixels info row).length = GrayExtent info := by
    rw [ExportGrayPixels_length, hw row hr]; rfl
  rw [List.length_append, List.length_take, padLength_eq, hl]
  have : GrayExtent info % 2 ≤ GrayExtent info := Nat.mod_le _ _
  omega

theorem WritePGXImage_ok (info : PGXInfo) (header : List Nat)
    (hmon : ∀ y n, info.progress y n = true) (image : List (List Nat)) :
    (WritePGXImage info header image emptySink).files .main = header ++ pgxPayload info image ∧
      (WritePGXImage info header image emptySink).status = true ∧
      (WritePGXImage info header image emptySink).exception = [] := by
  unfold WritePGXImage
  have hw : emptySink.writable BlobName.main = true := rfl
  simp only [OpenBlobWrite, hw, if_true, Bool.false_eq_true, if_false, Bool.true_eq_false]
  have h1 := WriteBlob_ok header
    { files := Function.update emptySink.files BlobName.main [], writable := emptySink.writable
      room := emptySink.room, blob := some BlobName.main, count := 0, length := 0, status := true
      opens := [] ++ [(BlobName.main, false)], writes := 0 } .main rfl rfl
  rw [h1]
  obtain ⟨l, c, w, h⟩ := WritePGXRows_ok info hmon image 0
    (appendTo
      { files := Function.update emptySink.files BlobName.main [], writable := emptySink.writable
        room := emptySink.room, blob := some BlobName.main, count := 0, length := 0
        status := true, opens := [] ++ [(BlobName.main, false)], writes := 0 }
      .main header header.length header.length (0 + 1)) rfl rfl rfl
  rw [h]
  simp [appendTo]

theorem readPGX_result (info : PGXInfo) (hmon : ∀ y n, info.progress y n = true)
    (hping : info.ping = false) (hc : 1 ≤ info.columns) (hr : 1 ≤ info.rows) (data : List Nat)
    (hlen : info.rows * GrayExtent info ≤ data.length) :
    ReadPGXImage info data =
      { image := some (storeRows (readRowsOf info (GrayExtent info) info.rows data) 0
          (List.replicate info.rows (List.replicate info.columns 0)))
        exception := [] } := by
  unfold ReadPGXImage
  rw [if_neg (by omega), hping]
  obtain ⟨h1, h2, _⟩ := ReadPGXRows_rows info hmon (GrayExtent info) info.rows 0
    { blob := data, eof := false, count := 0, stream := []
      pixels := List.replicate info.rows (List.replicate info.columns 0) } hlen
  simp only [Bool.false_eq_true, if_false, h1, h2]

theorem odd_extent_depth (info : PGXInfo) (h : GrayExtent info % 2 = 1) :
    info.depth ≤ 8 ∧ GrayExtent info = info.columns := by
  unfold GrayExtent sampleBytes at *
  split at h
  · rename_i h8
    simp only [h8, if_true, Nat.mul_one]
    exact ⟨trivial, trivial⟩
  · omega

theorem and_even_mask (x : Nat) (hx : x < 2 ^ 32) : x &&& (2 ^ 32 - 2) = x - x % 2 := by
  have h1 : (x &&& (2 ^ 32 - 2)) / 2 = x / 2 := by
    rw [Nat.and_div_two]
    have : (2 ^ 32 - 2 : Nat) / 2 = 2 ^ 31 - 1 := by norm_num
    rw [this, Nat.and_pow_two_sub_one_eq_mod]
    apply Nat.mod_eq_of_lt
    have h32 : (2 : Nat) ^ 32 = 4294967296 := by norm_num
    have h31 : (2 : Nat) ^ 31 = 2147483648 := by norm_num
    rw [h32] at hx
    rw [h31]
    omega
  have h2 : (x &&& (2 ^ 32 - 2)) % 2 ≠ 1 := by
    intro h
    have := (Nat.and_mod_two_eq_one.mp h).2
    norm_num at this
  omega

theorem chunkSizePad_eq (cs : Nat) (h : cs ≤ MAX_CHUNK_PAYLOAD) :
    chunkSizePad cs = 8 + cs + cs % 2 := by
  have h32 : (2 : Nat) ^ 32 = 4294967296 := by norm_num
  have hm : MAX_CHUNK_PAYLOAD = 4294967286 := by unfold MAX_CHUNK_PAYLOAD; norm_num
  rw [hm] at h
  unfold chunkSizePad
  rw [Nat.mod_eq_of_lt (by rw [h32]; omega), and_even_mask _ (by rw [h32]; omega)]
  omega

theorem toSSize_eq (x : Int) (h0 : 0 ≤ x) (h1 : x < 2 ^ 63) : toSSize x = x := by
  have h63 : (2 : Int) ^ 63 = 9223372036854775808 := by norm_num
  have h64 : (2 : Int) ^ 64 = 18446744073709551616 := by norm_num
  unfold toSSize
  rw [h63] at h1 ⊢
  rw [h64]
  omega

theorem chunkWalk_total (stream : List Nat) (hlen : stream.length + 2 ^ 32 ≤ 2 ^ 63)
    (h16 : 16 ≤ stream.length) :
    ∀ (fuel : Nat) (offset : Int) (reads : List Int), 1 ≤ fuel → 30 ≤ offset →
      offset + 4 < 2 ^ 63 → (stream.length : Int) + 8 ≤ offset + 8 * fuel →
      (∀ i ∈ reads, 0 ≤ i ∧ i < (stream.length : Int)) →
      ∃ r, chunkWalk stream stream.length fuel offset reads = some r ∧
        ∀ i ∈ r.2, 0 ≤ i ∧ i < (stream.length : Int) := by
  have h32 : (2 : Nat) ^ 32 = 4294967296 := by norm_num
  have h63n : (2 : Nat) ^ 63 = 9223372036854775808 := by norm_num
  have h63 : (2 : Int) ^ 63 = 9223372036854775808 := by norm_num
  have h64 : (2 : Int) ^ 64 = 18446744073709551616 := by norm_num
  rw [h32, h63n] at hlen
  have hL : toSSize (((stream.length : Int) - 4) % 2 ^ 64) = (stream.length : Int) - 4 := by
    have : ((stream.length : Int) - 4) % 2 ^ 64 = (stream.length : Int) - 4 := by
      rw [h64]; omega
    rw [this]
    exact toSSize_eq _ (by omega) (by rw [h63]; omega)
  intro fuel
  induction fuel with
  | zero => intro offset reads hf; omega
  | succ fuel ih =>
    intro offset reads _ ho hhi hinv hreads
    unfold chunkWalk
    rw [hL, toSSize_eq (offset + 4) (by omega) hhi]
    by_cases hg : offset + 4 ≤ (stream.length : Int) - 4
    · rw [if_pos hg]
      have hr1 : ∀ i ∈ reads ++ [offset + 4, offset + 5, offset + 6, offset + 7],
          0 ≤ i ∧ i < (stream.length : Int) := by
        intro i hi
        rcases List.mem_append.mp hi with h | h
        · exact hreads i h
        · simp only [List.mem_cons, List.mem_singleton, List.not_mem_nil, or_false] at h
          rcases h with rfl | rfl | rfl | rfl <;> constructor <;> omega
      dsimp only
      by_cases hc : ReadWebPLSBWord stream (offset + 4) > MAX_CHUNK_PAYLOAD
      · rw [if_pos hc]
        exact ⟨_, rfl, hr1⟩
      · rw [if_neg hc]
        have hr2 : ∀ i ∈ reads ++ [offset + 4, offset + 5, offset + 6, offset + 7] ++
            [offset, offset + 1, offset + 2], 0 ≤ i ∧ i < (stream.length : Int) := by
          intro i hi
          rcases List.mem_append.mp hi with h | h
          · exact hr1 i h
          · simp only [List.mem_cons, List.mem_singleton, List.not_mem_nil, or_false] at h
            rcases h with rfl | rfl | rfl <;> constructor <;> omega
        by_cases hv : byteAt stream offset = 86 ∧ byteAt stream (offset + 1) = 80 ∧
            byteAt stream (offset + 2) = 56
        · rw [if_pos hv]
          refine ⟨_, rfl, ?_⟩
          intro i hi
          rcases List.mem_append.mp hi with h | h
          · exact hr2 i h
          · simp only [List.mem_singleton] at h
            subst h
            constructor <;> omega
        · rw [if_neg hv]
          have hpad := chunkSizePad_eq _ (Nat.le_of_not_gt hc)
          have hm : MAX_CHUNK_PAYLOAD = 4294967286 := by unfold MAX_CHUNK_PAYLOAD; norm_num
          have hcs : ReadWebPLSBWord stream (offset + 4) ≤ 4294967286 := by
            rw [← hm]; exact Nat.le_of_not_gt hc
          have hp8 : 8 ≤ chunkSizePad (ReadWebPLSBWord stream (offset + 4)) := by
            rw [hpad]; omega
          have hpu : chunkSizePad (ReadWebPLSBWord stream (offset + 4)) ≤ 4294967295 := by
            rw [hpad]; omega
          have hto : toSSize (offset + (chunkSizePad (ReadWebPLSBWord stream (offset + 4)) : Int)) =
              offset + (chunkSizePad (ReadWebPLSBWord stream (offset + 4)) : Int) :=
            toSSize_eq _ (by omega) (by rw [h63]; omega)
          rw [hto]
          exact ih _ _ (by omega) (by omega) (by rw [h63]; omega) (by omega) hr2
    · rw [if_neg hg]
      exact ⟨_, rfl, hreads⟩

theorem blueApart_refl (c : List PixelPacket) : List.Forall₂ BlueApart c c :=
  List.forall₂_same.mpr (fun _ _ => ⟨rfl, rfl, rfl⟩)

theorem blind_refl (s : ReadState) : Blind s s :=
  ⟨Eq.refl _, Eq.refl _, Eq.refl _, Eq.refl _, Eq.refl _, blueApart_refl _, Eq.refl _, Eq.refl _,
    Eq.refl _, Eq.refl _⟩

theorem storeComponent_blueApart (depth : Nat) (c : Component) (v : Nat) (p q : PixelPacket)
    (h : BlueApart p q) : BlueApart (storeComponent depth c v p) (storeComponent depth c v q) := by
  obtain ⟨h1, h2, h3⟩ := h
  cases c <;> simp [storeComponent, BlueApart, h1, h2, h3]

theorem importComponents_blueApart (info : ImageInfo) :
    ∀ (comps : List Component) (b : List Nat) (p q : PixelPacket), BlueApart p q →
      BlueApart (importComponents info comps b p) (importComponents info comps b q) := by
  intro comps
  induction comps with
  | nil => intro b p q h; exact h
  | cons c cs ih =>
    intro b p q h
    simp only [importComponents]
    exact ih _ _ _ (storeComponent_blueApart _ _ _ _ _ h)

theorem importRow_blueApart (info : ImageInfo) (comps : List Component) (c c' : List PixelPacket)
    (h : List.Forall₂ BlueApart c c') :
    ∀ b, List.Forall₂ BlueApart (importRow info comps c b) (importRow info comps c' b) := by
  induction h with
  | nil => intro b; exact List.Forall₂.nil
  | cons hx _ ih =>
    intro b
    simp only [importRow]
    exact List.Forall₂.cons (importComponents_blueApart info comps b _ _ hx) (ih _)

theorem importRow_blue_blind (info : ImageInfo) (c c' : List PixelPacket)
    (h : List.Forall₂ BlueApart c c') :
    ∀ b b', List.Forall₂ BlueApart (importRow info [Component.blue] c b)
      (importRow info [Component.blue] c' b') := by
  induction h with
  | nil => intro b b'; exact List.Forall₂.nil
  | cons hx _ ih =>
    intro b b'
    simp only [importRow]
    refine List.Forall₂.cons ?_ (ih _ _)
    obtain ⟨h1, h2, h3⟩ := hx
    simp [importComponents, storeComponent, BlueApart, h1, h2, h3]

theorem blueApart_sameOn (depth : Nat) (p q : PixelPacket) (h : BlueApart p q) :
    SameOn depth [Component.opacity] p q := by
  intro x
  simp [copyComponents, storeComponent, loadComponent, h.2.2]

theorem ReadBlobStream_blind (s t : ReadState) (h : Blind s t) :
    Blind (ReadBlobStream s) (ReadBlobStream t) := by
  have hb := h.blob
  unfold ReadBlobStream
  cases hs : s.blob with
  | none =>
    rw [hs] at hb
    cases ht : t.blob with
    | none =>
      exact ⟨by simp [hs, ht], h.blobSize, rfl, h.length, h.status, h.canvas, h.pixels,
        h.exception, h.opens, h.nread⟩
    | some d => rw [ht] at hb; simp at hb
  | some d =>
    rw [hs] at hb
    cases ht : t.blob with
    | none => rw [ht] at hb; simp at hb
    | some d' =>
      rw [ht] at hb
      have hl : d.length = d'.length := by simpa using hb
      exact ⟨by simp [List.length_drop, hl, h.length], h.blobSize,
        by simp only [hl, h.length], h.length, h.status, h.canvas, h.pixels, h.exception, h.opens,
        by simp only [hl, h.length, h.nread]⟩

theorem ReadBlobStream_same (s t : ReadState) (hl : s.length = t.length) (hb : s.blob = t.blob) :
    (ReadBlobStream s).blob = (ReadBlobStream t).blob ∧
      (ReadBlobStream s).stream = (ReadBlobStream t).stream := by
  unfold ReadBlobStream
  rw [← hb]
  cases s.blob with
  | none => exact ⟨rfl, rfl⟩
  | some d => simp [hl]

theorem DiscardBlobStream_blind (s t : ReadState) (h : Blind s t) :
    Blind (DiscardBlobStream s) (DiscardBlobStream t) := by
  have := ReadBlobStream_blind s t h
  exact ⟨this.blob, this.blobSize, this.count, this.length, this.status, this.canvas, this.pixels,
    this.exception, this.opens, this.nread⟩

theorem DiscardBlobStream_blob (s t : ReadState) (hl : s.length = t.length)
    (hb : s.blob = t.blob) : (DiscardBlobStream s).blob = (DiscardBlobStream t).blob :=
  (ReadBlobStream_same s t hl hb).1

theorem DiscardBlobStream_length (s : ReadState) : (DiscardBlobStream s).length = s.length := by
  unfold DiscardBlobStream ReadBlobStream
  cases s.blob <;> rfl

theorem SkipRows_discard_blind :
    ∀ (n : Nat) (s t : ReadState), Blind s t →
      Blind (SkipRows DiscardBlobStream n s) (SkipRows DiscardBlobStream n t) ∧
        (s.blob = t.blob →
          (SkipRows DiscardBlobStream n s).blob = (SkipRows DiscardBlobStream n t).blob) := by
  intro n
  induction n with
  | zero => intro s t h; exact ⟨h, fun hb => hb⟩
  | succ n ih =>
    intro s t h
    have h1 := DiscardBlobStream_blind s t h
    simp only [SkipRows]
    rw [h1.count, h1.length]
    split
    · exact ⟨h1, fun hb => DiscardBlobStream_blob s t h.length hb⟩
    · exact ⟨(ih _ _ h1).1, fun hb => (ih _ _ h1).2 (DiscardBlobStream_blob s t h.length hb)⟩

theorem SkipScenes_blind (height : Nat) :
    ∀ (n : Nat) (s t : ReadState), Blind s t →
      Blind (SkipScenes height n s) (SkipScenes height n t) ∧
        (s.blob = t.blob → (SkipScenes height n s).blob = (SkipScenes height n t).blob) := by
  intro n
  induction n with
  | zero => intro s t h; exact ⟨h, fun hb => hb⟩
  | succ n ih =>
    intro s t h
    obtain ⟨h1, h2⟩ := SkipRows_discard_blind height s t h
    simp only [SkipScenes]
    rw [h1.count, h1.length]
    split
    · exact ⟨h1, h2⟩
    · exact ⟨(ih _ _ h1).1, fun hb => (ih _ _ h1).2 (h2 hb)⟩

theorem SkipRows_read_blind :
    ∀ (n : Nat) (s t : ReadState), Blind s t →
      Blind (SkipRows ReadBlobStream n s) (SkipRows ReadBlobStream n t) := by
  intro n
  induction n with
  | zero => intro s t h; exact h
  | succ n ih =>
    intro s t h
    have h1 := ReadBlobStream_blind s t h
    simp only [SkipRows]
    rw [h1.count, h1.length]
    split
    · exact h1
    · exact ih _ _ h1

theorem SkipToScene_blind (info : ImageInfo) :
    ∀ (k : Nat) (s t : ReadState), Blind s t →
      Blind (SkipToScene info k s) (SkipToScene info k t) := by
  intro k
  induction k with
  | zero => intro s t h; exact h
  | succ k ih =>
    intro s t h
    simp only [SkipToScene]
    apply ih
    apply SkipRows_read_blind
    exact ⟨h.blob, h.blobSize, h.count, rfl, h.status, h.canvas, h.pixels, h.exception, h.opens,
      h.nread⟩

theorem OpenBlob_blind (f g : BlobName → Option (List Nat)) (name : BlobName) (s t : ReadState)
    (h : Blind s t) (hf : (f name).map List.length = (g name).map List.length) :
    Blind (OpenBlob f name s) (OpenBlob g name t) ∧
      (f name = g name → (OpenBlob f name s).blob = (OpenBlob g name t).blob) := by
  unfold OpenBlob
  cases hfn : f name with
  | none =>
    rw [hfn] at hf
    cases hgn : g name with
    | none =>
      exact ⟨⟨rfl, h.blobSize, h.count, h.length, rfl, h.canvas, h.pixels,
        by simp only [h.exception], by simp only [h.opens], h.nread⟩, fun _ => rfl⟩
    | some d => rw [hgn] at hf; simp at hf
  | some d =>
    rw [hfn] at hf
    cases hgn : g name with
    | none => rw [hgn] at hf; simp at hf
    | some d' =>
      rw [hgn] at hf
      have hl : d.length = d'.length := by simpa using hf
      exact ⟨⟨by simp [hl], hl, h.count, h.length, rfl, h.canvas, h.pixels, h.exception,
        by simp only [h.opens], h.nread⟩, fun he => by simp only [Option.some.inj he]⟩

theorem DiscardBlobBytes_blind (n : Nat) (s t : ReadState) (h : Blind s t) :
    Blind (DiscardBlobBytes n s).1 (DiscardBlobBytes n t).1 ∧
      (DiscardBlobBytes n s).2 = (DiscardBlobBytes n t).2 ∧
      (s.blob = t.blob → (DiscardBlobBytes n s).1.blob = (DiscardBlobBytes n t).1.blob) := by
  have hb := h.blob
  unfold DiscardBlobBytes
  cases hs : s.blob with
  | none =>
    rw [hs] at hb
    cases ht : t.blob with
    | none => exact ⟨h, rfl, fun _ => by simp only [hs, ht]⟩
    | some d => rw [ht] at hb; simp at hb
  | some d =>
    rw [hs] at hb
    cases ht : t.blob with
    | none => rw [ht] at hb; simp at hb
    | some d' =>
      rw [ht] at hb
      have hl : d.length = d'.length := by simpa using hb
      exact ⟨⟨by simp [List.length_drop, hl], h.blobSize, h.count, h.length, h.status, h.canvas,
        h.pixels, h.exception, h.opens, by simp only [hl, h.nread]⟩, by simp only [hl],
        fun he => by simp only [Option.some.inj he]⟩

theorem ImportRow_fields (info : ImageInfo) (qt : QuantumType) (chans : List Component) (y : Nat)
    (s : ReadState) :
    (ImportRow info qt chans y s).blob = s.blob ∧
      (ImportRow info qt chans y s).blobSize = s.blobSize ∧
      (ImportRow info qt chans y s).stream = s.stream ∧
      (ImportRow info qt chans y s).count = s.count ∧
      (ImportRow info qt chans y s).length = GetQuantumExtent info info.extract_info.width qt ∧
      (ImportRow info qt chans y s).status = s.status ∧
      (ImportRow info qt chans y s).canvas = importRow info qt.components s.canvas s.stream ∧
      (ImportRow info qt chans y s).exception = s.exception ∧
      (ImportRow info qt chans y s).opens = s.opens ∧
      (ImportRow info qt chans y s).nread = s.nread := by
  unfold ImportRow ImportQuantumPixels
  simp only
  split <;> exact ⟨rfl, rfl, rfl, rfl, rfl, rfl, rfl, rfl, rfl, rfl⟩

theorem ImportRow_blind (info : ImageInfo) (qt : QuantumType) (chans : List Component) (y : Nat)
    (s t : ReadState) (h : Blind s t) (hm : Alike info qt chans s t) :
    Blind (ImportRow info qt chans y s) (ImportRow info qt chans y t) := by
  obtain ⟨a1, a2, a3, a4, a5, a6, a7, a8, a9, a10⟩ := ImportRow_fields info qt chans y s
  obtain ⟨b1, b2, b3, b4, b5, b6, b7, b8, b9, b10⟩ := ImportRow_fields info qt chans y t
  have hpix : (ImportRow info qt chans y s).pixels = (ImportRow info qt chans y t).pixels := by
    rcases hm with ⟨_, hs, ho⟩ | ⟨hq, hc⟩
    · exact (ImportRow_agree info qt chans y ho s t h.pixels h.canvas.length_eq hs).1
    · subst hq; subst hc
      have hrow := importRow_blue_blind info s.canvas t.canvas h.canvas s.stream t.stream
      have hso : List.Forall₂ (SameOn info.depth [Component.opacity])
          (importRow info [Component.blue] s.canvas s.stream)
          (importRow info [Component.blue] t.canvas t.stream) :=
        hrow.imp (fun _ _ hpq => blueApart_sameOn info.depth _ _ hpq)
      have hv := GetVirtualPixels_sameOn info.depth [Component.opacity] _ _ hso
        info.extract_info.x info.extract_info.width
      have hfun := funext (copyPixels_sameOn info.depth [Component.opacity] _ _ hv)
      unfold ImportRow ImportQuantumPixels
      simp only [QuantumType.components, h.pixels]
      split
      · simp only [hfun]
      · rfl
  have hcan : List.Forall₂ BlueApart (ImportRow info qt chans y s).canvas
      (ImportRow info qt chans y t).canvas := by
    rw [a7, b7]
    rcases hm with ⟨_, hs, _⟩ | ⟨hq, _⟩
    · rw [hs]; exact importRow_blueApart info _ _ _ h.canvas _
    · subst hq; exact importRow_blue_blind info _ _ h.canvas _ _
  exact ⟨by rw [a1, b1]; exact h.blob, by rw [a2, b2]; exact h.blobSize,
    by rw [a4, b4]; exact h.count, by rw [a5, b5], by rw [a6, b6]; exact h.status, hcan, hpix,
    by rw [a8, b8]; exact h.exception, by rw [a9, b9]; exact h.opens,
    by rw [a10, b10]; exact h.nread⟩

theorem ReadRows_blind (info : ImageInfo) (qt : QuantumType) (chans : List Component) :
    ∀ (n y : Nat) (s t : ReadState), Blind s t → Alike info qt chans s t →
      Blind (ReadRows info qt chans false n y s) (ReadRows info qt chans false n y t) := by
  intro n
  induction n with
  | zero => intro y s t h _; exact h
  | succ n ih =>
    intro y s t h hm
    simp only [ReadRows, Bool.false_eq_true, if_false]
    by_cases hc : s.count ≠ s.length
    · have hc' : t.count ≠ t.length := by rw [← h.count, ← h.length]; exact hc
      rw [if_pos hc, if_pos hc']
      exact ⟨h.blob, h.blobSize, h.count, h.length, rfl, h.canvas, h.pixels,
        by simp only [ThrowEOF, h.exception], h.opens, h.nread⟩
    · have hc' : ¬ t.count ≠ t.length := by rw [← h.count, ← h.length]; exact hc
      rw [if_neg hc, if_neg hc']
      have h1 := ImportRow_blind info qt chans y s t h hm
      have f1 := ImportRow_fields info qt chans y s
      have f2 := ImportRow_fields info qt chans y t
      apply ih _ _ _ (ReadBlobStream_blind _ _ h1)
      rcases hm with ⟨hb, _, ho⟩ | hq
      · obtain ⟨e1, e2⟩ := ReadBlobStream_same (ImportRow info qt chans y s)
          (ImportRow info qt chans y t) h1.length (by rw [f1.1, f2.1]; exact hb)
        exact Or.inl ⟨e1, e2, ho⟩
      · exact Or.inr hq

theorem PlaneProgress_blind (info : ImageInfo) (first : Bool) (k : Nat) (s t : ReadState)
    (h : Blind s t) :
    Blind (PlaneProgress info first k s).1 (PlaneProgress info first k t).1 ∧
      (PlaneProgress info first k s).2 = (PlaneProgress info first k t).2 := by
  unfold PlaneProgress
  split
  · split
    · exact ⟨⟨h.blob, h.blobSize, h.count, h.length, rfl, h.canvas, h.pixels, h.exception,
        h.opens, h.nread⟩, rfl⟩
    · exact ⟨⟨h.blob, h.blobSize, h.count, h.length, rfl, h.canvas, h.pixels, h.exception,
        h.opens, h.nread⟩, rfl⟩
  · exact ⟨h, rfl⟩

theorem CloseBlob_blind (s t : ReadState) (h : Blind s t) : Blind (CloseBlob s) (CloseBlob t) :=
  ⟨rfl, h.blobSize, h.count, h.length, h.status, h.canvas, h.pixels, h.exception, h.opens,
    h.nread⟩

theorem ReadPartitionFile_blind (info : ImageInfo) (f g : BlobName → Option (List Nat))
    (first : Bool) (scene : Nat) (name : BlobName) (discard : Bool) (qt extentType : QuantumType)
    (chans : List Component) (k : Nat) (s t : ReadState) (h : Blind s t)
    (hf : (f name).map List.length = (g name).map List.length)
    (hm : (f name = g name ∧ Overwrites info qt.components chans) ∨
      (qt = QuantumType.BlueQuantum ∧ chans = [Component.opacity])) :
    Blind (ReadPartitionFile info f first scene name discard qt extentType chans k s).1
        (ReadPartitionFile info g first scene name discard qt extentType chans k t).1 ∧
      (ReadPartitionFile info f first scene name discard qt extentType chans k s).2 =
        (ReadPartitionFile info g first scene name discard qt extentType chans k t).2 := by
  obtain ⟨o1, o2⟩ := OpenBlob_blind f g name s t h hf
  have hd : Blind (if discard then DiscardBlobBytes info.offset (OpenBlob f name s)
        else (OpenBlob f name s, true)).1
      (if discard then DiscardBlobBytes info.offset (OpenBlob g name t)
        else (OpenBlob g name t, true)).1 ∧
      (if discard then DiscardBlobBytes info.offset (OpenBlob f name s)
        else (OpenBlob f name s, true)).2 =
      (if discard then DiscardBlobBytes info.offset (OpenBlob g name t)
        else (OpenBlob g name t, true)).2 ∧
      (f name = g name →
        (if discard then DiscardBlobBytes info.offset (OpenBlob f name s)
          else (OpenBlob f name s, true)).1.blob =
        (if discard then DiscardBlobBytes info.offset (OpenBlob g name t)
          else (OpenBlob g name t, true)).1.blob) := by
    cases discard
    · exact ⟨o1, rfl, o2⟩
    · have := DiscardBlobBytes_blind info.offset _ _ o1
      exact ⟨this.1, this.2.1, fun he => this.2.2 (o2 he)⟩
  unfold ReadPartitionFile
  dsimp only
  generalize (if discard = true then DiscardBlobBytes info.offset (OpenBlob f name s)
      else (OpenBlob f name s, true)) = u at hd ⊢
  generalize (if discard = true then DiscardBlobBytes info.offset (OpenBlob g name t)
      else (OpenBlob g name t, true)) = v at hd ⊢
  obtain ⟨d1, d2, d3⟩ := hd
  by_cases hst : (OpenBlob f name s).status = false
  · have hst' : (OpenBlob g name t).status = false := by rw [← o1.status]; exact hst
    rw [if_pos hst, if_pos hst']
    exact ⟨o1, rfl⟩
  · have hst' : ¬ (OpenBlob g name t).status = false := by rw [← o1.status]; exact hst
    rw [if_neg hst, if_neg hst']
    by_cases h2 : u.2 = false
    · have h2' : v.2 = false := by rw [← d2]; exact h2
      rw [if_pos h2, if_pos h2']
      exact ⟨⟨d1.blob, d1.blobSize, d1.count, d1.length, rfl, d1.canvas, d1.pixels,
        by simp only [ThrowEOF, d1.exception], d1.opens, d1.nread⟩, rfl⟩
    · have h2' : ¬ v.2 = false := by rw [← d2]; exact h2
      rw [if_neg h2, if_neg h2']
      have h3 : Blind
          { u.1 with length := GetQuantumExtent info info.extract_info.width extentType }
          { v.1 with length := GetQuantumExtent info info.extract_info.width extentType } :=
        ⟨d1.blob, d1.blobSize, d1.count, rfl, d1.status, d1.canvas, d1.pixels, d1.exception,
          d1.opens, d1.nread⟩
      obtain ⟨k1, k2⟩ := SkipScenes_blind info.extract_info.height scene _ _ h3
      have h4 := ReadBlobStream_blind _ _ k1
      apply PlaneProgress_blind
      apply ReadRows_blind info qt chans _ _ _ _ h4
      rcases hm with ⟨he, ho⟩ | hq
      · obtain ⟨e1, e2⟩ := ReadBlobStream_same _ _ k1.length (k2 (d3 he))
        exact Or.inl ⟨e1, e2, ho⟩
      · exact Or.inr hq

theorem finishRead_blind (previous : List (List (List PixelPacket))) (s t : ReadState)
    (h : Blind s t) : finishRead previous s = finishRead previous t := by
  unfold finishRead
  rw [h.status, h.pixels, h.exception, h.opens, h.nread]

theorem TellBlob_blind (s t : ReadState) (h : Blind s t) : TellBlob s = TellBlob t := by
  have hb := h.blob
  unfold TellBlob
  cases hs : s.blob with
  | none =>
    rw [hs] at hb
    cases ht : t.blob with
    | none => rfl
    | some d => rw [ht] at hb; simp at hb
  | some d =>
    rw [hs] at hb
    cases ht : t.blob with
    | none => rw [ht] at hb; simp at hb
    | some d' =>
      rw [ht] at hb
      have hl : d.length = d'.length := by simpa using hb
      simp only [hl, h.blobSize]

theorem sceneFuel_blind (f g : BlobName → Option (List Nat))
    (hsame : ∀ n, n ≠ BlobName.A → f n = g n)
    (hA : (f .A).map List.length = (g .A).map List.length) : sceneFuel f = sceneFuel g := by
  have hlen : ∀ n, blobLength f n = blobLength g n := by
    intro n
    by_cases hn : n = BlobName.A
    · subst hn
      unfold blobLength
      cases hf : f .A with
      | none =>
        rw [hf] at hA
        cases hg : g .A with
        | none => rfl
        | some d => rw [hg] at hA; simp at hA
      | some d =>
        rw [hf] at hA
        cases hg : g .A with
        | none => rw [hg] at hA; simp at hA
        | some d' => rw [hg] at hA; simpa using hA
    · unfold blobLength
      rw [hsame n hn]
  unfold sceneFuel
  simp only [hlen]

theorem spent_of_dead {T : Nat} {s : ReadState} (h : Dead T s) : Spent T s :=
  ⟨h.1, h.2.2⟩

theorem spent_status {T : Nat} {s : ReadState} (b : Bool) (h : Spent T s) :
    Spent T { s with status := b } :=
  ⟨⟨h.1.1, h.1.2.1, h.1.2.2⟩, h.2⟩

theorem short_status {T L m : Nat} {s : ReadState} (b : Bool) (h : Short T L m s) :
    Short T L m { s with status := b } := by
  rcases h with h | ⟨hc, B, hb, hn, hB⟩
  · exact Or.inl ⟨h.1, h.2.1, h.2.2⟩
  · exact Or.inr ⟨hc, B, hb, hn, hB⟩

theorem ReadRows_spent (info : ImageInfo) (qt : QuantumType) (chans : List Component)
    (monitor : Bool) (T n y : Nat) (s : ReadState) (h : Spent T s) :
    Spent T (ReadRows info qt chans monitor n y s) := by
  cases n with
  | zero => exact h
  | succ n =>
    exact spent_of_dead (ReadRows_starved info qt chans monitor T _ y s h.1 (Nat.succ_pos n))

theorem ReadLineChannels_spent (info : ImageInfo) (T y : Nat) (qts : List QuantumType)
    (s : ReadState) (h : Spent T s) : Spent T (ReadLineChannels info y qts s) := by
  cases qts with
  | nil => exact h
  | cons qt qts => exact spent_of_dead (ReadLineChannels_starved info T y qt qts s h.1)

theorem FlatLineRows_first_spent (info : ImageInfo) (hmon : ∀ o e, info.progress o e = true)
    (T : Nat) :
    ∀ (n y : Nat) (s : ReadState), Spent T s → Spent T (FlatLineRows info true n y s) := by
  intro n
  induction n with
  | zero => intro y s h; exact h
  | succ n ih =>
    intro y s h
    rw [FlatLineRows]
    simp only [if_true, hmon]
    exact ih _ _ (spent_status true (ReadLineChannels_spent info T y _ s h))

theorem FlatLineRows_first_short (info : ImageInfo) (hmon : ∀ o e, info.progress o e = true)
    (T L : Nat)
    (hq : ∀ qt ∈ info.lineTypes, GetQuantumExtent info info.extract_info.width qt = L) :
    ∀ (n y m : Nat) (s : ReadState), Short T L m s →
      Spent T (FlatLineRows info true n y s) ∨
        (n * info.lineTypes.length ≤ m ∧
          Short T L (m - n * info.lineTypes.length) (FlatLineRows info true n y s)) := by
  intro n
  induction n with
  | zero => intro y m s h; exact Or.inr ⟨by simp, by simpa using h⟩
  | succ n ih =>
    intro y m s h
    rw [FlatLineRows]
    simp only [if_true, hmon]
    rcases ReadLineChannels_short info T L y info.lineTypes m s hq h with hd | ⟨hle, hsh⟩
    · exact Or.inl (FlatLineRows_first_spent info hmon T n (y + 1) _
        (spent_status true (spent_of_dead hd)))
    · rcases ih (y + 1) _ _ (short_status true hsh) with hd | ⟨hle2, hsh2⟩
      · exact Or.inl hd
      · have e : (n + 1) * info.lineTypes.length = n * info.lineTypes.length + info.lineTypes.length :=
          Nat.succ_mul _ _
        refine Or.inr ⟨by omega, ?_⟩
        rw [show m - (n + 1) * info.lineTypes.length =
          m - info.lineTypes.length - n * info.lineTypes.length by omega]
        exact hsh2

theorem FlatLineRows_first_status (info : ImageInfo) (hmon : ∀ o e, info.progress o e = true) :
    ∀ (n y : Nat) (s : ReadState), s.status = true →
      (FlatLineRows info true n y s).status = true := by
  intro n
  induction n with
  | zero => intro y s h; exact h
  | succ n ih =>
    intro y s _
    rw [FlatLineRows]
    simp only [if_true, hmon]
    exact ih _ _ rfl

/-- The state the first read of a scene leaves when the stream holds fewer
than `m + 1` chunks. -/
theorem primed_short_any (s0 : ReadState) (D : List Nat) (L base m : Nat)
    (hD : D.length < (m + 1) * L) : Short (base + D.length) L m (primed s0 D L base) := by
  by_cases hL : L ≤ D.length
  · exact primed_short s0 D L base m hL hD
  · left
    refine ⟨?_, ?_, ?_⟩
    · show min L D.length ≠ L
      omega
    · show some (D.drop L) = some []
      rw [List.drop_eq_nil_of_le (by omega)]
    · show base + min L D.length = base + D.length
      omega

theorem short_zero_starved {T L : Nat} {s : ReadState} (h : Short T L 0 s) : Starved T s := by
  rcases h with h | ⟨_, B, _, _, hB⟩
  · exact h
  · simp at hB

theorem FlatLineInterlace_first (info : ImageInfo) (hmon : ∀ o e, info.progress o e = true)
    (hi : info.interlace = .LineInterlace) (D : List Nat) (s0 : ReadState) (base : Nat)
    (hb : s0.blob = some D) (hn : s0.nread = base) (hD : D.length < frameLength info) :
    Spent (base + D.length) (FlatLineInterlace info true 0 s0) ∧
      (FlatLineInterlace info true 0 s0).status = true := by
  have hLq : GetQuantumExtent info info.extract_info.width .RedQuantum = chunkLength info := by
    simp [chunkLength, hi]
  rw [frameLength_line, hLq, ← Nat.mul_assoc] at hD
  have hpos : 1 ≤ info.extract_info.height * info.lineTypes.length := by
    rcases Nat.eq_zero_or_pos (info.extract_info.height * info.lineTypes.length) with h | h
    · rw [h, Nat.zero_mul] at hD; omega
    · exact h
  have hH : 1 ≤ info.extract_info.height := by
    rcases Nat.eq_zero_or_pos info.extract_info.height with h | h
    · rw [h, Nat.zero_mul] at hpos; omega
    · exact h
  have hsh : Short (base + D.length) (chunkLength info)
      (info.extract_info.height * info.lineTypes.length - 1)
      (primed s0 D (chunkLength info) base) := by
    apply primed_short_any
    rw [Nat.sub_add_cancel hpos]
    exact hD
  unfold FlatLineInterlace
  simp only [if_true, hLq]
  rw [ReadBlobStream_length s0 D _ hb, hn]
  obtain ⟨h', hh⟩ : ∃ h', info.extract_info.height = h' + 1 :=
    ⟨info.extract_info.height - 1, by omega⟩
  constructor
  · rcases FlatLineRows_first_short info hmon (base + D.length) (chunkLength info)
        (fun qt hq => by rw [← hLq]; exact (lineTypes_extent info qt hq).symm)
        info.extract_info.height 0 _ _ hsh with h | ⟨hle, _⟩
    · exact h
    · omega
  · rw [hh, FlatLineRows]
    simp only [if_true, hmon]
    exact FlatLineRows_first_status info hmon _ _ _ rfl

theorem PlaneProgress_first (info : ImageInfo) (hmon : ∀ o e, info.progress o e = true) (k : Nat)
    (s : ReadState) : PlaneProgress info true k s = ({ s with status := true }, false) := by
  simp [PlaneProgress, hmon]

theorem FlatPlaneInterlace_first_eq (info : ImageInfo) (hmon : ∀ o e, info.progress o e = true)
    (s : ReadState) :
    FlatPlaneInterlace info true 0 s =
      { (if info.matte then
          planeFirst info .AlphaQuantum [.opacity]
            (planeFirst info .BlueQuantum [.blue]
              (planeFirst info .GreenQuantum [.green]
                (planeFirst info .RedQuantum [.red]
                  (ReadBlobStream
                    { s with
                      length :=
                        GetQuantumExtent info info.extract_info.width QuantumType.RedQuantum }))))
        else
          planeFirst info .BlueQuantum [.blue]
            (planeFirst info .GreenQuantum [.green]
              (planeFirst info .RedQuantum [.red]
                (ReadBlobStream
                  { s with
                    length :=
                      GetQuantumExtent info info.extract_info.width QuantumType.RedQuantum }))))
        with status := true } := by
  unfold FlatPlaneInterlace
  simp only [PlaneProgress_first info hmon, if_true, Bool.false_eq_true, if_false]
  cases info.matte
  · rfl
  · rfl

theorem planeFirst_step (info : ImageInfo) (hmon : ∀ o e, info.progress o e = true) (T L : Nat)
    (qt : QuantumType) (chans : List Component)
    (hx : GetQuantumExtent info info.extract_info.width qt = L) (m : Nat) (t : ReadState)
    (ht : Spent T t ∨ Short T L m t) :
    Spent T (planeFirst info qt chans t) ∨
      (info.extract_info.height ≤ m ∧
        Short T L (m - info.extract_info.height) (planeFirst info qt chans t)) := by
  unfold planeFirst
  rcases ht with hd | hsh
  · exact Or.inl (spent_status true (ReadRows_spent info qt chans false _ _ 0 t hd))
  · rcases ReadRows_short info qt chans false hmon _ L hx info.extract_info.height 0 m t hsh
      with h | ⟨h1, h2⟩
    · exact Or.inl (spent_status true (spent_of_dead h))
    · exact Or.inr ⟨h1, short_status true h2⟩

theorem planeFirst_spent (info : ImageInfo) (T : Nat) (qt : QuantumType)
    (chans : List Component) (t : ReadState) (ht : Spent T t) :
    Spent T (planeFirst info qt chans t) :=
  spent_status true (ReadRows_spent info qt chans false _ _ 0 t ht)

theorem FlatPlaneInterlace_first (info : ImageInfo) (hmon : ∀ o e, info.progress o e = true)
    (hi : info.interlace = .PlaneInterlace) (D : List Nat) (s0 : ReadState) (base : Nat)
    (hb : s0.blob = some D) (hn : s0.nread = base) (hD : D.length < frameLength info) :
    Spent (base + D.length) (FlatPlaneInterlace info true 0 s0) ∧
      (FlatPlaneInterlace info true 0 s0).status = true := by
  have hLq : GetQuantumExtent info info.extract_info.width .RedQuantum = chunkLength info := by
    simp [chunkLength, hi]
  have hx : ∀ qt : QuantumType, qt.components.length = 1 →
      GetQuantumExtent info info.extract_info.width qt = chunkLength info := by
    intro qt h
    rw [← hLq, extent_single info _ qt h, extent_single info _ .RedQuantum rfl]
  rw [frameLength_plane, hLq] at hD
  rw [FlatPlaneInterlace_first_eq info hmon, hLq, ReadBlobStream_length s0 D _ hb, hn]
  refine ⟨?_, rfl⟩
  apply spent_status
  generalize hHdef : info.extract_info.height = H at *
  generalize hLdef : chunkLength info = L at *
  have hch : info.channels = if info.matte then 4 else 3 := rfl
  rw [hch] at hD
  have hH : 1 ≤ H := by
    rcases Nat.eq_zero_or_pos H with h | h
    · rw [h, Nat.zero_mul, Nat.mul_zero] at hD; omega
    · exact h
  have weaken : ∀ (m : Nat) (t : ReadState),
      (Spent (base + D.length) t ∨ (H ≤ m ∧ Short (base + D.length) L (m - H) t)) →
      (Spent (base + D.length) t ∨ Short (base + D.length) L (m - H) t) := by
    intro m t h
    rcases h with h | h
    · exact Or.inl h
    · exact Or.inr h.2
  have step : ∀ (qt : QuantumType) (chans : List Component) (m : Nat) (t : ReadState),
      qt.components.length = 1 →
      (Spent (base + D.length) t ∨ Short (base + D.length) L m t) →
      Spent (base + D.length) (planeFirst info qt chans t) ∨
        (H ≤ m ∧ Short (base + D.length) L (m - H) (planeFirst info qt chans t)) := by
    intro qt chans m t hq ht
    have := planeFirst_step info hmon (base + D.length) L qt chans (hx qt hq) m t ht
    rw [hHdef] at this
    exact this
  cases hm : info.matte
  · simp only [hm, Bool.false_eq_true, if_false] at hD ⊢
    have h0 : Short (base + D.length) L (3 * H - 1) (primed s0 D L base) :=
      primed_short_any _ _ _ _ _ (by
        have : 3 * H - 1 + 1 = 3 * H := by omega
        rw [this, Nat.mul_assoc]; exact hD)
    have r1 := step .RedQuantum [.red] _ _ rfl (Or.inr h0)
    have r2 := step .GreenQuantum [.green] _ _ rfl (weaken _ _ r1)
    have r3 := step .BlueQuantum [.blue] _ _ rfl (weaken _ _ r2)
    rcases r3 with h | ⟨hle, _⟩
    · exact h
    · rcases r2 with h2 | ⟨hle2, _⟩
      · exact planeFirst_spent info _ _ _ _ h2
      · rcases r1 with h1 | ⟨hle1, _⟩
        · exact planeFirst_spent info _ _ _ _ (planeFirst_spent info _ _ _ _ h1)
        · omega
  · simp only [hm, if_true] at hD ⊢
    have h0 : Short (base + D.length) L (4 * H - 1) (primed s0 D L base) :=
      primed_short_any _ _ _ _ _ (by
        have : 4 * H - 1 + 1 = 4 * H := by omega
        rw [this, Nat.mul_assoc]; exact hD)
    have r1 := step .RedQuantum [.red] _ _ rfl (Or.inr h0)
    have r2 := step .GreenQuantum [.green] _ _ rfl (weaken _ _ r1)
    have r3 := step .BlueQuantum [.blue] _ _ rfl (weaken _ _ r2)
    have r4 := step .AlphaQuantum [.opacity] _ _ rfl (weaken _ _ r3)
    rcases r4 with h | ⟨hle, _⟩
    · exact h
    · rcases r3 with h3 | ⟨hle3, _⟩
      · exact planeFirst_spent info _ _ _ _ h3
      · rcases r2 with h2 | ⟨hle2, _⟩
        · exact planeFirst_spent info _ _ _ _ (planeFirst_spent info _ _ _ _ h2)
        · rcases r1 with h1 | ⟨hle1, _⟩
          · exact planeFirst_spent info _ _ _ _
              (planeFirst_spent info _ _ _ _ (planeFirst_spent info _ _ _ _ h1))
          · omega

/-- A single-stream decode of every scene of a line- or plane-interlaced
stream that ends inside its first frame: the status of the short read is
overwritten, and the partially filled frame is returned. -/
theorem FlatYCBCRImage_first_truncated (info : ImageInfo) (files : BlobName → Option (List Nat))
    (D : List Nat) (hmon : ∀ o e, info.progress o e = true)
    (hi : info.interlace = .LineInterlace ∨ info.interlace = .PlaneInterlace)
    (hping : info.ping = false) (ho : info.offset = 0) (hc : info.columns ≠ 0)
    (hr : info.rows ≠ 0) (hns : info.number_scenes = 0) (hfile : files .main = some D)
    (hshort : D.length < frameLength info) :
    ∃ r g, FlatYCBCRImage info files = some r ∧ r.images = [g] ∧
      ExceptionType.UnexpectedEndOfFile ∈ r.exception ∧ r.nread = D.length := by
  have hi' : info.interlace ≠ .PartitionInterlace := by
    rcases hi with h | h <;> rw [h] <;> simp
  rw [FlatYCBCRImage_open info files D hc hr hi' ho hfile]
  unfold FlatFromCanvas
  simp only [hns, ne_eq, not_true_eq_false, if_false]
  obtain ⟨fuel, hfu⟩ : ∃ f, sceneFuel files = f + 1 := ⟨_, rfl⟩
  rw [hfu]
  have hframe : ∀ s0 : ReadState, s0.blob = some D → s0.nread = 0 →
      Spent (0 + D.length) (FlatFrame info files true 0 s0) ∧
        (FlatFrame info files true 0 s0).status = true := by
    intro s0 hb hn
    unfold FlatFrame
    rcases hi with h | h
    · rw [h]; exact FlatLineInterlace_first info hmon h D s0 0 hb hn hshort
    · rw [h]; exact FlatPlaneInterlace_first info hmon h D s0 0 hb hn hshort
  obtain ⟨hsp, hst⟩ := hframe
    { initialState info with
      blob := some D, blobSize := D.length, opens := [BlobName.main], count := 0, length := 0
      status := true, stream := [] } rfl rfl
  have hstop := FlatScenes_stop info files hping fuel [] 0 0
    { initialState info with
      blob := some D, blobSize := D.length, opens := [BlobName.main], count := 0, length := 0
      status := true, stream := [] } _ rfl (Or.inr (Or.inr hsp.1.1))
  refine ⟨_, (FlatFrame info files true 0
    { initialState info with
      blob := some D, blobSize := D.length, opens := [BlobName.main], count := 0, length := 0
      status := true, stream := [] }).pixels, hstop, ?_, ?_, ?_⟩
  · unfold finishRead
    simp only [List.isEmpty_nil, hst, if_true, List.nil_append]
  · exact hsp.2
  · have := hsp.1.2.2
    rw [Nat.zero_add] at this
    exact this

theorem ReadBlobStream_exception (s : ReadState) :
    (ReadBlobStream s).exception = s.exception := by
  unfold ReadBlobStream
  cases s.blob <;> rfl

theorem ReadRows_exception_mono (info : ImageInfo) (qt : QuantumType) (chans : List Component)
    (hmon : ∀ o e, info.progress o e = true) (monitor : Bool) (e : ExceptionType) :
    ∀ (n y : Nat) (s : ReadState), e ∈ s.exception →
      e ∈ (ReadRows info qt chans monitor n y s).exception := by
  intro n
  induction n with
  | zero => intro y s h; exact h
  | succ n ih =>
    intro y s h
    rw [ReadRows]
    split
    · exact List.mem_append_left _ h
    · simp only [hmon, if_true]
      cases monitor
      · simp only [Bool.false_eq_true, if_false]
        apply ih
        rw [ReadBlobStream_exception, ImportRow_exception]
        exact h
      · simp only [if_true]
        apply ih
        rw [ReadBlobStream_exception]
        show e ∈ (ImportRow info qt chans y s).exception
        rw [ImportRow_exception]
        exact h

/-- One channel file of the first frame that holds at most one plane: the
file is read to its end, the status the progress report returns replaces the
one of a short read, and the truncation of a short file stays recorded. -/
theorem ReadPartitionFile_first_short (info : ImageInfo) (files : BlobName → Option (List Nat))
    (name : BlobName) (discard : Bool) (qt extentType : QuantumType) (chans : List Component)
    (k : Nat) (data : List Nat) (hmon : ∀ o e, info.progress o e = true) (ho : info.offset = 0)
    (hH : 1 ≤ info.extract_info.height)
    (hq : GetQuantumExtent info info.extract_info.width extentType =
      GetQuantumExtent info info.extract_info.width qt)
    (hL : 1 ≤ GetQuantumExtent info info.extract_info.width qt)
    (hfile : files name = some data)
    (hlen : data.length ≤ info.extract_info.height *
      GetQuantumExtent info info.extract_info.width qt) (s : ReadState) :
    ∃ S, ReadPartitionFile info files true 0 name discard qt extentType chans k s = (S, false) ∧
      S.status = true ∧ S.count ≠ S.length ∧ (∀ e ∈ s.exception, e ∈ S.exception) ∧
      (data.length < info.extract_info.height *
          GetQuantumExtent info info.extract_info.width qt →
        ExceptionType.UnexpectedEndOfFile ∈ S.exception) := by
  generalize hLdef : GetQuantumExtent info info.extract_info.width qt = L at hq hL hlen ⊢
  generalize hHdef : info.extract_info.height = H at hH hlen ⊢
  unfold ReadPartitionFile
  have hopen : OpenBlob files name s = openedState s name data := by
    simp [OpenBlob, hfile, openedState]
  have hdisc : (if discard = true then DiscardBlobBytes info.offset (openedState s name data)
      else (openedState s name data, true)) = (openedState s name data, true) := by
    cases discard <;> simp [DiscardBlobBytes, ho, openedState]
  rw [hopen]
  have hst : ((openedState s name data).status = false) = False := by simp [openedState]
  simp only [hst, Bool.true_eq_false, if_false, hdisc, hq, hHdef, SkipScenes]
  have hread : ReadBlobStream { openedState s name data with length := L } =
      primed (openedState s name data) data L s.nread := by
    simp [ReadBlobStream, primed, openedState]
  dsimp only at hread
  rw [hread, PlaneProgress_first info hmon]
  refine ⟨_, rfl, rfl, ?_, ?_, ?_⟩
  · have hsh : Short (s.nread + data.length) L H (primed (openedState s name data) data L s.nread) :=
      primed_short_any _ _ _ _ _ (by rw [Nat.succ_mul]; omega)
    rcases ReadRows_short info qt chans false hmon _ L hLdef H 0 H _ hsh with h | ⟨_, h⟩
    · exact h.1.1
    · rw [Nat.sub_self] at h
      exact (short_zero_starved h).1
  · intro e he
    show e ∈ (ReadRows info qt chans false H 0 _).exception
    apply ReadRows_exception_mono info qt chans hmon
    exact he
  · intro hlt
    obtain ⟨H', rfl⟩ : ∃ H', H = H' + 1 := ⟨H - 1, by omega⟩
    have hsh : Short (s.nread + data.length) L H'
        (primed (openedState s name data) data L s.nread) :=
      primed_short_any _ _ _ _ _ hlt
    rcases ReadRows_short info qt chans false hmon _ L hLdef (H' + 1) 0 H' _ hsh with h | ⟨h, _⟩
    · exact h.2.2
    · omega

theorem FlatPartitionInterlace_first_short (info : ImageInfo)
    (files : BlobName → Option (List Nat)) (hmon : ∀ o e, info.progress o e = true)
    (ho : info.offset = 0) (hH : 1 ≤ info.extract_info.height)
    (hW : 1 ≤ info.extract_info.width) (hfiles : endsInFirstScene info files) (s : ReadState) :
    (FlatPartitionInterlace info files true 0 s).status = true ∧
      (FlatPartitionInterlace info files true 0 s).count ≠
        (FlatPartitionInterlace info files true 0 s).length ∧
      ExceptionType.UnexpectedEndOfFile ∈
        (FlatPartitionInterlace info files true 0 s).exception := by
  obtain ⟨hall, nm, hnm, dnm, hdnm, hlt⟩ := hfiles
  have hx : ∀ qt : QuantumType, qt.components.length = 1 →
      GetQuantumExtent info info.extract_info.width qt =
        GetQuantumExtent info info.extract_info.width .RedQuantum := by
    intro qt h
    rw [extent_single info _ qt h, extent_single info _ .RedQuantum rfl]
  have hL : 1 ≤ GetQuantumExtent info info.extract_info.width .RedQuantum := by
    rw [extent_single info _ .RedQuantum rfl]
    exact Nat.mul_pos hW (sampleBytes_pos _)
  have file : ∀ (name : BlobName) (discard : Bool) (qt ext : QuantumType)
      (chans : List Component) (k : Nat) (t : ReadState), name ∈ partitionNames info →
      qt.components.length = 1 → ext.components.length = 1 →
      ∃ S, ReadPartitionFile info files true 0 name discard qt ext chans k t = (S, false) ∧
        S.status = true ∧ S.count ≠ S.length ∧ (∀ e ∈ t.exception, e ∈ S.exception) ∧
        (name = nm → ExceptionType.UnexpectedEndOfFile ∈ S.exception) := by
    intro name discard qt ext chans k t hmem hq1 hq2
    obtain ⟨data, hd, hle⟩ := hall name hmem
    obtain ⟨S, h1, h2, h3, h4, h5⟩ := ReadPartitionFile_first_short info files name discard qt ext
      chans k data hmon ho hH (by rw [hx qt hq1, hx ext hq2]) (by rw [hx qt hq1]; exact hL) hd
      (by rw [hx qt hq1]; exact hle) t
    refine ⟨S, h1, h2, h3, h4, ?_⟩
    intro hn
    subst hn
    rw [hd] at hdnm
    have : data = dnm := Option.some.inj hdnm
    subst this
    exact h5 (by rw [hx qt hq1]; exact hlt)
  have hY : BlobName.Y ∈ partitionNames info := by
    unfold partitionNames; split <;> simp
  have hCb : BlobName.Cb ∈ partitionNames info := by
    unfold partitionNames; split <;> simp
  have hCr : BlobName.Cr ∈ partitionNames info := by
    unfold partitionNames; split <;> simp
  obtain ⟨S1, e1, a1, b1, c1, d1⟩ := file .Y true .RedQuantum .RedQuantum [.red] 1 s hY rfl rfl
  obtain ⟨S2, e2, a2, b2, c2, d2⟩ := file .Cb false .GreenQuantum .GreenQuantum [.green] 2
    (CloseBlob S1) hCb rfl rfl
  obtain ⟨S3, e3, a3, b3, c3, d3⟩ := file .Cr false .BlueQuantum .BlueQuantum [.blue] 3
    (CloseBlob S2) hCr rfl rfl
  unfold FlatPartitionInterlace
  simp only [e1, e2, e3, Bool.false_eq_true, if_false, PlaneProgress_first info hmon]
  cases hm : info.matte
  · simp only [Bool.false_eq_true, if_false]
    refine ⟨trivial, b3, ?_⟩
    show ExceptionType.UnexpectedEndOfFile ∈ S3.exception
    have hnm' : nm = .Y ∨ nm = .Cb ∨ nm = .Cr := by
      unfold partitionNames at hnm
      simpa [hm] using hnm
    rcases hnm' with h | h | h
    · exact c3 _ (c2 _ (d1 h.symm))
    · exact c3 _ (d2 h.symm)
    · exact d3 h.symm
  · have hA : BlobName.A ∈ partitionNames info := by
      unfold partitionNames; simp [hm]
    obtain ⟨S4, e4, a4, b4, c4, d4⟩ := file .A false .BlueQuantum .AlphaQuantum [.opacity] 4
      (CloseBlob S3) hA rfl rfl
    simp only [if_true, e4, Bool.false_eq_true, if_false]
    refine ⟨trivial, b4, ?_⟩
    show ExceptionType.UnexpectedEndOfFile ∈ S4.exception
    have hnm' : nm = .Y ∨ nm = .Cb ∨ nm = .Cr ∨ nm = .A := by
      unfold partitionNames at hnm
      simpa [hm] using hnm
    rcases hnm' with h | h | h | h
    · exact c4 _ (c3 _ (c2 _ (d1 h.symm)))
    · exact c4 _ (c3 _ (d2 h.symm))
    · exact c4 _ (d3 h.symm)
    · exact d4 h.symm

/-- A partition decode of every scene of channel files that end inside the
first frame returns that frame although the truncation was recorded. -/
theorem FlatYCBCRImage_partition_first_short (info : ImageInfo)
    (files : BlobName → Option (List Nat)) (hmon : ∀ o e, info.progress o e = true)
    (hi : info.interlace = .PartitionInterlace) (hping : info.ping = false)
    (ho : info.offset = 0) (hc : info.columns ≠ 0) (hr : info.rows ≠ 0)
    (hW : 1 ≤ info.extract_info.width) (hH : 1 ≤ info.extract_info.height)
    (hns : info.number_scenes = 0) (hfiles : endsInFirstScene info files) :
    ∃ r g, FlatYCBCRImage info files = some r ∧ r.images = [g] ∧
      ExceptionType.UnexpectedEndOfFile ∈ r.exception := by
  unfold FlatYCBCRImage
  simp only [hc, hr, or_self, if_false, hi, ne_eq, not_true_eq_false]
  unfold FlatFromCanvas
  simp only [hns, ne_eq, not_true_eq_false, if_false]
  obtain ⟨fuel, hfu⟩ : ∃ f, sceneFuel files = f + 1 := ⟨_, rfl⟩
  rw [hfu]
  obtain ⟨h1, h2, h3⟩ := FlatPartitionInterlace_first_short info files hmon ho hH hW hfiles
    { initialState info with count := 0, length := 0, status := true, stream := [] }
  have hframe : FlatFrame info files ([] : List (List (List PixelPacket))).isEmpty 0
      { initialState info with count := 0, length := 0, status := true, stream := [] } =
      FlatPartitionInterlace info files true 0
        { initialState info with count := 0, length := 0, status := true, stream := [] } := by
    unfold FlatFrame
    rw [hi]
    rfl
  have hstop := FlatScenes_stop info files hping fuel [] 0 0
    { initialState info with count := 0, length := 0, status := true, stream := [] } _ hframe
    (Or.inr (Or.inr h2))
  refine ⟨_, (FlatPartitionInterlace info files true 0
    { initialState info with count := 0, length := 0, status := true, stream := [] }).pixels,
    hstop, ?_, ?_⟩
  · unfold finishRead
    simp only [h1, if_true, List.nil_append]
  · exact h3

/-! ### The reader and the uniform reader -/

theorem imageMatte_first (info : ImageInfo) : imageMatte info true = info.matte := by
  simp [imageMatte]

theorem imageMatte_no_matte (info : ImageInfo) (h : info.matte = false) (first : Bool) :
    imageMatte info first = info.matte := by
  simp [imageMatte, h]

theorem ReadLineRows_flat (info : ImageInfo) (first : Bool)
    (h : imageMatte info first = info.matte) :
    ∀ (n y : Nat) (s : ReadState),
      ReadLineRows info first n y s = FlatLineRows info first n y s := by
  intro n
  induction n with
  | zero => intro y s; rfl
  | succ n ih =>
    intro y s
    simp only [ReadLineRows, FlatLineRows, lineTypes, ImageInfo.lineTypes, h, ih]

/-- The two readers read an image the same way when its flag `image->matte` is
the flag of the format. -/
theorem ReadFrame_flat (info : ImageInfo) (files : BlobName → Option (List Nat)) (first : Bool)
    (h : imageMatte info first = info.matte) (scene : Nat) (s : ReadState) :
    ReadFrame info files first scene s = FlatFrame info files first scene s := by
  unfold ReadFrame FlatFrame
  cases info.interlace
  · simp only [ReadNoInterlace, FlatNoInterlace, packetChannels, ImageInfo.packetChannels, h]
  · simp only [ReadLineInterlace, FlatLineInterlace, ReadLineRows_flat info first h]
  · simp only [ReadPlaneInterlace, FlatPlaneInterlace, h]
  · simp only [ReadPartitionInterlace, FlatPartitionInterlace, h]

/-- Without an alpha channel in the format the two scene loops are the same. -/
theorem ReadScenes_no_matte (info : ImageInfo) (files : BlobName → Option (List Nat))
    (h : info.matte = false) :
    ∀ (fuel : Nat) (previous : List (List (List PixelPacket))) (image_scene scene : Nat)
      (s : ReadState),
      ReadScenes info files fuel previous image_scene scene s =
        FlatScenes info files fuel previous image_scene scene s := by
  have hf : ∀ first scene s, ReadFrame info files first scene s =
      FlatFrame info files first scene s :=
    fun first scene s => ReadFrame_flat info files first (imageMatte_no_matte info h first) scene s
  intro fuel
  induction fuel with
  | zero => intro previous image_scene scene s; rfl
  | succ fuel ih =>
    intro previous image_scene scene s
    simp only [ReadScenes, FlatScenes, hf, ih]

theorem finishRead_images (previous : List (List (List PixelPacket))) (s : ReadState) :
    (finishRead previous s).images = [] ∨
      previous.length < (finishRead previous s).images.length := by
  unfold finishRead
  cases s.status
  · left; rfl
  · right; simp

/-- A result of the scene loop is empty or longer than the list of the images
completed before. -/
theorem FlatScenes_images (info : ImageInfo) (files : BlobName → Option (List Nat)) :
    ∀ (fuel : Nat) (previous : List (List (List PixelPacket))) (image_scene scene : Nat)
      (s : ReadState) (r : ReadResult),
      FlatScenes info files fuel previous image_scene scene s = some r →
        r.images = [] ∨ previous.length < r.images.length := by
  intro fuel
  induction fuel with
  | zero => intro previous image_scene scene s r h; cases h
  | succ fuel ih =>
    intro previous image_scene scene s r h
    rw [FlatScenes] at h
    dsimp only at h
    split at h
    · cases h; exact finishRead_images _ _
    split at h
    · cases h; exact finishRead_images _ _
    split at h
    · cases h; exact finishRead_images _ _
    split at h
    · split at h
      · cases h
        refine Or.imp id (fun h1 => ?_) (finishRead_images _ _)
        rw [List.length_append, List.length_singleton] at h1
        omega
      · rcases ih _ _ _ _ r h with h1 | h1
        · exact Or.inl h1
        · right
          rw [List.length_append, List.length_singleton] at h1
          omega
    · cases h; exact finishRead_images _ _

/-- When the uniform scene loop returns a single image, the scene loop returns
the same result: both read the first image of the list the same way. -/
theorem ReadScenes_one (info : ImageInfo) (files : BlobName → Option (List Nat))
    (fuel image_scene scene : Nat) (s : ReadState) (r : ReadResult)
    (h : FlatScenes info files fuel [] image_scene scene s = some r)
    (h1 : r.images.length = 1) :
    ReadScenes info files fuel [] image_scene scene s = some r := by
  cases fuel with
  | zero => cases h
  | succ fuel =>
    rw [FlatScenes] at h
    rw [ReadScenes]
    dsimp only at h ⊢
    rw [List.isEmpty_nil, ReadFrame_flat info files true (imageMatte_first info)]
    rw [List.isEmpty_nil] at h
    generalize FlatFrame info files true scene s = s1 at h ⊢
    by_cases c1 : info.ping = true ∧ lastScene info image_scene = true
    · rw [if_pos c1] at h ⊢; exact h
    rw [if_neg c1] at h ⊢
    by_cases c2 : s1.status = false
    · rw [if_pos c2] at h ⊢; exact h
    rw [if_neg c2] at h ⊢
    by_cases c3 : lastScene info image_scene = true
    · rw [if_pos c3] at h ⊢; exact h
    rw [if_neg c3] at h ⊢
    by_cases c4 : s1.count = s1.length
    · rw [if_pos c4] at h
      exfalso
      split at h
      · cases h
        rename_i hst
        simp [finishRead, hst] at h1
      · rcases FlatScenes_images info files _ _ _ _ _ r h with h2 | h2
        · rw [h2] at h1; cases h1
        · simp at h2; omega
    · rw [if_neg c4] at h ⊢; exact h

theorem ReadFromCanvas_no_matte (info : ImageInfo) (files : BlobName → Option (List Nat))
    (h : info.matte = false) (s : ReadState) :
    ReadFromCanvas info files s = FlatFromCanvas info files s := by
  unfold ReadFromCanvas FlatFromCanvas
  exact ReadScenes_no_matte info files h _ _ _ _ _

theorem ReadYCBCRImage_no_matte (info : ImageInfo) (files : BlobName → Option (List Nat))
    (h : info.matte = false) : ReadYCBCRImage info files = FlatYCBCRImage info files := by
  unfold ReadYCBCRImage FlatYCBCRImage
  simp only [ReadFromCanvas_no_matte info files h]

/-- Without an alpha channel the reader is the uniform reader. -/
theorem decode_no_alpha (cfg : StreamConfig) (source : BlobName → Option (List Nat))
    (h : cfg.channelCount ≠ 4) : decode cfg source = flatDecode cfg source := by
  unfold decode flatDecode
  exact ReadYCBCRImage_no_matte _ _ (by simp [AcquireImage, h])

theorem ReadFromCanvas_one (info : ImageInfo) (files : BlobName → Option (List Nat))
    (s : ReadState) (r : ReadResult) (h : FlatFromCanvas info files s = some r)
    (h1 : r.images.length = 1) : ReadFromCanvas info files s = some r := by
  unfold FlatFromCanvas at h
  unfold ReadFromCanvas
  exact ReadScenes_one info files _ _ _ _ r h h1

theorem ReadYCBCRImage_one (info : ImageInfo) (files : BlobName → Option (List Nat))
    (r : ReadResult) (h : FlatYCBCRImage info files = some r) (h1 : r.images.length = 1) :
    ReadYCBCRImage info files = some r := by
  unfold FlatYCBCRImage at h
  unfold ReadYCBCRImage
  dsimp only at h ⊢
  split at h
  · rename_i c; rw [if_pos c]; exact h
  rename_i c; rw [if_neg c]
  split at h
  · rename_i c2; rw [if_pos c2]
    split at h
    · rename_i c3; rw [if_pos c3]; exact h
    · rename_i c3; rw [if_neg c3]; exact ReadFromCanvas_one info files _ r h h1
  · rename_i c2; rw [if_neg c2]; exact ReadFromCanvas_one info files _ r h h1

/-- A result of the uniform reader with a single image is the result of the
reader. -/
theorem decode_one (cfg : StreamConfig) (source : BlobName → Option (List Nat)) (r : ReadResult)
    (h : flatDecode cfg source = some r) (h1 : r.images.length = 1) :
    decode cfg source = some r :=
  ReadYCBCRImage_one _ _ r h h1

theorem ReadYCBCRImage_open (info : ImageInfo) (files : BlobName → Option (List Nat))
    (data : List Nat) (hc : info.columns ≠ 0) (hr : info.rows ≠ 0)
    (hi : info.interlace ≠ .PartitionInterlace) (ho : info.offset = 0)
    (hfile : files .main = some data) :
    ReadYCBCRImage info files =
      ReadFromCanvas info files
        { initialState info with
          blob := some data, blobSize := data.length, opens := [BlobName.main] } := by
  unfold ReadYCBCRImage
  simp only [hc, hr, or_self, if_false, hi, ne_eq, not_false_eq_true, if_true]
  simp [OpenBlob, hfile, DiscardBlobBytes, ho, initialState]

theorem ReadFromCanvas_skipPhase (info : ImageInfo) (files : BlobName → Option (List Nat))
    (s : ReadState) :
    ReadFromCanvas info files s =
      ReadScenes info files (sceneFuel files) [] (firstScene info) 0
        { skipPhase info s with count := 0, length := 0, status := true, stream := [] } := rfl

/-! ### Crop, shape, scene and alpha-file independence of the reader -/

theorem ReadLineRows_crop (info : ImageInfo) (x0 y0 cw ch : Nat) (hg : CropOf info x0 y0 cw ch)
    (first : Bool) :
    ∀ (n y : Nat) (s : ReadState),
      ReadLineRows (cropInfo info x0 y0 cw ch) first n y (cropState x0 y0 cw ch s) =
        cropState x0 y0 cw ch (ReadLineRows info first n y s) := by
  intro n
  induction n with
  | zero => intro y s; rfl
  | succ n ih =>
    intro y s
    have hp : (cropInfo info x0 y0 cw ch).progress y (cropInfo info x0 y0 cw ch).rows = true :=
      hg.hmon _ _
    have hl : imageMatte (cropInfo info x0 y0 cw ch) first = imageMatte info first := rfl
    rw [ReadLineRows, ReadLineRows]
    simp only [hp, hg.hmon, if_true, hl]
    rw [ReadLineChannels_crop info x0 y0 cw ch hg]
    cases first
    · simp only [Bool.false_eq_true, if_false]
      rw [ih]
    · simp only [if_true]
      rw [← ih]
      rfl

theorem ReadNoInterlace_crop (info : ImageInfo) (x0 y0 cw ch : Nat)
    (hg : CropOf info x0 y0 cw ch) (first : Bool) (scene : Nat) (s : ReadState) :
    ReadNoInterlace (cropInfo info x0 y0 cw ch) first scene (cropState x0 y0 cw ch s) =
      cropState x0 y0 cw ch (ReadNoInterlace info first scene s) := by
  have e1 : (cropInfo info x0 y0 cw ch).extract_info.width = info.extract_info.width := rfl
  have e2 : (cropInfo info x0 y0 cw ch).extract_info.height = info.extract_info.height := rfl
  have e3 : (cropInfo info x0 y0 cw ch).quantum_type = info.quantum_type := rfl
  have e4 : imageMatte (cropInfo info x0 y0 cw ch) first = imageMatte info first := rfl
  have e5 : ∀ w q, GetQuantumExtent (cropInfo info x0 y0 cw ch) w q = GetQuantumExtent info w q :=
    fun _ _ => rfl
  unfold ReadNoInterlace
  simp only [e1, e2, e3, e4, e5, withLength_crop, ReadBlobStream_crop]
  by_cases h0 : scene = 0
  · simp only [h0, if_true, true_and]
    rw [ReadRows_crop info x0 y0 cw ch hg]
    generalize ReadBlobStream { s with length := _ } = t
    by_cases hc : t.count ≠ t.length
    · have hc2 : (cropState x0 y0 cw ch t).count ≠ (cropState x0 y0 cw ch t).length := hc
      rw [if_pos hc, if_pos hc2]
    · have hc2 : ¬ (cropState x0 y0 cw ch t).count ≠ (cropState x0 y0 cw ch t).length := hc
      rw [if_neg hc, if_neg hc2]
  · simp only [h0, if_false, false_and]
    exact ReadRows_crop info x0 y0 cw ch hg _ _ _ _ _ _

theorem ReadLineInterlace_crop (info : ImageInfo) (x0 y0 cw ch : Nat)
    (hg : CropOf info x0 y0 cw ch) (first : Bool) (scene : Nat) (s : ReadState) :
    ReadLineInterlace (cropInfo info x0 y0 cw ch) first scene (cropState x0 y0 cw ch s) =
      cropState x0 y0 cw ch (ReadLineInterlace info first scene s) := by
  have e1 : (cropInfo info x0 y0 cw ch).extract_info.width = info.extract_info.width := rfl
  have e2 : (cropInfo info x0 y0 cw ch).extract_info.height = info.extract_info.height := rfl
  have e5 : ∀ w q, GetQuantumExtent (cropInfo info x0 y0 cw ch) w q = GetQuantumExtent info w q :=
    fun _ _ => rfl
  unfold ReadLineInterlace
  simp only [e1, e2, e5, withLength_crop, ReadBlobStream_crop]
  by_cases h0 : scene = 0
  · simp only [h0, if_true]
    exact ReadLineRows_crop info x0 y0 cw ch hg _ _ _ _
  · simp only [h0, if_false]
    exact ReadLineRows_crop info x0 y0 cw ch hg _ _ _ _

theorem ReadPlaneInterlace_crop (info : ImageInfo) (x0 y0 cw ch : Nat)
    (hg : CropOf info x0 y0 cw ch) (first : Bool) (scene : Nat) (s : ReadState) :
    ReadPlaneInterlace (cropInfo info x0 y0 cw ch) first scene (cropState x0 y0 cw ch s) =
      cropState x0 y0 cw ch (ReadPlaneInterlace info first scene s) := by
  have e1 : (cropInfo info x0 y0 cw ch).extract_info.width = info.extract_info.width := rfl
  have e2 : (cropInfo info x0 y0 cw ch).extract_info.height = info.extract_info.height := rfl
  have e3 : imageMatte (cropInfo info x0 y0 cw ch) first = imageMatte info first := rfl
  have e5 : ∀ w q, GetQuantumExtent (cropInfo info x0 y0 cw ch) w q = GetQuantumExtent info w q :=
    fun _ _ => rfl
  have hs0 : (if scene = 0 then
        ReadBlobStream (cropState x0 y0 cw ch
          { s with length := GetQuantumExtent info info.extract_info.width .RedQuantum })
      else cropState x0 y0 cw ch s) =
      cropState x0 y0 cw ch (if scene = 0 then
        ReadBlobStream { s with length := GetQuantumExtent info info.extract_info.width .RedQuantum }
      else s) := by
    split
    · exact ReadBlobStream_crop _ _ _ _ _
    · rfl
  unfold ReadPlaneInterlace
  simp only [e1, e2, e3, e5, withLength_crop, hs0, ReadRows_crop info x0 y0 cw ch hg,
    PlaneProgress_crop]
  generalize (if scene = 0 then
        ReadBlobStream { s with length := GetQuantumExtent info info.extract_info.width .RedQuantum }
      else s) = t
  split
  · rfl
  · split
    · rfl
    · split
      · rfl
      · cases imageMatte info first
        · simp only [Bool.false_eq_true, if_false, PlaneProgress_crop]
        · simp only [if_true, ReadRows_crop info x0 y0 cw ch hg, PlaneProgress_crop]
          split <;> rfl

theorem ReadPartitionInterlace_crop (info : ImageInfo) (x0 y0 cw ch : Nat)
    (hg : CropOf info x0 y0 cw ch) (files : BlobName → Option (List Nat)) (first : Bool)
    (scene : Nat) (s : ReadState) :
    ReadPartitionInterlace (cropInfo info x0 y0 cw ch) files first scene (cropState x0 y0 cw ch s) =
      cropState x0 y0 cw ch (ReadPartitionInterlace info files first scene s) := by
  have e3 : imageMatte (cropInfo info x0 y0 cw ch) first = imageMatte info first := rfl
  unfold ReadPartitionInterlace
  simp only [e3, ReadPartitionFile_crop info x0 y0 cw ch hg, CloseBlob_crop]
  split
  · rfl
  · split
    · rfl
    · split
      · rfl
      · cases imageMatte info first
        · simp only [Bool.false_eq_true, if_false, PlaneProgress_crop]
        · simp only [if_true, ReadPartitionFile_crop info x0 y0 cw ch hg, CloseBlob_crop,
            PlaneProgress_crop]
          split <;> rfl

theorem ReadFrame_crop (info : ImageInfo) (x0 y0 cw ch : Nat)
    (hg : CropOf info x0 y0 cw ch) (files : BlobName → Option (List Nat)) (first : Bool)
    (scene : Nat) (s : ReadState) :
    ReadFrame (cropInfo info x0 y0 cw ch) files first scene (cropState x0 y0 cw ch s) =
      cropState x0 y0 cw ch (ReadFrame info files first scene s) := by
  have e : (cropInfo info x0 y0 cw ch).interlace = info.interlace := rfl
  unfold ReadFrame
  rw [e]
  cases info.interlace
  · exact ReadNoInterlace_crop info x0 y0 cw ch hg first scene s
  · exact ReadLineInterlace_crop info x0 y0 cw ch hg first scene s
  · exact ReadPlaneInterlace_crop info x0 y0 cw ch hg first scene s
  · exact ReadPartitionInterlace_crop info x0 y0 cw ch hg files first scene s

theorem ReadScenes_crop (info : ImageInfo) (x0 y0 cw ch : Nat) (hg : CropOf info x0 y0 cw ch)
    (files : BlobName → Option (List Nat)) :
    ∀ (fuel : Nat) (previous : List (List (List PixelPacket))) (image_scene scene : Nat)
      (s : ReadState),
      ReadScenes (cropInfo info x0 y0 cw ch) files fuel (previous.map (cropImage x0 y0 cw ch))
          image_scene scene (cropState x0 y0 cw ch s) =
        (ReadScenes info files fuel previous image_scene scene s).map (cropResult x0 y0 cw ch) := by
  intro fuel
  induction fuel with
  | zero => intro previous image_scene scene s; rfl
  | succ fuel ih =>
    intro previous image_scene scene s
    have e1 : (cropInfo info x0 y0 cw ch).ping = info.ping := rfl
    have e2 : ∀ k, lastScene (cropInfo info x0 y0 cw ch) k = lastScene info k := fun _ => rfl
    have e3 : (previous.map (cropImage x0 y0 cw ch)).isEmpty = previous.isEmpty := by
      cases previous <;> rfl
    have e4 : ∀ a b, (cropInfo info x0 y0 cw ch).progress a b = true := hg.hmon
    have e5 : blankImage (cropInfo info x0 y0 cw ch).columns (cropInfo info x0 y0 cw ch).rows =
        cropImage x0 y0 cw ch (blankImage info.columns info.rows) := by
      rw [cropImage_blank x0 y0 cw ch _ _ (by rw [hg.hcols]; exact hg.hw)
        (by rw [hg.hrows]; exact hg.hh)]
      rfl
    rw [ReadScenes, ReadScenes]
    simp only [e1, e2, e3, e4, e5, hg.hmon, ReadFrame_crop info x0 y0 cw ch hg]
    by_cases hp : info.ping = true ∧ lastScene info image_scene = true
    · rw [if_pos hp, if_pos hp, finishRead_crop]
      rfl
    · rw [if_neg hp, if_neg hp]
      generalize ReadFrame info files previous.isEmpty scene s = t
      by_cases h1 : t.status = false
      · have h1c : (cropState x0 y0 cw ch t).status = false := h1
        rw [if_pos h1, if_pos h1c, finishRead_crop]
        rfl
      · have h1c : ¬ (cropState x0 y0 cw ch t).status = false := h1
        rw [if_neg h1, if_neg h1c]
        by_cases h2 : lastScene info image_scene = true
        · rw [if_pos h2, if_pos h2, finishRead_crop]
          rfl
        · rw [if_neg h2, if_neg h2]
          by_cases h3 : t.count = t.length
          · have h3c : (cropState x0 y0 cw ch t).count = (cropState x0 y0 cw ch t).length := h3
            rw [if_pos h3, if_pos h3c]
            simp only [Bool.true_eq_false, if_false]
            have := ih (previous ++ [t.pixels]) (image_scene + 1) (scene + 1)
              { t with pixels := blankImage info.columns info.rows, status := true }
            rw [← this]
            simp only [List.map_append, List.map_cons, List.map_nil]
            rfl
          · have h3c : ¬ (cropState x0 y0 cw ch t).count = (cropState x0 y0 cw ch t).length := h3
            rw [if_neg h3, if_neg h3c, finishRead_crop]
            rfl

theorem ReadFromCanvas_crop (info : ImageInfo) (x0 y0 cw ch : Nat) (hg : CropOf info x0 y0 cw ch)
    (hscene : info.number_scenes = 0 ∨ info.scene = 0)
    (files : BlobName → Option (List Nat)) (s : ReadState) :
    ReadFromCanvas (cropInfo info x0 y0 cw ch) files (cropState x0 y0 cw ch s) =
      (ReadFromCanvas info files s).map (cropResult x0 y0 cw ch) := by
  have e1 : (cropInfo info x0 y0 cw ch).number_scenes = info.number_scenes := rfl
  have e2 : (cropInfo info x0 y0 cw ch).scene = info.scene := rfl
  have hskip : ∀ (i : ImageInfo) (t : ReadState),
      (if info.number_scenes ≠ 0 then SkipToScene i info.scene t else t) = t := by
    intro i t
    rcases hscene with h | h
    · rw [if_neg (by rw [h]; simp)]
    · rw [h]; split <;> rfl
  unfold ReadFromCanvas
  simp only [e1, e2, hskip]
  exact ReadScenes_crop info x0 y0 cw ch hg files _ [] _ 0
    { s with count := 0, length := 0, status := true, stream := [] }

theorem ReadYCBCRImage_crop (info : ImageInfo) (x0 y0 cw ch : Nat) (hg : CropOf info x0 y0 cw ch)
    (hcw : 1 ≤ cw) (hch : 1 ≤ ch) (hscene : info.number_scenes = 0 ∨ info.scene = 0)
    (files : BlobName → Option (List Nat)) :
    ReadYCBCRImage (cropInfo info x0 y0 cw ch) files =
      (ReadYCBCRImage info files).map (cropResult x0 y0 cw ch) := by
  have e1 : (cropInfo info x0 y0 cw ch).columns = cw := rfl
  have e2 : (cropInfo info x0 y0 cw ch).rows = ch := rfl
  have e3 : (cropInfo info x0 y0 cw ch).interlace = info.interlace := rfl
  have e4 : (cropInfo info x0 y0 cw ch).offset = info.offset := rfl
  have hz : ¬ (cw = 0 ∨ ch = 0) := by omega
  have hzf : ¬ (info.columns = 0 ∨ info.rows = 0) := by
    have := hg.hw; have := hg.hh
    rw [hg.hcols, hg.hrows]; omega
  have hinit : initialState (cropInfo info x0 y0 cw ch) = cropState x0 y0 cw ch (initialState info) := by
    unfold initialState cropState
    simp only [e1, e2]
    rw [cropImage_blank x0 y0 cw ch _ _ (by rw [hg.hcols]; exact hg.hw)
      (by rw [hg.hrows]; exact hg.hh)]
    rfl
  unfold ReadYCBCRImage
  rw [e1, e2, e3, e4, if_neg hz, if_neg hzf, hinit]
  by_cases hi : info.interlace ≠ InterlaceType.PartitionInterlace
  · rw [if_pos hi, if_pos hi]
    simp only [OpenBlob_crop, DiscardBlobBytes_crop]
    generalize OpenBlob files .main (initialState info) = t
    by_cases h1 : t.status = false
    · have h1c : (cropState x0 y0 cw ch t).status = false := h1
      rw [if_pos h1, if_pos h1c]
      rfl
    · have h1c : ¬ (cropState x0 y0 cw ch t).status = false := h1
      rw [if_neg h1, if_neg h1c]
      rw [← ReadFromCanvas_crop info x0 y0 cw ch hg hscene]
      congr 1
      split <;> rfl
  · rw [if_neg hi, if_neg hi]
    exact ReadFromCanvas_crop info x0 y0 cw ch hg hscene files _

theorem ReadLineRows_shape (info : ImageInfo) (first : Bool) :
    ∀ (n y : Nat) (s : ReadState),
      shape (ReadLineRows info first n y s).pixels = shape s.pixels := by
  intro n
  induction n with
  | zero => intro y s; rfl
  | succ n ih =>
    intro y s
    rw [ReadLineRows]
    split
    · split
      · rw [ih]
        exact ReadLineChannels_shape info y _ s
      · exact ReadLineChannels_shape info y _ s
    · rw [ih]
      exact ReadLineChannels_shape info y _ s

theorem ReadNoInterlace_shape (info : ImageInfo) (first : Bool) (scene : Nat) (s : ReadState) :
    shape (ReadNoInterlace info first scene s).pixels = shape s.pixels := by
  unfold ReadNoInterlace
  by_cases h : scene = 0
  · simp only [h, if_true, true_and]
    split
    · rw [ReadBlobStream_pixels]
    · rw [ReadRows_shape, ReadBlobStream_pixels]
  · simp only [h, if_false, false_and]
    exact ReadRows_shape info _ _ _ _ _ _

theorem ReadLineInterlace_shape (info : ImageInfo) (first : Bool) (scene : Nat) (s : ReadState) :
    shape (ReadLineInterlace info first scene s).pixels = shape s.pixels := by
  unfold ReadLineInterlace
  simp only
  rw [ReadLineRows_shape]
  split
  · rw [ReadBlobStream_pixels]
  · rfl

theorem ReadPlaneInterlace_shape (info : ImageInfo) (first : Bool) (scene : Nat) (s : ReadState) :
    shape (ReadPlaneInterlace info first scene s).pixels = shape s.pixels := by
  have h0 : shape (if scene = 0 then
      ReadBlobStream
        { s with length := GetQuantumExtent info info.extract_info.width QuantumType.RedQuantum }
    else s).pixels = shape s.pixels := by
    split
    · rw [ReadBlobStream_pixels]
    · rfl
  unfold ReadPlaneInterlace
  simp only
  generalize (if scene = 0 then
      ReadBlobStream
        { s with length := GetQuantumExtent info info.extract_info.width QuantumType.RedQuantum }
    else s) = t at h0
  rw [← h0]
  repeat' split
  all_goals simp only [PlaneProgress_pixels, ReadRows_shape]

theorem ReadPartitionInterlace_shape (info : ImageInfo) (files : BlobName → Option (List Nat))
    (first : Bool) (scene : Nat) (s : ReadState) :
    shape (ReadPartitionInterlace info files first scene s).pixels = shape s.pixels := by
  have hc : ∀ t : ReadState, (CloseBlob t).pixels = t.pixels := fun _ => rfl
  unfold ReadPartitionInterlace
  simp only
  repeat' split
  all_goals simp only [PlaneProgress_pixels, ReadPartitionFile_shape, hc]

theorem ReadFrame_shape (info : ImageInfo) (files : BlobName → Option (List Nat)) (first : Bool)
    (scene : Nat) (s : ReadState) :
    shape (ReadFrame info files first scene s).pixels = shape s.pixels := by
  unfold ReadFrame
  cases info.interlace
  · exact ReadNoInterlace_shape info first scene s
  · exact ReadLineInterlace_shape info first scene s
  · exact ReadPlaneInterlace_shape info first scene s
  · exact ReadPartitionInterlace_shape info files first scene s

theorem ReadScenes_shape (info : ImageInfo) (files : BlobName → Option (List Nat)) :
    ∀ (fuel : Nat) (previous : List (List (List PixelPacket))) (image_scene scene : Nat)
      (s : ReadState) (r : ReadResult),
      (∀ f ∈ previous, shape f = List.replicate info.rows info.columns) →
      shape s.pixels = List.replicate info.rows info.columns →
      ReadScenes info files fuel previous image_scene scene s = some r →
      ∀ f ∈ r.images, shape f = List.replicate info.rows info.columns := by
  intro fuel
  induction fuel with
  | zero => intro previous image_scene scene s r _ _ h; cases h
  | succ fuel ih =>
    intro previous image_scene scene s r hprev hs h
    have hfr : shape (ReadFrame info files previous.isEmpty scene s).pixels =
        List.replicate info.rows info.columns := by rw [ReadFrame_shape]; exact hs
    have hprev2 : ∀ f ∈ previous ++ [(ReadFrame info files previous.isEmpty scene s).pixels],
        shape f = List.replicate info.rows info.columns := by
      intro f hf
      rcases List.mem_append.mp hf with h | h
      · exact hprev f h
      · rw [List.mem_singleton.mp h]; exact hfr
    rw [ReadScenes] at h
    simp only at h
    split at h
    · cases h; exact finishRead_shape _ previous s hprev hs
    · split at h
      · cases h; exact finishRead_shape _ previous _ hprev hfr
      · split at h
        · cases h; exact finishRead_shape _ previous _ hprev hfr
        · split at h
          · split at h
            · cases h
              exact finishRead_shape _ _ _ hprev2 (shape_blankImage _ _)
            · exact ih _ _ _ _ r hprev2 (shape_blankImage _ _) h
          · cases h; exact finishRead_shape _ previous _ hprev hfr

theorem ReadYCBCRImage_shape (info : ImageInfo) (files : BlobName → Option (List Nat))
    (r : ReadResult) (h : ReadYCBCRImage info files = some r) :
    ∀ f ∈ r.images, shape f = List.replicate info.rows info.columns := by
  have hcanvas : ∀ s : ReadState, shape s.pixels = List.replicate info.rows info.columns →
      ∀ r, ReadFromCanvas info files s = some r →
      ∀ f ∈ r.images, shape f = List.replicate info.rows info.columns := by
    intro s hs r hr
    unfold ReadFromCanvas at hr
    simp only at hr
    refine ReadScenes_shape info files _ [] _ 0 _ r (fun f hf => by cases hf) ?_ hr
    show shape (if info.number_scenes ≠ 0 then SkipToScene info info.scene s else s).pixels = _
    split
    · rw [SkipToScene_pixels]; exact hs
    · exact hs
  have hinit : shape (initialState info).pixels = List.replicate info.rows info.columns :=
    shape_blankImage _ _
  unfold ReadYCBCRImage at h
  split at h
  · cases h; intro f hf; cases hf
  · split at h
    · simp only at h
      split at h
      · cases h; intro f hf; cases hf
      · refine hcanvas _ ?_ r h
        split
        · rw [DiscardBlobBytes_pixels, OpenBlob_pixels]; exact hinit
        · show shape (DiscardBlobBytes info.offset (OpenBlob files .main (initialState info))).1.pixels = _
          rw [DiscardBlobBytes_pixels, OpenBlob_pixels]; exact hinit
    · exact hcanvas _ hinit r h

theorem ReadPartitionInterlace_blind (info : ImageInfo) (f g : BlobName → Option (List Nat))
    (hsame : ∀ n, n ≠ BlobName.A → f n = g n)
    (hA : (f .A).map List.length = (g .A).map List.length)
    (first : Bool) (scene : Nat) (s t : ReadState) (h : Blind s t) :
    Blind (ReadPartitionInterlace info f first scene s)
      (ReadPartitionInterlace info g first scene t) := by
  have hY : f .Y = g .Y := hsame _ (by decide)
  have hCb : f .Cb = g .Cb := hsame _ (by decide)
  have hCr : f .Cr = g .Cr := hsame _ (by decide)
  obtain ⟨a1, a2⟩ := ReadPartitionFile_blind info f g first scene .Y true .RedQuantum .RedQuantum
    [.red] 1 s t h (by rw [hY]) (Or.inl ⟨hY, overwrites_red info⟩)
  unfold ReadPartitionInterlace
  dsimp only
  generalize ReadPartitionFile info f first scene .Y true .RedQuantum .RedQuantum [.red] 1 s = r1
    at a1 a2 ⊢
  generalize ReadPartitionFile info g first scene .Y true .RedQuantum .RedQuantum [.red] 1 t = r1'
    at a1 a2 ⊢
  rw [← a2]
  cases r1.2
  swap
  · simp only [if_true]; exact a1
  simp only [Bool.false_eq_true, if_false]
  obtain ⟨b1, b2⟩ := ReadPartitionFile_blind info f g first scene .Cb false .GreenQuantum
    .GreenQuantum [.green] 2 _ _ (CloseBlob_blind _ _ a1) (by rw [hCb])
    (Or.inl ⟨hCb, overwrites_green info⟩)
  generalize ReadPartitionFile info f first scene .Cb false .GreenQuantum .GreenQuantum [.green] 2
    (CloseBlob r1.1) = r2 at b1 b2 ⊢
  generalize ReadPartitionFile info g first scene .Cb false .GreenQuantum .GreenQuantum [.green] 2
    (CloseBlob r1'.1) = r2' at b1 b2 ⊢
  rw [← b2]
  cases r2.2
  swap
  · simp only [if_true]; exact b1
  simp only [Bool.false_eq_true, if_false]
  obtain ⟨c1, c2⟩ := ReadPartitionFile_blind info f g first scene .Cr false .BlueQuantum
    .BlueQuantum [.blue] 3 _ _ (CloseBlob_blind _ _ b1) (by rw [hCr])
    (Or.inl ⟨hCr, overwrites_blue info⟩)
  generalize ReadPartitionFile info f first scene .Cr false .BlueQuantum .BlueQuantum [.blue] 3
    (CloseBlob r2.1) = r3 at c1 c2 ⊢
  generalize ReadPartitionFile info g first scene .Cr false .BlueQuantum .BlueQuantum [.blue] 3
    (CloseBlob r2'.1) = r3' at c1 c2 ⊢
  rw [← c2]
  cases r3.2
  swap
  · simp only [if_true]; exact c1
  simp only [Bool.false_eq_true, if_false]
  have hd : Blind
      (if imageMatte info first = true then
        ReadPartitionFile info f first scene .A false .BlueQuantum .AlphaQuantum [.opacity] 4
          (CloseBlob r3.1)
      else (r3.1, false)).1
      (if imageMatte info first = true then
        ReadPartitionFile info g first scene .A false .BlueQuantum .AlphaQuantum [.opacity] 4
          (CloseBlob r3'.1)
      else (r3'.1, false)).1 ∧
      (if imageMatte info first = true then
        ReadPartitionFile info f first scene .A false .BlueQuantum .AlphaQuantum [.opacity] 4
          (CloseBlob r3.1)
      else (r3.1, false)).2 =
      (if imageMatte info first = true then
        ReadPartitionFile info g first scene .A false .BlueQuantum .AlphaQuantum [.opacity] 4
          (CloseBlob r3'.1)
      else (r3'.1, false)).2 := by
    cases imageMatte info first
    · exact ⟨c1, rfl⟩
    · exact ReadPartitionFile_blind info f g first scene .A false .BlueQuantum .AlphaQuantum
        [.opacity] 4 _ _ (CloseBlob_blind _ _ c1) hA (Or.inr ⟨rfl, rfl⟩)
  generalize (if imageMatte info first = true then
        ReadPartitionFile info f first scene .A false .BlueQuantum .AlphaQuantum [.opacity] 4
          (CloseBlob r3.1)
      else (r3.1, false)) = r4 at hd ⊢
  generalize (if imageMatte info first = true then
        ReadPartitionFile info g first scene .A false .BlueQuantum .AlphaQuantum [.opacity] 4
          (CloseBlob r3'.1)
      else (r3'.1, false)) = r4' at hd ⊢
  obtain ⟨d1, d2⟩ := hd
  rw [← d2]
  cases r4.2
  swap
  · simp only [if_true]; exact d1
  simp only [Bool.false_eq_true, if_false]
  exact (PlaneProgress_blind info first 5 _ _ d1).1

theorem ReadScenes_blind (info : ImageInfo) (hi : info.interlace = .PartitionInterlace)
    (f g : BlobName → Option (List Nat)) (hsame : ∀ n, n ≠ BlobName.A → f n = g n)
    (hA : (f .A).map List.length = (g .A).map List.length) :
    ∀ (fuel : Nat) (previous : List (List (List PixelPacket))) (image_scene scene : Nat)
      (s t : ReadState), Blind s t →
      ReadScenes info f fuel previous image_scene scene s =
        ReadScenes info g fuel previous image_scene scene t := by
  intro fuel
  induction fuel with
  | zero => intro previous image_scene scene s t _; rfl
  | succ fuel ih =>
    intro previous image_scene scene s t h
    have h1 := ReadPartitionInterlace_blind info f g hsame hA previous.isEmpty scene s t h
    simp only [ReadScenes, ReadFrame, hi]
    generalize ReadPartitionInterlace info f previous.isEmpty scene s = s1 at h1 ⊢
    generalize ReadPartitionInterlace info g previous.isEmpty scene t = t1 at h1 ⊢
    rw [finishRead_blind previous s t h, finishRead_blind previous s1 t1 h1, h1.status, h1.count,
      h1.length, h1.pixels, TellBlob_blind s1 t1 h1, h1.blobSize]
    have h2 : Blind
        { blob := s1.blob, blobSize := t1.blobSize, stream := s1.stream, count := t1.count
          length := t1.length, status := info.progress (TellBlob t1) t1.blobSize
          canvas := s1.canvas, pixels := blankImage info.columns info.rows
          exception := s1.exception, opens := s1.opens, nread := s1.nread }
        { t1 with
          pixels := blankImage info.columns info.rows
          status := info.progress (TellBlob t1) t1.blobSize } :=
      ⟨h1.blob, rfl, rfl, rfl, rfl, h1.canvas, rfl, h1.exception, h1.opens, h1.nread⟩
    rw [finishRead_blind _ _ _ h2, ih _ _ _ _ _ h2]

/-! ### The non-interlaced reader apart from the pixel values -/

theorem ImportRow_pace (info : ImageInfo) (qt : QuantumType) (chans chans' : List Component)
    (y : Nat) (s t : ReadState) (h : SamePace s t) :
    SamePace (ImportRow info qt chans y s) (ImportRow info qt chans' y t) := by
  have hc : ImportQuantumPixels info qt s.canvas s.stream =
      ImportQuantumPixels info qt t.canvas t.stream := by rw [h.canvas, h.stream]
  unfold ImportRow
  dsimp only
  split
  · exact ⟨h.blob, h.blobSize, h.stream, h.count, rfl, h.status, hc, h.exception, h.opens,
      h.nread⟩
  · exact ⟨h.blob, h.blobSize, h.stream, h.count, rfl, h.status, hc, h.exception, h.opens,
      h.nread⟩

theorem ReadBlobStream_pace (s t : ReadState) (h : SamePace s t) :
    SamePace (ReadBlobStream s) (ReadBlobStream t) := by
  unfold ReadBlobStream
  cases hs : s.blob with
  | none =>
    have ht : t.blob = none := by rw [← h.blob, hs]
    rw [ht]
    exact ⟨rfl, h.blobSize, rfl, rfl, h.length, h.status, h.canvas, h.exception, h.opens,
      h.nread⟩
  | some d =>
    have ht : t.blob = some d := by rw [← h.blob, hs]
    rw [ht]
    exact ⟨by show some (d.drop s.length) = some (d.drop t.length); rw [h.length], h.blobSize,
      by show d.take s.length = d.take t.length; rw [h.length],
      by show min s.length d.length = min t.length d.length; rw [h.length], h.length, h.status,
      h.canvas, h.exception, h.opens,
      by show s.nread + min s.length d.length = t.nread + min t.length d.length
         rw [h.length, h.nread]⟩

theorem ReadRows_pace (info : ImageInfo) (qt : QuantumType) (chans chans' : List Component)
    (monitor : Bool) :
    ∀ (n y : Nat) (s t : ReadState), SamePace s t →
      SamePace (ReadRows info qt chans monitor n y s) (ReadRows info qt chans' monitor n y t) := by
  intro n
  induction n with
  | zero => intro y s t h; exact h
  | succ n ih =>
    intro y s t h
    rw [ReadRows, ReadRows]
    by_cases hc : s.count ≠ s.length
    · have hc' : t.count ≠ t.length := by rw [← h.count, ← h.length]; exact hc
      rw [if_pos hc, if_pos hc']
      exact ⟨h.blob, h.blobSize, h.stream, h.count, h.length, rfl, h.canvas,
        by show s.exception ++ _ = t.exception ++ _; rw [h.exception], h.opens, h.nread⟩
    · have hc' : ¬ t.count ≠ t.length := by rw [← h.count, ← h.length]; exact hc
      rw [if_neg hc, if_neg hc']
      have h1 := ImportRow_pace info qt chans chans' y s t h
      dsimp only
      generalize ImportRow info qt chans y s = s1 at h1 ⊢
      generalize ImportRow info qt chans' y t = t1 at h1 ⊢
      cases monitor
      · simp only [Bool.false_eq_true, if_false]
        exact ih _ _ _ (ReadBlobStream_pace _ _ h1)
      · simp only [if_true]
        split
        · exact ih _ _ _ (ReadBlobStream_pace _ _
            ⟨h1.blob, h1.blobSize, h1.stream, h1.count, h1.length, rfl, h1.canvas, h1.exception,
              h1.opens, h1.nread⟩)
        · exact ⟨h1.blob, h1.blobSize, h1.stream, h1.count, h1.length, rfl, h1.canvas,
            h1.exception, h1.opens, h1.nread⟩

theorem ReadNoInterlace_pace (info : ImageInfo) (first : Bool) (scene : Nat) (s t : ReadState)
    (h : SamePace s t) :
    SamePace (ReadNoInterlace info first scene s) (FlatNoInterlace info first scene t) := by
  unfold ReadNoInterlace FlatNoInterlace
  dsimp only
  have h0 : SamePace
      (if scene = 0 then
        ReadBlobStream
          { s with length := GetQuantumExtent info info.extract_info.width info.quantum_type }
      else s)
      (if scene = 0 then
        ReadBlobStream
          { t with length := GetQuantumExtent info info.extract_info.width info.quantum_type }
      else t) := by
    split
    · exact ReadBlobStream_pace _ _
        ⟨h.blob, h.blobSize, h.stream, h.count, rfl, h.status, h.canvas, h.exception, h.opens,
          h.nread⟩
    · exact h
  generalize (if scene = 0 then
        ReadBlobStream
          { s with length := GetQuantumExtent info info.extract_info.width info.quantum_type }
      else s) = s0 at h0 ⊢
  generalize (if scene = 0 then
        ReadBlobStream
          { t with length := GetQuantumExtent info info.extract_info.width info.quantum_type }
      else t) = t0 at h0 ⊢
  rw [h0.count, h0.length]
  split
  · exact h0
  · exact ReadRows_pace info _ _ _ first _ _ _ _ h0

theorem finishRead_outline (p p' : List (List (List PixelPacket))) (s t : ReadState)
    (hp : p.length = p'.length) (h : SamePace s t) :
    outline (finishRead p s) = outline (finishRead p' t) := by
  unfold outline finishRead
  rw [h.status, h.exception, h.opens, h.nread]
  cases t.status
  · rfl
  · simp [hp]

theorem TellBlob_pace (s t : ReadState) (h : SamePace s t) : TellBlob s = TellBlob t := by
  unfold TellBlob
  rw [h.blob, h.blobSize]

/-- In the non-interlaced layout the scene loop and the uniform scene loop
agree in everything but the pixel values. -/
theorem ReadScenes_pace (info : ImageInfo) (hi : info.interlace = .NoInterlace)
    (files : BlobName → Option (List Nat)) :
    ∀ (fuel : Nat) (p p' : List (List (List PixelPacket))) (image_scene scene : Nat)
      (s t : ReadState), p.length = p'.length → SamePace s t →
      (ReadScenes info files fuel p image_scene scene s).map outline =
        (FlatScenes info files fuel p' image_scene scene t).map outline := by
  intro fuel
  induction fuel with
  | zero => intro p p' image_scene scene s t _ _; rfl
  | succ fuel ih =>
    intro p p' image_scene scene s t hp h
    have he : p.isEmpty = p'.isEmpty := by
      cases p <;> cases p' <;> simp at hp ⊢
    have h1 := ReadNoInterlace_pace info p'.isEmpty scene s t h
    rw [ReadScenes, FlatScenes]
    simp only [ReadFrame, FlatFrame, hi, he]
    generalize ReadNoInterlace info p'.isEmpty scene s = s1 at h1 ⊢
    generalize FlatNoInterlace info p'.isEmpty scene t = t1 at h1 ⊢
    rw [h1.status, h1.count, h1.length, TellBlob_pace s1 t1 h1, h1.blobSize]
    have hp1 : (p ++ [s1.pixels]).length = (p' ++ [t1.pixels]).length := by
      simp [hp]
    have h2 : SamePace
        { blob := s1.blob, blobSize := t1.blobSize, stream := s1.stream, count := t1.count
          length := t1.length, status := info.progress (TellBlob t1) t1.blobSize
          canvas := s1.canvas, pixels := blankImage info.columns info.rows
          exception := s1.exception, opens := s1.opens, nread := s1.nread }
        { t1 with
          pixels := blankImage info.columns info.rows
          status := info.progress (TellBlob t1) t1.blobSize } :=
      ⟨h1.blob, rfl, h1.stream, rfl, rfl, rfl, h1.canvas, h1.exception, h1.opens, h1.nread⟩
    split
    · simp only [Option.map_some', finishRead_outline p p' s t hp h]
    split
    · simp only [Option.map_some', finishRead_outline p p' s1 t1 hp h1]
    split
    · simp only [Option.map_some', finishRead_outline p p' s1 t1 hp h1]
    split
    · split
      · simp only [Option.map_some', finishRead_outline _ _ _ _ hp1 h2]
      · exact ih _ _ _ _ _ _ hp1 h2
    · simp only [Option.map_some', finishRead_outline p p' s1 t1 hp h1]

theorem ReadYCBCRImage_pace (info : ImageInfo) (hi : info.interlace = .NoInterlace)
    (files : BlobName → Option (List Nat)) :
    (ReadYCBCRImage info files).map outline = (FlatYCBCRImage info files).map outline := by
  have hfc : ∀ s, (ReadFromCanvas info files s).map outline =
      (FlatFromCanvas info files s).map outline := by
    intro s
    unfold ReadFromCanvas FlatFromCanvas
    exact ReadScenes_pace info hi files _ _ _ _ _ _ _ rfl
      ⟨rfl, rfl, rfl, rfl, rfl, rfl, rfl, rfl, rfl, rfl⟩
  unfold ReadYCBCRImage FlatYCBCRImage
  dsimp only
  split
  · rfl
  split
  · split
    · rfl
    · exact hfc _
  · exact hfc _

/-- In the Interleaved layout the reader and the uniform reader agree in
everything but the pixel values. -/
theorem decode_interleaved_outline (cfg : StreamConfig) (source : BlobName → Option (List Nat))
    (hl : cfg.layout = .Interleaved) :
    (decode cfg source).map outline = (flatDecode cfg source).map outline := by
  unfold decode flatDecode
  exact ReadYCBCRImage_pace _ (by show cfg.layout.interlace = _; rw [hl]; rfl) source

/-- The number of images, the exceptions and the byte count of a decode that
is not affected by the alpha flag of the later images: a format without alpha
channel, or the Interleaved layout. -/
theorem decode_outline (cfg : StreamConfig) (source : BlobName → Option (List Nat))
    (h : cfg.layout = .Interleaved ∨ cfg.channelCount ≠ 4) :
    (decode cfg source).map outline = (flatDecode cfg source).map outline := by
  rcases h with h | h
  · exact decode_interleaved_outline cfg source h
  · rw [decode_no_alpha cfg source h]

/-! ### Results of the reader -/

theorem decode_one_images (cfg : StreamConfig) (source : BlobName → Option (List Nat))
    (f : List (List PixelPacket))
    (h : (flatDecode cfg source).map (fun r => r.images) = some [f]) :
    decode cfg source = flatDecode cfg source := by
  cases hd : flatDecode cfg source with
  | none => rw [hd] at h; cases h
  | some r =>
    rw [hd] at h
    simp only [Option.map_some', Option.some.injEq] at h
    exact decode_one cfg source r hd (by rw [h]; rfl)

/-- A full-canvas decode of a one-frame source returns one frame. -/
theorem decode_one_frame (cfg : StreamConfig) (source : BlobName → Option (List Nat))
    (hW : 1 ≤ cfg.width) (hH : 1 ≤ cfg.height) (hping : cfg.ping = false)
    (hscene : cfg.sceneCount = none ∨ cfg.sceneOffset = 0)
    (hsrc : oneFrameSource cfg source) :
    ∃ f, (decode cfg.uncropped source).map (fun r => r.images) = some [f] := by
  obtain ⟨f, hf⟩ := flatDecode_one_frame cfg source hW hH hping hscene hsrc
  exact ⟨f, by rw [decode_one_images _ _ f hf]; exact hf⟩

theorem decode_one_frame_result (cfg : StreamConfig) (source : BlobName → Option (List Nat))
    (hW : 1 ≤ cfg.width) (hH : 1 ≤ cfg.height) (hping : cfg.ping = false)
    (hscene : cfg.sceneCount = none ∨ cfg.sceneOffset = 0)
    (hsrc : oneFrameSource cfg source) :
    ∃ f, decode cfg.uncropped source =
      some
        { images := [f], exception := [], opens := streamNames cfg
          nread := frameLength (AcquireImage cfg) } := by
  obtain ⟨f, hf⟩ := flatDecode_one_frame_result cfg source hW hH hping hscene hsrc
  exact ⟨f, decode_one _ _ _ hf rfl⟩

theorem outline_some {a : Option ReadResult} {r : ReadResult}
    (h : a.map outline = some (outline r)) :
    ∃ r', a = some r' ∧ r'.images.length = r.images.length ∧ r'.exception = r.exception ∧
      r'.opens = r.opens ∧ r'.nread = r.nread := by
  cases a with
  | none => cases h
  | some r' =>
    simp only [Option.map_some', Option.some.injEq, outline, Prod.mk.injEq] at h
    exact ⟨r', rfl, h.1, h.2.1, h.2.2.1, h.2.2.2⟩

/-- A single-stream decode of every scene of a stream that breaks off inside
a scene, for a format without alpha channel or the Interleaved layout. -/
theorem decode_truncated (cfg : StreamConfig) (source : BlobName → Option (List Nat))
    (full : List Nat) (j c : Nat) (hl : cfg.layout ≠ .Partitioned) (hping : cfg.ping = false)
    (hcount : cfg.sceneCount = none) (hW : 1 ≤ cfg.width) (hH : 1 ≤ cfg.height)
    (hcw : 1 ≤ cfg.cropRect.width) (hch : 1 ≤ cfg.cropRect.height)
    (hframe : cfg.layout = .Interleaved ∨ 1 ≤ j)
    (hmatte : cfg.layout = .Interleaved ∨ cfg.channelCount ≠ 4) (hc : 1 ≤ c)
    (hinside : c * chunkLength (AcquireImage cfg) < frameLength (AcquireImage cfg))
    (hfull : j * frameLength (AcquireImage cfg) + c * chunkLength (AcquireImage cfg) ≤ full.length)
    (hsrc : source .main =
      some (full.take
        (j * frameLength (AcquireImage cfg) + c * chunkLength (AcquireImage cfg)))) :
    ∃ r, decode cfg source = some r ∧ r.images = [] ∧
      ExceptionType.UnexpectedEndOfFile ∈ r.exception ∧
      r.nread = j * frameLength (AcquireImage cfg) + c * chunkLength (AcquireImage cfg) := by
  obtain ⟨r, h1, h2, h3, h4⟩ := flatDecode_truncated cfg source full j c hl hping hcount hW hH
    hcw hch hframe hc hinside hfull hsrc
  have ho := decode_outline cfg source hmatte
  rw [h1, Option.map_some'] at ho
  obtain ⟨r', e1, e2, e3, _, e5⟩ := outline_some ho
  refine ⟨r', e1, ?_, ?_, ?_⟩
  · rw [h2] at e2
    exact List.length_eq_zero.mp e2
  · rw [e3]; exact h3
  · rw [e5]; exact h4

/-- A decode of every scene of a single stream of `j >= 1` complete scenes,
for a format without alpha channel or the Interleaved layout. -/
theorem decode_complete_count (cfg : StreamConfig) (source : BlobName → Option (List Nat))
    (D : List Nat) (j : Nat) (hl : cfg.layout ≠ .Partitioned) (hping : cfg.ping = false)
    (hcount : cfg.sceneCount = none) (hW : 1 ≤ cfg.width) (hH : 1 ≤ cfg.height)
    (hcw : 1 ≤ cfg.cropRect.width) (hch : 1 ≤ cfg.cropRect.height) (hj : 1 ≤ j)
    (hmatte : cfg.layout = .Interleaved ∨ cfg.channelCount ≠ 4)
    (hlen : D.length = j * frameLength (AcquireImage cfg)) (hsrc : source .main = some D) :
    (decode cfg source).map (fun r => (r.images.length, r.exception)) = some (j, []) := by
  have h := flatDecode_complete_count cfg source D j hl hping hcount hW hH hcw hch hj hlen hsrc
  have ho := decode_outline cfg source hmatte
  cases hd : flatDecode cfg source with
  | none => rw [hd] at h; cases h
  | some r =>
    rw [hd] at h ho
    rw [Option.map_some'] at ho
    obtain ⟨r', e1, e2, e3, _, _⟩ := outline_some ho
    simp only [Option.map_some', Option.some.injEq, Prod.mk.injEq] at h
    rw [e1, Option.map_some', e2, e3, h.1, h.2]

/-- The decode of every scene of a single stream of `N` complete scenes, for
a format without alpha channel or a stream of one scene. -/
theorem decode_complete_frames (cfg : StreamConfig) (source : BlobName → Option (List Nat))
    (D : List Nat) (N : Nat) (hl : cfg.layout ≠ .Partitioned) (hping : cfg.ping = false)
    (hcount : cfg.sceneCount = none) (hW : 1 ≤ cfg.width) (hH : 1 ≤ cfg.height)
    (hcw : 1 ≤ cfg.cropRect.width) (hch : 1 ≤ cfg.cropRect.height) (hN : 1 ≤ N)
    (hmatte : cfg.channelCount ≠ 4 ∨ N = 1)
    (hlen : D.length = N * frameLength (AcquireImage cfg)) (hsrc : source .main = some D) :
    decode cfg source =
      some
        { images := scenesImages (AcquireImage cfg) N D (initialState (AcquireImage cfg))
          exception := []
          opens := [BlobName.main]
          nread := D.length } := by
  have h := flatDecode_complete_frames cfg source D N hl hping hcount hW hH hcw hch hN hlen hsrc
  rcases hmatte with hm | hm
  · rw [decode_no_alpha cfg source hm]; exact h
  · exact decode_one cfg source _ h (by
      show (scenesImages _ N D _).length = 1
      rw [scenesImages_length, hm])

/-- The decode of a bounded number of scenes of a single stream of complete
scenes, for a format without alpha channel or a single returned scene. -/
theorem decode_bounded_result (cfg : StreamConfig) (source : BlobName → Option (List Nat))
    (D : List Nat) (N m : Nat) (hl : cfg.layout ≠ .Partitioned) (hping : cfg.ping = false)
    (hW : 1 ≤ cfg.width) (hH : 1 ≤ cfg.height) (hcw : 1 ≤ cfg.cropRect.width)
    (hch : cfg.cropRect.height = cfg.height) (hm : 1 ≤ m) (hcount : cfg.sceneCount = some m)
    (hk : cfg.sceneOffset < N)
    (hmatte : cfg.channelCount ≠ 4 ∨ min m (N - cfg.sceneOffset) = 1)
    (hlen : D.length = N * frameLength (AcquireImage cfg))
    (hsrc : source .main = some D) :
    decode cfg source =
      some
        { images := scenesImages (AcquireImage cfg) (min m (N - cfg.sceneOffset))
            (D.drop (cfg.sceneOffset * frameLength (AcquireImage cfg)))
            (initialState (AcquireImage cfg))
          exception := []
          opens := [BlobName.main]
          nread := (cfg.sceneOffset + min m (N - cfg.sceneOffset)) *
              frameLength (AcquireImage cfg) +
            min (chunkLength (AcquireImage cfg))
              ((N - cfg.sceneOffset - min m (N - cfg.sceneOffset)) *
                frameLength (AcquireImage cfg)) } := by
  have h := flatDecode_bounded_result cfg source D N m hl hping hW hH hcw hch hm hcount hk hlen
    hsrc
  rcases hmatte with hc | hc
  · rw [decode_no_alpha cfg source hc]; exact h
  · exact decode_one cfg source _ h (by
      show (scenesImages _ (min m (N - cfg.sceneOffset)) _ _).length = 1
      rw [scenesImages_length, hc])

theorem decode_bounded_scenes (cfg : StreamConfig) (source : BlobName → Option (List Nat))
    (D : List Nat) (N m : Nat) (hl : cfg.layout ≠ .Partitioned) (hping : cfg.ping = false)
    (hW : 1 ≤ cfg.width) (hH : 1 ≤ cfg.height) (hcw : 1 ≤ cfg.cropRect.width)
    (hch : cfg.cropRect.height = cfg.height) (hm : 1 ≤ m) (hcount : cfg.sceneCount = some m)
    (hk : cfg.sceneOffset < N)
    (hmatte : cfg.channelCount ≠ 4 ∨ min m (N - cfg.sceneOffset) = 1)
    (hlen : D.length = N * frameLength (AcquireImage cfg))
    (hsrc : source .main = some D) :
    (decode cfg source).map (fun r => r.images) =
      some (scenesImages (AcquireImage cfg) (min m (N - cfg.sceneOffset))
        (D.drop (cfg.sceneOffset * frameLength (AcquireImage cfg)))
        (initialState (AcquireImage cfg))) := by
  rw [decode_bounded_result cfg source D N m hl hping hW hH hcw hch hm hcount hk hmatte hlen hsrc]
  rfl

theorem ReadYCBCRImage_frames3 (info : ImageInfo) (W H : Nat) (hg : FullCanvas info W H)
    (hW : 1 ≤ W) (hH : 1 ≤ H) (hi : info.interlace ≠ .PartitionInterlace)
    (hm : info.matte = false) (hmon : ∀ o e, info.progress o e = true)
    (hping : info.ping = false) (ho : info.offset = 0) (hns : info.number_scenes = 0)
    (fs : List (List (List PixelPacket))) (hne : fs ≠ [])
    (hfs : ∀ f ∈ fs, validFrame3 info.depth W H f)
    (files : BlobName → Option (List Nat))
    (hfile : files .main = some (fs.flatMap (encodeFrame info))) :
    ReadYCBCRImage info files =
      some
        { images := fs.map opaqueFrame
          exception := []
          opens := [BlobName.main]
          nread := fs.length * frameLength info } := by
  rw [ReadYCBCRImage_no_matte info files hm]
  exact FlatYCBCRImage_frames3 info W H hg hW hH hi hm hmon hping ho hns fs hne hfs files hfile

/-- A single-stream decode of every scene of a line- or plane-interlaced
stream that ends inside its first scene returns that scene as a frame. -/
theorem ReadYCBCRImage_first_truncated (info : ImageInfo) (files : BlobName → Option (List Nat))
    (D : List Nat) (hmon : ∀ o e, info.progress o e = true)
    (hi : info.interlace = .LineInterlace ∨ info.interlace = .PlaneInterlace)
    (hping : info.ping = false) (ho : info.offset = 0) (hc : info.columns ≠ 0)
    (hr : info.rows ≠ 0) (hns : info.number_scenes = 0) (hfile : files .main = some D)
    (hshort : D.length < frameLength info) :
    ∃ r g, ReadYCBCRImage info files = some r ∧ r.images = [g] ∧
      ExceptionType.UnexpectedEndOfFile ∈ r.exception ∧ r.nread = D.length := by
  obtain ⟨r, g, h1, h2, h3, h4⟩ := FlatYCBCRImage_first_truncated info files D hmon hi hping ho
    hc hr hns hfile hshort
  exact ⟨r, g, ReadYCBCRImage_one info files r h1 (by rw [h2]; rfl), h2, h3, h4⟩

/-- A partition decode of every scene of channel files that end inside the
first scene returns that scene as a frame. -/
theorem ReadYCBCRImage_partition_first_short (info : ImageInfo)
    (files : BlobName → Option (List Nat)) (hmon : ∀ o e, info.progress o e = true)
    (hi : info.interlace = .PartitionInterlace) (hping : info.ping = false)
    (ho : info.offset = 0) (hc : info.columns ≠ 0) (hr : info.rows ≠ 0)
    (hW : 1 ≤ info.extract_info.width) (hH : 1 ≤ info.extract_info.height)
    (hns : info.number_scenes = 0) (hfiles : endsInFirstScene info files) :
    ∃ r g, ReadYCBCRImage info files = some r ∧ r.images = [g] ∧
      ExceptionType.UnexpectedEndOfFile ∈ r.exception := by
  obtain ⟨r, g, h1, h2, h3⟩ := FlatYCBCRImage_partition_first_short info files hmon hi hping ho
    hc hr hW hH hns hfiles
  exact ⟨r, g, ReadYCBCRImage_one info files r h1 (by rw [h2]; rfl), h2, h3⟩

/-- On a canvas without rows the non-interlaced scene loop never ends once a
scene has begun with a complete chunk: no row loop runs, so no chunk is read
and `count == length` stays true. -/
theorem ReadScenes_no_rows (info : ImageInfo) (files : BlobName → Option (List Nat))
    (hi : info.interlace = .NoInterlace) (hh : info.extract_info.height = 0)
    (hns : info.number_scenes = 0) (hping : info.ping = false)
    (hmon : ∀ o e, info.progress o e = true) :
    ∀ (fuel : Nat) (previous : List (List (List PixelPacket))) (image_scene scene : Nat)
      (s : ReadState), 1 ≤ scene → s.count = s.length → s.status = true →
      ReadScenes info files fuel previous image_scene scene s = none := by
  intro fuel
  induction fuel with
  | zero => intro previous image_scene scene s _ _ _; rfl
  | succ fuel ih =>
    intro previous image_scene scene s hsc hc hst
    have hf : ReadFrame info files previous.isEmpty scene s = s := by
      unfold ReadFrame
      rw [hi]
      unfold ReadNoInterlace
      have h0 : scene ≠ 0 := by omega
      simp only [h0, if_false, false_and, hh, ReadRows]
    rw [ReadScenes]
    simp only [hping, Bool.false_eq_true, false_and, if_false, hf, hst, Bool.true_eq_false,
      lastScene_unbounded info hns, hc, if_true, hmon]
    exact ih _ _ _ _ (by omega) rfl rfl

/-- On a canvas without rows the non-interlaced scene loop never ends when the
first chunk of the stream is complete. -/
theorem ReadScenes_no_rows_first (info : ImageInfo) (files : BlobName → Option (List Nat))
    (hi : info.interlace = .NoInterlace) (hh : info.extract_info.height = 0)
    (hns : info.number_scenes = 0) (hping : info.ping = false)
    (hmon : ∀ o e, info.progress o e = true) (D : List Nat) (fuel : Nat)
    (previous : List (List (List PixelPacket))) (image_scene : Nat) (s : ReadState)
    (hst : s.status = true) (hb : s.blob = some D)
    (hD : GetQuantumExtent info info.extract_info.width info.quantum_type ≤ D.length) :
    ReadScenes info files fuel previous image_scene 0 s = none := by
  cases fuel with
  | zero => rfl
  | succ fuel =>
    have hf : ReadFrame info files previous.isEmpty 0 s =
        ReadBlobStream
          { s with length := GetQuantumExtent info info.extract_info.width info.quantum_type } := by
      unfold ReadFrame
      rw [hi]
      unfold ReadNoInterlace
      simp only [if_true, true_and, hh, ReadRows, ite_self]
    have hc : (ReadBlobStream
          { s with length := GetQuantumExtent info info.extract_info.width info.quantum_type }).count =
        (ReadBlobStream
          { s with length := GetQuantumExtent info info.extract_info.width info.quantum_type }).length := by
      simp [ReadBlobStream, hb, Nat.min_eq_left hD]
    have hs : (ReadBlobStream
          { s with length := GetQuantumExtent info info.extract_info.width info.quantum_type }).status =
        true := by
      simp [ReadBlobStream, hb, hst]
    rw [ReadScenes]
    simp only [hping, Bool.false_eq_true, false_and, if_false, hf, hs, Bool.true_eq_false,
      lastScene_unbounded info hns, hc, if_true, hmon]
    exact ReadScenes_no_rows info files hi hh hns hping hmon _ _ _ _ _ (by omega) rfl rfl

/-- One plane of an 8-bit frame of `W x H` pixels: `W * H` bytes, the byte at
index `r * W + c` being channel `k` of pixel `(r, c)`. -/
theorem plane_of_channel (info : ImageInfo) (hd : info.depth = 8) (W H : Nat)
    (f : List (List PixelPacket)) (hf : validFrame3 8 W H f) (k : Nat) (hk : k < 4) :
    (f.flatMap (ExportQuantumPixels info (channelQuantum k))).length = W * H ∧
      ∀ r c, r < H → c < W →
        (f.flatMap (ExportQuantumPixels info (channelQuantum k))).getD (r * W + c) 0 =
          channelSample 8 k (pixelAt f r c) := by
  have hval : ∀ row ∈ f, ∀ p ∈ row, channelSample 8 k p ≤ 255 :=
    fun row hr p hp => channelSample_le k p hk ((hf.2 row hr).2 p hp)
  have hchan : ∀ row ∈ f, (ExportQuantumPixels info (channelQuantum k) row).length = W := by
    intro row hr
    by_cases hW : 0 < W
    · rw [(channelRow_getD info hd k hk row 0 (by rw [(hf.2 row hr).1]; exact hW)
        (hval row hr)).1, (hf.2 row hr).1]
    · have hrl : row.length = 0 := by rw [(hf.2 row hr).1]; omega
      have : row = [] := List.length_eq_zero.mp hrl
      subst this
      simp [ExportQuantumPixels]; omega
  refine ⟨?_, ?_⟩
  · rw [flatMap_length_const _ W f hchan, hf.1, Nat.mul_comm]
  · intro r c hr hc
    have hrmem : f.getD r [] ∈ f := getD_mem f r [] (by rw [hf.1]; exact hr)
    have hrl : (f.getD r []).length = W := (hf.2 _ hrmem).1
    rw [getD_flatMap_uniform _ W 0 [] f hchan r c (by rw [hf.1]; exact hr) hc]
    exact (channelRow_getD info hd k hk _ c (by rw [hrl]; exact hc) (hval _ hrmem)).2

/-! ## The claims -/

/-- C1: Round trip, 3 channels.  For every width >= 1, height >= 1, sample width
8 or 16, each of the four layouts and every full-canvas 3-channel frame `f`
whose samples fit the sample width, decoding what `WriteYCBCRImage` emitted for
`f` succeeds without an exception and yields exactly one frame whose colour
samples are those of `f`. -/
theorem roundtrip_three_channels (W H bits : Nat) (lay : Layout) (e : EndianType)
    (f : List (List PixelPacket)) (hW : 1 ≤ W) (hH : 1 ≤ H) (_hbits : bits = 8 ∨ bits = 16)
    (hf : validFrame3 bits W H f) :
    (decode (fullConfig W H 3 bits lay e)
        (asSource (encode (fullConfig W H 3 bits lay e) [f]).files)).map
        (fun r => (r.exception, r.images.map rgbOf)) =
      some ([], [rgbOf f]) := by
  rw [decode_no_alpha _ _ (by simp [fullConfig])]
  obtain ⟨n, opens, h⟩ := flatDecode_encode_three W H bits lay e f hW hH hf
  rw [h]
  simp [rgbOf_opaqueFrame]

theorem roundtrip_three_channels_witness :
    1 ≤ 2 ∧ 1 ≤ 1 ∧ (16 = 8 ∨ 16 = 16) ∧
      validFrame3 16 2 1 [[⟨700, 2, 3, 0⟩, ⟨4, 5, 65535, 0⟩]] ∧
      (decode (fullConfig 2 1 3 16 .PlaneInterlaced .LSBEndian)
          (asSource (encode (fullConfig 2 1 3 16 .PlaneInterlaced .LSBEndian)
            [[[⟨700, 2, 3, 0⟩, ⟨4, 5, 65535, 0⟩]]]).files)).map
          (fun r => (r.exception, r.images.map rgbOf)) =
        some ([], [rgbOf [[⟨700, 2, 3, 0⟩, ⟨4, 5, 65535, 0⟩]]]) :=
  ⟨by decide, by decide, Or.inr rfl, by simp [validFrame3, QuantumRange],
    roundtrip_three_channels 2 1 16 .PlaneInterlaced .LSBEndian _ (by decide) (by decide)
      (Or.inr rfl) (by simp [validFrame3, QuantumRange])⟩

/-- C2 (failing input): a 1x1 frame with four 8-bit channels whose opacity sample
is 4 comes back from the LineInterlaced round trip with opacity 251, and from
the Partitioned round trip with opacity 0. -/
theorem roundtrip_four_channels_failing_input :
    (decode (fullConfig 1 1 4 8 .LineInterlaced .MSBEndian)
        (asSource (encode (fullConfig 1 1 4 8 .LineInterlaced .MSBEndian)
          [[[⟨1, 2, 3, 4⟩]]]).files)).map (fun r => r.images) =
      some [[[⟨1, 2, 3, 251⟩]]] ∧
    (decode (fullConfig 1 1 4 8 .Partitioned .MSBEndian)
        (asSource (encode (fullConfig 1 1 4 8 .Partitioned .MSBEndian)
          [[[⟨1, 2, 3, 4⟩]]]).files)).map (fun r => r.images) =
      some [[[⟨1, 2, 3, 0⟩]]] := by
  constructor <;> decide

/-- C3: Crop correctness.  For every configuration whose crop rectangle
(x0, y0, w, h) lies in the canvas and is not empty, and that skips no scene
(sceneOffset = 0 or an unbounded scene count), in every layout and on every
byte source: decoding with the crop rectangle returns what decoding with the
full canvas returns, every frame replaced by its sub-rectangle; every frame
so returned has h rows of w pixels, and its pixel at (r, c) is the pixel at
(y0 + r, x0 + c) of the corresponding full-canvas frame, which has `height`
rows of `width` pixels.  A source that holds one frame decodes to one frame
`f` with the full canvas and to the sub-rectangle of `f` with the crop. -/
theorem crop_correctness (cfg : StreamConfig) (source : BlobName → Option (List Nat))
    (hinv : cfg.cropInCanvas) (hw : 1 ≤ cfg.cropRect.width) (hh : 1 ≤ cfg.cropRect.height)
    (hscene : cfg.sceneCount = none ∨ cfg.sceneOffset = 0) :
    decode cfg source =
        (decode cfg.uncropped source).map
          (cropResult cfg.cropRect.x0.toNat cfg.cropRect.y0.toNat cfg.cropRect.width
            cfg.cropRect.height) ∧
      (∀ full, decode cfg.uncropped source = some full → ∀ f ∈ full.images,
        (f.length = cfg.height ∧ ∀ row ∈ f, row.length = cfg.width) ∧
        ((cropImage cfg.cropRect.x0.toNat cfg.cropRect.y0.toNat cfg.cropRect.width
            cfg.cropRect.height f).length = cfg.cropRect.height ∧
          ∀ row ∈ cropImage cfg.cropRect.x0.toNat cfg.cropRect.y0.toNat cfg.cropRect.width
            cfg.cropRect.height f, row.length = cfg.cropRect.width) ∧
        ∀ r c, r < cfg.cropRect.height → c < cfg.cropRect.width →
          pixelAt (cropImage cfg.cropRect.x0.toNat cfg.cropRect.y0.toNat cfg.cropRect.width
            cfg.cropRect.height f) r c =
            pixelAt f (cfg.cropRect.y0.toNat + r) (cfg.cropRect.x0.toNat + c)) ∧
      (cfg.ping = false → oneFrameSource cfg source →
        ∃ f, (decode cfg.uncropped source).map (fun r => r.images) = some [f] ∧
          (decode cfg source).map (fun r => r.images) =
            some [cropImage cfg.cropRect.x0.toNat cfg.cropRect.y0.toNat cfg.cropRect.width
              cfg.cropRect.height f]) := by
  have hg := CropOf_uncropped cfg hinv
  have hsc : (AcquireImage cfg.uncropped).number_scenes = 0 ∨
      (AcquireImage cfg.uncropped).scene = 0 := by
    rcases hscene with h | h
    · left; show cfg.sceneCount.getD 0 = 0; rw [h]; rfl
    · right; exact h
  have hmain : decode cfg source =
      (decode cfg.uncropped source).map
        (cropResult cfg.cropRect.x0.toNat cfg.cropRect.y0.toNat cfg.cropRect.width
          cfg.cropRect.height) := by
    unfold decode
    rw [AcquireImage_cropInfo cfg hinv.1 hinv.2.2.1]
    exact ReadYCBCRImage_crop _ _ _ _ _ hg hw hh hsc source
  refine ⟨hmain, ?_, ?_⟩
  swap
  · intro hping hsrc
    obtain ⟨f, hf⟩ := decode_one_frame cfg source (by have := hinv.1; have := hinv.2.1; omega)
      (by have := hinv.2.2.1; have := hinv.2.2.2; omega) hping hscene hsrc
    refine ⟨f, hf, ?_⟩
    rw [hmain, Option.map_map]
    cases hd : decode cfg.uncropped source with
    | none => rw [hd] at hf; cases hf
    | some full =>
      rw [hd] at hf
      simp only [Option.map_some', Option.some.injEq] at hf
      simp only [Option.map_some', Function.comp, cropResult, hf, List.map_cons, List.map_nil]
  intro full hfull f hf
  have hshape := ReadYCBCRImage_shape _ _ full hfull f hf
  have hcrop : decode cfg source = some (cropResult cfg.cropRect.x0.toNat cfg.cropRect.y0.toNat
      cfg.cropRect.width cfg.cropRect.height full) := by rw [hmain, hfull]; rfl
  have hshapec := ReadYCBCRImage_shape _ _ _ hcrop
    (cropImage cfg.cropRect.x0.toNat cfg.cropRect.y0.toNat cfg.cropRect.width
      cfg.cropRect.height f) (List.mem_map_of_mem _ hf)
  exact ⟨length_of_shape f _ _ hshape, length_of_shape _ _ _ hshapec,
    fun r c hr hc => pixelAt_cropImage _ _ _ _ f r c hr hc⟩

theorem crop_correctness_witness :
    StreamConfig.cropInCanvas
        { width := 2, height := 2, channelCount := 3, sampleBits := 8, layout := .PlaneInterlaced
          cropRect := { x0 := 1, y0 := 1, width := 1, height := 1 }, sceneOffset := 0
          sceneCount := none, endian := .MSBEndian, ping := false } ∧
      decode
          { width := 2, height := 2, channelCount := 3, sampleBits := 8, layout := .PlaneInterlaced
            cropRect := { x0 := 1, y0 := 1, width := 1, height := 1 }, sceneOffset := 0
            sceneCount := none, endian := .MSBEndian, ping := false }
          (fun _ => some [1, 2, 3, 4, 5, 6, 7, 8, 9, 10, 11, 12]) =
        (decode
          (StreamConfig.uncropped
            { width := 2, height := 2, channelCount := 3, sampleBits := 8
              layout := .PlaneInterlaced
              cropRect := { x0 := 1, y0 := 1, width := 1, height := 1 }, sceneOffset := 0
              sceneCount := none, endian := .MSBEndian, ping := false })
          (fun _ => some [1, 2, 3, 4, 5, 6, 7, 8, 9, 10, 11, 12])).map (cropResult 1 1 1 1) :=
  ⟨by decide,
    (crop_correctness
      { width := 2, height := 2, channelCount := 3, sampleBits := 8, layout := .PlaneInterlaced
        cropRect := { x0 := 1, y0 := 1, width := 1, height := 1 }, sceneOffset := 0
        sceneCount := none, endian := .MSBEndian, ping := false }
      (fun _ => some [1, 2, 3, 4, 5, 6, 7, 8, 9, 10, 11, 12])
      (by decide) (by decide) (by decide) (Or.inl rfl)).1⟩

/-- C4 (as stated, refuted).  The two-frame interleaved stream of a 1x1
canvas, cut at the boundary between its two chunks, decodes without any
exception to the first frame: nothing tells it from a one-frame stream.  And
a line-interlaced stream cut inside its first frame is returned as a frame
although the truncation was recorded. -/
theorem truncation_counterexample :
    decode (fullConfig 1 1 3 8 .Interleaved .MSBEndian)
        (mainOnly (((encode (fullConfig 1 1 3 8 .Interleaved .MSBEndian)
          [[[⟨1, 2, 3, 0⟩]], [[⟨4, 5, 6, 0⟩]]]).files .main).take 3)) =
      some { images := [[[⟨1, 2, 3, 0⟩]]], exception := [], opens := [BlobName.main], nread := 3 } ∧
    (decode (fullConfig 1 2 3 8 .LineInterlaced .MSBEndian)
        (mainOnly (((encode (fullConfig 1 2 3 8 .LineInterlaced .MSBEndian)
          [[[⟨1, 2, 3, 0⟩], [⟨4, 5, 6, 0⟩]]]).files .main).take 2))).map (fun r => r.images) =
      some [[[⟨1, 2, 0, 0⟩], [⟨0, 0, 0, 0⟩]]] := by
  constructor <;> decide

/-- C4 (amended): Truncation inside a frame is reported.  For the Interleaved
layout, and for LineInterlaced and PlaneInterlaced streams without alpha
channel, a crop rectangle that is not empty and not wider than the canvas, a
decode of every scene (default scene count), and every stream cut at a chunk
boundary that leaves `j` complete frames followed by at least one and not all
chunks of the next frame, where `j >= 1` or the layout is Interleaved: decode
records UnexpectedEndOfFile and fails, returning no frame. -/
theorem truncation_reported (cfg : StreamConfig) (source : BlobName → Option (List Nat))
    (full : List Nat) (j c : Nat) (hl : cfg.layout ≠ .Partitioned) (hping : cfg.ping = false)
    (hcount : cfg.sceneCount = none) (hW : 1 ≤ cfg.width) (hH : 1 ≤ cfg.height)
    (hcw : 1 ≤ cfg.cropRect.width) (hch : 1 ≤ cfg.cropRect.height)
    (_hwide : cfg.cropRect.width ≤ cfg.width)
    (hframe : cfg.layout = .Interleaved ∨ 1 ≤ j)
    (hmatte : cfg.layout = .Interleaved ∨ cfg.channelCount ≠ 4) (hc : 1 ≤ c)
    (hinside : c * chunkLength (AcquireImage cfg) < frameLength (AcquireImage cfg))
    (hfull : j * frameLength (AcquireImage cfg) + c * chunkLength (AcquireImage cfg) ≤ full.length)
    (hsrc : source .main =
      some (full.take
        (j * frameLength (AcquireImage cfg) + c * chunkLength (AcquireImage cfg)))) :
    ∃ r, decode cfg source = some r ∧ r.images = [] ∧
      ExceptionType.UnexpectedEndOfFile ∈ r.exception := by
  obtain ⟨r, h1, h2, h3, _⟩ := decode_truncated cfg source full j c hl hping hcount hW hH hcw hch
    hframe hmatte hc hinside hfull hsrc
  exact ⟨r, h1, h2, h3⟩

theorem truncation_reported_witness :
    ∃ r, decode (fullConfig 1 2 3 8 .PlaneInterlaced .MSBEndian)
        (mainOnly (((encode (fullConfig 1 2 3 8 .PlaneInterlaced .MSBEndian)
          [[[⟨1, 2, 3, 0⟩], [⟨4, 5, 6, 0⟩]], [[⟨7, 8, 9, 0⟩], [⟨10, 11, 12, 0⟩]]]).files
            .main).take (1 * 6 + 4 * 1))) = some r ∧
      r.images = [] ∧ ExceptionType.UnexpectedEndOfFile ∈ r.exception :=
  truncation_reported (fullConfig 1 2 3 8 .PlaneInterlaced .MSBEndian) _
    ((encode (fullConfig 1 2 3 8 .PlaneInterlaced .MSBEndian)
      [[[⟨1, 2, 3, 0⟩], [⟨4, 5, 6, 0⟩]], [[⟨7, 8, 9, 0⟩], [⟨10, 11, 12, 0⟩]]]).files .main)
    1 4 (by decide) rfl rfl (by decide) (by decide) (by decide) (by decide) (by decide)
    (Or.inr (by decide)) (Or.inr (by decide)) (by decide) (by decide) (by decide) rfl

/-- C5 (as stated, refuted).  The two-frame interleaved stream of a 1x2
canvas, cut one chunk into its second frame, fails with UnexpectedEndOfFile
and returns no frame: the first frame, complete in the stream, is not
returned alongside the failure. -/
theorem partial_sequence_counterexample :
    decode (fullConfig 1 2 3 8 .Interleaved .MSBEndian)
        (mainOnly (((encode (fullConfig 1 2 3 8 .Interleaved .MSBEndian)
          [[[⟨1, 2, 3, 0⟩], [⟨4, 5, 6, 0⟩]], [[⟨7, 8, 9, 0⟩], [⟨10, 11, 12, 0⟩]]]).files
            .main).take 9)) =
      some
        { images := []
          exception := [ExceptionType.UnexpectedEndOfFile]
          opens := [BlobName.main]
          nread := 9 } := by
  decide

/-- C5 (amended): No frame survives a truncation.  For the Interleaved layout,
and for LineInterlaced and PlaneInterlaced streams without alpha channel, a
crop rectangle that is not empty and not wider than the canvas, and a decode
of every scene: when the stream breaks off inside scene `j >= 1`, at a chunk
boundary that leaves at least one and not all chunks of that scene, the scenes
before `j` are complete in the stream (decoding them alone returns `j` frames
and no exception) and are read in full (every byte of the stream is consumed),
yet decode returns no frame at all, neither those of the earlier scenes nor a
partially filled one. -/
theorem truncation_returns_no_frame (cfg : StreamConfig)
    (source before : BlobName → Option (List Nat)) (full : List Nat) (j c : Nat)
    (hl : cfg.layout ≠ .Partitioned) (hping : cfg.ping = false)
    (hcount : cfg.sceneCount = none) (hW : 1 ≤ cfg.width) (hH : 1 ≤ cfg.height)
    (hcw : 1 ≤ cfg.cropRect.width) (hch : 1 ≤ cfg.cropRect.height)
    (_hwide : cfg.cropRect.width ≤ cfg.width)
    (hmatte : cfg.layout = .Interleaved ∨ cfg.channelCount ≠ 4) (hj : 1 ≤ j) (hc : 1 ≤ c)
    (hinside : c * chunkLength (AcquireImage cfg) < frameLength (AcquireImage cfg))
    (hfull : j * frameLength (AcquireImage cfg) + c * chunkLength (AcquireImage cfg) ≤ full.length)
    (hsrc : source .main =
      some (full.take
        (j * frameLength (AcquireImage cfg) + c * chunkLength (AcquireImage cfg))))
    (hbefore : before .main = some (full.take (j * frameLength (AcquireImage cfg)))) :
    (decode cfg before).map (fun r => (r.images.length, r.exception)) = some (j, []) ∧
      (decode cfg source).map (fun r => (r.images, r.nread)) =
        some ([], j * frameLength (AcquireImage cfg) + c * chunkLength (AcquireImage cfg)) := by
  constructor
  · exact decode_complete_count cfg before _ j hl hping hcount hW hH hcw hch hj hmatte
      (by rw [List.length_take]; omega) hbefore
  · obtain ⟨r, h1, h2, _, h4⟩ := decode_truncated cfg source full j c hl hping hcount hW hH hcw
      hch (Or.inr hj) hmatte hc hinside hfull hsrc
    rw [h1, Option.map_some', h2, h4]

theorem truncation_returns_no_frame_witness :
    (decode (fullConfig 1 2 3 8 .LineInterlaced .MSBEndian)
        (mainOnly (((encode (fullConfig 1 2 3 8 .LineInterlaced .MSBEndian)
          [[[⟨1, 2, 3, 0⟩], [⟨4, 5, 6, 0⟩]], [[⟨7, 8, 9, 0⟩], [⟨10, 11, 12, 0⟩]]]).files
            .main).take (1 * 6)))).map (fun r => (r.images.length, r.exception)) = some (1, []) ∧
      (decode (fullConfig 1 2 3 8 .LineInterlaced .MSBEndian)
        (mainOnly (((encode (fullConfig 1 2 3 8 .LineInterlaced .MSBEndian)
          [[[⟨1, 2, 3, 0⟩], [⟨4, 5, 6, 0⟩]], [[⟨7, 8, 9, 0⟩], [⟨10, 11, 12, 0⟩]]]).files
            .main).take (1 * 6 + 2 * 1)))).map (fun r => (r.images, r.nread)) =
        some ([], 1 * 6 + 2 * 1) :=
  truncation_returns_no_frame (fullConfig 1 2 3 8 .LineInterlaced .MSBEndian) _ _
    ((encode (fullConfig 1 2 3 8 .LineInterlaced .MSBEndian)
      [[[⟨1, 2, 3, 0⟩], [⟨4, 5, 6, 0⟩]], [[⟨7, 8, 9, 0⟩], [⟨10, 11, 12, 0⟩]]]).files .main)
    1 2 (by decide) rfl rfl (by decide) (by decide) (by decide) (by decide) (by decide)
    (Or.inr (by decide)) (by decide) (by decide) (by decide) (by decide) rfl rfl

/-- C6 (as stated, refuted).  With the default unbounded scene count the
reader does not skip: decoding the two-frame stream 1 2 3 4 5 6 of a 1x1
canvas with sceneOffset = 1 differs from decoding the stream 4 5 6 of the
second frame with sceneOffset = 0.  With a crop rectangle lower than the
canvas the skip drops too few rows: on a 1x2 canvas with a 1x1 crop, one
requested scene and sceneOffset = 1 the two decodes differ as well. -/
theorem scene_skip_counterexample :
    (decode
        { width := 1, height := 1, channelCount := 3, sampleBits := 8, layout := .Interleaved
          cropRect := fullCanvas 1 1, sceneOffset := 1, sceneCount := none
          endian := .MSBEndian, ping := false }
        (mainOnly [1, 2, 3, 4, 5, 6])).map (fun r => r.images) ≠
      (decode
        { width := 1, height := 1, channelCount := 3, sampleBits := 8, layout := .Interleaved
          cropRect := fullCanvas 1 1, sceneOffset := 0, sceneCount := none
          endian := .MSBEndian, ping := false }
        (mainOnly [4, 5, 6])).map (fun r => r.images) ∧
    (decode
        { width := 1, height := 2, channelCount := 3, sampleBits := 8, layout := .Interleaved
          cropRect := { x0 := 0, y0 := 0, width := 1, height := 1 }, sceneOffset := 1
          sceneCount := some 1, endian := .MSBEndian, ping := false }
        (mainOnly [1, 2, 3, 4, 5, 6, 7, 8, 9, 10, 11, 12])).map (fun r => r.images) ≠
      (decode
        { width := 1, height := 2, channelCount := 3, sampleBits := 8, layout := .Interleaved
          cropRect := { x0 := 0, y0 := 0, width := 1, height := 1 }, sceneOffset := 0
          sceneCount := some 1, endian := .MSBEndian, ping := false }
        (mainOnly [7, 8, 9, 10, 11, 12])).map (fun r => r.images) := by
  constructor <;> decide

/-- C6 (amended): Scene-skip equivalence under a bounded scene count.  For
each of Interleaved, LineInterlaced and PlaneInterlaced, a crop rectangle as
high as the canvas and not wider than it, a request for `m >= 1` scenes, every
stream `D` of `N` complete frames and every sceneOffset `k < N`, where the
format has no alpha channel or a single frame is returned (`min m (N - k) =
1`): decode with sceneOffset = k on `D` and decode with sceneOffset = 0 on `D`
without its first `k` frames both return the same sequence of frames, which
has `min m (N - k)` frames. -/
theorem scene_skip_equivalence (cfg : StreamConfig) (full rest : BlobName → Option (List Nat))
    (D : List Nat) (N m : Nat) (hl : cfg.layout ≠ .Partitioned) (hping : cfg.ping = false)
    (hW : 1 ≤ cfg.width) (hH : 1 ≤ cfg.height) (hcw : 1 ≤ cfg.cropRect.width)
    (_hwide : cfg.cropRect.width ≤ cfg.width)
    (hch : cfg.cropRect.height = cfg.height) (hm : 1 ≤ m) (hcount : cfg.sceneCount = some m)
    (hk : cfg.sceneOffset < N)
    (hmatte : cfg.channelCount ≠ 4 ∨ min m (N - cfg.sceneOffset) = 1)
    (hlen : D.length = N * frameLength (AcquireImage cfg))
    (hfull : full .main = some D)
    (hrest : rest .main = some (D.drop (cfg.sceneOffset * frameLength (AcquireImage cfg)))) :
    (decode cfg full).map (fun r => r.images) =
        (decode { cfg with sceneOffset := 0 } rest).map (fun r => r.images) ∧
      (decode cfg full).map (fun r => r.images.length) = some (min m (N - cfg.sceneOffset)) := by
  have hA := decode_bounded_scenes cfg full D N m hl hping hW hH hcw hch hm hcount hk hmatte hlen
    hfull
  have hcodec : SameCodec (AcquireImage { cfg with sceneOffset := 0 }) (AcquireImage cfg) :=
    ⟨rfl, rfl, rfl, rfl, rfl, rfl, rfl⟩
  have hF : frameLength (AcquireImage { cfg with sceneOffset := 0 }) =
      frameLength (AcquireImage cfg) := frameLength_congr _ _ hcodec
  have hsum : cfg.sceneOffset * frameLength (AcquireImage cfg) +
      (N - cfg.sceneOffset) * frameLength (AcquireImage cfg) =
      N * frameLength (AcquireImage cfg) := by
    rw [← Nat.add_mul]
    congr 1
    omega
  have hB := decode_bounded_scenes { cfg with sceneOffset := 0 } rest
    (D.drop (cfg.sceneOffset * frameLength (AcquireImage cfg))) (N - cfg.sceneOffset) m hl hping
    hW hH hcw hch hm hcount (by show 0 < N - cfg.sceneOffset; omega)
    (by
      show cfg.channelCount ≠ 4 ∨ min m (N - cfg.sceneOffset - 0) = 1
      rw [Nat.sub_zero]; exact hmatte)
    (by rw [List.length_drop, hF, hlen]; omega) hrest
  constructor
  · rw [hA, hB]
    simp only [Nat.zero_mul, List.drop_zero, Nat.sub_zero]
    congr 1
    exact (scenesImages_congr _ _ hcodec _ _ _ _ rfl rfl).symm
  · have hlenA := congrArg (Option.map List.length) hA
    simp only [Option.map_map, Option.map_some', scenesImages_length] at hlenA
    exact hlenA

theorem scene_skip_equivalence_witness :
    (decode
          { width := 1, height := 1, channelCount := 3, sampleBits := 8
            layout := .LineInterlaced, cropRect := fullCanvas 1 1, sceneOffset := 1
            sceneCount := some 1, endian := .MSBEndian, ping := false }
          (mainOnly [1, 2, 3, 4, 5, 6])).map (fun r => r.images) =
        (decode
          { width := 1, height := 1, channelCount := 3, sampleBits := 8
            layout := .LineInterlaced, cropRect := fullCanvas 1 1, sceneOffset := 0
            sceneCount := some 1, endian := .MSBEndian, ping := false }
          (mainOnly [4, 5, 6])).map (fun r => r.images) ∧
      (decode
          { width := 1, height := 1, channelCount := 3, sampleBits := 8
            layout := .LineInterlaced, cropRect := fullCanvas 1 1, sceneOffset := 1
            sceneCount := some 1, endian := .MSBEndian, ping := false }
          (mainOnly [1, 2, 3, 4, 5, 6])).map (fun r => r.images.length) = some (min 1 (2 - 1)) :=
  scene_skip_equivalence
    { width := 1, height := 1, channelCount := 3, sampleBits := 8
      layout := .LineInterlaced, cropRect := fullCanvas 1 1, sceneOffset := 1
      sceneCount := some 1, endian := .MSBEndian, ping := false }
    (mainOnly [1, 2, 3, 4, 5, 6]) (mainOnly [4, 5, 6]) [1, 2, 3, 4, 5, 6] 2 1
    (by decide) rfl (by decide) (by decide) (by decide) (by decide) rfl (by decide) rfl
    (by decide) (Or.inl (by decide)) (by decide) rfl (by decide)

/-- C7: Concrete Interleaved encoding.  With 8-bit samples and C channels the
encoder emits exactly W*H*C bytes for one W x H frame, and the byte at index
(r*W + c)*C + k is channel k (Y, Cb, Cr, alpha) of pixel (r, c). -/
theorem interleaved_encoding_order (W H C : Nat) (e : EndianType) (f : List (List PixelPacket))
    (hC : C = 3 ∨ C = 4) (hf : validFrame3 8 W H f) :
    ((encode (fullConfig W H C 8 .Interleaved e) [f]).files .main).length = W * H * C ∧
      ∀ r c k, r < H → c < W → k < C →
        ((encode (fullConfig W H C 8 .Interleaved e) [f]).files .main).getD
            ((r * W + c) * C + k) 0 =
          channelSample 8 k (pixelAt f r c) :=
  interleaved_layout W H C e f hC hf

theorem interleaved_encoding_order_witness :
    (3 = 3 ∨ 3 = 4) ∧
      validFrame3 8 4 2
        [[⟨0, 1, 2, 0⟩, ⟨10, 11, 12, 0⟩, ⟨20, 21, 22, 0⟩, ⟨30, 31, 32, 0⟩],
         [⟨40, 41, 42, 0⟩, ⟨50, 51, 52, 0⟩, ⟨60, 61, 62, 0⟩, ⟨70, 71, 72, 0⟩]] ∧
      ((encode (fullConfig 4 2 3 8 .Interleaved .MSBEndian)
        [[[⟨0, 1, 2, 0⟩, ⟨10, 11, 12, 0⟩, ⟨20, 21, 22, 0⟩, ⟨30, 31, 32, 0⟩],
          [⟨40, 41, 42, 0⟩, ⟨50, 51, 52, 0⟩, ⟨60, 61, 62, 0⟩, ⟨70, 71, 72, 0⟩]]]).files
          .main).length = 4 * 2 * 3 ∧
      ((encode (fullConfig 4 2 3 8 .Interleaved .MSBEndian)
        [[[⟨0, 1, 2, 0⟩, ⟨10, 11, 12, 0⟩, ⟨20, 21, 22, 0⟩, ⟨30, 31, 32, 0⟩],
          [⟨40, 41, 42, 0⟩, ⟨50, 51, 52, 0⟩, ⟨60, 61, 62, 0⟩, ⟨70, 71, 72, 0⟩]]]).files
          .main).getD ((1 * 4 + 2) * 3 + 1) 0 =
        channelSample 8 1 (pixelAt
          [[⟨0, 1, 2, 0⟩, ⟨10, 11, 12, 0⟩, ⟨20, 21, 22, 0⟩, ⟨30, 31, 32, 0⟩],
           [⟨40, 41, 42, 0⟩, ⟨50, 51, 52, 0⟩, ⟨60, 61, 62, 0⟩, ⟨70, 71, 72, 0⟩]] 1 2) :=
  ⟨Or.inl rfl, by simp [validFrame3, QuantumRange],
    (interleaved_encoding_order 4 2 3 .MSBEndian _ (Or.inl rfl)
      (by simp [validFrame3, QuantumRange])).1,
    (interleaved_encoding_order 4 2 3 .MSBEndian _ (Or.inl rfl)
      (by simp [validFrame3, QuantumRange])).2 1 2 1 (by decide) (by decide) (by decide)⟩

/-- C8: Concrete Interleaved decoding.  Decoding a buffer of exactly W*H*3 bytes
with width W, height H, 3 channels, 8-bit samples, Interleaved layout and the
full-canvas crop succeeds with exactly one frame, whose pixel (r, c) holds the
triple (b[(r*W+c)*3], b[(r*W+c)*3+1], b[(r*W+c)*3+2]); all W*H*3 bytes are
consumed and no exception is recorded. -/
theorem interleaved_decoding_order (W H : Nat) (e : EndianType) (b : List Nat)
    (source : BlobName → Option (List Nat)) (hW : 1 ≤ W) (hH : 1 ≤ H)
    (hlen : b.length = W * H * 3) (hb : ∀ x ∈ b, x < 256) (hsrc : source .main = some b) :
    decode (fullConfig W H 3 8 .Interleaved e) source =
      some
        { images := [frameOfBytes W H b]
          exception := []
          opens := [BlobName.main]
          nread := W * H * 3 } := by
  have henc := encode_frameOfBytes W H e b hlen hb
  rw [encode_files_main _ (by simp [fullConfig])] at henc
  have h := ReadYCBCRImage_frames3 (AcquireImage (fullConfig W H 3 8 .Interleaved e)) W H
    (⟨rfl, rfl, rfl, rfl, rfl, rfl⟩) hW hH (by simp [AcquireImage, fullConfig, Layout.interlace])
    rfl (fun _ _ => rfl) rfl rfl rfl [frameOfBytes W H b] (by simp)
    (by intro g hg'; simp at hg'; subst hg'; exact validFrame3_frameOfBytes W H b hb)
    source (by rw [henc]; exact hsrc)
  unfold decode
  rw [h]
  have hF : frameLength (AcquireImage (fullConfig W H 3 8 .Interleaved e)) = W * H * 3 := by
    show H * (3 * (W * 1)) = W * H * 3
    ring
  simp [opaqueFrame_frameOfBytes, hF]

theorem interleaved_decoding_order_witness :
    1 ≤ 2 ∧ 1 ≤ 1 ∧ [7, 8, 9, 250, 251, 252].length = 2 * 1 * 3 ∧
      (∀ x ∈ [7, 8, 9, 250, 251, 252], x < 256) ∧
      decode (fullConfig 2 1 3 8 .Interleaved .MSBEndian)
          (fun n => if n = BlobName.main then some [7, 8, 9, 250, 251, 252] else none) =
        some
          { images := [frameOfBytes 2 1 [7, 8, 9, 250, 251, 252]]
            exception := []
            opens := [BlobName.main]
            nread := 2 * 1 * 3 } :=
  ⟨by decide, by decide, rfl, by decide,
    interleaved_decoding_order 2 1 .MSBEndian [7, 8, 9, 250, 251, 252] _ (by decide) (by decide) rfl
      (by decide) rfl⟩

/-- C9 (failing input): the same 1x1 four-channel frame decodes to itself from
its Interleaved encoding and to a frame with opacity 0 from its Partitioned
encoding. -/
theorem partition_interleave_failing_input :
    (decode (fullConfig 1 1 4 8 .Interleaved .MSBEndian)
        (asSource (encode (fullConfig 1 1 4 8 .Interleaved .MSBEndian)
          [[[⟨1, 2, 3, 4⟩]]]).files)).map (fun r => r.images) =
      some [[[⟨1, 2, 3, 4⟩]]] ∧
    (decode (fullConfig 1 1 4 8 .Partitioned .MSBEndian)
        (asSource (encode (fullConfig 1 1 4 8 .Partitioned .MSBEndian)
          [[[⟨1, 2, 3, 4⟩]]]).files)).map (fun r => r.images) =
      some [[[⟨1, 2, 3, 0⟩]]] := by
  constructor <;> decide

/-- C10 (failing input): a canvas of width 1 and height 0 with a 1x1 crop
rectangle at (0, 0) is not rejected.  The size test looks at the size of the
requested frame only, so decode opens the stream and reads from it: given the
two bytes 1 2 it returns one blank 1x1 frame and no exception, and once a
first chunk of three bytes is there the scene loop does not end, whatever the
number of iterations it is granted (no row loop runs on a canvas without
rows, so no further chunk is read and `count == length` stays true).  The
same canvas with the crop rectangle of the whole canvas is rejected with
MustSpecifyImageSize before any byte source is opened. -/
theorem zero_dimensions_failing_input :
    decode
        { width := 1, height := 0, channelCount := 3, sampleBits := 8, layout := .Interleaved
          cropRect := { x0 := 0, y0 := 0, width := 1, height := 1 }, sceneOffset := 0
          sceneCount := none, endian := .MSBEndian, ping := false }
        (mainOnly [1, 2]) =
      some
        { images := [[[⟨0, 0, 0, 0⟩]]], exception := [], opens := [BlobName.main], nread := 2 } ∧
    (∀ fuel,
      ReadScenes
          (AcquireImage
            { width := 1, height := 0, channelCount := 3, sampleBits := 8, layout := .Interleaved
              cropRect := { x0 := 0, y0 := 0, width := 1, height := 1 }, sceneOffset := 0
              sceneCount := none, endian := .MSBEndian, ping := false })
          (mainOnly [1, 2, 3]) fuel [] 0 0
          { OpenBlob (mainOnly [1, 2, 3]) .main
              (initialState
                (AcquireImage
                  { width := 1, height := 0, channelCount := 3, sampleBits := 8
                    layout := .Interleaved
                    cropRect := { x0 := 0, y0 := 0, width := 1, height := 1 }, sceneOffset := 0
                    sceneCount := none, endian := .MSBEndian, ping := false }))
            with count := 0, length := 0, status := true, stream := [] } = none) ∧
    decode
        { width := 1, height := 0, channelCount := 3, sampleBits := 8, layout := .Interleaved
          cropRect := { x0 := 0, y0 := 0, width := 1, height := 1 }, sceneOffset := 0
          sceneCount := none, endian := .MSBEndian, ping := false }
        (mainOnly [1, 2, 3]) = none ∧
    decode (fullConfig 1 0 3 8 .Interleaved .MSBEndian) (mainOnly [1, 2, 3]) =
      some
        { images := []
          exception := [ExceptionType.MustSpecifyImageSize]
          opens := []
          nread := 0 } := by
  refine ⟨by decide, ?_, by decide, by decide⟩
  intro fuel
  exact ReadScenes_no_rows_first _ _ rfl rfl rfl rfl (fun _ _ => rfl) [1, 2, 3] fuel [] 0 _ rfl rfl
    (by decide)

/-- The size check on configurations of the data model.  For every
configuration whose crop rectangle lies in the canvas and which has width = 0
or height = 0, decode fails with MustSpecifyImageSize, returns no frame, opens
no byte source and reads zero bytes. -/
theorem zero_dimensions_rejected (cfg : StreamConfig) (source : BlobName → Option (List Nat))
    (hinv : cfg.cropInCanvas) (h0 : cfg.width = 0 ∨ cfg.height = 0) :
    decode cfg source =
      some
        { images := []
          exception := [ExceptionType.MustSpecifyImageSize]
          opens := []
          nread := 0 } := by
  obtain ⟨hx, hxw, hy, hyh⟩ := hinv
  have hz : (AcquireImage cfg).columns = 0 ∨ (AcquireImage cfg).rows = 0 := by
    simp only [AcquireImage]
    rcases h0 with h | h
    · left; rw [h] at hxw; omega
    · right; rw [h] at hyh; omega
  unfold decode ReadYCBCRImage
  simp only [hz, if_true]

theorem zero_dimensions_rejected_witness :
    (fullConfig 0 5 3 8 .Partitioned .MSBEndian).cropInCanvas ∧
      ((fullConfig 0 5 3 8 .Partitioned .MSBEndian).width = 0 ∨
        (fullConfig 0 5 3 8 .Partitioned .MSBEndian).height = 0) ∧
      decode (fullConfig 0 5 3 8 .Partitioned .MSBEndian) (fun _ => some [1, 2, 3]) =
        some
          { images := []
            exception := [ExceptionType.MustSpecifyImageSize]
            opens := []
            nread := 0 } :=
  ⟨by decide, Or.inl rfl,
    zero_dimensions_rejected (fullConfig 0 5 3 8 .Partitioned .MSBEndian) _ (by decide) (Or.inl rfl)⟩

/-- C11 (as stated, refuted).  A 2x2 crop rectangle at (1, 1) of a 2x2 canvas
is not contained in the canvas, yet decode raises no error: it opens the
stream, reads all 12 bytes of the stored frame and returns a 2x2 frame whose
pixel (0, 0) is the canvas pixel (1, 1) and whose other pixels, which lie
outside the canvas, are black. -/
theorem crop_bounds_counterexample :
    ¬ StreamConfig.cropInCanvas
        { width := 2, height := 2, channelCount := 3, sampleBits := 8, layout := .Interleaved
          cropRect := { x0 := 1, y0 := 1, width := 2, height := 2 }, sceneOffset := 0
          sceneCount := none, endian := .MSBEndian, ping := false } ∧
      decode
          { width := 2, height := 2, channelCount := 3, sampleBits := 8, layout := .Interleaved
            cropRect := { x0 := 1, y0 := 1, width := 2, height := 2 }, sceneOffset := 0
            sceneCount := none, endian := .MSBEndian, ping := false }
          (mainOnly [1, 2, 3, 4, 5, 6, 7, 8, 9, 10, 11, 12]) =
        some
          { images := [[[⟨10, 11, 12, 0⟩, ⟨0, 0, 0, 0⟩], [⟨0, 0, 0, 0⟩, ⟨0, 0, 0, 0⟩]]]
            exception := []
            opens := [BlobName.main]
            nread := 12 } := by
  constructor <;> decide

/-- C11 (amended): the crop rectangle is not checked against the canvas.  A
configuration is rejected with MustSpecifyImageSize before any byte source is
opened or read when its crop rectangle has zero width or zero height, whether
or not it lies in the canvas.  A crop rectangle that is not empty and not
wider than the canvas is accepted, contained in the canvas or not: for each of
Interleaved, LineInterlaced and PlaneInterlaced, non-zero width and height,
and a decode of every scene (not in ping mode) of a stream of N >= 1 complete
frames, without alpha channel or with N = 1, decode opens the stream, reads
all of it and returns N frames of the size of the crop rectangle without any
exception. -/
theorem crop_bounds_unchecked (cfg : StreamConfig) (source : BlobName → Option (List Nat)) :
    (cfg.cropRect.width = 0 ∨ cfg.cropRect.height = 0 →
      decode cfg source =
        some
          { images := []
            exception := [ExceptionType.MustSpecifyImageSize]
            opens := []
            nread := 0 }) ∧
    ∀ (D : List Nat) (N : Nat), cfg.layout ≠ .Partitioned → cfg.ping = false →
      cfg.sceneCount = none → 1 ≤ cfg.width → 1 ≤ cfg.height → 1 ≤ cfg.cropRect.width →
      cfg.cropRect.width ≤ cfg.width → 1 ≤ cfg.cropRect.height → 1 ≤ N →
      cfg.channelCount ≠ 4 ∨ N = 1 → D.length = N * frameLength (AcquireImage cfg) →
      source .main = some D →
      ∃ frames,
        decode cfg source =
            some
              { images := frames, exception := [], opens := [BlobName.main], nread := D.length } ∧
          frames.length = N ∧
          ∀ f ∈ frames,
            f.length = cfg.cropRect.height ∧ ∀ row ∈ f, row.length = cfg.cropRect.width := by
  constructor
  · intro h0
    unfold decode ReadYCBCRImage
    have hz : (AcquireImage cfg).columns = 0 ∨ (AcquireImage cfg).rows = 0 := h0
    simp only [hz, if_true]
  · intro D N hl hping hcount hW hH hcw _ hch hN hmatte hlen hsrc
    have h := decode_complete_frames cfg source D N hl hping hcount hW hH hcw hch hN hmatte hlen
      hsrc
    refine ⟨_, h, scenesImages_length _ _ _ _, ?_⟩
    intro f hf
    exact length_of_shape f _ _ (ReadYCBCRImage_shape _ _ _ h f hf)

theorem crop_bounds_unchecked_witness :
    (decode
        { width := 2, height := 2, channelCount := 3, sampleBits := 8, layout := .Interleaved
          cropRect := { x0 := 5, y0 := 5, width := 0, height := 2 }, sceneOffset := 0
          sceneCount := none, endian := .MSBEndian, ping := false }
        (mainOnly [1, 2, 3, 4, 5, 6, 7, 8, 9, 10, 11, 12]) =
      some
        { images := []
          exception := [ExceptionType.MustSpecifyImageSize]
          opens := []
          nread := 0 }) ∧
    ¬ StreamConfig.cropInCanvas
        { width := 2, height := 1, channelCount := 3, sampleBits := 8, layout := .LineInterlaced
          cropRect := { x0 := -1, y0 := 0, width := 2, height := 3 }, sceneOffset := 0
          sceneCount := none, endian := .MSBEndian, ping := false } ∧
    ∃ frames,
      decode
          { width := 2, height := 1, channelCount := 3, sampleBits := 8, layout := .LineInterlaced
            cropRect := { x0 := -1, y0 := 0, width := 2, height := 3 }, sceneOffset := 0
            sceneCount := none, endian := .MSBEndian, ping := false }
          (mainOnly [1, 2, 3, 4, 5, 6, 7, 8, 9, 10, 11, 12]) =
          some { images := frames, exception := [], opens := [BlobName.main], nread := 12 } ∧
        frames.length = 2 ∧ ∀ f ∈ frames, f.length = 3 ∧ ∀ row ∈ f, row.length = 2 :=
  ⟨(crop_bounds_unchecked
      { width := 2, height := 2, channelCount := 3, sampleBits := 8, layout := .Interleaved
        cropRect := { x0 := 5, y0 := 5, width := 0, height := 2 }, sceneOffset := 0
        sceneCount := none, endian := .MSBEndian, ping := false }
      (mainOnly [1, 2, 3, 4, 5, 6, 7, 8, 9, 10, 11, 12])).1 (Or.inl rfl),
    by decide,
    (crop_bounds_unchecked
      { width := 2, height := 1, channelCount := 3, sampleBits := 8, layout := .LineInterlaced
        cropRect := { x0 := -1, y0 := 0, width := 2, height := 3 }, sceneOffset := 0
        sceneCount := none, endian := .MSBEndian, ping := false }
      (mainOnly [1, 2, 3, 4, 5, 6, 7, 8, 9, 10, 11, 12])).2
      [1, 2, 3, 4, 5, 6, 7, 8, 9, 10, 11, 12] 2 (by decide) rfl rfl (by decide) (by decide)
      (by decide) (by decide) (by decide) (by decide) (Or.inl (by decide)) (by decide) rfl⟩

/-- C12 (failing input): the stream 1 2 3 4 5 6 7 8 holds two complete frames
of a 1x1 canvas with four 8-bit channels.  In the LineInterlaced layout decode
returns no frame and records UnexpectedEndOfFile, although each of the two
frames decodes on its own: the second image is read without its alpha chunk
and a third scene is begun with the byte left over.  In the Interleaved layout
two frames come back, but the opacity of the second one is not copied from its
chunk and stays 0, where its own four bytes decode to opacity 247.  Without
alpha channel the two frames 1 2 3 and 4 5 6 decode to two frames. -/
theorem multi_frame_decode_failing_input :
    decode (fullConfig 1 1 4 8 .LineInterlaced .MSBEndian) (mainOnly [1, 2, 3, 4, 5, 6, 7, 8]) =
      some
        { images := []
          exception := [ExceptionType.UnexpectedEndOfFile]
          opens := [BlobName.main]
          nread := 8 } ∧
    (decode (fullConfig 1 1 4 8 .LineInterlaced .MSBEndian) (mainOnly [1, 2, 3, 4])).map
        (fun r => (r.images, r.exception)) = some ([[[⟨1, 2, 3, 4⟩]]], []) ∧
    (decode (fullConfig 1 1 4 8 .LineInterlaced .MSBEndian) (mainOnly [5, 6, 7, 8])).map
        (fun r => (r.images, r.exception)) = some ([[[⟨5, 6, 7, 8⟩]]], []) ∧
    (decode (fullConfig 1 1 4 8 .Interleaved .MSBEndian)
        (mainOnly [1, 2, 3, 4, 5, 6, 7, 8])).map (fun r => (r.images, r.exception)) =
      some ([[[⟨1, 2, 3, 251⟩]], [[⟨5, 6, 7, 0⟩]]], []) ∧
    (decode (fullConfig 1 1 4 8 .Interleaved .MSBEndian) (mainOnly [5, 6, 7, 8])).map
        (fun r => (r.images, r.exception)) = some ([[[⟨5, 6, 7, 247⟩]]], []) ∧
    (decode (fullConfig 1 1 3 8 .LineInterlaced .MSBEndian) (mainOnly [1, 2, 3, 4, 5, 6])).map
        (fun r => (r.images, r.exception)) = some ([[[⟨1, 2, 3, 0⟩]], [[⟨4, 5, 6, 0⟩]]], []) := by
  refine ⟨?_, ?_, ?_, ?_, ?_, ?_⟩ <;> decide

/-- Multi-frame decode of the streams whose later images need no alpha flag.
For each of Interleaved, LineInterlaced and PlaneInterlaced, a crop rectangle
that is not empty and not wider than the canvas, a decode of every scene
(default unbounded scene count, not in ping mode) and every stream that is the
concatenation of N >= 1 complete frames and nothing else, without alpha
channel or with N = 1: decode succeeds without an exception, consumes the
whole stream and returns exactly N frames, the i-th of which is the single
frame that the decode of the i-th frame's byte slice on its own returns. -/
theorem multi_frame_decode (cfg : StreamConfig) (source : BlobName → Option (List Nat))
    (D : List Nat) (N : Nat) (hl : cfg.layout ≠ .Partitioned) (hping : cfg.ping = false)
    (hcount : cfg.sceneCount = none) (hW : 1 ≤ cfg.width) (hH : 1 ≤ cfg.height)
    (hcw : 1 ≤ cfg.cropRect.width) (_hwide : cfg.cropRect.width ≤ cfg.width)
    (hch : 1 ≤ cfg.cropRect.height) (hN : 1 ≤ N) (hmatte : cfg.channelCount ≠ 4 ∨ N = 1)
    (hlen : D.length = N * frameLength (AcquireImage cfg)) (hsrc : source .main = some D) :
    ∃ frames,
      decode cfg source =
          some { images := frames, exception := [], opens := [BlobName.main], nread := D.length } ∧
        frames.length = N ∧
        ∀ i, i < N →
          decode cfg
              (mainOnly ((D.drop (i * frameLength (AcquireImage cfg))).take
                (frameLength (AcquireImage cfg)))) =
            some
              { images := [frames.getD i []]
                exception := []
                opens := [BlobName.main]
                nread := frameLength (AcquireImage cfg) } := by
  refine ⟨_,
    decode_complete_frames cfg source D N hl hping hcount hW hH hcw hch hN hmatte hlen hsrc,
    scenesImages_length _ _ _ _, ?_⟩
  intro i hi
  have hsl := slice_length D N (frameLength (AcquireImage cfg)) i hlen hi
  rw [decode_complete_frames cfg _ _ 1 hl hping hcount hW hH hcw hch (Nat.le_refl 1)
    (Or.inr rfl) (by rw [hsl, Nat.one_mul]) rfl, hsl]
  rw [scenesImages_slice (AcquireImage cfg) N D (initialState (AcquireImage cfg))
    (initialState (AcquireImage cfg)) rfl rfl rfl i hi]
  rfl

theorem multi_frame_decode_witness :
    ∃ frames,
      decode (fullConfig 1 2 3 8 .PlaneInterlaced .MSBEndian)
          (mainOnly [1, 2, 3, 4, 5, 6, 7, 8, 9, 10, 11, 12]) =
          some { images := frames, exception := [], opens := [BlobName.main], nread := 12 } ∧
        frames.length = 2 ∧
        ∀ i, i < 2 →
          decode (fullConfig 1 2 3 8 .PlaneInterlaced .MSBEndian)
              (mainOnly ((List.drop (i * 6) [1, 2, 3, 4, 5, 6, 7, 8, 9, 10, 11, 12]).take 6)) =
            some
              { images := [frames.getD i []]
                exception := []
                opens := [BlobName.main]
                nread := 6 } :=
  multi_frame_decode (fullConfig 1 2 3 8 .PlaneInterlaced .MSBEndian)
    (mainOnly [1, 2, 3, 4, 5, 6, 7, 8, 9, 10, 11, 12]) [1, 2, 3, 4, 5, 6, 7, 8, 9, 10, 11, 12] 2
    (by decide) rfl rfl (by decide) (by decide) (by decide) (by decide) (by decide) (by decide)
    (Or.inl (by decide)) (by decide) rfl

/-- C13 (failing input): the stream 1 2 3 4 5 6 7 8 holds two complete frames
of a 1x1 canvas with four 8-bit channels; sceneOffset = 0 and sceneCount = 2.
In the LineInterlaced layout decode returns two frames, but the second one is
(5, 6, 7) with the opacity 0 of a pixel nobody has written, and not frame 1 of
the stream, whose bytes 5 6 7 8 decode on their own to opacity 8: the second
image is read without its alpha chunk.  In the PlaneInterlaced layout the
alpha plane of the second image is not read either, and its opacity stays 0
where its own bytes decode to opacity 247.  Without alpha channel the same
request returns the two frames of the stream 1 2 3 4 5 6. -/
theorem bounded_scene_count_failing_input :
    (decode
        { width := 1, height := 1, channelCount := 4, sampleBits := 8
          layout := .LineInterlaced, cropRect := fullCanvas 1 1, sceneOffset := 0
          sceneCount := some 2, endian := .MSBEndian, ping := false }
        (mainOnly [1, 2, 3, 4, 5, 6, 7, 8])).map (fun r => (r.images, r.exception)) =
      some ([[[⟨1, 2, 3, 4⟩]], [[⟨5, 6, 7, 0⟩]]], []) ∧
    (decode (fullConfig 1 1 4 8 .LineInterlaced .MSBEndian) (mainOnly [5, 6, 7, 8])).map
        (fun r => (r.images, r.exception)) = some ([[[⟨5, 6, 7, 8⟩]]], []) ∧
    (decode
        { width := 1, height := 1, channelCount := 4, sampleBits := 8
          layout := .PlaneInterlaced, cropRect := fullCanvas 1 1, sceneOffset := 0
          sceneCount := some 2, endian := .MSBEndian, ping := false }
        (mainOnly [1, 2, 3, 4, 5, 6, 7, 8])).map (fun r => (r.images, r.exception)) =
      some ([[[⟨1, 2, 3, 251⟩]], [[⟨5, 6, 7, 0⟩]]], []) ∧
    (decode (fullConfig 1 1 4 8 .PlaneInterlaced .MSBEndian) (mainOnly [5, 6, 7, 8])).map
        (fun r => (r.images, r.exception)) = some ([[[⟨5, 6, 7, 247⟩]]], []) ∧
    (decode
        { width := 1, height := 1, channelCount := 3, sampleBits := 8
          layout := .LineInterlaced, cropRect := fullCanvas 1 1, sceneOffset := 0
          sceneCount := some 2, endian := .MSBEndian, ping := false }
        (mainOnly [1, 2, 3, 4, 5, 6])).map (fun r => (r.images, r.exception)) =
      some ([[[⟨1, 2, 3, 0⟩]], [[⟨4, 5, 6, 0⟩]]], []) := by
  refine ⟨?_, ?_, ?_, ?_, ?_⟩ <;> decide

/-- Bounded scene count on the streams whose later images need no alpha flag.
For each of Interleaved, LineInterlaced and PlaneInterlaced, a decode (not in
ping mode) whose frames are as high as the canvas and not wider than it, a
stream of N complete frames, sceneOffset = k < N and a bounded sceneCount = m
>= 1, where the format has no alpha channel or min(m, N - k) = 1: decode
succeeds without an exception and returns exactly min(m, N - k) frames; the
i-th of them is frame k + i of the stream, that is the single frame which the
decode of the byte slice of frame k + i on its own, with the default scene
selection, returns.  It consumes the k skipped and the min(m, N - k) returned
frames and the one chunk it reads ahead, if the stream goes on. -/
theorem bounded_scene_count (cfg : StreamConfig) (source : BlobName → Option (List Nat))
    (D : List Nat) (N m : Nat) (hl : cfg.layout ≠ .Partitioned) (hping : cfg.ping = false)
    (hW : 1 ≤ cfg.width) (hH : 1 ≤ cfg.height) (hcw : 1 ≤ cfg.cropRect.width)
    (_hwide : cfg.cropRect.width ≤ cfg.width)
    (hch : cfg.cropRect.height = cfg.height) (hm : 1 ≤ m) (hcount : cfg.sceneCount = some m)
    (hk : cfg.sceneOffset < N)
    (hmatte : cfg.channelCount ≠ 4 ∨ min m (N - cfg.sceneOffset) = 1)
    (hlen : D.length = N * frameLength (AcquireImage cfg))
    (hsrc : source .main = some D) :
    ∃ frames,
      decode cfg source =
          some
            { images := frames
              exception := []
              opens := [BlobName.main]
              nread := (cfg.sceneOffset + min m (N - cfg.sceneOffset)) *
                  frameLength (AcquireImage cfg) +
                min (chunkLength (AcquireImage cfg))
                  ((N - cfg.sceneOffset - min m (N - cfg.sceneOffset)) *
                    frameLength (AcquireImage cfg)) } ∧
        frames.length = min m (N - cfg.sceneOffset) ∧
        ∀ i, i < min m (N - cfg.sceneOffset) →
          decode cfg.allScenes
              (mainOnly ((D.drop ((cfg.sceneOffset + i) * frameLength (AcquireImage cfg))).take
                (frameLength (AcquireImage cfg)))) =
            some
              { images := [frames.getD i []]
                exception := []
                opens := [BlobName.main]
                nread := frameLength (AcquireImage cfg) } := by
  refine ⟨_,
    decode_bounded_result cfg source D N m hl hping hW hH hcw hch hm hcount hk hmatte hlen hsrc,
    scenesImages_length _ _ _ _, ?_⟩
  intro i hi
  have hF : frameLength (AcquireImage cfg.allScenes) = frameLength (AcquireImage cfg) := rfl
  have hsl := slice_length D N (frameLength (AcquireImage cfg)) (cfg.sceneOffset + i) hlen
    (by omega)
  rw [decode_complete_frames cfg.allScenes _ _ 1 hl hping rfl hW hH hcw
    (by show 1 ≤ cfg.cropRect.height; rw [hch]; exact hH) (Nat.le_refl 1) (Or.inr rfl)
    (by rw [hsl, hF, Nat.one_mul]) rfl, hsl]
  rw [scenesImages_slice (AcquireImage cfg) _ _ (initialState (AcquireImage cfg))
    (initialState (AcquireImage cfg)) rfl rfl rfl i hi, List.drop_drop, Nat.add_mul]
  have hc := scenesImages_congr (AcquireImage cfg.allScenes) (AcquireImage cfg)
    ⟨rfl, rfl, rfl, rfl, rfl, rfl, rfl⟩ 1
    ((D.drop (cfg.sceneOffset * frameLength (AcquireImage cfg) +
      i * frameLength (AcquireImage cfg))).take (frameLength (AcquireImage cfg)))
    (initialState (AcquireImage cfg.allScenes)) (initialState (AcquireImage cfg)) rfl rfl
  rw [hc]
  rfl

theorem bounded_scene_count_witness :
    ∃ frames,
      decode
          { width := 1, height := 1, channelCount := 3, sampleBits := 8
            layout := .LineInterlaced, cropRect := fullCanvas 1 1, sceneOffset := 1
            sceneCount := some 2, endian := .MSBEndian, ping := false }
          (mainOnly [1, 2, 3, 4, 5, 6, 7, 8, 9, 10, 11, 12]) =
          some { images := frames, exception := [], opens := [BlobName.main], nread := 10 } ∧
        frames.length = 2 ∧
        ∀ i, i < 2 →
          decode (fullConfig 1 1 3 8 .LineInterlaced .MSBEndian)
              (mainOnly ((List.drop ((1 + i) * 3) [1, 2, 3, 4, 5, 6, 7, 8, 9, 10, 11, 12]).take
                3)) =
            some
              { images := [frames.getD i []]
                exception := []
                opens := [BlobName.main]
                nread := 3 } :=
  bounded_scene_count
    { width := 1, height := 1, channelCount := 3, sampleBits := 8
      layout := .LineInterlaced, cropRect := fullCanvas 1 1, sceneOffset := 1
      sceneCount := some 2, endian := .MSBEndian, ping := false }
    (mainOnly [1, 2, 3, 4, 5, 6, 7, 8, 9, 10, 11, 12]) [1, 2, 3, 4, 5, 6, 7, 8, 9, 10, 11, 12] 4 2
    (by decide) rfl (by decide) (by decide) (by decide) (by decide) rfl (by decide) rfl
    (by decide) (Or.inl (by decide)) (by decide) rfl

/-- C14 (failing input): a 2x1 canvas with four 8-bit channels in the
PlaneInterlaced layout and the 1x1 crop rectangle at (1, 0); one frame has 8
bytes.  From the 14 bytes 0 .. 13 decode returns two frames and no exception
after reading all 14 bytes: the second frame has consumed 6 bytes, its alpha
plane is not read.  From the 16 bytes 0 .. 15 of two complete frames decode
returns no frame and records UnexpectedEndOfFile.  The full canvas behaves the
same way, and without alpha channel the 12 bytes of two complete frames give
two frames. -/
theorem crop_consumes_failing_input :
    decode
        { width := 2, height := 1, channelCount := 4, sampleBits := 8
          layout := .PlaneInterlaced, cropRect := { x0 := 1, y0 := 0, width := 1, height := 1 }
          sceneOffset := 0, sceneCount := none, endian := .MSBEndian, ping := false }
        (mainOnly (List.range 14)) =
      some
        { images := [[[⟨1, 3, 5, 248⟩]], [[⟨9, 11, 13, 0⟩]]]
          exception := []
          opens := [BlobName.main]
          nread := 14 } ∧
    (decode
        { width := 2, height := 1, channelCount := 4, sampleBits := 8
          layout := .PlaneInterlaced, cropRect := { x0 := 1, y0 := 0, width := 1, height := 1 }
          sceneOffset := 0, sceneCount := none, endian := .MSBEndian, ping := false }
        (mainOnly (List.range 16))).map (fun r => (r.images, r.nread)) = some ([], 16) ∧
    (decode (fullConfig 2 1 4 8 .PlaneInterlaced .MSBEndian) (mainOnly (List.range 14))).map
        (fun r => (r.images.length, r.exception, r.nread)) = some (2, [], 14) ∧
    (decode
        { width := 2, height := 1, channelCount := 3, sampleBits := 8
          layout := .PlaneInterlaced, cropRect := { x0 := 1, y0 := 0, width := 1, height := 1 }
          sceneOffset := 0, sceneCount := none, endian := .MSBEndian, ping := false }
        (mainOnly (List.range 12))).map (fun r => (r.images.length, r.exception, r.nread)) =
      some (2, [], 12) := by
  refine ⟨?_, ?_, ?_, ?_⟩ <;> decide

/-- Rows outside the crop window still consume their bytes.  For every layout,
every non-empty crop rectangle (x0, y0, w, h) contained in the canvas and a
decode that skips no scene, on every byte source: decode with the crop
rectangle consumes the same number of bytes as decode with the full canvas
(and opens the same streams and records the same exceptions), and it returns
the same number of frames, each the sub-rectangle of the corresponding
full-canvas frame.  A source that holds one stored frame (in the single stream
or in every channel file) has exactly height x width x channelCount x
sampleBits/8 bytes consumed, whatever the crop rectangle; a single stream of N
complete frames, without alpha channel or with N = 1, has N times as many
consumed, and N frames are returned. -/
theorem crop_consumes_full_rows (cfg : StreamConfig) (source : BlobName → Option (List Nat))
    (hinv : cfg.cropInCanvas) (hw : 1 ≤ cfg.cropRect.width) (hh : 1 ≤ cfg.cropRect.height)
    (hscene : cfg.sceneCount = none ∨ cfg.sceneOffset = 0) :
    (decode cfg source).map (fun r => (r.nread, r.opens, r.exception)) =
        (decode cfg.uncropped source).map (fun r => (r.nread, r.opens, r.exception)) ∧
      (decode cfg source).map (fun r => r.images) =
        (decode cfg.uncropped source).map (fun r =>
          r.images.map (cropImage cfg.cropRect.x0.toNat cfg.cropRect.y0.toNat cfg.cropRect.width
            cfg.cropRect.height)) ∧
      (cfg.ping = false → cfg.channelCount = 3 ∨ cfg.channelCount = 4 →
        cfg.sampleBits = 8 ∨ cfg.sampleBits = 16 → oneFrameSource cfg source →
        ∃ f,
          decode cfg.uncropped source =
              some
                { images := [f], exception := [], opens := streamNames cfg
                  nread := cfg.height * cfg.width * cfg.channelCount * (cfg.sampleBits / 8) } ∧
            decode cfg source =
              some
                { images := [cropImage cfg.cropRect.x0.toNat cfg.cropRect.y0.toNat
                    cfg.cropRect.width cfg.cropRect.height f]
                  exception := []
                  opens := streamNames cfg
                  nread := cfg.height * cfg.width * cfg.channelCount * (cfg.sampleBits / 8) }) ∧
      ∀ (D : List Nat) (N : Nat), cfg.layout ≠ .Partitioned → cfg.ping = false →
        cfg.sceneCount = none → cfg.channelCount = 3 ∨ cfg.channelCount = 4 →
        cfg.sampleBits = 8 ∨ cfg.sampleBits = 16 → 1 ≤ N → cfg.channelCount ≠ 4 ∨ N = 1 →
        D.length = N * (cfg.height * cfg.width * cfg.channelCount * (cfg.sampleBits / 8)) →
        source .main = some D →
        ∃ full,
          decode cfg.uncropped source =
              some
                { images := full, exception := [], opens := [BlobName.main]
                  nread :=
                    N * (cfg.height * cfg.width * cfg.channelCount * (cfg.sampleBits / 8)) } ∧
            full.length = N ∧
            decode cfg source =
              some
                { images := full.map (cropImage cfg.cropRect.x0.toNat cfg.cropRect.y0.toNat
                    cfg.cropRect.width cfg.cropRect.height)
                  exception := []
                  opens := [BlobName.main]
                  nread :=
                    N * (cfg.height * cfg.width * cfg.channelCount * (cfg.sampleBits / 8)) } := by
  have hg := CropOf_uncropped cfg hinv
  have hW : 1 ≤ cfg.width := by have := hinv.1; have := hinv.2.1; omega
  have hH : 1 ≤ cfg.height := by have := hinv.2.2.1; have := hinv.2.2.2; omega
  have hsc : (AcquireImage cfg.uncropped).number_scenes = 0 ∨
      (AcquireImage cfg.uncropped).scene = 0 := by
    rcases hscene with h | h
    · left; show cfg.sceneCount.getD 0 = 0; rw [h]; rfl
    · right; exact h
  have hmain : decode cfg source =
      (decode cfg.uncropped source).map
        (cropResult cfg.cropRect.x0.toNat cfg.cropRect.y0.toNat cfg.cropRect.width
          cfg.cropRect.height) := by
    unfold decode
    rw [AcquireImage_cropInfo cfg hinv.1 hinv.2.2.1]
    exact ReadYCBCRImage_crop _ _ _ _ _ hg hw hh hsc source
  refine ⟨?_, ?_, ?_, ?_⟩
  · rw [hmain, Option.map_map]
    rfl
  · rw [hmain, Option.map_map]
    rfl
  · intro hping hC hbits hsrc
    obtain ⟨f, hf⟩ := decode_one_frame_result cfg source hW hH hping hscene hsrc
    rw [frameLength_config cfg hC hbits] at hf
    refine ⟨f, hf, ?_⟩
    rw [hmain, hf]
    rfl
  · intro D N hl hping hcount hC hbits hN hmatte hlen hsrc
    have hF : frameLength (AcquireImage cfg.uncropped) =
        cfg.height * cfg.width * cfg.channelCount * (cfg.sampleBits / 8) :=
      frameLength_config cfg hC hbits
    have h := decode_complete_frames cfg.uncropped source D N hl hping hcount hW hH hW hH hN
      hmatte (by rw [hF]; exact hlen) hsrc
    rw [hlen] at h
    refine ⟨_, h, scenesImages_length _ _ _ _, ?_⟩
    rw [hmain, h]
    rfl

theorem crop_consumes_full_rows_witness :
    StreamConfig.cropInCanvas
        { width := 2, height := 2, channelCount := 3, sampleBits := 8, layout := .LineInterlaced
          cropRect := { x0 := 1, y0 := 1, width := 1, height := 1 }, sceneOffset := 0
          sceneCount := none, endian := .MSBEndian, ping := false } ∧
      ∃ full,
        decode (fullConfig 2 2 3 8 .LineInterlaced .MSBEndian)
            (mainOnly (List.range 24)) =
            some
              { images := full, exception := [], opens := [BlobName.main]
                nread := 2 * (2 * 2 * 3 * (8 / 8)) } ∧
          full.length = 2 ∧
          decode
              { width := 2, height := 2, channelCount := 3, sampleBits := 8
                layout := .LineInterlaced
                cropRect := { x0 := 1, y0 := 1, width := 1, height := 1 }, sceneOffset := 0
                sceneCount := none, endian := .MSBEndian, ping := false }
              (mainOnly (List.range 24)) =
            some
              { images := full.map (cropImage 1 1 1 1)
                exception := []
                opens := [BlobName.main]
                nread := 2 * (2 * 2 * 3 * (8 / 8)) } :=
  ⟨by decide,
    (crop_consumes_full_rows
      { width := 2, height := 2, channelCount := 3, sampleBits := 8, layout := .LineInterlaced
        cropRect := { x0 := 1, y0 := 1, width := 1, height := 1 }, sceneOffset := 0
        sceneCount := none, endian := .MSBEndian, ping := false }
      (mainOnly (List.range 24)) (by decide) (by decide) (by decide) (Or.inl rfl)).2.2.2
      (List.range 24) 2 (by decide) rfl rfl (Or.inl rfl) (Or.inl rfl) (by decide)
      (Or.inl (by decide)) (by decide) rfl⟩

/-- C15 (as stated, refuted).  With the default unbounded scene count the skip
phase consumes nothing although sceneOffset = 1: the two-frame stream of a 1x1
canvas is decoded from its first byte on, and both frames are returned.  (And
with a bounded scene count and a crop rectangle of one row of a canvas of two
rows, the skip phase consumes 3 bytes of the 6 bytes of the first scene.) -/
theorem scene_skip_bytes_counterexample :
    (skipPhase
        (AcquireImage
          { width := 1, height := 1, channelCount := 3, sampleBits := 8, layout := .Interleaved
            cropRect := fullCanvas 1 1, sceneOffset := 1, sceneCount := none
            endian := .MSBEndian, ping := false })
        (OpenBlob (mainOnly [1, 2, 3, 4, 5, 6]) .main
          (initialState
            (AcquireImage
              { width := 1, height := 1, channelCount := 3, sampleBits := 8
                layout := .Interleaved, cropRect := fullCanvas 1 1, sceneOffset := 1
                sceneCount := none, endian := .MSBEndian, ping := false })))).nread = 0 ∧
      decode
          { width := 1, height := 1, channelCount := 3, sampleBits := 8, layout := .Interleaved
            cropRect := fullCanvas 1 1, sceneOffset := 1, sceneCount := none
            endian := .MSBEndian, ping := false }
          (mainOnly [1, 2, 3, 4, 5, 6]) =
        some
          { images := [[[⟨1, 2, 3, 0⟩]], [[⟨4, 5, 6, 0⟩]]]
            exception := []
            opens := [BlobName.main]
            nread := 6 } ∧
      (skipPhase
        (AcquireImage
          { width := 1, height := 2, channelCount := 3, sampleBits := 8, layout := .Interleaved
            cropRect := { x0 := 0, y0 := 0, width := 1, height := 1 }, sceneOffset := 1
            sceneCount := some 1, endian := .MSBEndian, ping := false })
        (OpenBlob (mainOnly [1, 2, 3, 4, 5, 6, 7, 8, 9, 10, 11, 12]) .main
          (initialState
            (AcquireImage
              { width := 1, height := 2, channelCount := 3, sampleBits := 8
                layout := .Interleaved
                cropRect := { x0 := 0, y0 := 0, width := 1, height := 1 }, sceneOffset := 1
                sceneCount := some 1, endian := .MSBEndian, ping := false })))).nread = 3 := by
  refine ⟨?_, ?_, ?_⟩ <;> decide

/-- C15 (amended): Scene skip discards whole frames when the scene count is
bounded and the frame is as high as the canvas.  For each of Interleaved,
LineInterlaced and PlaneInterlaced, a bounded sceneCount = m >= 1, sceneOffset
= k, a non-empty crop rectangle as high as the canvas (it may be narrower than
the canvas) and a stream that holds at least k scenes: the scene loop of decode
starts in the state the skip phase leaves, and the skip phase has consumed
exactly k times the full per-scene byte length height x width x channelCount
x sampleBits/8 of the stream, which stands at the first byte of scene k. -/
theorem scene_skip_consumes (cfg : StreamConfig) (source : BlobName → Option (List Nat))
    (D : List Nat) (m : Nat) (hl : cfg.layout ≠ .Partitioned)
    (hC : cfg.channelCount = 3 ∨ cfg.channelCount = 4)
    (hbits : cfg.sampleBits = 8 ∨ cfg.sampleBits = 16) (hcw : 1 ≤ cfg.cropRect.width)
    (hch : cfg.cropRect.height = cfg.height) (hH : 1 ≤ cfg.height) (hm : 1 ≤ m)
    (hcount : cfg.sceneCount = some m) (hsrc : source .main = some D)
    (hD : cfg.sceneOffset * (cfg.height * cfg.width * cfg.channelCount * (cfg.sampleBits / 8)) ≤
      D.length) :
    decode cfg source =
        ReadScenes (AcquireImage cfg) source (sceneFuel source) [] cfg.sceneOffset 0
          { skipPhase (AcquireImage cfg) (OpenBlob source .main (initialState (AcquireImage cfg)))
            with count := 0, length := 0, status := true, stream := [] } ∧
      (skipPhase (AcquireImage cfg)
          (OpenBlob source .main (initialState (AcquireImage cfg)))).nread =
        cfg.sceneOffset * (cfg.height * cfg.width * cfg.channelCount * (cfg.sampleBits / 8)) ∧
      (skipPhase (AcquireImage cfg)
          (OpenBlob source .main (initialState (AcquireImage cfg)))).blob =
        some (D.drop
          (cfg.sceneOffset * (cfg.height * cfg.width * cfg.channelCount * (cfg.sampleBits / 8)))) := by
  rw [← frameLength_config cfg hC hbits] at hD ⊢
  have hi := interlace_ne_partition cfg hl
  have hns : (AcquireImage cfg).number_scenes ≠ 0 := by
    show cfg.sceneCount.getD 0 ≠ 0
    rw [hcount]
    show m ≠ 0
    omega
  have hfs : firstScene (AcquireImage cfg) = cfg.sceneOffset := by
    unfold firstScene
    rw [if_pos hns]
    rfl
  have hrows := rows_extent_eq_frameLength (AcquireImage cfg) hch
  refine ⟨?_, ?_⟩
  · unfold decode
    rw [ReadYCBCRImage_open (AcquireImage cfg) source D
      (by show cfg.cropRect.width ≠ 0; omega) (by show cfg.cropRect.height ≠ 0; omega) hi rfl hsrc,
      ReadFromCanvas_skipPhase, hfs, OpenBlob_main (AcquireImage cfg) source D hsrc]
  · rw [OpenBlob_main (AcquireImage cfg) source D hsrc]
    unfold skipPhase
    rw [if_pos hns]
    obtain ⟨c, l, st, h⟩ := SkipToScene_skip (AcquireImage cfg) (AcquireImage cfg).scene
      { initialState (AcquireImage cfg) with
        blob := some D, blobSize := D.length, opens := [BlobName.main] }
      D rfl (by rw [hrows]; exact hD)
    rw [h, hrows]
    exact ⟨by simp [initialState, AcquireImage], rfl⟩

theorem scene_skip_consumes_witness :
    (skipPhase
        (AcquireImage
          { width := 2, height := 1, channelCount := 3, sampleBits := 8
            layout := .PlaneInterlaced
            cropRect := { x0 := 1, y0 := 0, width := 1, height := 1 }, sceneOffset := 1
            sceneCount := some 1, endian := .MSBEndian, ping := false })
        (OpenBlob (mainOnly [1, 2, 3, 4, 5, 6, 7, 8, 9, 10, 11, 12]) .main
          (initialState
            (AcquireImage
              { width := 2, height := 1, channelCount := 3, sampleBits := 8
                layout := .PlaneInterlaced
                cropRect := { x0 := 1, y0 := 0, width := 1, height := 1 }, sceneOffset := 1
                sceneCount := some 1, endian := .MSBEndian, ping := false })))).nread =
      1 * (1 * 2 * 3 * (8 / 8)) :=
  (scene_skip_consumes
    { width := 2, height := 1, channelCount := 3, sampleBits := 8, layout := .PlaneInterlaced
      cropRect := { x0 := 1, y0 := 0, width := 1, height := 1 }, sceneOffset := 1
      sceneCount := some 1, endian := .MSBEndian, ping := false }
    (mainOnly [1, 2, 3, 4, 5, 6, 7, 8, 9, 10, 11, 12]) [1, 2, 3, 4, 5, 6, 7, 8, 9, 10, 11, 12] 1
    (by decide) (Or.inl rfl) (Or.inl rfl) (by decide) rfl (by decide) (by decide) rfl rfl
    (by decide)).2.1

/-- C16 (failing input): Partitioned decode of a 1x1 canvas with sceneOffset =
1 and sceneCount = 1 from channel files that hold two scenes each (Y = 10, 20;
Cb = 11, 21; Cr = 12, 22) returns scene 0, the pixel (10, 11, 12), and not
scene 1: no channel file has a scene discarded before the composited bytes.
The same scenes stored in one PlaneInterlaced stream decode to scene 1, the
pixel (20, 21, 22). -/
theorem partition_scene_skip_failing_input :
    decode
        { width := 1, height := 1, channelCount := 3, sampleBits := 8, layout := .Partitioned
          cropRect := fullCanvas 1 1, sceneOffset := 1, sceneCount := some 1
          endian := .MSBEndian, ping := false }
        (fun name =>
          match name with
          | .Y => some [10, 20]
          | .Cb => some [11, 21]
          | .Cr => some [12, 22]
          | _ => none) =
      some
        { images := [[[⟨10, 11, 12, 0⟩]]]
          exception := []
          opens := [BlobName.Y, BlobName.Cb, BlobName.Cr]
          nread := 6 } ∧
    decode
        { width := 1, height := 1, channelCount := 3, sampleBits := 8
          layout := .PlaneInterlaced, cropRect := fullCanvas 1 1, sceneOffset := 1
          sceneCount := some 1, endian := .MSBEndian, ping := false }
        (mainOnly [10, 11, 12, 20, 21, 22]) =
      some
        { images := [[[⟨20, 21, 22, 0⟩]]]
          exception := []
          opens := [BlobName.main]
          nread := 6 } := by
  constructor <;> decide

/-- C17 (as stated, refuted).  In ping mode with the default unbounded scene
count decode reads the whole 1x1 frame like a normal decode; with sceneCount =
2 it reads the first of the two scenes; and with sceneOffset = 1 and
sceneCount = 1 it reads the scene it skips. -/
theorem ping_counterexample :
    decode
        { width := 1, height := 1, channelCount := 3, sampleBits := 8, layout := .Interleaved
          cropRect := fullCanvas 1 1, sceneOffset := 0, sceneCount := none
          endian := .MSBEndian, ping := true }
        (mainOnly [1, 2, 3]) =
      some
        { images := [[[⟨1, 2, 3, 0⟩]]], exception := [], opens := [BlobName.main], nread := 3 } ∧
    decode
        { width := 1, height := 1, channelCount := 3, sampleBits := 8, layout := .Interleaved
          cropRect := fullCanvas 1 1, sceneOffset := 0, sceneCount := some 2
          endian := .MSBEndian, ping := true }
        (mainOnly [1, 2, 3, 4, 5, 6]) =
      some
        { images := [[[⟨1, 2, 3, 0⟩]], [[⟨0, 0, 0, 0⟩]]]
          exception := []
          opens := [BlobName.main]
          nread := 6 } ∧
    decode
        { width := 1, height := 1, channelCount := 3, sampleBits := 8, layout := .Interleaved
          cropRect := fullCanvas 1 1, sceneOffset := 1, sceneCount := some 1
          endian := .MSBEndian, ping := true }
        (mainOnly [1, 2, 3, 4, 5, 6]) =
      some
        { images := [[[⟨0, 0, 0, 0⟩]]], exception := [], opens := [BlobName.main], nread := 3 } := by
  refine ⟨?_, ?_, ?_⟩ <;> decide

/-- C17 (amended): Ping mode reads no pixel data when exactly the first scene
is requested.  For every configuration in ping mode with sceneCount = 1,
sceneOffset = 0 and a frame of non-zero width and height, whose stream can be
opened (the Partitioned layout opens none), decode terminates successfully
without reading a single byte: it returns one blank frame of the requested
size and no exception. -/
theorem ping_reads_nothing (cfg : StreamConfig) (source : BlobName → Option (List Nat))
    (hping : cfg.ping = true) (hcount : cfg.sceneCount = some 1) (hoff : cfg.sceneOffset = 0)
    (hcw : 1 ≤ cfg.cropRect.width) (hch : 1 ≤ cfg.cropRect.height)
    (hsrc : cfg.layout ≠ .Partitioned → ∃ D, source .main = some D) :
    decode cfg source =
      some
        { images := [blankImage cfg.cropRect.width cfg.cropRect.height]
          exception := []
          opens := if cfg.layout = .Partitioned then [] else [BlobName.main]
          nread := 0 } := by
  have hns : (AcquireImage cfg).number_scenes = 1 := by
    show cfg.sceneCount.getD 0 = 1
    rw [hcount]; rfl
  have hsc : (AcquireImage cfg).scene = 0 := hoff
  have hlast : lastScene (AcquireImage cfg) (firstScene (AcquireImage cfg)) = true := by
    unfold lastScene firstScene
    rw [hns, hsc]
    decide
  have hskip : ∀ s, skipPhase (AcquireImage cfg) s = s := by
    intro s
    unfold skipPhase
    rw [hsc]
    split <;> rfl
  obtain ⟨fuel, hfuel⟩ : ∃ f, sceneFuel source = f + 1 := ⟨_, rfl⟩
  have hloop : ∀ s : ReadState, s.status = true →
      ReadFromCanvas (AcquireImage cfg) source s =
        some (finishRead [] { s with count := 0, length := 0, status := true, stream := [] }) := by
    intro s _
    rw [ReadFromCanvas_skipPhase, hskip, hfuel, ReadScenes]
    have hp : (AcquireImage cfg).ping = true := hping
    simp only [hp, hlast, and_self, if_true]
  unfold decode
  by_cases hl : cfg.layout = .Partitioned
  · have hi : (AcquireImage cfg).interlace = .PartitionInterlace := by
      show cfg.layout.interlace = _
      rw [hl]; rfl
    unfold ReadYCBCRImage
    rw [if_neg (by
      show ¬ (cfg.cropRect.width = 0 ∨ cfg.cropRect.height = 0)
      omega), if_neg (by simp [hi]), hloop _ rfl, if_pos hl]
    rfl
  · obtain ⟨D, hD⟩ := hsrc hl
    rw [ReadYCBCRImage_open (AcquireImage cfg) source D
      (by show cfg.cropRect.width ≠ 0; omega) (by show cfg.cropRect.height ≠ 0; omega)
      (interlace_ne_partition cfg hl) rfl hD, hloop _ rfl, if_neg hl]
    rfl

theorem ping_reads_nothing_witness :
    decode
        { width := 2, height := 2, channelCount := 4, sampleBits := 16
          layout := .LineInterlaced, cropRect := fullCanvas 2 2, sceneOffset := 0
          sceneCount := some 1, endian := .LSBEndian, ping := true }
        (mainOnly [1, 2, 3, 4, 5, 6]) =
      some
        { images := [blankImage 2 2]
          exception := []
          opens := [BlobName.main]
          nread := 0 } :=
  ping_reads_nothing
    { width := 2, height := 2, channelCount := 4, sampleBits := 16
      layout := .LineInterlaced, cropRect := fullCanvas 2 2, sceneOffset := 0
      sceneCount := some 1, endian := .LSBEndian, ping := true }
    (mainOnly [1, 2, 3, 4, 5, 6]) rfl rfl rfl (by decide) (by decide)
    (fun _ => ⟨[1, 2, 3, 4, 5, 6], rfl⟩)

/-- C18: LineInterlaced encoding order.  With 8-bit samples and C channels the
encoder emits exactly W*H*C bytes for one W x H frame, and the byte at index
r*W*C + k*W + c is channel k (Y, Cb, Cr, alpha) of pixel (r, c): the rows
follow each other and inside a row the channels. -/
theorem line_encoding_order (W H C : Nat) (e : EndianType) (f : List (List PixelPacket))
    (hC : C = 3 ∨ C = 4) (hf : validFrame3 8 W H f) :
    ((encode (fullConfig W H C 8 .LineInterlaced e) [f]).files .main).length = W * H * C ∧
      ∀ r c k, r < H → c < W → k < C →
        ((encode (fullConfig W H C 8 .LineInterlaced e) [f]).files .main).getD
            (r * W * C + k * W + c) 0 =
          channelSample 8 k (pixelAt f r c) :=
  line_layout W H C e f hC hf

theorem line_encoding_order_witness :
    (3 = 3 ∨ 3 = 4) ∧
      validFrame3 8 4 2
        [[⟨0, 1, 2, 0⟩, ⟨10, 11, 12, 0⟩, ⟨20, 21, 22, 0⟩, ⟨30, 31, 32, 0⟩],
         [⟨40, 41, 42, 0⟩, ⟨50, 51, 52, 0⟩, ⟨60, 61, 62, 0⟩, ⟨70, 71, 72, 0⟩]] ∧
      ((encode (fullConfig 4 2 3 8 .LineInterlaced .MSBEndian)
        [[[⟨0, 1, 2, 0⟩, ⟨10, 11, 12, 0⟩, ⟨20, 21, 22, 0⟩, ⟨30, 31, 32, 0⟩],
          [⟨40, 41, 42, 0⟩, ⟨50, 51, 52, 0⟩, ⟨60, 61, 62, 0⟩, ⟨70, 71, 72, 0⟩]]]).files
          .main).length = 4 * 2 * 3 ∧
      ((encode (fullConfig 4 2 3 8 .LineInterlaced .MSBEndian)
        [[[⟨0, 1, 2, 0⟩, ⟨10, 11, 12, 0⟩, ⟨20, 21, 22, 0⟩, ⟨30, 31, 32, 0⟩],
          [⟨40, 41, 42, 0⟩, ⟨50, 51, 52, 0⟩, ⟨60, 61, 62, 0⟩, ⟨70, 71, 72, 0⟩]]]).files
          .main).getD (1 * 4 * 3 + 1 * 4 + 2) 0 =
        channelSample 8 1 (pixelAt
          [[⟨0, 1, 2, 0⟩, ⟨10, 11, 12, 0⟩, ⟨20, 21, 22, 0⟩, ⟨30, 31, 32, 0⟩],
           [⟨40, 41, 42, 0⟩, ⟨50, 51, 52, 0⟩, ⟨60, 61, 62, 0⟩, ⟨70, 71, 72, 0⟩]] 1 2) :=
  ⟨Or.inl rfl, by simp [validFrame3, QuantumRange],
    (line_encoding_order 4 2 3 .MSBEndian _ (Or.inl rfl)
      (by simp [validFrame3, QuantumRange])).1,
    (line_encoding_order 4 2 3 .MSBEndian _ (Or.inl rfl)
      (by simp [validFrame3, QuantumRange])).2 1 2 1 (by decide) (by decide) (by decide)⟩

/-- C19: PlaneInterlaced encoding order.  With 8-bit samples and C channels the
encoder emits exactly W*H*C bytes for one W x H frame, and the byte at index
k*W*H + r*W + c is channel k (Y, Cb, Cr, alpha) of pixel (r, c): all rows of
channel 0, then all rows of channel 1, and so on. -/
theorem plane_encoding_order (W H C : Nat) (e : EndianType) (f : List (List PixelPacket))
    (hC : C = 3 ∨ C = 4) (hf : validFrame3 8 W H f) :
    ((encode (fullConfig W H C 8 .PlaneInterlaced e) [f]).files .main).length = W * H * C ∧
      ∀ r c k, r < H → c < W → k < C →
        ((encode (fullConfig W H C 8 .PlaneInterlaced e) [f]).files .main).getD
            (k * W * H + r * W + c) 0 =
          channelSample 8 k (pixelAt f r c) :=
  plane_layout W H C e f hC hf

theorem plane_encoding_order_witness :
    (4 = 3 ∨ 4 = 4) ∧
      validFrame3 8 2 2
        [[⟨0, 1, 2, 3⟩, ⟨10, 11, 12, 13⟩], [⟨40, 41, 42, 43⟩, ⟨50, 51, 52, 53⟩]] ∧
      ((encode (fullConfig 2 2 4 8 .PlaneInterlaced .MSBEndian)
        [[[⟨0, 1, 2, 3⟩, ⟨10, 11, 12, 13⟩], [⟨40, 41, 42, 43⟩, ⟨50, 51, 52, 53⟩]]]).files
          .main).length = 2 * 2 * 4 ∧
      ((encode (fullConfig 2 2 4 8 .PlaneInterlaced .MSBEndian)
        [[[⟨0, 1, 2, 3⟩, ⟨10, 11, 12, 13⟩], [⟨40, 41, 42, 43⟩, ⟨50, 51, 52, 53⟩]]]).files
          .main).getD (3 * 2 * 2 + 1 * 2 + 0) 0 =
        channelSample 8 3 (pixelAt
          [[⟨0, 1, 2, 3⟩, ⟨10, 11, 12, 13⟩], [⟨40, 41, 42, 43⟩, ⟨50, 51, 52, 53⟩]] 1 0) :=
  ⟨Or.inr rfl, by simp [validFrame3, QuantumRange],
    (plane_encoding_order 2 2 4 .MSBEndian _ (Or.inr rfl)
      (by simp [validFrame3, QuantumRange])).1,
    (plane_encoding_order 2 2 4 .MSBEndian _ (Or.inr rfl)
      (by simp [validFrame3, QuantumRange])).2 1 0 3 (by decide) (by decide) (by decide)⟩

/-- C20: Partitioned is PlaneInterlaced split by channel.  For a single frame
`f` the Partitioned encoder opens (for writing, not appending) the streams Y,
Cb, Cr, and A exactly when channelCount = 4, in that order, and nothing else.
It writes to each stream the plane of its channel and nothing else: the rows
of `f` in order, each row exported as the samples of that channel (Y holds the
first channel, Cb the second, Cr the third, A the alpha samples; without alpha
the stream A stays empty, and the main stream stays empty).  The
PlaneInterlaced encoding of `f` is these planes one after the other, so the
contents of Y, Cb, Cr and A put one after the other are the PlaneInterlaced
encoding of the same frame.  With 8-bit samples and a frame of W x H pixels
the stream of channel k has W*H bytes and its byte at index r*W + c is channel
k of pixel (r, c). -/
theorem partitioned_splits_plane (cfg : StreamConfig) (hl : cfg.layout = .Partitioned)
    (f : List (List PixelPacket)) :
    (encode cfg [f]).opens =
        [(BlobName.Y, false), (BlobName.Cb, false), (BlobName.Cr, false)] ++
          (if cfg.channelCount = 4 then [(BlobName.A, false)] else []) ∧
      (encode cfg [f]).files .Y =
        f.flatMap (ExportQuantumPixels (AcquireImage cfg) .RedQuantum) ∧
      (encode cfg [f]).files .Cb =
        f.flatMap (ExportQuantumPixels (AcquireImage cfg) .GreenQuantum) ∧
      (encode cfg [f]).files .Cr =
        f.flatMap (ExportQuantumPixels (AcquireImage cfg) .BlueQuantum) ∧
      (encode cfg [f]).files .A =
        (if cfg.channelCount = 4 then
          f.flatMap (ExportQuantumPixels (AcquireImage cfg) .AlphaQuantum)
        else []) ∧
      (encode cfg [f]).files .main = [] ∧
      (encode { cfg with layout := .PlaneInterlaced } [f]).files .main =
        f.flatMap (ExportQuantumPixels (AcquireImage cfg) .RedQuantum) ++
          (f.flatMap (ExportQuantumPixels (AcquireImage cfg) .GreenQuantum) ++
            (f.flatMap (ExportQuantumPixels (AcquireImage cfg) .BlueQuantum) ++
              (if cfg.channelCount = 4 then
                f.flatMap (ExportQuantumPixels (AcquireImage cfg) .AlphaQuantum)
              else []))) ∧
      (encode cfg [f]).files .Y ++ ((encode cfg [f]).files .Cb ++
          ((encode cfg [f]).files .Cr ++ (encode cfg [f]).files .A)) =
        (encode { cfg with layout := .PlaneInterlaced } [f]).files .main ∧
      (cfg.sampleBits = 8 → ∀ W H, validFrame3 8 W H f →
        ∀ k, k < (if cfg.channelCount = 4 then 4 else 3) →
          ((encode cfg [f]).files
              ([BlobName.Y, BlobName.Cb, BlobName.Cr, BlobName.A].getD k .main)).length =
            W * H ∧
          ∀ r c, r < H → c < W →
            ((encode cfg [f]).files
                ([BlobName.Y, BlobName.Cb, BlobName.Cr, BlobName.A].getD k .main)).getD
              (r * W + c) 0 = channelSample 8 k (pixelAt f r c)) := by
  have hq : ((AcquireImage cfg).quantum_type = QuantumType.RGBAQuantum) ↔ cfg.channelCount = 4 := by
    unfold ImageInfo.quantum_type
    by_cases hc : cfg.channelCount = 4 <;> simp [AcquireImage, hc]
  have hY : (encode cfg [f]).files .Y =
      f.flatMap (ExportQuantumPixels (AcquireImage cfg) .RedQuantum) := by
    rw [encode_files_partition cfg hl]; simp [planeOf]
  have hCb : (encode cfg [f]).files .Cb =
      f.flatMap (ExportQuantumPixels (AcquireImage cfg) .GreenQuantum) := by
    rw [encode_files_partition cfg hl]; simp [planeOf]
  have hCr : (encode cfg [f]).files .Cr =
      f.flatMap (ExportQuantumPixels (AcquireImage cfg) .BlueQuantum) := by
    rw [encode_files_partition cfg hl]; simp [planeOf]
  have hA : (encode cfg [f]).files .A =
      (if cfg.channelCount = 4 then
        f.flatMap (ExportQuantumPixels (AcquireImage cfg) .AlphaQuantum)
      else []) := by
    rw [encode_files_partition cfg hl]
    by_cases hc : cfg.channelCount = 4
    · simp [planeOf, hq.mpr hc, hc]
    · have hne : ¬ (AcquireImage cfg).quantum_type = QuantumType.RGBAQuantum :=
        fun h => hc (hq.mp h)
      simp only [List.flatMap_cons, List.flatMap_nil, List.append_nil, planeOf, if_neg hne,
        if_neg hc]
  have hcat := partition_concat cfg hl f
  refine ⟨encode_opens_partition cfg hl f, hY, hCb, hCr, hA, ?_, ?_, hcat, ?_⟩
  · rw [encode_files_partition cfg hl]
    simp [planeOf]
  · rw [← hcat, hY, hCb, hCr, hA]
  · intro hbits W H hf k hk
    have hd : (AcquireImage cfg).depth = 8 := hbits
    have hk4 : k < 4 := by split at hk <;> omega
    have hplane : (encode cfg [f]).files
        ([BlobName.Y, BlobName.Cb, BlobName.Cr, BlobName.A].getD k .main) =
        f.flatMap (ExportQuantumPixels (AcquireImage cfg) (channelQuantum k)) := by
      by_cases hc : cfg.channelCount = 4
      · rw [if_pos hc] at hk
        rw [if_pos hc] at hA
        interval_cases k
        · exact hY
        · exact hCb
        · exact hCr
        · exact hA
      · rw [if_neg hc] at hk
        interval_cases k
        · exact hY
        · exact hCb
        · exact hCr
    rw [hplane]
    exact plane_of_channel (AcquireImage cfg) hd W H f hf k hk4

theorem partitioned_splits_plane_witness :
    (fullConfig 2 1 4 8 .Partitioned .MSBEndian).layout = .Partitioned ∧
      (encode (fullConfig 2 1 4 8 .Partitioned .MSBEndian)
          [[[⟨1, 2, 3, 4⟩, ⟨5, 6, 7, 8⟩]]]).opens =
        [(BlobName.Y, false), (BlobName.Cb, false), (BlobName.Cr, false), (BlobName.A, false)] ∧
      (encode (fullConfig 2 1 4 8 .Partitioned .MSBEndian) [[[⟨1, 2, 3, 4⟩, ⟨5, 6, 7, 8⟩]]]).files
            .Y ++
          ((encode (fullConfig 2 1 4 8 .Partitioned .MSBEndian)
              [[[⟨1, 2, 3, 4⟩, ⟨5, 6, 7, 8⟩]]]).files .Cb ++
            ((encode (fullConfig 2 1 4 8 .Partitioned .MSBEndian)
                [[[⟨1, 2, 3, 4⟩, ⟨5, 6, 7, 8⟩]]]).files .Cr ++
              (encode (fullConfig 2 1 4 8 .Partitioned .MSBEndian)
                [[[⟨1, 2, 3, 4⟩, ⟨5, 6, 7, 8⟩]]]).files .A)) =
        (encode (fullConfig 2 1 4 8 .PlaneInterlaced .MSBEndian)
          [[[⟨1, 2, 3, 4⟩, ⟨5, 6, 7, 8⟩]]]).files .main ∧
      (encode (fullConfig 2 1 4 8 .Partitioned .MSBEndian)
          [[[⟨1, 2, 3, 4⟩, ⟨5, 6, 7, 8⟩]]]).files .Cb =
        ([[⟨1, 2, 3, 4⟩, ⟨5, 6, 7, 8⟩]] : List (List PixelPacket)).flatMap
          (ExportQuantumPixels (AcquireImage (fullConfig 2 1 4 8 .Partitioned .MSBEndian))
            .GreenQuantum) :=
  ⟨rfl,
    (partitioned_splits_plane (fullConfig 2 1 4 8 .Partitioned .MSBEndian) rfl
      [[⟨1, 2, 3, 4⟩, ⟨5, 6, 7, 8⟩]]).1,
    (partitioned_splits_plane (fullConfig 2 1 4 8 .Partitioned .MSBEndian) rfl
      [[⟨1, 2, 3, 4⟩, ⟨5, 6, 7, 8⟩]]).2.2.2.2.2.2.2.1,
    (partitioned_splits_plane (fullConfig 2 1 4 8 .Partitioned .MSBEndian) rfl
      [[⟨1, 2, 3, 4⟩, ⟨5, 6, 7, 8⟩]]).2.2.1⟩

/-- C21: Multi-frame encoding is concatenation.  For each of Interleaved,
LineInterlaced and PlaneInterlaced and all sequences of frames xs and ys, the
stream encode writes for xs ++ ys is the stream for xs followed by the stream
for ys; the stream for a sequence is the concatenation, in scene order, of the
streams of its frames encoded one by one.  Encode reports success and writes
to no other stream. -/
theorem multi_frame_encoding (cfg : StreamConfig) (hl : cfg.layout ≠ .Partitioned)
    (xs ys : List (List (List PixelPacket))) :
    (encode cfg (xs ++ ys)).files .main =
        (encode cfg xs).files .main ++ (encode cfg ys).files .main ∧
      (encode cfg xs).files .main = xs.flatMap (fun f => (encode cfg [f]).files .main) ∧
      (encode cfg xs).status = true ∧
      ∀ n, n ≠ BlobName.main → (encode cfg xs).files n = [] := by
  refine ⟨?_, ?_, (encode_result_main cfg hl xs).2.1, ?_⟩
  · rw [encode_files_main cfg hl, encode_files_main cfg hl, encode_files_main cfg hl,
      List.flatMap_append]
  · rw [encode_files_main cfg hl]
    apply List.flatMap_congr
    intro f _
    rw [encode_files_main cfg hl]
    simp
  · intro n hn
    rw [(encode_result_main cfg hl xs).1]
    simp [Function.update, hn]

theorem multi_frame_encoding_witness :
    (encode (fullConfig 1 1 3 8 .LineInterlaced .MSBEndian)
        ([[[⟨1, 2, 3, 0⟩]]] ++ [[[⟨4, 5, 6, 0⟩]], [[⟨7, 8, 9, 0⟩]]])).files .main =
      (encode (fullConfig 1 1 3 8 .LineInterlaced .MSBEndian) [[[⟨1, 2, 3, 0⟩]]]).files .main ++
        (encode (fullConfig 1 1 3 8 .LineInterlaced .MSBEndian)
          [[[⟨4, 5, 6, 0⟩]], [[⟨7, 8, 9, 0⟩]]]).files .main :=
  (multi_frame_encoding (fullConfig 1 1 3 8 .LineInterlaced .MSBEndian) (by decide)
    [[[⟨1, 2, 3, 0⟩]]] [[[⟨4, 5, 6, 0⟩]], [[⟨7, 8, 9, 0⟩]]]).1

/-- C22: Partitioned multi-scene encoding.  Encoding n >= 1 frames in the
Partitioned layout to a sink whose streams can be opened and that accepts
every byte, whatever the streams held before: the encoder reports success;
its `OpenBlob` calls are, scene after scene, the channel streams Y, Cb, Cr
(and A with four channels), in write (truncate) mode in scene 0 and in append
mode in every later scene; afterwards each channel stream holds exactly the
concatenation over all scenes, in scene order, of the plane of its channel,
and every other stream holds what it held before. -/
theorem partitioned_multi_scene (cfg : StreamConfig) (hl : cfg.layout = .Partitioned)
    (frames : List (List (List PixelPacket))) (hn : frames ≠ []) (sink : Sink)
    (hw : ∀ n, sink.writable n = true) (hr : sink.room = none) :
    (encodeTo cfg frames sink).status = true ∧
      (encodeTo cfg frames sink).opens =
        (List.range frames.length).flatMap (fun i =>
          (partitionNames (AcquireImage cfg)).map (fun name => (name, decide (i ≠ 0)))) ∧
      (∀ name ∈ partitionNames (AcquireImage cfg),
        (encodeTo cfg frames sink).files name =
          frames.flatMap (planeOf (AcquireImage cfg) name)) ∧
      ∀ name, name ∉ partitionNames (AcquireImage cfg) →
        (encodeTo cfg frames sink).files name = sink.files name := by
  have hi : (AcquireImage cfg).interlace = .PartitionInterlace := by
    show cfg.layout.interlace = _
    rw [hl]; rfl
  obtain ⟨h1, h2, h3⟩ := WriteScenes_partition_any (AcquireImage cfg) frames.length
    (fun _ _ => rfl) hi rfl frames true 0
    { files := sink.files, writable := sink.writable, room := sink.room, blob := none,
      count := 0, length := 0, status := true, opens := [], writes := 0 } hn hw hr
  have he : encodeTo cfg frames sink =
      WriteScenes (AcquireImage cfg) frames.length frames true 0
        { files := sink.files, writable := sink.writable, room := sink.room, blob := none,
          count := 0, length := 0, status := true, opens := [], writes := 0 } := by
    unfold encodeTo WriteYCBCRImage
    simp only [hi, ne_eq, not_true_eq_false, if_false]
  rw [he]
  refine ⟨h2, ?_, ?_, ?_⟩
  · rw [h3]
    simp [partitionOpens]
  · intro name hname
    rw [h1 name]
    simp [hname]
  · intro name hname
    rw [h1 name]
    have hp : ∀ f, planeOf (AcquireImage cfg) name f = [] := by
      intro f
      cases name
      · rfl
      · simp [partitionNames] at hname; split at hname <;> simp at hname
      · simp [partitionNames] at hname; split at hname <;> simp at hname
      · simp [partitionNames] at hname; split at hname <;> simp at hname
      · unfold planeOf
        simp only
        rw [if_neg]
        intro hq
        apply hname
        have hm : (AcquireImage cfg).matte = true := by
          unfold ImageInfo.quantum_type at hq
          split at hq
          · assumption
          · cases hq
        simp [partitionNames, hm]
    simp [hname, hp]

theorem partitioned_multi_scene_witness :
    (encodeTo (fullConfig 1 1 4 8 .Partitioned .MSBEndian)
        [[[⟨1, 2, 3, 0⟩]], [[⟨4, 5, 6, 255⟩]]]
        { files := fun _ => [9, 9, 9], writable := fun _ => true, room := none }).opens =
        (List.range 2).flatMap (fun i =>
          (partitionNames (AcquireImage (fullConfig 1 1 4 8 .Partitioned .MSBEndian))).map
            (fun name => (name, decide (i ≠ 0)))) ∧
      ∀ name ∈ partitionNames (AcquireImage (fullConfig 1 1 4 8 .Partitioned .MSBEndian)),
        (encodeTo (fullConfig 1 1 4 8 .Partitioned .MSBEndian)
          [[[⟨1, 2, 3, 0⟩]], [[⟨4, 5, 6, 255⟩]]]
          { files := fun _ => [9, 9, 9], writable := fun _ => true, room := none }).files name =
          [[[⟨1, 2, 3, 0⟩]], [[⟨4, 5, 6, 255⟩]]].flatMap
            (planeOf (AcquireImage (fullConfig 1 1 4 8 .Partitioned .MSBEndian)) name) :=
  ⟨(partitioned_multi_scene (fullConfig 1 1 4 8 .Partitioned .MSBEndian) rfl
      [[[⟨1, 2, 3, 0⟩]], [[⟨4, 5, 6, 255⟩]]] (by decide)
      { files := fun _ => [9, 9, 9], writable := fun _ => true, room := none }
      (fun _ => rfl) rfl).2.1,
    (partitioned_multi_scene (fullConfig 1 1 4 8 .Partitioned .MSBEndian) rfl
      [[[⟨1, 2, 3, 0⟩]], [[⟨4, 5, 6, 255⟩]]] (by decide)
      { files := fun _ => [9, 9, 9], writable := fun _ => true, room := none }
      (fun _ => rfl) rfl).2.2.1⟩

/-- C23 (as stated, refuted).  A sink with room for 2 bytes takes 2 of the 3
bytes of the first frame of a two-frame Interleaved sequence; the encoder
hands the chunk of the second frame to the sink all the same (two `WriteBlob`
calls) and reports success.  In the PlaneInterlaced layout a sink with room
for 1 byte is handed 7 chunks, 5 of them after the short write, and the
encoder reports success. -/
theorem short_write_counterexample :
    ((encodeTo (fullConfig 1 1 3 8 .Interleaved .MSBEndian)
        [[[⟨1, 2, 3, 0⟩]], [[⟨4, 5, 6, 0⟩]]]
        { files := fun _ => [], writable := fun _ => true, room := some 2 }).status = true ∧
      (encodeTo (fullConfig 1 1 3 8 .Interleaved .MSBEndian)
        [[[⟨1, 2, 3, 0⟩]], [[⟨4, 5, 6, 0⟩]]]
        { files := fun _ => [], writable := fun _ => true, room := some 2 }).writes = 2 ∧
      (encodeTo (fullConfig 1 1 3 8 .Interleaved .MSBEndian)
        [[[⟨1, 2, 3, 0⟩]], [[⟨4, 5, 6, 0⟩]]]
        { files := fun _ => [], writable := fun _ => true, room := some 2 }).files .main =
        [1, 2]) ∧
    ((encodeTo (fullConfig 1 2 3 8 .PlaneInterlaced .MSBEndian)
        [[[⟨1, 2, 3, 0⟩], [⟨4, 5, 6, 0⟩]], [[⟨7, 8, 9, 0⟩], [⟨10, 11, 12, 0⟩]]]
        { files := fun _ => [], writable := fun _ => true, room := some 1 }).status = true ∧
      (encodeTo (fullConfig 1 2 3 8 .PlaneInterlaced .MSBEndian)
        [[[⟨1, 2, 3, 0⟩], [⟨4, 5, 6, 0⟩]], [[⟨7, 8, 9, 0⟩], [⟨10, 11, 12, 0⟩]]]
        { files := fun _ => [], writable := fun _ => true, room := some 1 }).writes = 7 ∧
      (encodeTo (fullConfig 1 2 3 8 .PlaneInterlaced .MSBEndian)
        [[[⟨1, 2, 3, 0⟩], [⟨4, 5, 6, 0⟩]], [[⟨7, 8, 9, 0⟩], [⟨10, 11, 12, 0⟩]]]
        { files := fun _ => [], writable := fun _ => true, room := some 1 }).files .main =
        [1]) := by
  refine ⟨⟨?_, ?_, ?_⟩, ?_, ?_, ?_⟩ <;> decide

/-- C23 (amended): Write failures are not surfaced.  Whatever number of bytes
the byte sink accepts, encode reports success to its caller whenever the
streams it opens can be opened, in every layout and for every sequence of
frames; a short write only ends the row loop that wrote the chunk.  In the
single-stream layouts a sink with room for r bytes is left with exactly the
first r bytes of the full encoding in the stream. -/
theorem write_failures_not_surfaced (cfg : StreamConfig)
    (frames : List (List (List PixelPacket))) (sink : Sink)
    (hw : ∀ n, sink.writable n = true) :
    (encodeTo cfg frames sink).status = true ∧
      ∀ r, cfg.layout ≠ .Partitioned → sink.room = some r →
        (encodeTo cfg frames sink).files .main = ((encode cfg frames).files .main).take r :=
  ⟨encodeTo_status cfg frames sink hw,
    fun r hl hr => encodeTo_room cfg hl frames sink r (hw _) hr⟩

theorem write_failures_not_surfaced_witness :
    (encodeTo (fullConfig 1 1 3 8 .LineInterlaced .MSBEndian)
        [[[⟨1, 2, 3, 0⟩]], [[⟨4, 5, 6, 0⟩]]]
        { files := fun _ => [], writable := fun _ => true, room := some 4 }).status = true ∧
      (encodeTo (fullConfig 1 1 3 8 .LineInterlaced .MSBEndian)
        [[[⟨1, 2, 3, 0⟩]], [[⟨4, 5, 6, 0⟩]]]
        { files := fun _ => [], writable := fun _ => true, room := some 4 }).files .main =
        ((encode (fullConfig 1 1 3 8 .LineInterlaced .MSBEndian)
          [[[⟨1, 2, 3, 0⟩]], [[⟨4, 5, 6, 0⟩]]]).files .main).take 4 :=
  ⟨(write_failures_not_surfaced (fullConfig 1 1 3 8 .LineInterlaced .MSBEndian)
      [[[⟨1, 2, 3, 0⟩]], [[⟨4, 5, 6, 0⟩]]]
      { files := fun _ => [], writable := fun _ => true, room := some 4 } (fun _ => rfl)).1,
    (write_failures_not_surfaced (fullConfig 1 1 3 8 .LineInterlaced .MSBEndian)
      [[[⟨1, 2, 3, 0⟩]], [[⟨4, 5, 6, 0⟩]]]
      { files := fun _ => [], writable := fun _ => true, room := some 4 } (fun _ => rfl)).2 4
      (by decide) rfl⟩

/-- C24: for every 4-channel frame `f` of `W x H` pixels with 8-bit samples
(maximum sample value 255), decoding the LineInterlaced encoding of `f`
succeeds with exactly one frame `g`, whose Y, Cb and Cr samples at every pixel
are those of `f` and whose alpha sample at every pixel is 255 minus the alpha
sample of `f`: `g` is `f` with every pixel's fourth sample complemented. -/
theorem line_alpha_complemented (W H : Nat) (e : EndianType) (f : List (List PixelPacket))
    (hW : 1 ≤ W) (hH : 1 ≤ H) (hf : validFrame4 8 W H f) :
    ∃ g,
      decode (fullConfig W H 4 8 .LineInterlaced e)
          (asSource (encode (fullConfig W H 4 8 .LineInterlaced e) [f]).files) =
        some { images := [g], exception := [], opens := [BlobName.main], nread := H * W * 4 } ∧
      g = f.map (fun row => row.map (complementAlpha 8)) ∧
      ∀ r c, r < H → c < W →
        (∀ k, k < 3 → channelSample 8 k (pixelAt g r c) = channelSample 8 k (pixelAt f r c)) ∧
          channelSample 8 3 (pixelAt g r c) = 255 - channelSample 8 3 (pixelAt f r c) := by
  refine ⟨f.map (fun row => row.map (complementAlpha 8)), ?_, rfl, ?_⟩
  · have hl : (fullConfig W H 4 8 .LineInterlaced e).layout ≠ .Partitioned := by
      simp [fullConfig]
    have hg := fullConfig_geometry W H 4 8 .LineInterlaced e
    have henc := (encode_result_main (fullConfig W H 4 8 .LineInterlaced e) hl [f]).1
    have hlenf := encodeFrame_length_line4 (AcquireImage (fullConfig W H 4 8 .LineInterlaced e))
      W H hg rfl rfl f hf.1 (fun row hr => (hf.2 row hr).1)
    have hD : (encodeFrame (AcquireImage (fullConfig W H 4 8 .LineInterlaced e)) f).length =
        H * W * 4 := by
      rw [hlenf, frameLength_config _ (Or.inr rfl) (Or.inl rfl)]
      simp [fullConfig]
    have key := decode_complete_frames (fullConfig W H 4 8 .LineInterlaced e)
      (asSource (encode (fullConfig W H 4 8 .LineInterlaced e) [f]).files)
      (encodeFrame (AcquireImage (fullConfig W H 4 8 .LineInterlaced e)) f) 1 hl rfl rfl hW hH
      (by simpa [fullConfig, fullCanvas] using hW) (by simpa [fullConfig, fullCanvas] using hH)
      (Nat.le_refl 1) (Or.inr rfl) (by rw [hlenf, Nat.one_mul])
      (by rw [asSource, henc]; simp)
    rw [key, hD]
    have hc := frameState_content_line4 (AcquireImage (fullConfig W H 4 8 .LineInterlaced e))
      W H hg rfl rfl f hf []
      (initialState (AcquireImage (fullConfig W H 4 8 .LineInterlaced e)))
      (by simp [initialState, hg.1]) (by simp [initialState, hg.2.2.2.2.1, hg.2.2.2.2.2])
    rw [List.append_nil] at hc
    simp only [scenesImages, hc]
    rfl
  · intro r c hr hc
    have hrl : r < f.length := by rw [hf.1]; exact hr
    have hrow := hf.2 (f[r]) (List.getElem_mem hrl)
    have hcl : c < (f[r]).length := by rw [hrow.1]; exact hc
    have e1 : pixelAt f r c = (f[r])[c] := by
      simp [pixelAt, List.getD_eq_getElem, hrl, hcl]
    have e2 : pixelAt (f.map (fun row => row.map (complementAlpha 8))) r c =
        complementAlpha 8 ((f[r])[c]) := by
      simp [pixelAt, List.getD_eq_getElem, hrl, hcl]
    rw [e1, e2]
    refine ⟨?_, ?_⟩
    · intro k hk
      interval_cases k <;> rfl
    · simp only [channelSample, channelComponent, loadComponent, complementAlpha, QuantumRange,
        List.getD_cons_succ, List.getD_cons_zero, Nat.le_refl, if_true]

theorem line_alpha_complemented_witness :
    ∃ g,
      decode (fullConfig 1 1 4 8 .LineInterlaced .LSBEndian)
          (asSource (encode (fullConfig 1 1 4 8 .LineInterlaced .LSBEndian)
            [[[⟨1, 2, 3, 4⟩]]]).files) =
        some { images := [g], exception := [], opens := [BlobName.main], nread := 1 * 1 * 4 } ∧
      g = [[⟨1, 2, 3, 4⟩]].map (fun row => row.map (complementAlpha 8)) ∧
      ∀ r c, r < 1 → c < 1 →
        (∀ k, k < 3 → channelSample 8 k (pixelAt g r c) =
            channelSample 8 k (pixelAt [[⟨1, 2, 3, 4⟩]] r c)) ∧
          channelSample 8 3 (pixelAt g r c) =
            255 - channelSample 8 3 (pixelAt [[⟨1, 2, 3, 4⟩]] r c) :=
  line_alpha_complemented 1 1 .LSBEndian [[⟨1, 2, 3, 4⟩]] (by decide) (by decide)
    ⟨rfl, by
      intro row hr
      simp only [List.mem_singleton] at hr
      subst hr
      refine ⟨rfl, ?_⟩
      intro p hp
      simp only [List.mem_singleton] at hp
      subst hp
      decide⟩

/-- C25: Partitioned alpha ignores the content of the A file.  For Partitioned
layout (with 4 channels in particular) and two sources that hold the same Y,
Cb and Cr streams and A streams of equal length, decode returns the same
result: the same frames, pixel for pixel with their alpha, the same errors,
the same streams opened and the same number of bytes read.  The bytes of the
A stream are imported into the canvas as the blue (Cr) channel and never reach
a frame. -/
theorem partition_alpha_blind (cfg : StreamConfig) (src1 src2 : BlobName → Option (List Nat))
    (hl : cfg.layout = .Partitioned) (hsame : ∀ n, n ≠ BlobName.A → src1 n = src2 n)
    (hA : (src1 .A).map List.length = (src2 .A).map List.length) :
    decode cfg src1 = decode cfg src2 := by
  have hi : (AcquireImage cfg).interlace = .PartitionInterlace := by
    show cfg.layout.interlace = _
    rw [hl]; rfl
  unfold decode ReadYCBCRImage
  simp only [hi, ne_eq, not_true_eq_false, if_false]
  split
  · rfl
  · unfold ReadFromCanvas
    dsimp only
    rw [sceneFuel_blind src1 src2 hsame hA]
    apply ReadScenes_blind (AcquireImage cfg) hi src1 src2 hsame hA
    exact ⟨rfl, rfl, rfl, rfl, rfl, blueApart_refl _, rfl, rfl, rfl, rfl⟩

theorem partition_alpha_blind_witness :
    decode (fullConfig 1 1 4 8 .Partitioned .MSBEndian) (channelFiles [10] [11] [12] [9]) =
      decode (fullConfig 1 1 4 8 .Partitioned .MSBEndian) (channelFiles [10] [11] [12] [200]) :=
  partition_alpha_blind (fullConfig 1 1 4 8 .Partitioned .MSBEndian)
    (channelFiles [10] [11] [12] [9]) (channelFiles [10] [11] [12] [200]) rfl
    (by intro n hn; cases n <;> first | rfl | exact absurd rfl hn) rfl

/-- C26: for Interleaved layout with sceneOffset = 0 and a non-empty crop
rectangle, when the stream holds fewer than width x channelCount x
sampleBits/8 bytes (an empty stream included) and the first row chunk is read
(the decode is not a ping that stops at the one requested scene), decode
records no error and returns exactly one frame, the blank frame of the crop
size: no row of it was filled from the stream. -/
theorem short_first_chunk_silent (cfg : StreamConfig) (source : BlobName → Option (List Nat))
    (D : List Nat) (hl : cfg.layout = .Interleaved) (hoff : cfg.sceneOffset = 0)
    (hC : cfg.channelCount = 3 ∨ cfg.channelCount = 4)
    (hbits : cfg.sampleBits = 8 ∨ cfg.sampleBits = 16)
    (hcw : 1 ≤ cfg.cropRect.width) (hch : 1 ≤ cfg.cropRect.height)
    (hread : cfg.ping = true → cfg.sceneCount ≠ some 1)
    (hsrc : source .main = some D)
    (hshort : D.length < cfg.width * cfg.channelCount * (cfg.sampleBits / 8)) :
    decode cfg source =
      some
        { images := [blankImage cfg.cropRect.width cfg.cropRect.height]
          exception := []
          opens := [BlobName.main]
          nread := D.length } := by
  have hext : GetQuantumExtent (AcquireImage cfg) cfg.width (AcquireImage cfg).quantum_type =
      cfg.width * cfg.channelCount * (cfg.sampleBits / 8) := by
    unfold GetQuantumExtent ImageInfo.quantum_type sampleBytes AcquireImage
    simp only
    rcases hC with h | h <;> rcases hbits with h2 | h2 <;>
      simp [h, h2, QuantumType.components] <;> ring
  unfold decode
  rw [ReadYCBCRImage_open (AcquireImage cfg) source D
    (by show cfg.cropRect.width ≠ 0; omega) (by show cfg.cropRect.height ≠ 0; omega)
    (by show cfg.layout.interlace ≠ _; rw [hl]; simp [Layout.interlace]) rfl hsrc]
  have hsc : (AcquireImage cfg).scene = 0 := hoff
  have hint : (AcquireImage cfg).interlace = .NoInterlace := by
    show cfg.layout.interlace = _; rw [hl]; rfl
  have hW : (AcquireImage cfg).extract_info.width = cfg.width := rfl
  have hcol : (AcquireImage cfg).columns = cfg.cropRect.width := rfl
  have hrow : (AcquireImage cfg).rows = cfg.cropRect.height := rfl
  have hpg : (AcquireImage cfg).ping = cfg.ping := rfl
  have hns : (AcquireImage cfg).number_scenes = cfg.sceneCount.getD 0 := rfl
  generalize AcquireImage cfg = info at *
  unfold ReadFromCanvas
  rw [hsc]
  simp only [SkipToScene, ite_self]
  have hfuel : ∃ n, sceneFuel source = n + 1 := ⟨_, rfl⟩
  obtain ⟨n, hn⟩ := hfuel
  rw [hn]
  unfold ReadScenes
  have hp : ¬ (info.ping = true ∧ lastScene info 0 = true) := by
    rintro ⟨h1, h2⟩
    rw [hpg] at h1
    have := hread h1
    simp only [lastScene, hns, hsc, decide_eq_true_eq] at h2
    cases hs : cfg.sceneCount with
    | none => rw [hs] at h2; simp at h2
    | some k =>
      rw [hs] at h2 this
      simp only [Option.getD_some] at h2
      apply this
      congr 1
      omega
  rw [if_neg hp]
  simp only [ReadFrame, hint, ReadNoInterlace, if_true, List.isEmpty_nil, true_and,
    ReadBlobStream, initialState, hW, hext]
  have hmin : min (cfg.width * cfg.channelCount * (cfg.sampleBits / 8)) D.length = D.length :=
    Nat.min_eq_right (Nat.le_of_lt hshort)
  have hne : ¬ D.length = cfg.width * cfg.channelCount * (cfg.sampleBits / 8) := by omega
  simp only [hmin, hne, ne_eq, not_false_eq_true, if_true, Bool.true_eq_false, if_false,
    finishRead, List.nil_append, Nat.zero_add, ite_self, hcol, hrow]

theorem short_first_chunk_silent_witness :
    decode (fullConfig 2 1 3 8 .Interleaved .LSBEndian) (fun _ => some [7, 8, 9]) =
      some
        { images := [blankImage 2 1]
          exception := []
          opens := [BlobName.main]
          nread := 3 } :=
  short_first_chunk_silent (fullConfig 2 1 3 8 .Interleaved .LSBEndian) (fun _ => some [7, 8, 9])
    [7, 8, 9] rfl rfl (Or.inl rfl) (Or.inl rfl) (by decide) (by decide) (by decide) rfl
    (by decide)

/-- C27 (failing input): a truncation inside the second frame that is
returned as a success.  In the Partitioned layout, with the Y file of a 1x1
canvas cut after its first plane (the Cb and Cr files hold both planes), the
short read of the second frame is recorded, the failure status is overwritten
when the Cb file is opened, and decode returns two frames, the second one
partially filled.  The single-stream layouts fail on the same truncation: the
stream 10 11 12 20, cut one chunk into its second frame, gives no frame in the
LineInterlaced and in the PlaneInterlaced layout.  With an alpha channel the
PlaneInterlaced stream 1 .. 7, cut three chunks into its second frame, gives
two frames and no exception at all, the second image being read without its
alpha plane. -/
theorem later_frame_truncation_failing_input :
    decode (fullConfig 1 1 3 8 .Partitioned .MSBEndian) (channelFiles [10] [11, 21] [12, 22] []) =
      some
        { images := [[[⟨10, 11, 12, 0⟩]], [[⟨0, 21, 22, 0⟩]]]
          exception := [ExceptionType.UnexpectedEndOfFile]
          opens := [BlobName.Y, BlobName.Cb, BlobName.Cr, BlobName.Y, BlobName.Cb, BlobName.Cr]
          nread := 10 } ∧
    (decode (fullConfig 1 1 3 8 .LineInterlaced .MSBEndian) (mainOnly [10, 11, 12, 20])).map
        (fun r => (r.images, r.exception)) =
      some ([], [ExceptionType.UnexpectedEndOfFile]) ∧
    (decode (fullConfig 1 1 3 8 .PlaneInterlaced .MSBEndian) (mainOnly [10, 11, 12, 20])).map
        (fun r => r.images) = some [] ∧
    decode (fullConfig 1 1 4 8 .PlaneInterlaced .MSBEndian) (mainOnly [1, 2, 3, 4, 5, 6, 7]) =
      some
        { images := [[[⟨1, 2, 3, 251⟩]], [[⟨5, 6, 7, 0⟩]]]
          exception := []
          opens := [BlobName.main]
          nread := 7 } := by
  refine ⟨?_, ?_, ?_, ?_⟩ <;> decide

/-- First-frame truncation status is overwritten.  For a normal (non-ping)
decode of every scene with a monitor that always answers `continue` and a
crop rectangle that is not empty and not wider than the canvas: when a
LineInterlaced or PlaneInterlaced stream ends inside its first frame, or when
the channel files of the Partitioned layout end inside the first frame (each
holds at most one plane, one of them less), the short read is recorded as
UnexpectedEndOfFile but its failure status is overwritten by the following
progress call, and decode returns exactly one frame, the partially filled
first one, as a successful result; when a LineInterlaced or PlaneInterlaced
stream without alpha channel breaks off inside a second or later frame (after
at least one and before the last chunk of that frame), decode returns no frame
at all. -/
theorem first_frame_status_overwritten (cfg : StreamConfig)
    (source : BlobName → Option (List Nat)) (hping : cfg.ping = false)
    (hcount : cfg.sceneCount = none) (hW : 1 ≤ cfg.width) (hH : 1 ≤ cfg.height)
    (hcw : 1 ≤ cfg.cropRect.width) (_hwide : cfg.cropRect.width ≤ cfg.width)
    (hch : 1 ≤ cfg.cropRect.height) :
    (cfg.layout = .LineInterlaced ∨ cfg.layout = .PlaneInterlaced →
        ∀ D, source .main = some D → D.length < frameLength (AcquireImage cfg) →
          ∃ r g, decode cfg source = some r ∧ r.images = [g] ∧
            ExceptionType.UnexpectedEndOfFile ∈ r.exception ∧ r.nread = D.length) ∧
      (cfg.layout = .Partitioned → endsInFirstScene (AcquireImage cfg) source →
        ∃ r g, decode cfg source = some r ∧ r.images = [g] ∧
          ExceptionType.UnexpectedEndOfFile ∈ r.exception) ∧
      (cfg.layout = .LineInterlaced ∨ cfg.layout = .PlaneInterlaced → cfg.channelCount ≠ 4 →
        ∀ (full : List Nat) (j c : Nat), 1 ≤ j → 1 ≤ c →
          c * chunkLength (AcquireImage cfg) < frameLength (AcquireImage cfg) →
          j * frameLength (AcquireImage cfg) + c * chunkLength (AcquireImage cfg) ≤ full.length →
          source .main =
            some (full.take
              (j * frameLength (AcquireImage cfg) + c * chunkLength (AcquireImage cfg))) →
          ∃ r, decode cfg source = some r ∧ r.images = [] ∧
            ExceptionType.UnexpectedEndOfFile ∈ r.exception) := by
  have hns : (AcquireImage cfg).number_scenes = 0 := by
    show cfg.sceneCount.getD 0 = 0
    rw [hcount]; rfl
  refine ⟨?_, ?_, ?_⟩
  · intro hl D hsrc hshort
    exact ReadYCBCRImage_first_truncated (AcquireImage cfg) source D (fun _ _ => rfl)
      (by
        rcases hl with h | h
        · left; show cfg.layout.interlace = _; rw [h]; rfl
        · right; show cfg.layout.interlace = _; rw [h]; rfl)
      hping rfl (by show cfg.cropRect.width ≠ 0; omega) (by show cfg.cropRect.height ≠ 0; omega)
      hns hsrc hshort
  · intro hl hfiles
    exact ReadYCBCRImage_partition_first_short (AcquireImage cfg) source (fun _ _ => rfl)
      (by show cfg.layout.interlace = _; rw [hl]; rfl) hping rfl
      (by show cfg.cropRect.width ≠ 0; omega) (by show cfg.cropRect.height ≠ 0; omega) hW hH hns
      hfiles
  · intro hl hmatte full j c hj hc hinside hfull hsrc
    obtain ⟨r, h1, h2, h3, _⟩ := decode_truncated cfg source full j c
      (by rcases hl with h | h <;> rw [h] <;> simp) hping hcount hW hH hcw hch (Or.inr hj)
      (Or.inr hmatte) hc hinside hfull hsrc
    exact ⟨r, h1, h2, h3⟩

theorem first_frame_status_overwritten_witness :
    (∃ r g, decode (fullConfig 1 2 3 8 .LineInterlaced .MSBEndian) (mainOnly [10, 11, 12, 20]) =
          some r ∧ r.images = [g] ∧ ExceptionType.UnexpectedEndOfFile ∈ r.exception ∧
        r.nread = 4) ∧
      (∃ r g, decode (fullConfig 1 2 3 8 .Partitioned .MSBEndian)
            (channelFiles [10] [11, 21] [12, 22] []) = some r ∧ r.images = [g] ∧
          ExceptionType.UnexpectedEndOfFile ∈ r.exception) ∧
      ∃ r, decode (fullConfig 1 2 3 8 .PlaneInterlaced .MSBEndian)
            (mainOnly ((List.range 12).take (1 * 6 + 4 * 1))) = some r ∧
          r.images = [] ∧ ExceptionType.UnexpectedEndOfFile ∈ r.exception :=
  ⟨(first_frame_status_overwritten (fullConfig 1 2 3 8 .LineInterlaced .MSBEndian)
      (mainOnly [10, 11, 12, 20]) rfl rfl (by decide) (by decide) (by decide) (by decide)
      (by decide)).1 (Or.inl rfl) [10, 11, 12, 20] rfl (by decide),
    (first_frame_status_overwritten (fullConfig 1 2 3 8 .Partitioned .MSBEndian)
      (channelFiles [10] [11, 21] [12, 22] []) rfl rfl (by decide) (by decide) (by decide)
      (by decide) (by decide)).2.1 rfl
      ⟨by
        intro name hn
        have hn' : name = .Y ∨ name = .Cb ∨ name = .Cr := by
          change name ∈ [BlobName.Y, BlobName.Cb, BlobName.Cr] at hn
          simpa using hn
        rcases hn' with h | h | h <;> subst h
        · exact ⟨[10], rfl, by decide⟩
        · exact ⟨[11, 21], rfl, by decide⟩
        · exact ⟨[12, 22], rfl, by decide⟩,
        .Y, by decide, [10], rfl, by decide⟩,
    (first_frame_status_overwritten (fullConfig 1 2 3 8 .PlaneInterlaced .MSBEndian)
      (mainOnly ((List.range 12).take (1 * 6 + 4 * 1))) rfl rfl (by decide) (by decide)
      (by decide) (by decide) (by decide)).2.2 (Or.inr rfl) (by decide) (List.range 12) 1 4
      (by decide) (by decide) (by decide) (by decide) rfl⟩

/-- C29: PGX rows are padded on write but not on read.  For a request for at
least one column and one row that is read in full with a monitor that never
cancels, and `L` the byte length of a row: `WritePGXImage` emits behind the
header every row of `L` bytes followed by `L mod 2` pad bytes, a payload of
`R x (L + L mod 2)` bytes, and returns success; `ReadPGXImage` on this payload
returns the image written when `L` is even or `R = 1`; and for odd `L` and
`R >= 2` there is an image whose decoded row 1 differs from the row 1 that was
written. -/
theorem pgx_rows_padded (info : PGXInfo) (header : List Nat)
    (hmon : ∀ y n, info.progress y n = true) (hping : info.ping = false)
    (hc : 1 ≤ info.columns) (hr : 1 ≤ info.rows) :
    (∀ image, ValidGray info image →
      (WritePGXImage info header image emptySink).files .main =
          header ++ pgxPayload info image ∧
        (WritePGXImage info header image emptySink).status = true ∧
        (WritePGXImage info header image emptySink).exception = [] ∧
        pgxPayload info image =
          image.flatMap (fun row =>
            ExportGrayPixels info row ++ (ExportGrayPixels info row).take (GrayExtent info % 2)) ∧
        (∀ row ∈ image, (ExportGrayPixels info row).length = GrayExtent info) ∧
        (pgxPayload info image).length = info.rows * (GrayExtent info + GrayExtent info % 2) ∧
        (GrayExtent info % 2 = 0 ∨ info.rows = 1 →
          ReadPGXImage info (pgxPayload info image) =
            { image := some image, exception := [] })) ∧
      (GrayExtent info % 2 = 1 → 2 ≤ info.rows →
        ∃ image decoded, ValidGray info image ∧
          ReadPGXImage info (pgxPayload info image) =
            { image := some decoded, exception := [] } ∧
          decoded.getD 1 [] ≠ image.getD 1 []) := by
  constructor
  · intro image hv
    have hl : ∀ row ∈ image, (ExportGrayPixels info row).length = GrayExtent info := by
      intro row hrow
      rw [ExportGrayPixels_length, (hv.2 row hrow).1]; rfl
    have hpay : pgxPayload info image =
        image.flatMap (fun row =>
          ExportGrayPixels info row ++ (ExportGrayPixels info row).take (GrayExtent info % 2)) := by
      unfold pgxPayload
      apply List.flatMap_congr
      intro row hrow
      rw [padLength_eq, hl row hrow]
    have hplen := pgxPayload_length info image (fun row hrow => (hv.2 row hrow).1)
    rw [hv.1] at hplen
    obtain ⟨w1, w2, w3⟩ := WritePGXImage_ok info header hmon image
    refine ⟨w1, w2, w3, hpay, hl, hplen, ?_⟩
    intro hcase
    have htail : ∃ tail, pgxPayload info image =
        image.flatMap (ExportGrayPixels info) ++ tail := by
      rcases hcase with h0 | h1
      · refine ⟨[], ?_⟩
        rw [hpay, h0, List.append_nil]
        apply List.flatMap_congr
        intro row _
        simp
      · rw [← hv.1] at h1
        match image, h1 with
        | [row], _ =>
          exact ⟨(ExportGrayPixels info row).take (GrayExtent info % 2), by
            rw [hpay]; simp⟩
    obtain ⟨tail, ht⟩ := htail
    rw [readPGX_result info hmon hping hc hr _ (by
      rw [hplen]; exact Nat.mul_le_mul_left _ (Nat.le_add_right _ _))]
    have hrows := readRowsOf_plain info (GrayExtent info) image tail
      (fun row hrow => ⟨(hv.2 row hrow).1, hl row hrow, (hv.2 row hrow).2⟩)
    rw [hv.1, ← ht] at hrows
    rw [hrows]
    have hfill := storeRows_fill image [] (List.replicate info.rows (List.replicate info.columns 0))
      (by rw [List.length_replicate, hv.1])
    simp only [List.length_nil, List.nil_append] at hfill
    rw [hfill]
  · intro hodd hR
    obtain ⟨hd8, hL⟩ := odd_extent_depth info hodd
    obtain ⟨k, hk⟩ : ∃ k, info.columns = k + 1 := ⟨info.columns - 1, by omega⟩
    obtain ⟨n, hn⟩ : ∃ n, info.rows = n + 2 := ⟨info.rows - 2, by omega⟩
    have hq : 1 ≤ QuantumRange info.depth := by unfold QuantumRange; split <;> omega
    have hvalid : ValidGray info
        (List.replicate info.columns 1 ::
          List.replicate (n + 1) (List.replicate info.columns 0)) := by
      refine ⟨by simp [hn], ?_⟩
      intro row hrow
      rcases List.mem_cons.mp hrow with h | h
      · subst h
        refine ⟨by simp, ?_⟩
        intro v hv
        rw [(List.mem_replicate.mp hv).2]; exact hq
      · rw [(List.mem_replicate.mp h).2]
        refine ⟨by simp, ?_⟩
        intro v hv
        rw [(List.mem_replicate.mp hv).2]; exact Nat.zero_le _
    have hplen := pgxPayload_length info _ (fun row hrow => (hvalid.2 row hrow).1)
    rw [hvalid.1] at hplen
    refine ⟨_, _, hvalid, readPGX_result info hmon hping hc hr _ (by
      rw [hplen]; exact Nat.mul_le_mul_left _ (Nat.le_add_right _ _)), ?_⟩
    have he0 : ExportGrayPixels info (List.replicate info.columns 1) =
        List.replicate info.columns 1 := by
      unfold ExportGrayPixels exportSample
      simp only [hd8, if_true]
      rw [hk]
      generalize k + 1 = m
      induction m with
      | zero => rfl
      | succ m ih => simp only [List.replicate_succ, List.flatMap_cons, ih]; rfl
    have hdrop : ∃ rest, (pgxPayload info
        (List.replicate info.columns 1 ::
          List.replicate (n + 1) (List.replicate info.columns 0))).drop (GrayExtent info) =
        1 :: rest := by
      refine ⟨pgxPayload info (List.replicate (n + 1) (List.replicate info.columns 0)), ?_⟩
      have : pgxPayload info (List.replicate info.columns 1 ::
          List.replicate (n + 1) (List.replicate info.columns 0)) =
          List.replicate info.columns 1 ++
            (1 :: pgxPayload info (List.replicate (n + 1) (List.replicate info.columns 0))) := by
        unfold pgxPayload
        rw [List.flatMap_cons, he0, padLength_eq, List.length_replicate, ← hL, hodd, hL, hk]
        simp [List.replicate_succ]
      rw [this, hL, List.drop_append_of_le_length (by rw [List.length_replicate]),
        List.drop_of_length_le (by rw [List.length_replicate]), List.nil_append]
    obtain ⟨rest, hrest⟩ := hdrop
    rw [hn]
    simp only [readRowsOf, storeRows]
    rw [storeRows_getD _ _ _ 1 (by omega), hrest, hL, hk]
    simp only [List.replicate_succ, List.set_cons_zero, List.set_cons_succ, List.getD_cons_succ,
      List.getD_cons_zero, List.take_succ_cons, ImportGrayPixels, importSample, hd8, if_true]
    intro hcontra
    have := (List.cons.inj hcontra).1
    simp at this

theorem pgx_rows_padded_witness :
    ((WritePGXImage (pgx8 3 2) [80] [[1, 2, 3], [4, 5, 6]] emptySink).files .main =
        [80, 1, 2, 3, 1, 4, 5, 6, 4] ∧
      ReadPGXImage (pgx8 2 2) (pgxPayload (pgx8 2 2) [[1, 2], [3, 4]]) =
        { image := some [[1, 2], [3, 4]], exception := [] }) ∧
      ∃ image decoded, ValidGray (pgx8 3 2) image ∧
        ReadPGXImage (pgx8 3 2) (pgxPayload (pgx8 3 2) image) =
          { image := some decoded, exception := [] } ∧
        decoded.getD 1 [] ≠ image.getD 1 [] :=
  ⟨⟨(((pgx_rows_padded (pgx8 3 2) [80] (fun _ _ => rfl) rfl (by decide) (by decide)).1
        [[1, 2, 3], [4, 5, 6]] ⟨rfl, by decide⟩).1).trans (by decide),
      ((pgx_rows_padded (pgx8 2 2) [80] (fun _ _ => rfl) rfl (by decide) (by decide)).1
        [[1, 2], [3, 4]] ⟨rfl, by decide⟩).2.2.2.2.2.2 (Or.inl (by decide))⟩,
    (pgx_rows_padded (pgx8 3 2) [80] (fun _ _ => rfl) rfl (by decide) (by decide)).2
      (by decide) (by decide)⟩

/-- C30: `IsWEBPImageLossless` is total and stays in bounds.  For every byte
array `stream` that fits the address space (its size plus 2^32 is at most
2^63, so that the `ssize_t` offset cannot overflow) and `length` = its size:
the function returns (the chunk walk ends within `length` iterations), every
index it reads is at least 0 and less than `length`, and the answer is false
whenever `length <= 15`.  In the walk a chunk size above
`MAX_CHUNK_PAYLOAD = 2^32 - 10` stops it, and for every other chunk size the
padded size is computed without 32-bit wrap-around: it is the chunk size plus
8 rounded up to an even number, an even amount of at least 8. -/
theorem webp_lossless_total (stream : List Nat) (hlen : stream.length + 2 ^ 32 ≤ 2 ^ 63) :
    (∃ r, IsWEBPImageLossless stream stream.length = some r ∧
        (∀ i ∈ r.2, 0 ≤ i ∧ i < (stream.length : Int)) ∧
        (stream.length ≤ 15 → r.1 = false)) ∧
      MAX_CHUNK_PAYLOAD = 2 ^ 32 - 10 ∧
      (∀ cs, cs ≤ MAX_CHUNK_PAYLOAD →
        chunkSizePad cs = 8 + cs + cs % 2 ∧ chunkSizePad cs % 2 = 0 ∧ 8 ≤ chunkSizePad cs) ∧
      ∀ (fuel : Nat) (offset : Int) (reads : List Int),
        toSSize (offset + 4) ≤ toSSize (((stream.length : Int) - 4) % 2 ^ 64) →
        ReadWebPLSBWord stream (offset + 4) > MAX_CHUNK_PAYLOAD →
        chunkWalk stream stream.length (fuel + 1) offset reads =
          some (false, reads ++ [offset + 4, offset + 5, offset + 6, offset + 7]) := by
  refine ⟨?_, by unfold MAX_CHUNK_PAYLOAD; norm_num, ?_, ?_⟩
  · unfold IsWEBPImageLossless
    by_cases h15 : stream.length ≤ 15
    · rw [if_pos h15]
      exact ⟨_, rfl, by intro i hi; simp at hi, fun _ => rfl⟩
    · rw [if_neg h15]
      have h15i : ∀ i ∈ [(15 : Int)], 0 ≤ i ∧ i < (stream.length : Int) := by
        intro i hi
        simp only [List.mem_singleton] at hi
        subst hi
        constructor <;> omega
      by_cases hx : byteAt stream 15 ≠ 88
      · rw [if_pos hx]
        exact ⟨_, rfl, h15i, fun h => absurd h h15⟩
      · rw [if_neg hx]
        have h32 : (2 : Nat) ^ 32 = 4294967296 := by norm_num
        have h63n : (2 : Nat) ^ 63 = 9223372036854775808 := by norm_num
        have h63 : (2 : Int) ^ 63 = 9223372036854775808 := by norm_num
        obtain ⟨r, hr, hb⟩ := chunkWalk_total stream hlen (by omega) stream.length 30 [15]
          (by omega) (by omega) (by rw [h63]; omega) (by omega) h15i
        exact ⟨r, hr, hb, fun h => absurd h h15⟩
  · intro cs hcs
    have h := chunkSizePad_eq cs hcs
    rw [h]
    exact ⟨rfl, by omega, by omega⟩
  · intro fuel offset reads hg hc
    unfold chunkWalk
    rw [if_pos hg]
    dsimp only
    rw [if_pos hc]

theorem webp_lossless_total_witness :
    ∃ r, IsWEBPImageLossless
          (riff 88 (List.replicate 14 0 ++ [65, 66, 67, 68, 1, 0, 0, 0, 9, 0] ++
            [86, 80, 56, 76, 0, 0, 0, 0])) 48 = some r ∧
        (∀ i ∈ r.2, 0 ≤ i ∧ i < (48 : Int)) ∧ ((48 : Nat) ≤ 15 → r.1 = false) :=
  (webp_lossless_total
    (riff 88 (List.replicate 14 0 ++ [65, 66, 67, 68, 1, 0, 0, 0, 9, 0] ++
      [86, 80, 56, 76, 0, 0, 0, 0])) (by decide)).1

end YCbCr
